import Mathlib

/-!
# Distribution layouts, layout tests and anisotropic marking of ugcore

A shallow embedding of

* `ugbase/lib_grid/parallelization/util/distribution_util.{h,cpp}`
  (`DistributionInterfaceEntry`, `DistributionNodeLayout`, `AddNodesToLayout`,
  `CreateDistributionLayouts`, `NumEntriesOfTypeInDistributionInterface`,
  `TestDistributionLayouts`),
* `ugbase/bridge/domain_bridges/refinement_bridge.cpp` (`MarkIfAnisotropic`, the first
  loop of `MarkForRefinement_AnisotropicElements`),

followed by the properties proved about them.

Conventions: grid elements are pointers in the code and natural numbers here; `int` values
are integers, narrowed explicitly where the code narrows them (bit fields, casts);
`std::vector` is `List`; `std::map<int, Interface>` is a key-ordered association list;
a failed `assert` or an access outside a vector makes an operation return `none`.
-/

namespace ug

/-! ## Data model -/

/-- The identity of a grid element (`VertexBase*`, `EdgeBase*`, `Face*`, `Volume*`). -/
abbrev Node := Nat

/-- The four element kinds for which the templates are instantiated. -/
inductive Kind where
  | VertexBase
  | EdgeBase
  | Face
  | Volume
deriving DecidableEq, Repr

/-- The enumerators of `InterfaceNodeTypes` used by `distribution_util`. The enum is declared
in `parallel_grid_layout.h`, so its values are taken as a parameter. -/
structure InterfaceNodeTypes where
  INT_MASTER : Int
  INT_SLAVE : Int
  INT_VERTICAL_MASTER : Int
  INT_VERTICAL_SLAVE : Int
deriving DecidableEq, Repr

/-- The value an `int` bit field of width `w` holds after `x` was assigned to it
(two's complement narrowing). -/
def bitfield (w : Nat) (x : Int) : Int :=
  (x + 2 ^ (w - 1)) % 2 ^ w - 2 ^ (w - 1)

/-- The cast `(int)` applied to a `size_t`. -/
def toInt (n : Nat) : Int := bitfield 32 n

/-- The struct `DistributionInterfaceEntry { int localID : 28; int type : 4; }`. -/
structure DistributionInterfaceEntry where
  localID : Int
  type : Int
deriving DecidableEq, Repr

/-- The constructor `DistributionInterfaceEntry(int nLocalID, int nType)`: both members are
bit fields. -/
def DistributionInterfaceEntry.create (nLocalID nType : Int) : DistributionInterfaceEntry :=
  { localID := bitfield 28 nLocalID, type := bitfield 4 nType }

/-- The type `typedef std::vector<InterfaceEntry> Interface`. -/
abbrev Interface := List DistributionInterfaceEntry

/-- The type `typedef std::map<int, Interface> InterfaceMap`, as the list of its (key, value) pairs in
iteration order. -/
abbrev InterfaceMap := List (Int × Interface)

namespace InterfaceMap

/-- The lookup `m.find(procID)`: the interface stored under `procID`, if any. -/
def find : InterfaceMap → Int → Option Interface
  | [], _ => none
  | (k, v) :: rest, procID => if k = procID then some v else find rest procID

/-- Insertion of a key that is not yet in the map, at its place in the key order. -/
def insertNew (procID : Int) (v : Interface) : InterfaceMap → InterfaceMap
  | [] => [(procID, v)]
  | (k, w) :: rest =>
    if procID < k then (procID, v) :: (k, w) :: rest else (k, w) :: insertNew procID v rest

/-- The map after `m[procID]` was evaluated: a missing key is inserted with an empty
interface. -/
def index (m : InterfaceMap) (procID : Int) : InterfaceMap :=
  match m.find procID with
  | some _ => m
  | none => insertNew procID [] m

/-- Assignment through the reference `m[procID]` of an existing key. -/
def assign (procID : Int) (v : Interface) : InterfaceMap → InterfaceMap
  | [] => []
  | (k, w) :: rest => if k = procID then (k, v) :: rest else (k, w) :: assign procID v rest

/-- The value the reference `m[procID]` denotes. -/
def get (m : InterfaceMap) (procID : Int) : Interface :=
  (m.find procID).getD []

end InterfaceMap

/-- The struct `DistributionNodeLayout<TNode>`: the node vector and one interface map per
level. -/
structure DistributionNodeLayout where
  m_vNodes : List Node
  m_vInterfaceMaps : List InterfaceMap
deriving DecidableEq, Repr

namespace DistributionNodeLayout

/-- A default constructed layout. -/
def empty : DistributionNodeLayout := { m_vNodes := [], m_vInterfaceMaps := [] }

/-- The member `node_vec()`. -/
def node_vec (l : DistributionNodeLayout) : List Node := l.m_vNodes

/-- The member `num_levels()`. -/
def num_levels (l : DistributionNodeLayout) : Nat := l.m_vInterfaceMaps.length

/-- The layout after `interface_map(level)` was called:
`if(level >= m_vInterfaceMaps.size()) m_vInterfaceMaps.resize(level + 1)`. -/
def interface_map_touch (l : DistributionNodeLayout) (level : Nat) : DistributionNodeLayout :=
  if level ≥ l.m_vInterfaceMaps.length then
    { l with m_vInterfaceMaps :=
        l.m_vInterfaceMaps ++ List.replicate (level + 1 - l.m_vInterfaceMaps.length) [] }
  else l

/-- The map the reference returned by `interface_map(level)` denotes. -/
def interface_map (l : DistributionNodeLayout) (level : Nat) : InterfaceMap :=
  l.m_vInterfaceMaps.getD level []

/-- The layout after `interface(procID, level)` was called, that is after
`interface_map(level)[procID]` was evaluated. -/
def interface_touch (l : DistributionNodeLayout) (procID : Int) (level : Nat) :
    DistributionNodeLayout :=
  let l1 := l.interface_map_touch level
  { l1 with m_vInterfaceMaps :=
      l1.m_vInterfaceMaps.set level ((l1.interface_map level).index procID) }

/-- The interface the reference returned by `interface(procID, level)` denotes. -/
def interface (l : DistributionNodeLayout) (procID : Int) (level : Nat) : Interface :=
  (l.interface_map level).get procID

/-- The statement `interface(procID, level).push_back(e)`. -/
def interface_push_back (l : DistributionNodeLayout) (procID : Int) (level : Nat)
    (e : DistributionInterfaceEntry) : DistributionNodeLayout :=
  let l1 := l.interface_touch procID level
  let m := (l1.interface_map level).assign procID (l1.interface procID level ++ [e])
  { l1 with m_vInterfaceMaps := l1.m_vInterfaceMaps.set level m }

/-- The statement `node_vec().push_back(node)`. -/
def push_node (l : DistributionNodeLayout) (node : Node) : DistributionNodeLayout :=
  { l with m_vNodes := l.m_vNodes ++ [node] }

end DistributionNodeLayout

/-- What `AddNodesToLayout` works on for one element kind: the vector of layouts and the two
attachment accessors `aaFirstLayout` and `aaFirstProcLocalInd`. -/
structure LayoutState where
  layouts : List DistributionNodeLayout
  aaFirstLayout : Node → Int
  aaFirstProcLocalInd : Node → Int

/-- Application of `f` to `layouts[i]` through a reference. -/
def modifyLayout (layouts : List DistributionNodeLayout) (i : Nat)
    (f : DistributionNodeLayout → DistributionNodeLayout) : List DistributionNodeLayout :=
  match layouts[i]? with
  | some l => layouts.set i (f l)
  | none => layouts

/-! ## AddNodesToLayout -/

/-- The test `pDistGridMgr && pDistGridMgr->is_interface_element(node)`; a
`DistributedGridManager` is represented by its predicate `is_interface_element`, the `NULL`
pointer by `none`. -/
def is_interface_element (pDistGridMgr : Option (Node → Bool)) (node : Node) : Bool :=
  match pDistGridMgr with
  | some mgr => mgr node
  | none => false

/-- One iteration of the loop of `AddNodesToLayout` (distribution_util.cpp, lines 50-91).
`pDistGridMgr` is `none` for a `NULL` pointer and otherwise holds
`is_interface_element`. The result `none` stands for an iteration that does not return:
`assert(level != -1)` fails, `layouts[...]` is indexed outside the vector, or
`interface(..., level)` is called with a negative `level` (a huge `size_t`). -/
def AddNodeToLayout (T : InterfaceNodeTypes) (layoutIndex : Nat)
    (level interfacesOnLevelOnly : Int) (pDistGridMgr : Option (Node → Bool))
    (st : LayoutState) (node : Node) : Option LayoutState :=
  match st.layouts[layoutIndex]? with
  | none => none
  | some layout =>
    let masterLayoutIndex := st.aaFirstLayout node
    if masterLayoutIndex = -1 then
      some { layouts := modifyLayout st.layouts layoutIndex (fun l => l.push_node node)
             aaFirstLayout := Function.update st.aaFirstLayout node (layoutIndex : Int)
             aaFirstProcLocalInd :=
               Function.update st.aaFirstProcLocalInd node (toInt layout.node_vec.length) }
    else if level = -1 then
      none
    else
      let localMasterID := st.aaFirstProcLocalInd node
      let localID := toInt layout.node_vec.length
      if masterLayoutIndex < 0 ∨ (st.layouts.length : Int) ≤ masterLayoutIndex then
        none
      else
        let layouts1 := modifyLayout st.layouts layoutIndex (fun l => l.push_node node)
        if is_interface_element pDistGridMgr node then
          some { st with layouts := layouts1 }
        else if interfacesOnLevelOnly = -1 ∨ interfacesOnLevelOnly = level then
          if level < 0 then
            none
          else
            let layouts2 := modifyLayout layouts1 masterLayoutIndex.toNat
              (fun l => l.interface_touch layoutIndex level.toNat)
            let layouts3 := modifyLayout layouts2 layoutIndex
              (fun l => l.interface_touch masterLayoutIndex level.toNat)
            let layouts4 := modifyLayout layouts3 masterLayoutIndex.toNat
              (fun l => l.interface_push_back layoutIndex level.toNat
                (DistributionInterfaceEntry.create localMasterID T.INT_MASTER))
            let layouts5 := modifyLayout layouts4 layoutIndex
              (fun l => l.interface_push_back masterLayoutIndex level.toNat
                (DistributionInterfaceEntry.create localID T.INT_SLAVE))
            some { st with layouts := layouts5 }
        else
          some { st with layouts := layouts1 }

/-- The function `AddNodesToLayout`: the loop over `[nodesBegin, nodesEnd)`. -/
def AddNodesToLayout (T : InterfaceNodeTypes) (st : LayoutState) (layoutIndex : Nat)
    (nodes : List Node) (level : Int) (interfacesOnLevelOnly : Int)
    (pDistGridMgr : Option (Node → Bool)) : Option LayoutState :=
  nodes.foldlM (AddNodeToLayout T layoutIndex level interfacesOnLevelOnly pDistGridMgr) st

/-! ## CreateDistributionLayouts -/

/-- The class `MultiGrid`: `CreateDistributionLayouts` reads `num_levels()` only. -/
structure MultiGrid where
  num_levels : Nat
deriving DecidableEq, Repr

/-- The class `SubsetHandler`: the number of subsets and, for every element kind `T` and subset `i`,
the elements in the iteration order of `[sh.begin<T>(i), sh.end<T>(i))`. -/
structure SubsetHandler where
  num_subsets : Nat
  elems : Kind → Nat → List Node

/-- The class `MGSelector`: the number of levels and, for every element kind `T` and level, the
selected elements in the iteration order of `[msel.begin<T>(level), msel.end<T>(level))`. -/
structure MGSelector where
  num_levels : Nat
  elems : Kind → Nat → List Node

/-- The call `msel.deselect(begin, end)` for elements of one kind. -/
def MGSelector.deselect (msel : MGSelector) (kind : Kind) (nodes : List Node) : MGSelector :=
  { msel with
    elems := fun k level =>
      if k = kind then (msel.elems k level).filter (fun n => decide (n ∉ nodes))
      else msel.elems k level }

/-- The order in which the four instances of `AddNodesToLayout` are called. -/
def allKinds : List Kind := [Kind.VertexBase, Kind.EdgeBase, Kind.Face, Kind.Volume]

/-- The layouts and attachments of the four element kinds. -/
abbrev KindStates := Kind → LayoutState

/-- Lines 117-149: `sh.num_subsets()` empty layouts per kind and the first-proc attachment set
to -1 on every element. The local-index attachment is written before it is read; its initial
value is taken to be 0. -/
def initialState (sh : SubsetHandler) : LayoutState :=
  { layouts := List.replicate sh.num_subsets DistributionNodeLayout.empty
    aaFirstLayout := fun _ => -1
    aaFirstProcLocalInd := fun _ => 0 }

/-- Body of the loop of step 1 (lines 157-173): the elements of subset `i` are added to
layout `i`, with level -1. -/
def step1Body (T : InterfaceNodeTypes) (sh : SubsetHandler) (S : KindStates) (i : Nat) :
    Option KindStates :=
  allKinds.foldlM
    (fun S kind =>
      (AddNodesToLayout T (S kind) i (sh.elems kind i) (-1) (-1) none).map
        (Function.update S kind)) S

/-- Step 1 of `CreateDistributionLayouts`. -/
def step1 (T : InterfaceNodeTypes) (sh : SubsetHandler) (S : KindStates) : Option KindStates :=
  (List.range sh.num_subsets).foldlM (step1Body T sh) S

/-- Lines 205-208: the elements of subset `i` are deselected. -/
def deselectSubset (msel : MGSelector) (sh : SubsetHandler) (i : Nat) : MGSelector :=
  (((msel.deselect Kind.VertexBase (sh.elems Kind.VertexBase i)).deselect
    Kind.EdgeBase (sh.elems Kind.EdgeBase i)).deselect
    Kind.Face (sh.elems Kind.Face i)).deselect
    Kind.Volume (sh.elems Kind.Volume i)

/-- Body of the loop over the levels in step 2 (lines 213-231). -/
def step2Level (T : InterfaceNodeTypes) (i : Nat) (msel : MGSelector)
    (interfacesOnLevelOnly : Int) (pDistGridMgr : Option (Kind → Node → Bool))
    (S : KindStates) (level : Nat) : Option KindStates :=
  allKinds.foldlM
    (fun S kind =>
      (AddNodesToLayout T (S kind) i (msel.elems kind level) (level : Int)
        interfacesOnLevelOnly (pDistGridMgr.map (fun mgr => mgr kind))).map
        (Function.update S kind)) S

/-- The value of `interfacesOnLevelOnly` (lines 200-202). -/
def interfacesOnLevelOnly (mg : MultiGrid) (distributeGenealogy : Bool) : Int :=
  if distributeGenealogy then (mg.num_levels : Int) - 1 else -1

/-- Body of the loop of step 2 (lines 177-232). `selection i` is the content of `msel` after
line 198, that is after the elements of subset `i` were selected and
`SelectAssociatedGenealogy` resp. `SelectAssociatedGeometricObjects` was applied; these two
functions belong to the selection utilities of lib_grid. -/
def step2Body (T : InterfaceNodeTypes) (mg : MultiGrid) (sh : SubsetHandler)
    (distributeGenealogy : Bool) (selection : Nat → MGSelector)
    (pDistGridMgr : Option (Kind → Node → Bool)) (S : KindStates) (i : Nat) :
    Option KindStates :=
  let msel := deselectSubset (selection i) sh i
  (List.range msel.num_levels).foldlM
    (step2Level T i msel (interfacesOnLevelOnly mg distributeGenealogy) pDistGridMgr) S

/-- Step 2 of `CreateDistributionLayouts`. -/
def step2 (T : InterfaceNodeTypes) (mg : MultiGrid) (sh : SubsetHandler)
    (distributeGenealogy : Bool) (selection : Nat → MGSelector)
    (pDistGridMgr : Option (Kind → Node → Bool)) (S : KindStates) : Option KindStates :=
  (List.range sh.num_subsets).foldlM
    (step2Body T mg sh distributeGenealogy selection pDistGridMgr) S

/-- The state of `CreateDistributionLayouts` after step 1 (line 173). -/
def CreateDistributionLayouts_step1 (T : InterfaceNodeTypes) (sh : SubsetHandler) :
    Option KindStates :=
  step1 T sh (fun _ => initialState sh)

/-- The function `CreateDistributionLayouts`: the layouts written to `vertexLayoutsOut`,
`edgeLayoutsOut`, `faceLayoutsOut` and `volumeLayoutsOut`, indexed by the element kind. -/
def CreateDistributionLayouts (T : InterfaceNodeTypes) (mg : MultiGrid) (sh : SubsetHandler)
    (distributeGenealogy : Bool) (selection : Nat → MGSelector)
    (pDistGridMgr : Option (Kind → Node → Bool)) :
    Option (Kind → List DistributionNodeLayout) :=
  match CreateDistributionLayouts_step1 T sh with
  | none => none
  | some S1 =>
    match step2 T mg sh distributeGenealogy selection pDistGridMgr S1 with
    | none => none
    | some S2 => some (fun kind => (S2 kind).layouts)

/-! ## The calls of AddNodesToLayout for one element kind -/

/-- One iteration of the loop of `AddNodesToLayout` together with the arguments of the call
it belongs to. -/
structure Call where
  layoutIndex : Nat
  level : Int
  interfacesOnLevelOnly : Int
  node : Node
deriving DecidableEq, Repr

/-- The iterations made in step 1 for one element kind, in order. -/
def step1Calls (sh : SubsetHandler) (kind : Kind) : List Call :=
  (List.range sh.num_subsets).flatMap fun i =>
    (sh.elems kind i).map fun n => ⟨i, -1, -1, n⟩

/-- The iterations made in step 2 for one element kind, in order. -/
def step2Calls (mg : MultiGrid) (sh : SubsetHandler) (distributeGenealogy : Bool)
    (selection : Nat → MGSelector) (kind : Kind) : List Call :=
  (List.range sh.num_subsets).flatMap fun i =>
    (List.range (deselectSubset (selection i) sh i).num_levels).flatMap fun level =>
      ((deselectSubset (selection i) sh i).elems kind level).map fun n =>
        ⟨i, (level : Int), interfacesOnLevelOnly mg distributeGenealogy, n⟩

/-- Execution of a sequence of iterations. -/
def runCalls (T : InterfaceNodeTypes) (mgr : Option (Node → Bool)) (st : LayoutState)
    (calls : List Call) : Option LayoutState :=
  calls.foldlM
    (fun st c => AddNodeToLayout T c.layoutIndex c.level c.interfacesOnLevelOnly mgr st c.node)
    st

/-- The node vector of `layouts[j]` (empty outside the vector). -/
def nodeVecOf (layouts : List DistributionNodeLayout) (j : Nat) : List Node :=
  match layouts[j]? with
  | some l => l.node_vec
  | none => []

/-- The interface `layouts[P].interface(Q, L)` (empty outside the vector). -/
def interfaceOf (layouts : List DistributionNodeLayout) (P : Nat) (Q : Int) (L : Nat) :
    Interface :=
  match layouts[P]? with
  | some l => l.interface Q L
  | none => []

/-! ## Notions used to state the properties -/

/-- The condition under which an iteration of `AddNodesToLayout` reaches lines 86-89: the
node was claimed before, it is not an element of a genuine interface, and the level
restriction admits the level of the call. -/
def createsPair (st : LayoutState) (level interfacesOnLevelOnly : Int)
    (pDistGridMgr : Option (Node → Bool)) (node : Node) : Prop :=
  st.aaFirstLayout node ≠ -1 ∧ is_interface_element pDistGridMgr node = false ∧
    (interfacesOnLevelOnly = -1 ∨ interfacesOnLevelOnly = level)

instance (st : LayoutState) (level interfacesOnLevelOnly : Int)
    (pDistGridMgr : Option (Node → Bool)) (node : Node) :
    Decidable (createsPair st level interfacesOnLevelOnly pDistGridMgr node) := by
  unfold createsPair
  exact inferInstance

/-- The entry pushed in line 88. -/
def masterEntry (T : InterfaceNodeTypes) (st : LayoutState) (node : Node) :
    DistributionInterfaceEntry :=
  DistributionInterfaceEntry.create (st.aaFirstProcLocalInd node) T.INT_MASTER

/-- The entry pushed in line 89. -/
def slaveEntry (T : InterfaceNodeTypes) (st : LayoutState) (layoutIndex : Nat) :
    DistributionInterfaceEntry :=
  DistributionInterfaceEntry.create (toInt (nodeVecOf st.layouts layoutIndex).length)
    T.INT_SLAVE

/-- A subset handler assigns every element to at most one subset, and the iterators of a
subset yield every element once: the elements of all subsets, listed subset by subset, are
pairwise different. -/
def SubsetHandler.WellFormed (sh : SubsetHandler) : Prop :=
  ∀ kind, ((List.range sh.num_subsets).flatMap (sh.elems kind)).Nodup

/-- Consistency of the two attachments with the layouts: a claimed node records a valid
layout index and the position at which it stands in the node vector of that layout. -/
def BaseInv (n : Nat) (st : LayoutState) : Prop :=
  st.layouts.length = n ∧
  ∀ x, st.aaFirstLayout x ≠ -1 →
    ∃ m k : Nat, st.aaFirstLayout x = (m : Int) ∧ m < n ∧
      (nodeVecOf st.layouts m)[k]? = some x ∧ st.aaFirstProcLocalInd x = toInt k

/-- The state of one element kind after step 1: layout `j` holds exactly the elements of
subset `j`, no interface map exists, and the first-proc attachment of an element is its
subset index (-1 for an element in no subset). -/
def Step1Post (sh : SubsetHandler) (kind : Kind) (st : LayoutState) : Prop :=
  BaseInv sh.num_subsets st ∧
  (∀ j, j < sh.num_subsets → nodeVecOf st.layouts j = sh.elems kind j) ∧
  (∀ (j : Nat) (l : DistributionNodeLayout), st.layouts[j]? = some l →
    l.m_vInterfaceMaps = []) ∧
  (∀ i x, i < sh.num_subsets → x ∈ sh.elems kind i → st.aaFirstLayout x = (i : Int)) ∧
  (∀ x, st.aaFirstLayout x ≠ -1 → ∃ i, i < sh.num_subsets ∧ x ∈ sh.elems kind i)

/-- The function `NumEntriesOfTypeInDistributionInterface`: the loop that counts the entries
whose `type` equals the given one. -/
def NumEntriesOfTypeInDistributionInterface (type : Int) (interface : Interface) : Nat :=
  interface.foldl (fun counter e => if e.type = type then counter + 1 else counter) 0

/-- What is assumed of the enumerators: `INT_MASTER` and `INT_SLAVE` fit the 4 bit `type`
field (as the documentation of `DistributionInterfaceEntry` requires), they differ, and the
two vertical enumerators differ from both. -/
def InterfaceNodeTypes.WellFormed (T : InterfaceNodeTypes) : Prop :=
  (-8 ≤ T.INT_MASTER ∧ T.INT_MASTER < 8) ∧ (-8 ≤ T.INT_SLAVE ∧ T.INT_SLAVE < 8) ∧
  T.INT_MASTER ≠ T.INT_SLAVE ∧
  T.INT_VERTICAL_MASTER ≠ T.INT_MASTER ∧ T.INT_VERTICAL_MASTER ≠ T.INT_SLAVE ∧
  T.INT_VERTICAL_SLAVE ≠ T.INT_MASTER ∧ T.INT_VERTICAL_SLAVE ≠ T.INT_SLAVE

/-- Two entries written by one pass through lines 86-89, seen from layouts `P` and `Q`: one
holds the master type and the other the slave type, and their local ids were taken from
positions of the two node vectors at which the same element stands. -/
def PairRel (T : InterfaceNodeTypes) (layouts : List DistributionNodeLayout) (P Q : Nat)
    (a b : DistributionInterfaceEntry) : Prop :=
  ((a.type = bitfield 4 T.INT_MASTER ∧ b.type = bitfield 4 T.INT_SLAVE) ∨
    (a.type = bitfield 4 T.INT_SLAVE ∧ b.type = bitfield 4 T.INT_MASTER)) ∧
  ∃ (x : Node) (kP kQ : Nat),
    a.localID = bitfield 28 (toInt kP) ∧ b.localID = bitfield 28 (toInt kQ) ∧
    (nodeVecOf layouts P)[kP]? = some x ∧ (nodeVecOf layouts Q)[kQ]? = some x

/-- The interfaces between any two different layouts consist of matching pairs. -/
def PairInv (T : InterfaceNodeTypes) (st : LayoutState) : Prop :=
  ∀ (P Q : Nat), P ≠ Q → ∀ L : Nat,
    List.Forall₂ (PairRel T st.layouts P Q)
      (interfaceOf st.layouts P (Q : Int) L) (interfaceOf st.layouts Q (P : Int) L)

/-! ## Concrete inputs -/

/-- Enumerator values used in the examples. -/
def exampleTypes : InterfaceNodeTypes :=
  { INT_MASTER := 1, INT_SLAVE := 2, INT_VERTICAL_MASTER := 4, INT_VERTICAL_SLAVE := 8 }

/-- Two subsets: vertices 10 and 11 in subset 0, vertex 12 in subset 1; no other elements. -/
def exampleSubsetHandler : SubsetHandler :=
  { num_subsets := 2
    elems := fun kind i =>
      match kind, i with
      | Kind.VertexBase, 0 => [10, 11]
      | Kind.VertexBase, 1 => [12]
      | _, _ => [] }

/-- For both subsets the selector holds the vertices 10 to 13 on level 0 and vertex 14 on
level 1. -/
def exampleSelection : Nat → MGSelector := fun _ =>
  { num_levels := 2
    elems := fun kind level =>
      match kind, level with
      | Kind.VertexBase, 0 => [10, 11, 12, 13]
      | Kind.VertexBase, 1 => [14]
      | _, _ => [] }

/-- A multigrid with two levels. -/
def exampleMultiGrid : MultiGrid := { num_levels := 2 }

/-- Two layouts, vertex 5 already claimed by layout 0 at local index 0. -/
def exampleClaimedState : LayoutState :=
  { layouts := [{ m_vNodes := [5], m_vInterfaceMaps := [] },
                { m_vNodes := [], m_vInterfaceMaps := [] }]
    aaFirstLayout := fun x => if x = 5 then 0 else -1
    aaFirstProcLocalInd := fun _ => 0 }

/-- The entry `a` of an interface of layout `P` denotes the element `e`: its local id is a
position of the node vector of layout `P`, and `e` stands there. -/
def denotes (layouts : List DistributionNodeLayout) (P : Nat) (a : DistributionInterfaceEntry)
    (e : Node) : Prop :=
  0 ≤ a.localID ∧ (nodeVecOf layouts P)[a.localID.toNat]? = some e

/-- Origin of an entry `a` of `layouts[P].interface(Q, L)`: its local id was taken from a
position `k` of the node vector of `P`; a master entry was written for an element owned by
`P`, a slave entry for an element owned by `Q` that is not in subset `P`. -/
def EntryOk (T : InterfaceNodeTypes) (sh : SubsetHandler) (kind : Kind) (st : LayoutState)
    (P : Nat) (Q : Int) (a : DistributionInterfaceEntry) : Prop :=
  ∃ (k : Nat) (x : Node), a.localID = bitfield 28 (toInt k) ∧
    (nodeVecOf st.layouts P)[k]? = some x ∧
    ((a.type = bitfield 4 T.INT_MASTER ∧ st.aaFirstLayout x = (P : Int)) ∨
      (a.type = bitfield 4 T.INT_SLAVE ∧ st.aaFirstLayout x = Q ∧ st.aaFirstLayout x ≠ -1 ∧
        x ∉ sh.elems kind P))

/-- The invariant of step 2 behind C5: consistent attachments, every element of a subset
owned by the layout of that subset, and every interface entry of known origin. -/
def OwnerInv (T : InterfaceNodeTypes) (sh : SubsetHandler) (kind : Kind) (st : LayoutState) :
    Prop :=
  BaseInv sh.num_subsets st ∧
  (∀ (i : Nat) (x : Node), i < sh.num_subsets → x ∈ sh.elems kind i →
    st.aaFirstLayout x = (i : Int)) ∧
  ∀ (P : Nat) (Q : Int) (L : Nat) (a : DistributionInterfaceEntry),
    a ∈ interfaceOf st.layouts P Q L → EntryOk T sh kind st P Q a

/-- Subset 0 holds the vertices `0, ..., N - 1`, subset 1 holds the vertex `N`. -/
def overflowSubsetHandler (N : Nat) : SubsetHandler :=
  { num_subsets := 2
    elems := fun kind i =>
      match kind, i with
      | Kind.VertexBase, 0 => List.range N
      | Kind.VertexBase, 1 => [N]
      | _, _ => [] }

/-- For subset 0 the selector holds the vertex `N` on level 0; for subset 1 it is empty. -/
def overflowSelection (N : Nat) : Nat → MGSelector := fun i =>
  match i with
  | 0 =>
    { num_levels := 1
      elems := fun kind level =>
        match kind, level with
        | Kind.VertexBase, 0 => [N]
        | _, _ => [] }
  | _ => { num_levels := 0, elems := fun _ _ => [] }

/-- The invariant of step 2 behind C6: the node vector of layout `j` starts with the elements
of subset `j` and continues with elements that are not in subset `j`. -/
def PrefixInv (sh : SubsetHandler) (kind : Kind) (st : LayoutState) : Prop :=
  st.layouts.length = sh.num_subsets ∧
  ∀ j, j < sh.num_subsets →
    ∃ extra : List Node, nodeVecOf st.layouts j = sh.elems kind j ++ extra ∧
      ∀ x ∈ extra, x ∉ sh.elems kind j

/-- The element `x`, appended to layout `j` while owned by layout `m`, has its pair of
entries on level `level`: at one position `idx` the interface `layouts[j].interface(m, level)`
holds a slave entry and `layouts[m].interface(j, level)` a master entry, whose local ids were
taken from positions of the two node vectors at which `x` stands. -/
def SharedPair (T : InterfaceNodeTypes) (layouts : List DistributionNodeLayout) (j m : Nat)
    (level : Nat) (x : Node) : Prop :=
  ∃ (idx : Nat) (a b : DistributionInterfaceEntry) (kj km : Nat),
    (interfaceOf layouts j (m : Int) level)[idx]? = some a ∧
    (interfaceOf layouts m (j : Int) level)[idx]? = some b ∧
    a.type = bitfield 4 T.INT_SLAVE ∧ b.type = bitfield 4 T.INT_MASTER ∧
    a.localID = bitfield 28 (toInt kj) ∧ b.localID = bitfield 28 (toInt km) ∧
    (nodeVecOf layouts j)[kj]? = some x ∧ (nodeVecOf layouts m)[km]? = some x

/-- The iterators of the selector yield every element at most once: for every element kind
the selected elements of the levels, one level after the other, are pairwise different. -/
def MGSelector.WellFormed (msel : MGSelector) : Prop :=
  ∀ kind, ((List.range msel.num_levels).flatMap (msel.elems kind)).Nodup

/-! ## TestDistributionLayouts -/

/-- The messages `TestDistributionLayouts` writes with `UG_LOG` inside its loops. -/
inductive TestLogEntry where
  /-- The message "WARNING: Sizes do not match between interfaces of procs ..." -/
  | sizesDoNotMatch (curProcID conProcID : Int) (lvl : Nat)
  /-- The message "Master -> Slave Interface mismatch on level ..." with the two counts -/
  | masterSlaveMismatch (lvl numCurMasters numConSlaves : Nat)
  /-- The message "Slave -> Master Interface mismatch on level ..." with the two counts -/
  | slaveMasterMismatch (lvl numCurSlaves numConMasters : Nat)
  /-- The message "VerticalMaster -> VerticalSlave Interface mismatch on level ..." -/
  | verticalMasterSlaveMismatch (lvl numCurVrtMasters numConVrtSlaves : Nat)
  /-- The message "VerticalSlave -> VerticalMaster Interface mismatch on level ..." -/
  | verticalSlaveMasterMismatch (lvl numCurVrtSlaves numConVrtMasters : Nat)
deriving DecidableEq, Repr

/-- The variables of `TestDistributionLayouts`: the flag `bSuccess`, what was logged, and the
layouts (the function receives them by reference and `interface(...)` may extend them). -/
structure TestState where
  bSuccess : Bool
  log : List TestLogEntry
  distLayouts : List DistributionNodeLayout
deriving DecidableEq, Repr

/-- Body of the loop over the interface map (distribution_util.cpp, lines 477-535) for the
map entry `mapIter`, with `procMap = NULL`, so that `curProcID = i_curLayout`. -/
def testInterface (T : InterfaceNodeTypes) (i_curLayout lvl : Nat) (st : TestState)
    (mapIter : Int × Interface) : Option TestState :=
  let curProcID : Int := i_curLayout
  let conProcID := mapIter.1
  if conProcID ≤ curProcID then
    some st
  else
    let curIntf := mapIter.2
    match st.distLayouts[conProcID.toNat]? with
    | none => none
    | some conLayout =>
      let conIntf := conLayout.interface curProcID lvl
      let layouts1 := st.distLayouts.set conProcID.toNat (conLayout.interface_touch curProcID lvl)
      let sizesDiffer := decide (curIntf.length ≠ conIntf.length)
      let bSuccess1 := if sizesDiffer then false else st.bSuccess
      let log1 :=
        if sizesDiffer then st.log ++ [TestLogEntry.sizesDoNotMatch curProcID conProcID lvl]
        else st.log
      let numCurMasters := NumEntriesOfTypeInDistributionInterface T.INT_MASTER curIntf
      let numCurSlaves := NumEntriesOfTypeInDistributionInterface T.INT_SLAVE curIntf
      let numConMasters := NumEntriesOfTypeInDistributionInterface T.INT_MASTER conIntf
      let numConSlaves := NumEntriesOfTypeInDistributionInterface T.INT_SLAVE conIntf
      let numCurVrtMasters :=
        NumEntriesOfTypeInDistributionInterface T.INT_VERTICAL_MASTER curIntf
      let numCurVrtSlaves :=
        NumEntriesOfTypeInDistributionInterface T.INT_VERTICAL_SLAVE curIntf
      let numConVrtMasters :=
        NumEntriesOfTypeInDistributionInterface T.INT_VERTICAL_MASTER conIntf
      let numConVrtSlaves :=
        NumEntriesOfTypeInDistributionInterface T.INT_VERTICAL_SLAVE conIntf
      let log2 :=
        if numCurMasters ≠ numConSlaves then
          log1 ++ [TestLogEntry.masterSlaveMismatch lvl numCurMasters numConSlaves]
        else log1
      let log3 :=
        if numCurSlaves ≠ numConMasters then
          log2 ++ [TestLogEntry.slaveMasterMismatch lvl numCurSlaves numConMasters]
        else log2
      let log4 :=
        if numCurVrtMasters ≠ numConVrtSlaves then
          log3 ++ [TestLogEntry.verticalMasterSlaveMismatch lvl numCurVrtMasters numConVrtSlaves]
        else log3
      let log5 :=
        if numCurVrtSlaves ≠ numConVrtMasters then
          log4 ++ [TestLogEntry.verticalSlaveMasterMismatch lvl numCurVrtSlaves numConVrtMasters]
        else log4
      some { bSuccess := bSuccess1, log := log5, distLayouts := layouts1 }

/-- Body of the loop over the levels (lines 471-537): the interface map of the current layout
on level `lvl` is traversed in key order. -/
def testLevel (T : InterfaceNodeTypes) (i_curLayout : Nat) (st : TestState) (lvl : Nat) :
    Option TestState :=
  match st.distLayouts[i_curLayout]? with
  | none => none
  | some curLayout => (curLayout.interface_map lvl).foldlM (testInterface T i_curLayout lvl) st

/-- Body of the loop over the layouts (lines 463-538). The connected layouts have a higher
index than the current one, so `curLayout.num_levels()` does not change during the loop over
the levels. -/
def testLayout (T : InterfaceNodeTypes) (st : TestState) (i_curLayout : Nat) :
    Option TestState :=
  match st.distLayouts[i_curLayout]? with
  | none => none
  | some curLayout =>
    (List.range curLayout.num_levels).foldlM (testLevel T i_curLayout) st

/-- The function `TestDistributionLayouts` for `procMap = NULL`: the final variables, of
which `bSuccess` is the value returned. -/
def TestDistributionLayouts (T : InterfaceNodeTypes)
    (distLayouts : List DistributionNodeLayout) : Option TestState :=
  (List.range distLayouts.length).foldlM (testLayout T)
    { bSuccess := true, log := [], distLayouts := distLayouts }

/-- Two layouts whose interfaces to each other, on level 0, hold one `INT_MASTER` entry
each. -/
def exampleInconsistentLayouts : List DistributionNodeLayout :=
  [{ m_vNodes := [7], m_vInterfaceMaps := [[(1, [{ localID := 0, type := 1 }])]] },
   { m_vNodes := [7], m_vInterfaceMaps := [[(0, [{ localID := 0, type := 1 }])]] }]

/-! ## Anisotropic marking (refinement_bridge.cpp) -/

/-- The finite values of the type `number`, as exact rational numbers. -/
abbrev number := ℚ

/-- A value of the floating-point type `number`: a finite value, given as the rational
number it stands for, plus or minus infinity, or a NaN. The two zeros are not told apart:
the code that is modelled compares them, divides by positive numbers only and prints
them. -/
inductive Number where
  | finite (x : number)
  | inf (negative : Bool)
  | nan
deriving DecidableEq

namespace Number

/-- The comparison `a < b` of two values of type `number`; it is false if one of them is a
NaN. -/
def lt : Number → Number → Bool
  | finite x, finite y => decide (x < y)
  | finite _, inf negative => !negative
  | inf negative, finite _ => negative
  | inf n1, inf n2 => n1 && !n2
  | nan, _ => false
  | _, nan => false

/-- The comparison `a <= b` of two values of type `number`; it is false if one of them is a
NaN. -/
def le : Number → Number → Bool
  | finite x, finite y => decide (x ≤ y)
  | finite _, inf negative => !negative
  | inf negative, finite _ => negative
  | inf n1, inf n2 => n1 || !n2
  | nan, _ => false
  | _, nan => false

/-- The quotient `a / b` of two values of type `number`, for a divisor `b > 0`, as the code
computes it: the exact quotient of two finite values is rounded by `round`, a finite value
divided by infinity is 0, infinity divided by a finite value is infinity, and infinity
divided by infinity is a NaN, as is every quotient with a NaN. The code does not divide by
another divisor, for which the value is given as a NaN here. -/
def div (round : ℚ → Number) : Number → Number → Number
  | finite x, finite y => if 0 < y then round (x / y) else nan
  | finite _, inf false => finite 0
  | inf negative, finite y => if 0 < y then inf negative else nan
  | _, _ => nan

end Number

/-- The nearest integer to `y`, the even one of the two if `y` lies half way between two
integers. -/
def roundHalfEven (y : ℚ) : Int :=
  let f := ⌊y⌋
  if y - f < 1 / 2 then f
  else if 1 / 2 < y - f then f + 1
  else if f % 2 = 0 then f else f + 1

/-- The exponent of a number `a >= 0` in the format binary64: the integer `e` with
`2^e <= a < 2^(e+1)`, but at least -1022, the exponent of the subnormal numbers. -/
def binade (a : ℚ) : Int := max (Int.log 2 a) (-1022)

/-- The magnitude `a >= 0` rounded to a multiple of the unit in the last place of its
exponent, 52 binary digits behind the leading one. -/
def roundMagnitude (a : ℚ) : ℚ :=
  (roundHalfEven (a / 2 ^ (binade a - 52)) : ℚ) * 2 ^ (binade a - 52)

/-- The magnitude `2^1024`, from which on a rounded result is an infinity in the format
binary64. -/
def overflowMagnitude : ℚ := 2 ^ 1024

/-- The rounding of IEEE 754 for the format binary64 (`double`), to the nearest number and
to the even one of two nearest numbers: the value stored for the exact result `q`. A
result whose rounded magnitude reaches `2^1024` becomes an infinity. -/
def roundBinary64 (q : ℚ) : Number :=
  if overflowMagnitude ≤ roundMagnitude |q| then Number.inf (decide (q < 0))
  else Number.finite (if q < 0 then -roundMagnitude |q| else roundMagnitude |q|)

/-- The laws of the rounding of a floating-point format that the properties rely on: a
rounded value is no NaN, rounding is monotone, and a number with at most 24 binary digits
and an exponent that is not extreme is stored exactly. They hold for the formats binary32
and binary64 of IEEE 754 with rounding to nearest. -/
structure IsRounding (round : ℚ → Number) : Prop where
  ne_nan : ∀ q, round q ≠ Number.nan
  mono : ∀ q r, q ≤ r → Number.le (round q) (round r) = true
  exact : ∀ (m : Int) (k : Nat), m.natAbs < 2 ^ 24 → k ≤ 126 →
    round ((m : ℚ) / 2 ^ k) = Number.finite ((m : ℚ) / 2 ^ k)

/-- The identity of an edge (`EdgeBase*`). -/
abbrev EdgeBase := Nat

/-- The identity of a face (`Face*`). -/
abbrev Face := Nat

/-- The marks of a refiner used by the marking functions. -/
inductive RefinementMark where
  | RM_NONE
  | RM_REGULAR
  | RM_ANISOTROPIC
  | RM_COARSEN
deriving DecidableEq, Repr

/-- The class `IRefiner`, seen from the marking functions: the calls `mark(e, refMark)` made on edges
and `mark(f, refMark)` made on faces, in the order in which they were made. -/
structure IRefiner where
  edgeMarks : List (EdgeBase × RefinementMark)
  faceMarks : List (Face × RefinementMark)
deriving DecidableEq, Repr

/-- The call `refiner->mark(e)`; the default mark is `RM_REGULAR`. -/
def IRefiner.mark (refiner : IRefiner) (e : EdgeBase)
    (refMark : RefinementMark := RefinementMark.RM_REGULAR) : IRefiner :=
  { refiner with edgeMarks := refiner.edgeMarks ++ [(e, refMark)] }

/-- The call `refiner->mark(f, refMark)` on a face. -/
def IRefiner.markFace (refiner : IRefiner) (f : Face) (refMark : RefinementMark) : IRefiner :=
  { refiner with faceMarks := refiner.faceMarks ++ [(f, refMark)] }

/-- What the marking functions read of the grid: the faces in the order of
`[grid.begin<Face>(), grid.end<Face>())`, the test `pmg && pmg->has_children(f)`,
`f->num_edges()`, the edges that `CollectAssociated(edges, grid, f)` stores, and the value
of `EdgeLength(e, aaPos)`, a value of type `number`. -/
structure Grid where
  faces : List Face
  has_children : Face → Bool
  num_edges : Face → Nat
  associatedEdges : Face → List EdgeBase
  EdgeLength : EdgeBase → Number

/-- Modelled from the spec: `FindShortestEdge` is declared in edge_util.h, which is not among
the sources; the spec uses it as the edge of `minEdgeLength(f)`. It returns `NULL` (`none`)
for an empty range and otherwise the first edge of the smallest length, found by comparing
the lengths with `<`. -/
def FindShortestEdge (EdgeLength : EdgeBase → Number) : List EdgeBase → Option EdgeBase
  | [] => none
  | e :: rest =>
    some (rest.foldl (fun shortest cur =>
      if Number.lt (EdgeLength cur) (EdgeLength shortest) then cur else shortest) e)

/-- One iteration of the loop of `MarkIfAnisotropic` over the edges (lines 140-151);
`round` is the rounding of the type `number`. -/
def markIfAnisotropicEdge (round : ℚ → Number) (grid : Grid) (minLen sizeRatio : Number)
    (acc : Bool × IRefiner) (e : EdgeBase) : Bool × IRefiner :=
  let len := grid.EdgeLength e
  if Number.lt (Number.finite 0) len then
    if Number.le (Number.div round minLen len) sizeRatio then (true, acc.2.mark e) else acc
  else acc

/-- The function `MarkIfAnisotropic` (lines 124-165): the value returned and the refiner
afterwards. A failed `UG_ASSERT` and an access behind the end of `edges` give `none`. -/
def MarkIfAnisotropic (round : ℚ → Number) (grid : Grid) (f : Face) (refiner : IRefiner)
    (sizeRatio : Number) : Option (Bool × IRefiner) :=
  let num_edges := grid.num_edges f
  let edges := grid.associatedEdges f
  match FindShortestEdge grid.EdgeLength edges with
  | none => none
  | some minEdge =>
    let minLen := grid.EdgeLength minEdge
    match (List.range num_edges).foldlM
        (fun acc i_edge =>
          (edges[i_edge]?).map (markIfAnisotropicEdge round grid minLen sizeRatio acc))
        (false, refiner) with
    | none => none
    | some (marked, refiner1) =>
      if marked then some (marked, refiner1.markFace f RefinementMark.RM_ANISOTROPIC)
      else some (marked, refiner1)

/-- One iteration of the inner loop of the first pass of
`MarkForRefinement_AnisotropicElements` (lines 417-436). -/
def firstPassEdge (round : ℚ → Number) (grid : Grid) (f : Face) (minLen sizeRatio : Number)
    (refiner : IRefiner) (e : EdgeBase) : IRefiner :=
  let len := grid.EdgeLength e
  if Number.lt (Number.finite 0) len then
    if Number.le (Number.div round minLen len) sizeRatio then
      (refiner.mark e).markFace f RefinementMark.RM_ANISOTROPIC
    else refiner
  else refiner

/-- One iteration of the first loop over the faces in
`MarkForRefinement_AnisotropicElements` (lines 401-436). -/
def firstPassFace (round : ℚ → Number) (grid : Grid) (sizeRatio : Number)
    (refiner : IRefiner) (f : Face) : Option IRefiner :=
  if grid.has_children f then
    some refiner
  else
    let edges := grid.associatedEdges f
    match FindShortestEdge grid.EdgeLength edges with
    | none => none
    | some minEdge =>
      some (edges.foldl (firstPassEdge round grid f (grid.EdgeLength minEdge) sizeRatio)
        refiner)

/-- The first loop over the faces in `MarkForRefinement_AnisotropicElements`
(lines 397-437). -/
def MarkForRefinement_AnisotropicElements_firstPass (round : ℚ → Number) (grid : Grid)
    (refiner : IRefiner) (sizeRatio : Number) : Option IRefiner :=
  grid.faces.foldlM (firstPassFace round grid sizeRatio) refiner

/-- The number `minLen` is `minEdgeLength(f)`: it is the length of an associated edge of
`f`, and no associated edge of `f` is shorter. -/
def IsMinEdgeLength (grid : Grid) (f : Face) (minLen : Number) : Prop :=
  (∃ e ∈ grid.associatedEdges f, grid.EdgeLength e = minLen) ∧
  ∀ e ∈ grid.associatedEdges f, Number.le minLen (grid.EdgeLength e) = true

/-- The edge `e` is selected: its length is positive and `minLen / length(e) <= sizeRatio`,
the quotient being the rounded one that the code computes. -/
def selected (round : ℚ → Number) (grid : Grid) (minLen sizeRatio : Number) (e : EdgeBase) :
    Bool :=
  Number.lt (Number.finite 0) (grid.EdgeLength e) &&
    Number.le (Number.div round minLen (grid.EdgeLength e)) sizeRatio

/-- One triangle, face 0, with the edges 0, 1, 2 of the lengths 1, 1, 2; `has_children`
as given. -/
def exampleTriangle (has_children : Bool) : Grid :=
  { faces := [0]
    has_children := fun _ => has_children
    num_edges := fun _ => 3
    associatedEdges := fun _ => [0, 1, 2]
    EdgeLength := fun e => if e = 2 then Number.finite 2 else Number.finite 1 }

/-- A refiner on which nothing was marked. -/
def emptyRefiner : IRefiner := { edgeMarks := [], faceMarks := [] }

/-- One degenerate triangle, face 0, with the edges 0, 1, 2 of the lengths 0, 1, 1: the end
points of edge 0 coincide. -/
def degenerateTriangle : Grid :=
  { faces := [0]
    has_children := fun _ => false
    num_edges := fun _ => 3
    associatedEdges := fun _ => [0, 1, 2]
    EdgeLength := fun e => if e = 0 then Number.finite 0 else Number.finite 1 }

/-- One triangle, face 0, with the edges 0, 1, 2, all of them of infinite length. -/
def infiniteTriangle : Grid :=
  { faces := [0]
    has_children := fun _ => false
    num_edges := fun _ => 3
    associatedEdges := fun _ => [0, 1, 2]
    EdgeLength := fun _ => Number.inf false }

/-- One triangle, face 0, with the edges 0, 1, 2 of the lengths 1, 3, 3. -/
def thirdTriangle : Grid :=
  { faces := [0]
    has_children := fun _ => false
    num_edges := fun _ => 3
    associatedEdges := fun _ => [0, 1, 2]
    EdgeLength := fun e => if e = 0 then Number.finite 1 else Number.finite 3 }

/-! ## Refiner factories and marking functions of the bridge (refinement_bridge.cpp) -/

/-- The identity of a grid (`Grid*`). -/
abbrev GridPtr := Nat

/-- The identity of an element of a grid (`TElem*`). -/
abbrev GeometricObject := Nat

/-- The class `UGError`, with the message it was constructed with. -/
structure UGError where
  msg : String
deriving DecidableEq, Repr

/-- What the functions of the bridge read of a domain: `is_adaptive()`, the address of
`grid()`, and, for the element type of the domain, the elements in the order of
`[g.begin<TElem>(), g.end<TElem>())`, `g.get_level(e)`, `g.has_children(e)`, the vector
that `VecCopy(pos, CalculateCenter(e, aaPos), 0)` stores, and `sh.get_subset_index(e)`. -/
structure Domain where
  is_adaptive : Bool
  grid : GridPtr
  elements : List GeometricObject
  get_level : GeometricObject → Nat
  has_children : GeometricObject → Bool
  center : GeometricObject → number × number × number
  get_subset_index : GeometricObject → Int

/-- The build and the run: whether `UG_PARALLEL` is defined, and `pcl::GetNumProcesses()`. -/
structure Build where
  UG_PARALLEL : Bool
  GetNumProcesses : Int

/-- The refiner classes constructed by the factories. -/
inductive RefinerClass where
  | ParallelGlobalRefiner_MultiGrid
  | GlobalMultiGridRefiner
  | ParallelHangingNodeRefiner_MultiGrid
  | HangingNodeRefiner_MultiGrid
  | AdaptiveRegularRefiner_MultiGrid
  | ParallelGlobalFracturedMediaRefiner
  | GlobalFracturedMediaRefiner
deriving DecidableEq, Repr

/-- The object of the domain a refiner is constructed on. -/
inductive RefinerTarget where
  | grid
  | distributed_grid_manager
deriving DecidableEq, Repr

/-- What a factory does to the domain, besides reading `is_adaptive()`:
`new cls(*dom->grid())` resp. `new cls(*dom->distributed_grid_manager())`, which registers
the refiner at the grid, and `ref->set_subset_handler(*dom->subset_handler())`. -/
inductive FactoryAction where
  | construct (cls : RefinerClass) (target : RefinerTarget)
  | set_subset_handler
deriving DecidableEq, Repr

/-- The outcome of a factory: the actions performed so far, in order, and either the
exception thrown or the class of the refiner returned. -/
structure FactoryResult where
  actions : List FactoryAction
  result : Except UGError RefinerClass

/-- The function `GlobalDomainRefiner` (lines 34-46). -/
def GlobalDomainRefiner (build : Build) (_dom : Domain) (actions : List FactoryAction) :
    FactoryResult :=
  if build.UG_PARALLEL && decide (build.GetNumProcesses > 1) then
    { actions := actions ++ [FactoryAction.construct
        RefinerClass.ParallelGlobalRefiner_MultiGrid RefinerTarget.distributed_grid_manager]
      result := Except.ok RefinerClass.ParallelGlobalRefiner_MultiGrid }
  else
    { actions := actions ++ [FactoryAction.construct
        RefinerClass.GlobalMultiGridRefiner RefinerTarget.grid]
      result := Except.ok RefinerClass.GlobalMultiGridRefiner }

/-- The function `HangingNodeDomainRefiner` (lines 51-67). -/
def HangingNodeDomainRefiner (build : Build) (dom : Domain) (actions : List FactoryAction) :
    FactoryResult :=
  if !dom.is_adaptive then
    { actions := actions
      result := Except.error ⟨"Can't create an adaptive refiner for the given domain. Construct the domain with isAdaptive enabled."⟩ }
  else if build.UG_PARALLEL && decide (build.GetNumProcesses > 1) then
    { actions := actions ++ [FactoryAction.construct
        RefinerClass.ParallelHangingNodeRefiner_MultiGrid RefinerTarget.distributed_grid_manager]
      result := Except.ok RefinerClass.ParallelHangingNodeRefiner_MultiGrid }
  else
    { actions := actions ++ [FactoryAction.construct
        RefinerClass.HangingNodeRefiner_MultiGrid RefinerTarget.grid]
      result := Except.ok RefinerClass.HangingNodeRefiner_MultiGrid }

/-- The function `CreateAdaptiveRegularDomainRefiner` (lines 72-89); the parallel branch is
commented out in the source. -/
def CreateAdaptiveRegularDomainRefiner (_build : Build) (dom : Domain)
    (actions : List FactoryAction) : FactoryResult :=
  if !dom.is_adaptive then
    { actions := actions
      result := Except.error ⟨"Can't create an adaptive refiner for the given domain. Construct the domain with isAdaptive enabled."⟩ }
  else
    { actions := actions ++ [FactoryAction.construct
        RefinerClass.AdaptiveRegularRefiner_MultiGrid RefinerTarget.grid]
      result := Except.ok RefinerClass.AdaptiveRegularRefiner_MultiGrid }

/-- The function `CreateGlobalFracturedDomainRefiner` (lines 93-115). -/
def CreateGlobalFracturedDomainRefiner (build : Build) (dom : Domain)
    (actions : List FactoryAction) : FactoryResult :=
  if !dom.is_adaptive then
    { actions := actions
      result := Except.error ⟨"Can't create an fractured domain refiner for the given domain. Construct the domain with isAdaptive enabled."⟩ }
  else
    let ref : Option RefinerClass :=
      if build.UG_PARALLEL && decide (build.GetNumProcesses > 1) then
        some RefinerClass.ParallelGlobalFracturedMediaRefiner
      else none
    match ref with
    | some cls =>
      { actions := actions ++
          [FactoryAction.construct cls RefinerTarget.distributed_grid_manager,
           FactoryAction.set_subset_handler]
        result := Except.ok cls }
    | none =>
      { actions := actions ++
          [FactoryAction.construct RefinerClass.GlobalFracturedMediaRefiner RefinerTarget.grid,
           FactoryAction.set_subset_handler]
        result := Except.ok RefinerClass.GlobalFracturedMediaRefiner }

/-- The result is an exception. -/
def FactoryResult.failed (r : FactoryResult) : Bool :=
  match r.result with
  | Except.error _ => true
  | Except.ok _ => false

/-- A domain without elements, with the grid at address `grid`. -/
def exampleDomain (is_adaptive : Bool) (grid : GridPtr) : Domain :=
  { is_adaptive := is_adaptive
    grid := grid
    elements := []
    get_level := fun _ => 0
    has_children := fun _ => false
    center := fun _ => (0, 0, 0)
    get_subset_index := fun _ => 0 }

/-- What the marking functions read of a refiner (`SmartPtr<IRefiner>`):
`get_associated_grid()`, which may be `NULL`, and `coarsening_supported()`. -/
structure RefinerHandle where
  get_associated_grid : Option GridPtr
  coarsening_supported : Bool

/-- What the marking functions of the bridge change: the calls `refiner->mark(e, refMark)`
and the grids on which `enable_options(GRIDOPT_AUTOGENERATE_SIDES)` was called, both in the
order of the calls. -/
structure BridgeState where
  marks : List (GeometricObject × RefinementMark)
  enabledOptions : List GridPtr
deriving DecidableEq, Repr

/-- The call `refiner->mark(e, refMark)` on an element. -/
def BridgeState.mark (st : BridgeState) (e : GeometricObject) (refMark : RefinementMark) :
    BridgeState :=
  { st with marks := st.marks ++ [(e, refMark)] }

/-- The outcome of a marking function: the state afterwards and the exception thrown, if
any. -/
abbrev MarkOutcome := BridgeState × Option UGError

/-- The statements of a marking function that follow its first check, as a function of the
state before them. -/
abbrev MarkBody := BridgeState → MarkOutcome

/-- The test `refiner->get_associated_grid() != dom.grid().get()`. -/
def gridMismatch (dom : Domain) (refiner : RefinerHandle) : Bool :=
  decide (refiner.get_associated_grid ≠ some dom.grid)

/-- The function `MarkForRefinement_VerticesInSphere` (lines 188-229): the check of lines
198-201, followed by the loop over the vertices, `body`. -/
def MarkForRefinement_VerticesInSphere (dom : Domain) (refiner : RefinerHandle)
    (body : MarkBody) (st : BridgeState) : MarkOutcome :=
  if gridMismatch dom refiner then
    (st, some ⟨"ERROR in MarkForRefinement_VerticesInSphere: Refiner was not created for the specified domain. Aborting."⟩)
  else body st

/-- The function `MarkForRefinement_ElementsInSphere` (lines 234-284): the check of lines
245-248, followed by the loop over the elements, `body`. -/
def MarkForRefinement_ElementsInSphere (dom : Domain) (refiner : RefinerHandle)
    (body : MarkBody) (st : BridgeState) : MarkOutcome :=
  if gridMismatch dom refiner then
    (st, some ⟨"ERROR in MarkForRefinement_VerticesInCube: Refiner was not created for the specified domain. Aborting."⟩)
  else body st

/-- The function `MarkForRefinement_VerticesInCube` (lines 289-339): the check of lines
299-302, followed by the loop over the vertices, `body`. -/
def MarkForRefinement_VerticesInCube (dom : Domain) (refiner : RefinerHandle)
    (body : MarkBody) (st : BridgeState) : MarkOutcome :=
  if gridMismatch dom refiner then
    (st, some ⟨"ERROR in MarkForRefinement_VerticesInCube: Refiner was not created for the specified domain. Aborting."⟩)
  else body st

/-- The function `MarkForRefinement_AnisotropicElements` (lines 364-554): the check of lines
373-376, followed by `body`, which enables `GRIDOPT_AUTOGENERATE_SIDES` and marks. -/
def MarkForRefinement_AnisotropicElements (dom : Domain) (refiner : RefinerHandle)
    (body : MarkBody) (st : BridgeState) : MarkOutcome :=
  if gridMismatch dom refiner then
    (st, some ⟨"ERROR in MarkForRefinement_VerticesInCube: Refiner was not created for the specified domain. Aborting."⟩)
  else body st

/-- The function `MarkForRefinement_AnisotropicElements2` (lines 618-674): the check at its
start, followed by `body`, which enables `GRIDOPT_AUTOGENERATE_SIDES` and marks. -/
def MarkForRefinement_AnisotropicElements2 (dom : Domain) (refiner : RefinerHandle)
    (body : MarkBody) (st : BridgeState) : MarkOutcome :=
  if gridMismatch dom refiner then
    (st, some ⟨"ERROR in MarkForRefinement_VerticesInCube: Refiner was not created for the specified domain. Aborting."⟩)
  else body st

/-- A Lua callback with the six arguments x, y, z, lvl, si, time and one `int` result. -/
abbrev LuaCallback := number → number → number → number → number → number → Int

/-- One iteration of the loop of `MarkForRefinement_ElementsByLuaCallback` (lines 699-715). -/
def markByLuaCallback (dom : Domain) (time : number) (maxLvl : Nat) (callback : LuaCallback)
    (st : BridgeState) (e : GeometricObject) : BridgeState :=
  let lvl := dom.get_level e
  if lvl ≥ maxLvl then st
  else if !dom.has_children e then
    let pos := dom.center e
    let refine := callback pos.1 pos.2.1 pos.2.2 (lvl : number)
      (dom.get_subset_index e : number) time
    if refine ≠ 0 then st.mark e RefinementMark.RM_REGULAR else st
  else st

/-- The function `MarkForRefinement_ElementsByLuaCallback` (lines 677-717). -/
def MarkForRefinement_ElementsByLuaCallback (dom : Domain) (_refiner : RefinerHandle)
    (time : number) (maxLvl : Nat) (callback : LuaCallback) (st : BridgeState) : MarkOutcome :=
  (dom.elements.foldl (markByLuaCallback dom time maxLvl callback) st, none)

/-- One iteration of the loop of `MarkForCoarsen_ElementsByLuaCallback` (lines 746-758). -/
def coarsenByLuaCallback (dom : Domain) (time : number) (callback : LuaCallback)
    (st : BridgeState) (e : GeometricObject) : BridgeState :=
  if !dom.has_children e then
    let pos := dom.center e
    let coarsen := callback pos.1 pos.2.1 pos.2.2 (dom.get_level e : number)
      (dom.get_subset_index e : number) time
    if coarsen ≠ 0 then st.mark e RefinementMark.RM_COARSEN else st
  else st

/-- The function `MarkForCoarsen_ElementsByLuaCallback` (lines 719-760). -/
def MarkForCoarsen_ElementsByLuaCallback (dom : Domain) (refiner : RefinerHandle)
    (time : number) (callback : LuaCallback) (st : BridgeState) : MarkOutcome :=
  if !refiner.coarsening_supported then (st, none)
  else (dom.elements.foldl (coarsenByLuaCallback dom time callback) st, none)

/-- A domain with the grid at address 1 and the single element 0, on level 0 and without
children. -/
def exampleLuaDomain : Domain :=
  { is_adaptive := true
    grid := 1
    elements := [0]
    get_level := fun _ => 0
    has_children := fun _ => false
    center := fun _ => (0, 0, 0)
    get_subset_index := fun _ => 0 }

/-- A refiner that was created for the grid at address 2 and supports coarsening. -/
def exampleForeignRefiner : RefinerHandle :=
  { get_associated_grid := some 2, coarsening_supported := true }

/-- A Lua callback that returns 1 for every element. -/
def exampleCallback : LuaCallback := fun _ _ _ _ _ _ => 1

/-- A state in which nothing was marked and no option was enabled. -/
def emptyBridgeState : BridgeState := { marks := [], enabledOptions := [] }

/-! ## String streams (the view of file_io_ugx_impl.hpp on `std::stringstream`) -/

/-- A maximal piece of text that `operator>>` reads in one go or rejects: a literal that
denotes the number `x`, or anything that does not start with a numeric literal. -/
inductive Token where
  | number (x : number)
  | other
deriving DecidableEq

/-- A piece of the text of a stream: a token, or one white space character. The text
"1.5 abc" is `[text (number 1.5), blank, text other]`, the text "1.5abc", of which
`operator>>` reads 1.5 and leaves "abc", is `[text (number 1.5), text other]`. -/
inductive Piece where
  | text (t : Token)
  | blank
deriving DecidableEq

/-- A `std::stringstream`: the text not yet read, `eofbit` and `failbit`. -/
structure StringStream where
  rest : List Piece
  eofbit : Bool
  failbit : Bool
deriving DecidableEq

/-- The constructor `stringstream ss(str, ios_base::in)`. -/
def StringStream.ofString (str : List Piece) : StringStream :=
  { rest := str, eofbit := false, failbit := false }

/-- The call `ss.eof()`. -/
def StringStream.eof (ss : StringStream) : Bool := ss.eofbit

/-- The call `ss.fail()`. -/
def StringStream.fail (ss : StringStream) : Bool := ss.failbit

/-- White space is skipped before a value is read. -/
def skipBlanks : List Piece → List Piece
  | Piece.blank :: r => skipBlanks r
  | r => r

/-- The call `ss >> x` for a `number x`: the stream afterwards and the value stored. If the
stream is not good nothing is read and `failbit` is set. If only white space is left,
`eofbit` and `failbit` are set. A numeric literal is read and, if the text ends with it,
`eofbit` is set. Anything else sets `failbit`. A failed extraction stores 0. -/
def StringStream.extractNumber (ss : StringStream) : StringStream × number :=
  if ss.eofbit || ss.failbit then ({ ss with failbit := true }, 0)
  else
    match skipBlanks ss.rest with
    | [] => ({ rest := [], eofbit := true, failbit := true }, 0)
    | Piece.text (Token.number x) :: r => ({ rest := r, eofbit := r.isEmpty, failbit := false }, x)
    | r => ({ rest := r, eofbit := false, failbit := true }, 0)

/-- The value of a numeric literal as an `int`: the literal has to denote an integer in the
range of `int`. (Of a literal such as "2.5" the library reads the digits before the point;
this is outside the texts considered, and `failbit` is set.) -/
def asInt (x : number) : Option Int :=
  if x.den = 1 ∧ -(2 ^ 31) ≤ x.num ∧ x.num < 2 ^ 31 then some x.num else none

/-- The call `ss >> n` for an `int n`. -/
def StringStream.extractInt (ss : StringStream) : StringStream × Int :=
  if ss.eofbit || ss.failbit then ({ ss with failbit := true }, 0)
  else
    match skipBlanks ss.rest with
    | [] => ({ rest := [], eofbit := true, failbit := true }, 0)
    | Piece.text (Token.number x) :: r =>
      match asInt x with
      | some n => ({ rest := r, eofbit := r.isEmpty, failbit := false }, n)
      | none => ({ rest := r, eofbit := r.isEmpty, failbit := true }, 0)
    | r => ({ rest := r, eofbit := false, failbit := true }, 0)

/-- The loop `for(i = 0; i < n; ++i) ss >> v[i];`: the stream afterwards and the `n` values
stored. -/
def StringStream.extractNumbers : Nat → StringStream → StringStream × List number
  | 0, ss => (ss, [])
  | n + 1, ss =>
    let r := ss.extractNumber
    let rs := StringStream.extractNumbers n r.1
    (rs.1, r.2 :: rs.2)

/-- The loop `while(!ss.eof()){ read; if(ss.fail()) break; store }` of the readers: `read`
extracts the values of one record, `store` creates the object. The loop is run with a
bound on the number of iterations; `none` means that the bound was reached. -/
def readLoop {α σ : Type} (read : StringStream → StringStream × α) (store : σ → α → σ) :
    Nat → StringStream → σ → Option σ
  | 0, _, _ => none
  | fuel + 1, ss, st =>
    if ss.eof then some st
    else
      let r := read ss
      if r.1.fail then some st
      else readLoop read store fuel r.1 (store st r.2)

/-- The tokens of a text, in order. -/
def tokens : List Piece → List Token
  | [] => []
  | Piece.text t :: r => t :: tokens r
  | Piece.blank :: r => tokens r

/-- The text that `ss << t1 << " " << t2 << " " ...` writes: every token is followed by one
blank. -/
def spaced : List Token → List Piece
  | [] => []
  | t :: ts => Piece.text t :: Piece.blank :: spaced ts

/-! ## The grid as the reader and the writer of UGX files see it -/

/-- The classes of the elements that the reader creates. -/
inductive ObjectType where
  | Vertex
  | HangingVertex
  | Edge
  | ConstrainingEdge
  | ConstrainedEdge
  | Triangle
  | ConstrainingTriangle
  | ConstrainedTriangle
  | Quadrilateral
  | ConstrainingQuadrilateral
  | ConstrainedQuadrilateral
deriving DecidableEq, Repr

/-- A pointer to a constraining object: an edge or a face of the grid, addressed by its
position among the edges resp. faces of the grid. -/
inductive ConstrainingObject where
  | edge (e : Nat)
  | face (f : Nat)
deriving DecidableEq, Repr

/-- The constraint relations of the elements of one dimension: for a constrained element
the reference set by `set_parent` resp. `set_constraining_object` (`none` if unset), and for
a constraining edge or face the elements passed to `add_constrained_object`, in the order
of the calls. -/
structure ConstraintLinks where
  constraining : Nat → Option ConstrainingObject
  constrained : ConstrainingObject → List Nat

/-- The content of a `Grid`: the classes of its vertices, edges and faces, each list in the
order of creation (an element is addressed by its position in its list), the number of
volumes, the position attachment, the local coordinates of the hanging vertices, the
constraint relations, and the options. -/
structure GridData where
  vertices : List ObjectType
  edges : List ObjectType
  faces : List ObjectType
  num_volumes : Nat
  aaPos : Nat → List number
  local_coordinates : Nat → number × number
  vertexLinks : ConstraintLinks
  edgeLinks : ConstraintLinks
  faceLinks : ConstraintLinks
  options : Nat

/-- The elements of class `type` in a list of elements, in the order of
`[grid.begin<type>(), grid.end<type>())`, that is in the order of creation. -/
def objectsOfType (objects : List ObjectType) (type : ObjectType) : List Nat :=
  (List.range objects.length).filter (fun i => decide (objects[i]? = some type))

/-- A child of a grid node of the document. `coords` is the value `atoi` gives for the
attribute "coords" (`none` if the attribute is missing), `value` the text of the node. The
last three fields say what the readers of the edge, face and volume blocks make of the
node: the value they return, the number of elements they create, and for constrained
elements the pair (type, index) they record for each. -/
structure XmlNode where
  name : String
  coords : Option Int
  value : List Piece
  elementsRead : Bool
  numElements : Nat
  constrainingObjs : List (Int × Int)

/-- The state of `GridReaderUGX::get_grid`: the grid, the vectors `vertices`, `edges`,
`faces` and `volumes` of the entry, and the four vectors of recorded pairs. -/
structure ReaderState where
  grid : GridData
  vertices : List Nat
  edges : List Nat
  faces : List Nat
  volumes : List Nat
  constrainingObjsVRT : List (Int × Int)
  constrainingObjsEDGE : List (Int × Int)
  constrainingObjsTRI : List (Int × Int)
  constrainingObjsQUAD : List (Int × Int)

/-- The statements `vrt = *grid.create<Vertex>(); vrtsOut.push_back(vrt); aaPos[vrt] = v;`
(lines 550-554 and 585-589). -/
def createVertex (st : ReaderState) (v : List number) : ReaderState :=
  let vrt := st.grid.vertices.length
  { st with
    grid := { st.grid with
      vertices := st.grid.vertices ++ [ObjectType.Vertex]
      aaPos := Function.update st.grid.aaPos vrt v }
    vertices := st.vertices ++ [vrt] }

/-- The body of the loop of lines 564-579: `min(numSrcCoords, numDestCoords)` coordinates
are read, the other entries of the tuple are read into `dummy`, and the coordinates that
are missing are set to 0. -/
def readConvertedTuple (numSrcCoords numDestCoords : Nat) (ss : StringStream) :
    StringStream × List number :=
  let minNumCoords := min numSrcCoords numDestCoords
  let r := StringStream.extractNumbers minNumCoords ss
  let rdummy := StringStream.extractNumbers (numSrcCoords - minNumCoords) r.1
  (rdummy.1, r.2 ++ List.replicate (numDestCoords - minNumCoords) 0)

/-- The function `GridReaderUGX::create_vertices` (lines 512-594) for a position type with
`numDestCoords` coordinates: the value returned and the state afterwards. `none` stands
for a failed `assert(numDestCoords > 0)` (and for a loop that does not end). -/
def GridReaderUGX.create_vertices (numDestCoords : Nat) (st : ReaderState)
    (vrtNode : XmlNode) : Option (Bool × ReaderState) :=
  let numSrcCoords : Int := match vrtNode.coords with
    | some n => n
    | none => -1
  if numDestCoords = 0 then none
  else if numSrcCoords < 1 then some (false, st)
  else
    let ss := StringStream.ofString vrtNode.value
    let fuel := vrtNode.value.length + 1
    if numSrcCoords = (numDestCoords : Int) then
      (readLoop (StringStream.extractNumbers numSrcCoords.toNat) createVertex fuel ss st).map
        (fun st1 => (true, st1))
    else
      (readLoop (readConvertedTuple numSrcCoords.toNat numDestCoords) createVertex
        fuel ss st).map (fun st1 => (true, st1))

/-- The values read for one hanging vertex by `create_constrained_vertices`. -/
structure HangingVertexRecord where
  v : List number
  conObjType : Int
  conObjIndex : Int
  localCoords : number × number

/-- The body of the loop of `GridReaderUGX::create_constrained_vertices` up to the test of
`ss.fail()` (lines 629-662). `uninitialized` is the value of the variable `conObjIndex`
where nothing is read into it. -/
def readConstrainedVertex (numSrcCoords numDestCoords : Nat) (uninitialized : Int)
    (ss : StringStream) : StringStream × HangingVertexRecord :=
  let r := readConvertedTuple numSrcCoords numDestCoords ss
  let rtype := r.1.extractInt
  let conObjType := rtype.2
  let rindex := if conObjType ≠ -1 then rtype.1.extractInt else (rtype.1, uninitialized)
  let rlocal : StringStream × (number × number) :=
    if conObjType = 1 then
      let rx := rindex.1.extractNumber
      (rx.1, (rx.2, 0))
    else if conObjType = 2 then
      let rx := rindex.1.extractNumber
      let ry := rx.1.extractNumber
      (ry.1, (rx.2, ry.2))
    else (rindex.1, (0, 0))
  (rlocal.1, { v := r.2, conObjType := conObjType, conObjIndex := rindex.2,
               localCoords := rlocal.2 })

/-- The statements of lines 668-679: the hanging vertex is created, its position and local
coordinates are set and the pair `(conObjType, conObjIndex)` is recorded. -/
def createHangingVertex (st : ReaderState) (r : HangingVertexRecord) : ReaderState :=
  let vrt := st.grid.vertices.length
  { st with
    grid := { st.grid with
      vertices := st.grid.vertices ++ [ObjectType.HangingVertex]
      aaPos := Function.update st.grid.aaPos vrt r.v
      local_coordinates := Function.update st.grid.local_coordinates vrt r.localCoords }
    vertices := st.vertices ++ [vrt]
    constrainingObjsVRT := st.constrainingObjsVRT ++ [(r.conObjType, r.conObjIndex)] }

/-- The function `GridReaderUGX::create_constrained_vertices` (lines 596-683). -/
def GridReaderUGX.create_constrained_vertices (numDestCoords : Nat) (uninitialized : Int)
    (st : ReaderState) (vrtNode : XmlNode) : Option (Bool × ReaderState) :=
  let numSrcCoords : Int := match vrtNode.coords with
    | some n => n
    | none => -1
  if numDestCoords = 0 then none
  else if numSrcCoords < 1 then some (false, st)
  else
    let ss := StringStream.ofString vrtNode.value
    let fuel := vrtNode.value.length + 1
    (readLoop (readConstrainedVertex numSrcCoords.toNat numDestCoords uninitialized)
      createHangingVertex fuel ss st).map (fun st1 => (true, st1))

/-- The node that the writers return: name, text and the attribute "coords". If something
was written the last character, a blank, is erased. -/
def writtenNode (name : String) (numCoords : Nat) (str : List Piece) : XmlNode :=
  { name := name
    coords := some (numCoords : Int)
    value := if str.length > 0 then str.dropLast else []
    elementsRead := true
    numElements := 0
    constrainingObjs := [] }

/-- The text that `ss << x` writes for a `number x`. For a finite value it is a numeric
literal, and `printed x` is the number that this literal denotes. For an infinity or a NaN
it is "inf", "-inf", "nan" or "-nan", none of which `operator>>` reads as a number. -/
def writeNumber (printed : number → number) : Number → Token
  | Number.finite x => Token.number (printed x)
  | Number.inf _ => Token.other
  | Number.nan => Token.other

/-- The statement `ss << aaPos[*iter][i] << " "` for all `i < numCoords` (lines 132-133 and
177-178). -/
def writeCoords (printed : number → number) (numCoords : Nat) (pos : List Number) :
    List Token :=
  (List.range numCoords).map (fun i => writeNumber printed (pos.getD i (Number.finite 0)))

/-- The function `GridWriterUGX::create_vertex_node` (lines 116-157) for the vertices
`vrts`, the position attachment `aaPos` and a position type with `numCoords`
coordinates. -/
def GridWriterUGX.create_vertex_node (printed : number → number) (numCoords : Nat)
    (vrts : List Nat) (aaPos : Nat → List Number) : XmlNode :=
  writtenNode "vertices" numCoords
    (spaced (vrts.flatMap (fun vrt => writeCoords printed numCoords (aaPos vrt))))

/-- What the writer reads of a `HangingVertex`: the value of `get_parent()`, cast to an
edge or to a face (`none` if it is neither), `get_local_coordinate_1()` and
`get_local_coordinate_2()`. -/
structure HangingVertex where
  get_parent : Option ConstrainingObject
  get_local_coordinate_1 : Number
  get_local_coordinate_2 : Number

/-- What is written for one hanging vertex after its coordinates (lines 186-194). -/
def writeConstrainingObject (printed : number → number) (aaIndEDGE aaIndFACE : Nat → Int)
    (hv : HangingVertex) : List Token :=
  match hv.get_parent with
  | some (ConstrainingObject.edge ce) =>
    [Token.number 1, Token.number (aaIndEDGE ce),
     writeNumber printed hv.get_local_coordinate_1]
  | some (ConstrainingObject.face cf) =>
    [Token.number 2, Token.number (aaIndFACE cf),
     writeNumber printed hv.get_local_coordinate_1,
     writeNumber printed hv.get_local_coordinate_2]
  | none => [Token.number (-1)]

/-- The function `GridWriterUGX::create_constrained_vertex_node` (lines 159-218) for the
hanging vertices `vrts`, `hanging vrt` being what the writer reads of the vertex `vrt`. -/
def GridWriterUGX.create_constrained_vertex_node (printed : number → number)
    (numCoords : Nat) (vrts : List Nat) (hanging : Nat → HangingVertex)
    (aaPos : Nat → List Number) (aaIndEDGE aaIndFACE : Nat → Int) : XmlNode :=
  writtenNode "constrained_vertices" numCoords
    (spaced (vrts.flatMap (fun vrt =>
      writeCoords printed numCoords (aaPos vrt) ++
        writeConstrainingObject printed aaIndEDGE aaIndFACE (hanging vrt))))

/-- Modelled from the spec: the readers of the edge blocks (`create_edges`,
`create_constraining_edges`) are defined in file_io_ugx.cpp, which is not among the
sources. The model has them create `numElements` edges of the given class, append them to
`edges`, and return `elementsRead`. -/
def createEdges (type : ObjectType) (st : ReaderState) (node : XmlNode) : Bool × ReaderState :=
  (node.elementsRead,
    { st with
      grid := { st.grid with edges := st.grid.edges ++ List.replicate node.numElements type }
      edges := st.edges ++ List.range' st.grid.edges.length node.numElements })

/-- Modelled from the spec: the readers of the face blocks (`create_triangles`,
`create_constraining_triangles`, `create_quadrilaterals`,
`create_constraining_quadrilaterals`), as `createEdges`. -/
def createFaces (type : ObjectType) (st : ReaderState) (node : XmlNode) : Bool × ReaderState :=
  (node.elementsRead,
    { st with
      grid := { st.grid with faces := st.grid.faces ++ List.replicate node.numElements type }
      faces := st.faces ++ List.range' st.grid.faces.length node.numElements })

/-- Modelled from the spec: the readers of the volume blocks (`create_tetrahedrons`,
`create_hexahedrons`, `create_prisms`, `create_pyramids`), as `createEdges`. -/
def createVolumes (st : ReaderState) (node : XmlNode) : Bool × ReaderState :=
  (node.elementsRead,
    { st with
      grid := { st.grid with num_volumes := st.grid.num_volumes + node.numElements }
      volumes := st.volumes ++ List.range' st.grid.num_volumes node.numElements })

/-- Modelled from the spec: the reader `create_constrained_edges` of file_io_ugx.cpp. As
`create_constrained_vertices` does for vertices, it creates one constrained edge for every
pair of the node and records the pair. -/
def createConstrainedEdges (st : ReaderState) (node : XmlNode) : Bool × ReaderState :=
  (node.elementsRead,
    { st with
      grid := { st.grid with
        edges := st.grid.edges ++
          List.replicate node.constrainingObjs.length ObjectType.ConstrainedEdge }
      edges := st.edges ++ List.range' st.grid.edges.length node.constrainingObjs.length
      constrainingObjsEDGE := st.constrainingObjsEDGE ++ node.constrainingObjs })

/-- Modelled from the spec: the reader `create_constrained_triangles` of file_io_ugx.cpp,
as `createConstrainedEdges`. -/
def createConstrainedTriangles (st : ReaderState) (node : XmlNode) : Bool × ReaderState :=
  (node.elementsRead,
    { st with
      grid := { st.grid with
        faces := st.grid.faces ++
          List.replicate node.constrainingObjs.length ObjectType.ConstrainedTriangle }
      faces := st.faces ++ List.range' st.grid.faces.length node.constrainingObjs.length
      constrainingObjsTRI := st.constrainingObjsTRI ++ node.constrainingObjs })

/-- Modelled from the spec: the reader `create_constrained_quadrilaterals` of
file_io_ugx.cpp, as `createConstrainedEdges`. -/
def createConstrainedQuadrilaterals (st : ReaderState) (node : XmlNode) :
    Bool × ReaderState :=
  (node.elementsRead,
    { st with
      grid := { st.grid with
        faces := st.grid.faces ++
          List.replicate node.constrainingObjs.length ObjectType.ConstrainedQuadrilateral }
      faces := st.faces ++ List.range' st.grid.faces.length node.constrainingObjs.length
      constrainingObjsQUAD := st.constrainingObjsQUAD ++ node.constrainingObjs })

/-- The body of the loop over the children of the grid node (lines 272-307): the value of
`bSuccess` and the state afterwards. -/
def readNode (numDestCoords : Nat) (uninitialized : Int) (st : ReaderState)
    (curNode : XmlNode) : Option (Bool × ReaderState) :=
  let name := curNode.name
  if name = "vertices" then GridReaderUGX.create_vertices numDestCoords st curNode
  else if name = "constrained_vertices" then
    GridReaderUGX.create_constrained_vertices numDestCoords uninitialized st curNode
  else if name = "edges" then some (createEdges ObjectType.Edge st curNode)
  else if name = "constraining_edges" then
    some (createEdges ObjectType.ConstrainingEdge st curNode)
  else if name = "constrained_edges" then some (createConstrainedEdges st curNode)
  else if name = "triangles" then some (createFaces ObjectType.Triangle st curNode)
  else if name = "constraining_triangles" then
    some (createFaces ObjectType.ConstrainingTriangle st curNode)
  else if name = "constrained_triangles" then some (createConstrainedTriangles st curNode)
  else if name = "quadrilaterals" then some (createFaces ObjectType.Quadrilateral st curNode)
  else if name = "constraining_quadrilaterals" then
    some (createFaces ObjectType.ConstrainingQuadrilateral st curNode)
  else if name = "constrained_quadrilaterals" then
    some (createConstrainedQuadrilaterals st curNode)
  else if name = "tetrahedrons" then some (createVolumes st curNode)
  else if name = "hexahedrons" then some (createVolumes st curNode)
  else if name = "prisms" then some (createVolumes st curNode)
  else if name = "pyramids" then some (createVolumes st curNode)
  else some (true, st)

/-- The loop over the children of the grid node (lines 270-313): it ends with `false` at
the first child for which `bSuccess` is false. -/
def readNodes (numDestCoords : Nat) (uninitialized : Int) :
    List XmlNode → ReaderState → Option (Bool × ReaderState)
  | [], st => some (true, st)
  | curNode :: nodes, st =>
    match readNode numDestCoords uninitialized st curNode with
    | none => none
    | some (false, st1) => some (false, st1)
    | some (true, st1) => readNodes numDestCoords uninitialized nodes st1

/-- The test of the index and the cast `dynamic_cast<ConstrainingEdge*>(edges[index])`
(lines 331-334): the constraining edge with that index, if there is one. -/
def constrainingEdge (st : ReaderState) (index : Int) : Option ConstrainingObject :=
  if 0 ≤ index ∧ index < toInt st.edges.length then
    match st.edges[index.toNat]? with
    | some e =>
      if st.grid.edges[e]? = some ObjectType.ConstrainingEdge then
        some (ConstrainingObject.edge e)
      else none
    | none => none
  else none

/-- The test of the index and the cast `dynamic_cast<ConstrainingFace*>(faces[index])`
(lines 350-353): the constraining face with that index, if there is one. -/
def constrainingFace (st : ReaderState) (index : Int) : Option ConstrainingObject :=
  if 0 ≤ index ∧ index < toInt st.faces.length then
    match st.faces[index.toNat]? with
    | some f =>
      if st.grid.faces[f]? = some ObjectType.ConstrainingTriangle ∨
          st.grid.faces[f]? = some ObjectType.ConstrainingQuadrilateral then
        some (ConstrainingObject.face f)
      else none
    | none => none
  else none

/-- The switch of lines 327-370 for a constrained vertex, and of lines 384-426 for a
constrained edge: the constraining object that the pair denotes. `none` stands for the
branches that only write to the log. -/
def constrainingObjectOfPair (st : ReaderState) (pair : Int × Int) :
    Option ConstrainingObject :=
  if pair.1 = 1 then constrainingEdge st pair.2
  else if pair.1 = 2 then constrainingFace st pair.2
  else none

/-- The switch of lines 440-464 and 478-502 for a constrained face. -/
def constrainingFaceOfPair (st : ReaderState) (pair : Int × Int) :
    Option ConstrainingObject :=
  if pair.1 = 2 then constrainingFace st pair.2
  else none

/-- One iteration of a loop that resolves the recorded pairs: if the pair denotes a
constraining object, the calls `c->set_parent(p)` resp. `c->set_constraining_object(p)` and
`p->add_constrained_object(c)`. -/
def linkConstrained (resolve : Int × Int → Option ConstrainingObject)
    (links : ConstraintLinks) (it : (Int × Int) × Nat) : ConstraintLinks :=
  match resolve it.1 with
  | some p =>
    { constraining := Function.update links.constraining it.2 (some p)
      constrained := Function.update links.constrained p (links.constrained p ++ [it.2]) }
  | none => links

/-- A loop that resolves the recorded pairs: the pairs and the constrained elements of the
grid are run through side by side. `none` stands for an iterator that is moved behind the
last constrained element. -/
def resolveConstrained (resolve : Int × Int → Option ConstrainingObject)
    (pairs : List (Int × Int)) (elems : List Nat) (links : ConstraintLinks) :
    Option ConstraintLinks :=
  if pairs.length ≤ elems.length then
    some ((pairs.zip elems).foldl (linkConstrained resolve) links)
  else none

/-- Lines 315-504 of `get_grid`: the four loops that resolve the constrained vertices,
edges, triangles and quadrilaterals. -/
def resolveAll (st : ReaderState) : Option GridData :=
  (resolveConstrained (constrainingObjectOfPair st) st.constrainingObjsVRT
    (objectsOfType st.grid.vertices ObjectType.HangingVertex) st.grid.vertexLinks).bind
  fun vertexLinks =>
  (resolveConstrained (constrainingObjectOfPair st) st.constrainingObjsEDGE
    (objectsOfType st.grid.edges ObjectType.ConstrainedEdge) st.grid.edgeLinks).bind
  fun edgeLinks =>
  (resolveConstrained (constrainingFaceOfPair st) st.constrainingObjsTRI
    (objectsOfType st.grid.faces ObjectType.ConstrainedTriangle) st.grid.faceLinks).bind
  fun faceLinks1 =>
  (resolveConstrained (constrainingFaceOfPair st) st.constrainingObjsQUAD
    (objectsOfType st.grid.faces ObjectType.ConstrainedQuadrilateral) faceLinks1).map
  fun faceLinks2 =>
    { st.grid with vertexLinks := vertexLinks, edgeLinks := edgeLinks, faceLinks := faceLinks2 }

/-- The state of a reader that has not yet read an entry into `gridOut`. -/
def ReaderState.start (gridOut : GridData) : ReaderState :=
  { grid := gridOut, vertices := [], edges := [], faces := [], volumes := []
    constrainingObjsVRT := [], constrainingObjsEDGE := [], constrainingObjsTRI := []
    constrainingObjsQUAD := [] }

/-- The function `GridReaderUGX::get_grid` (lines 224-510) on a reader that has parsed a
file, `m_entries` being the children of its grid nodes, and that reads the entry `index`
for the first time: the value returned and the state afterwards. The vertices have
positions with `numDestCoords` coordinates. -/
def GridReaderUGX.get_grid (numDestCoords : Nat) (uninitialized : Int)
    (m_entries : List (List XmlNode)) (gridOut : GridData) (index : Nat) :
    Option (Bool × ReaderState) :=
  match m_entries[index]? with
  | none => some (false, ReaderState.start gridOut)
  | some nodes =>
    let gridopts := gridOut.options
    let st0 := ReaderState.start { gridOut with options := 0 }
    match readNodes numDestCoords uninitialized nodes st0 with
    | none => none
    | some (false, st1) => some (false, { st1 with grid := { st1.grid with options := gridopts } })
    | some (true, st1) =>
      match resolveAll st1 with
      | none => none
      | some grid => some (true, { st1 with grid := { grid with options := gridopts } })

/-- The function `LoadGridFromUGX` (lines 26-47): the value returned and the grid
afterwards. `file` is what `parse_file` made of the file, `none` if it failed. The value
that `get_grid` returns is not looked at. The subset handler, which is read last, is not
part of the model. -/
def LoadGridFromUGX (numDestCoords : Nat) (uninitialized : Int)
    (file : Option (List (List XmlNode))) (grid : GridData) : Option (Bool × GridData) :=
  match file with
  | none => some (false, grid)
  | some m_entries =>
    if m_entries.length < 1 then some (false, grid)
    else
      match GridReaderUGX.get_grid numDestCoords uninitialized m_entries grid 0 with
      | none => none
      | some r => some (true, r.2.grid)

/-! ## Notions used to state the properties of the reader -/

/-- The numbers at the start of a sequence of tokens, up to the first token that is not a
numeric literal. -/
def leadingNumbers : List Token → List number
  | Token.number x :: ts => x :: leadingNumbers ts
  | _ => []

/-- The complete tuples of `s` numbers in a sequence of numbers: tuple `j` consists of the
numbers `j * s, ..., j * s + s - 1`. -/
def completeTuples (s : Nat) (xs : List number) : List (List number) :=
  (List.range (xs.length / s)).map (fun j => (xs.drop (j * s)).take s)

/-- A tuple cut or filled with zeros to `d` coordinates. -/
def convertTuple (d : Nat) (t : List number) : List number :=
  t.take d ++ List.replicate (d - t.length) 0

/-- The stream is good, or it has read the last token of its text: `failbit` is not set,
and `eofbit` is set only if no text is left. -/
def StreamOk (ss : StringStream) : Prop :=
  ss.failbit = false ∧ (ss.eofbit = true → ss.rest = [])

/-- A sequence of tokens that a number cannot be read from: it is empty or starts with a
token that is not a numeric literal. -/
def NoNumberAhead (ts : List Token) : Prop :=
  ts = [] ∨ ∃ tl, ts = Token.other :: tl

/-! ## Concrete inputs of the reader and the writer -/

/-- No constraint relations. -/
def ConstraintLinks.empty : ConstraintLinks :=
  { constraining := fun _ => none, constrained := fun _ => [] }

/-- A grid without elements. -/
def emptyGridData : GridData :=
  { vertices := [], edges := [], faces := [], num_volumes := 0
    aaPos := fun _ => [], local_coordinates := fun _ => (0, 0)
    vertexLinks := ConstraintLinks.empty, edgeLinks := ConstraintLinks.empty
    faceLinks := ConstraintLinks.empty, options := 0 }

/-- A node with the given name, attribute "coords" and text, and no elements of other
blocks. -/
def textNode (name : String) (coords : Option Int) (value : List Piece) : XmlNode :=
  { name := name, coords := coords, value := value
    elementsRead := true, numElements := 0, constrainingObjs := [] }

/-- The text "1 2 3 4 5 6". -/
def exampleText : List Piece :=
  [Piece.text (Token.number 1), Piece.blank, Piece.text (Token.number 2), Piece.blank,
   Piece.text (Token.number 3), Piece.blank, Piece.text (Token.number 4), Piece.blank,
   Piece.text (Token.number 5), Piece.blank, Piece.text (Token.number 6)]

/-- The text "1 2 3 x": one complete tuple of three numbers and a token that is not a
number. -/
def malformedText : List Piece :=
  [Piece.text (Token.number 1), Piece.blank, Piece.text (Token.number 2), Piece.blank,
   Piece.text (Token.number 3), Piece.blank, Piece.text Token.other]

/-- The number denoted by the text that `operator<<` writes with the precision 6 of a new
stream, for the numbers `x` with `1/10 <= |x| < 1` and for the integers of at most six
digits: `x` rounded to six decimals. -/
def sixDecimals (x : number) : number := (⌊x * 1000000 + 1 / 2⌋ : Int) / 1000000

/-- A grid to be written: the vertices 0 and 1 at (0, 0) and (1, 0), the constraining edge
0, and the hanging vertices 2 and 3 at (1/2, 0) and (1/3, 0), which have the edge as their
parent and the local coordinates 1/2 and 1/3. -/
def exampleWriterGrid : GridData :=
  { vertices := [ObjectType.Vertex, ObjectType.Vertex, ObjectType.HangingVertex,
      ObjectType.HangingVertex]
    edges := [ObjectType.ConstrainingEdge]
    faces := []
    num_volumes := 0
    aaPos := fun vrt =>
      if vrt = 0 then [0, 0] else if vrt = 1 then [1, 0]
      else if vrt = 2 then [1 / 2, 0] else [1 / 3, 0]
    local_coordinates := fun vrt =>
      if vrt = 2 then (1 / 2, 0) else if vrt = 3 then (1 / 3, 0) else (0, 0)
    vertexLinks :=
      { constraining := fun vrt =>
          if vrt = 2 ∨ vrt = 3 then some (ConstrainingObject.edge 0) else none
        constrained := fun p => if p = ConstrainingObject.edge 0 then [2, 3] else [] }
    edgeLinks := ConstraintLinks.empty
    faceLinks := ConstraintLinks.empty
    options := 0 }

/-- The position attachment of a grid, all of whose values are finite, as the writer reads
it. -/
def GridData.writtenPos (grid : GridData) : Nat → List Number :=
  fun vrt => (grid.aaPos vrt).map Number.finite

/-- The hanging vertices of a grid, all of whose local coordinates are finite, as the
writer reads them. -/
def GridData.writtenHanging (grid : GridData) : Nat → HangingVertex :=
  fun vrt =>
    { get_parent := grid.vertexLinks.constraining vrt
      get_local_coordinate_1 := Number.finite (grid.local_coordinates vrt).1
      get_local_coordinate_2 := Number.finite (grid.local_coordinates vrt).2 }

/-- A position attachment with a value that is not finite: the vertex 0 is at (1, NaN). -/
def nanPositions : Nat → List Number :=
  fun _ => [Number.finite 1, Number.nan]

/-- What `create_constrained_vertices` reads of the record that
`create_constrained_vertex_node` writes for a hanging vertex with the parent `parent`, the
finite position `pos` and the finite local coordinates `lc`: the position, cut or filled to
`numDestCoords` coordinates, the type code, the index and the local coordinates, every
number as its printed text denotes it. -/
def writtenRecord (printed : number → number) (numDestCoords : Nat) (uninitialized : Int)
    (aaIndEDGE aaIndFACE : Nat → Int) (parent : Option ConstrainingObject)
    (pos : List number) (lc : number × number) : HangingVertexRecord :=
  match parent with
  | some (ConstrainingObject.edge ce) =>
    { v := convertTuple numDestCoords (pos.map printed)
      conObjType := 1
      conObjIndex := aaIndEDGE ce
      localCoords := (printed lc.1, 0) }
  | some (ConstrainingObject.face cf) =>
    { v := convertTuple numDestCoords (pos.map printed)
      conObjType := 2
      conObjIndex := aaIndFACE cf
      localCoords := (printed lc.1, printed lc.2) }
  | none =>
    { v := convertTuple numDestCoords (pos.map printed)
      conObjType := -1
      conObjIndex := uninitialized
      localCoords := (0, 0) }

/-- The values that the writer writes for a hanging vertex are finite: its position
`aaPosVrt` consists of the finite values `pos`, and its local coordinates, as far as they
are written (the first one for an edge or a face as parent, the second one for a face),
are the finite values `lc`. -/
def WrittenFinite (aaPosVrt : List Number) (hv : HangingVertex) (pos : List number)
    (lc : number × number) : Prop :=
  aaPosVrt = pos.map Number.finite ∧
  (hv.get_parent ≠ none → hv.get_local_coordinate_1 = Number.finite lc.1) ∧
  (∀ cf, hv.get_parent = some (ConstrainingObject.face cf) →
    hv.get_local_coordinate_2 = Number.finite lc.2)

/-- The values of an index attachment are of type `int`. -/
def IsIntAttachment (aaInd : Nat → Int) : Prop :=
  ∀ e, -(2 ^ 31) ≤ aaInd e ∧ aaInd e < 2 ^ 31

/-- An index attachment with the index 0 on every element. -/
def exampleIndices : Nat → Int := fun _ => 0

/-- The `coords` attribute is missing or less than 1. -/
def coordsMissing (node : XmlNode) : Bool :=
  match node.coords with
  | some n => decide (n < 1)
  | none => true

/-- The reader that `get_grid` calls for the node returns false: a block of vertices or
constrained vertices without a `coords` attribute of at least 1, or a block of edges, faces
or volumes whose reader returns false. -/
def blockReadFails (node : XmlNode) : Bool :=
  if node.name = "vertices" then coordsMissing node
  else if node.name = "constrained_vertices" then coordsMissing node
  else if node.name = "edges" ∨ node.name = "constraining_edges" ∨
      node.name = "constrained_edges" ∨ node.name = "triangles" ∨
      node.name = "constraining_triangles" ∨ node.name = "constrained_triangles" ∨
      node.name = "quadrilaterals" ∨ node.name = "constraining_quadrilaterals" ∨
      node.name = "constrained_quadrilaterals" ∨ node.name = "tetrahedrons" ∨
      node.name = "hexahedrons" ∨ node.name = "prisms" ∨ node.name = "pyramids" then
    !node.elementsRead
  else false

/-- The grid holds no constrained objects: no hanging vertex, no constrained edge, triangle
or quadrilateral, no reference to a constraining object, and no constrained object in the
list of an edge or a face. -/
def NoConstrainedObjects (grid : GridData) : Prop :=
  ObjectType.HangingVertex ∉ grid.vertices ∧
  ObjectType.ConstrainedEdge ∉ grid.edges ∧
  ObjectType.ConstrainedTriangle ∉ grid.faces ∧
  ObjectType.ConstrainedQuadrilateral ∉ grid.faces ∧
  (∀ c, grid.vertexLinks.constraining c = none) ∧
  (∀ c, grid.edgeLinks.constraining c = none) ∧
  (∀ c, grid.faceLinks.constraining c = none) ∧
  (∀ p, grid.vertexLinks.constrained p = []) ∧
  (∀ p, grid.edgeLinks.constrained p = []) ∧
  (∀ p, grid.faceLinks.constrained p = [])

/-- The state of the reader while it reads the children of a grid node into a grid that was
`grid0`: elements were appended only, one pair was recorded for every hanging vertex,
constrained edge, constrained triangle and constrained quadrilateral created, and the
constraint relations are as they were. -/
def ReaderInv (grid0 : GridData) (st : ReaderState) : Prop :=
  (∃ nv, st.grid.vertices = grid0.vertices ++ nv ∧
    st.constrainingObjsVRT.length = nv.count ObjectType.HangingVertex) ∧
  (∃ ne, st.grid.edges = grid0.edges ++ ne ∧
    st.constrainingObjsEDGE.length = ne.count ObjectType.ConstrainedEdge) ∧
  (∃ nf, st.grid.faces = grid0.faces ++ nf ∧
    st.constrainingObjsTRI.length = nf.count ObjectType.ConstrainedTriangle ∧
    st.constrainingObjsQUAD.length = nf.count ObjectType.ConstrainedQuadrilateral) ∧
  st.grid.vertexLinks = grid0.vertexLinks ∧
  st.grid.edgeLinks = grid0.edgeLinks ∧
  st.grid.faceLinks = grid0.faceLinks

/-- The constraint bijection: a constrained object whose reference is set to `p` stands
exactly once in the list of `p`, and every object in the list of `p` has its reference set
to `p`. -/
def LinksConsistent (links : ConstraintLinks) : Prop :=
  (∀ c p, links.constraining c = some p → (links.constrained p).count c = 1) ∧
  (∀ p c, c ∈ links.constrained p → links.constraining c = some p)

/-- The `k`-th recorded pair is applied to the `k`-th constrained object: there are as many
pairs as objects, and the reference of the `k`-th object is the constraining object that
the `k`-th pair denotes, and unset if it denotes none. -/
def PairsApplied (resolve : Int × Int → Option ConstrainingObject) (pairs : List (Int × Int))
    (elems : List Nat) (links : ConstraintLinks) : Prop :=
  pairs.length = elems.length ∧
  ∀ (k : Nat) (pair : Int × Int) (c : Nat), pairs[k]? = some pair → elems[k]? = some c →
    links.constraining c = resolve pair

/-- A node with the given name that stands for a block of `numElements` edges, faces or
volumes, read successfully. -/
def elementNode (name : String) (numElements : Nat) : XmlNode :=
  { name := name, coords := none, value := []
    elementsRead := true, numElements := numElements, constrainingObjs := [] }

/-- The text "0 0 1 0 0.5 1 0 1 5 0.5": two hanging vertices with two coordinates each, the
first on edge 0 with the local coordinate 0.5, the second on edge 5 with the local
coordinate 0.5. -/
def exampleConstrainedText : List Piece :=
  [Piece.text (Token.number 0), Piece.blank, Piece.text (Token.number 0), Piece.blank,
   Piece.text (Token.number 1), Piece.blank, Piece.text (Token.number 0), Piece.blank,
   Piece.text (Token.number (1 / 2)), Piece.blank,
   Piece.text (Token.number 1), Piece.blank, Piece.text (Token.number 0), Piece.blank,
   Piece.text (Token.number 1), Piece.blank, Piece.text (Token.number 5), Piece.blank,
   Piece.text (Token.number (1 / 2))]

/-- A file with one grid: a block of one constraining edge and a block of two constrained
vertices, the second of which refers to an edge 5 that does not exist. -/
def exampleFile : List (List XmlNode) :=
  [[elementNode "constraining_edges" 1,
    textNode "constrained_vertices" (some 2) exampleConstrainedText]]

/-! ## Domain decomposition (pcl_domain_decomposition.h) -/

/-- The values of the C++ type `int` (32 bits). -/
def IsCInt (x : Int) : Prop := -(2 ^ 31) ≤ x ∧ x < 2 ^ 31

instance (x : Int) : Decidable (IsCInt x) := by
  unfold IsCInt
  exact inferInstance

/-- The data members of the class `StandardDomainDecompositionInfo`. The constructor with
an argument leaves `m_num_spatial_dimensions` without a value (`none`). -/
structure StandardDomainDecompositionInfo where
  m_num_subdomains : Int
  m_num_spatial_dimensions : Option Int
  m_num_procs_per_subdomain : Int
deriving DecidableEq, Repr

namespace StandardDomainDecompositionInfo

/-- The default constructor (lines 71-75). -/
def init : StandardDomainDecompositionInfo :=
  { m_num_subdomains := 1, m_num_spatial_dimensions := some 2, m_num_procs_per_subdomain := 1 }

/-- The value stored in `m_num_procs_per_subdomain` by lines 82-85 and 107-110; `NumProcs`
is the value of `pcl::NumProcs()`, the division is that of `int` (truncation). -/
def procsPerSubdomain (NumProcs numSubdomains : Int) : Int :=
  if numSubdomains > 0 ∧ NumProcs > 1 then Int.tdiv NumProcs numSubdomains else -1

/-- The constructor `StandardDomainDecompositionInfo(int numSubdomains)` (lines 77-86). -/
def ofNumSubdomains (NumProcs numSubdomains : Int) : StandardDomainDecompositionInfo :=
  { m_num_subdomains := numSubdomains, m_num_spatial_dimensions := none
    m_num_procs_per_subdomain := procsPerSubdomain NumProcs numSubdomains }

/-- The function `set_num_subdomains` (lines 104-111). -/
def set_num_subdomains (NumProcs : Int) (info : StandardDomainDecompositionInfo)
    (numSubdomains : Int) : StandardDomainDecompositionInfo :=
  { info with
    m_num_subdomains := numSubdomains
    m_num_procs_per_subdomain := procsPerSubdomain NumProcs numSubdomains }

/-- The function `map_proc_id_to_subdomain_id` (lines 95-98). The result `none` stands for
undefined behaviour: a division by zero, or a quotient outside `int`. -/
def map_proc_id_to_subdomain_id (info : StandardDomainDecompositionInfo) (procID : Int) :
    Option Int :=
  if info.m_num_procs_per_subdomain = 0 then none
  else if IsCInt (Int.tdiv procID info.m_num_procs_per_subdomain) then
    some (Int.tdiv procID info.m_num_procs_per_subdomain)
  else none

/-- The function `get_subdomain_procs` (lines 133-140): the content of `procsOut` when it
returns. The result `none` stands for a call that does not return normally: `resize` is
called with a negative `int` (converted to a size above `max_size()`, it throws), or
`subdomIndex * m_num_procs_per_subdomain` or `first + i` leaves the range of `int`. -/
def get_subdomain_procs (info : StandardDomainDecompositionInfo) (subdomIndex : Int) :
    Option (List Int) :=
  if info.m_num_procs_per_subdomain < 0 then none
  else if IsCInt (subdomIndex * info.m_num_procs_per_subdomain) then
    let first := subdomIndex * info.m_num_procs_per_subdomain
    let procsOut := (List.range info.m_num_procs_per_subdomain.toNat).map
      (fun (i : Nat) => first + (i : Int))
    if procsOut.all (fun p => decide (IsCInt p)) then some procsOut else none
  else none

end StandardDomainDecompositionInfo

/-! ## Arrays of variable size (variable_array_impl.h) -/

/-- The three cases of the element type `T` that `resize` distinguishes with
`if constexpr`: `std::is_arithmetic`, `std::is_pointer`, and every other type. -/
inductive ElementType where
  | arithmetic
  | pointer
  | other
deriving DecidableEq, Repr

/-- An access (read or write) of `resize` to an element of the newly allocated array
`new_values` or of the old array `values`. -/
inductive ArrayAccess where
  | new_values (i : Nat)
  | values (i : Nat)
deriving DecidableEq, Repr

/-- The class `VariableArray1` as far as the accesses of `resize` depend on it: the size
`n`. The member `values` points to an array of `n` elements (`NULL` for `n = 0`). -/
structure VariableArray1 where
  n : Nat
deriving DecidableEq, Repr

/-- The function `VariableArray1::size`. -/
def VariableArray1.size (a : VariableArray1) : Nat := a.n

/-- The function `VariableArray1<T>::resize` (lines 100-143): the element accesses it makes,
in order, and the array afterwards. `new T[newN]` is taken to succeed. For an arithmetic
type `memset` writes the elements `0 .. newN-1` of `new_values`; for the other types the
loops of lines 122-123 and 127-128 call `set_zero` on `new_values[i]` for `i < n`; with
`bCopyValues` line 136 swaps `new_values[i]` and `values[i]` for `i < min(n, newN)`. -/
def VariableArray1.resize (type : ElementType) (a : VariableArray1) (newN : Nat)
    (bCopyValues : Bool) : List ArrayAccess × VariableArray1 :=
  if newN = a.n then ([], a)
  else if newN ≤ 0 then ([], { n := 0 })
  else
    let zeroing :=
      match type with
      | ElementType.arithmetic => (List.range newN).map ArrayAccess.new_values
      | ElementType.pointer => (List.range a.n).map ArrayAccess.new_values
      | ElementType.other => (List.range a.n).map ArrayAccess.new_values
    let copying :=
      if bCopyValues then
        (List.range (min a.n newN)).flatMap
          (fun i => [ArrayAccess.new_values i, ArrayAccess.values i])
      else []
    (zeroing ++ copying, { n := newN })

/-- An access stays inside the arrays: `new_values` has `newN` elements, `values` has `n`. -/
def ArrayAccess.InBounds (newN n : Nat) : ArrayAccess → Prop
  | ArrayAccess.new_values i => i < newN
  | ArrayAccess.values i => i < n

instance (newN n : Nat) (acc : ArrayAccess) : Decidable (acc.InBounds newN n) := by
  cases acc <;> unfold ArrayAccess.InBounds <;> exact inferInstance

/-- The template parameter `eMatrixOrdering`. -/
inductive eMatrixOrdering where
  | ColMajor
  | RowMajor
deriving DecidableEq, Repr

/-- Arithmetic of `size_t` (64 bits): the value of an expression is its value modulo 2^64. -/
def sizeT (x : Nat) : Nat := x % 2 ^ 64

/-- The class `VariableArray2` for an arithmetic element type: the array `values` (the
empty list also stands for `NULL`), `rows` and `cols`. -/
structure VariableArray2 where
  values : List number
  rows : Nat
  cols : Nat
deriving DecidableEq, Repr

/-- The call `std::swap(new_values[i], values[j])` on the pair of arrays
`(new_values, values)`; `none` stands for an access outside one of the arrays. -/
def swapEntries (arrays : List number × List number) (ij : Nat × Nat) :
    Option (List number × List number) :=
  match arrays.1[ij.1]?, arrays.2[ij.2]? with
  | some x, some y => some (arrays.1.set ij.1 y, arrays.2.set ij.2 x)
  | _, _ => none

namespace VariableArray2

/-- The functions `num_rows` and `num_cols`. -/
def num_rows (a : VariableArray2) : Nat := a.rows

/-- The function `num_cols`. -/
def num_cols (a : VariableArray2) : Nat := a.cols

/-- The index expressions `c+r*cols` (RowMajor) and `r+c*rows` (ColMajor), evaluated in
`size_t`. -/
def index (T_ordering : eMatrixOrdering) (rows cols r c : Nat) : Nat :=
  if T_ordering = eMatrixOrdering.RowMajor then sizeT (c + sizeT (r * cols))
  else sizeT (r + sizeT (c * rows))

/-- How a call of `VariableArray2::resize` ends: it returns (the value returned is `true`)
with the array as given, the new-expression throws (`std::bad_alloc` or
`std::bad_array_new_length`) and the array is as before, or an element outside one of the
two arrays is accessed. -/
inductive ResizeOutcome where
  | returned (a : VariableArray2)
  | threw
  | outOfBounds
deriving DecidableEq, Repr

/-- The function `VariableArray2<T, T_ordering>::resize` for an arithmetic `T` (lines
308-395). The new-expression `new T[newRows*newCols]` gets the product computed in
`size_t`; `alloc count` tells whether it succeeds for `count` elements, otherwise it throws
(it never yields `NULL`). `memset` sets the new array to zero. -/
def resize (alloc : Nat → Bool) (T_ordering : eMatrixOrdering) (a : VariableArray2)
    (newRows newCols : Nat) (bCopyValues : Bool) : ResizeOutcome :=
  if newRows = a.rows ∧ newCols = a.cols then ResizeOutcome.returned a
  else if newRows = 0 ∧ newCols = 0 then
    ResizeOutcome.returned { values := [], rows := 0, cols := 0 }
  else if alloc (sizeT (newRows * newCols)) = false then ResizeOutcome.threw
  else
    let new_values : List number := List.replicate (sizeT (newRows * newCols)) 0
    let swapped : Option (List number × List number) :=
      if bCopyValues then
        let minRows := min a.rows newRows
        let minCols := min a.cols newCols
        (List.range minRows).foldlM
          (fun arrays r =>
            (List.range minCols).foldlM
              (fun arrays c =>
                swapEntries arrays
                  (index T_ordering newRows newCols r c, index T_ordering a.rows a.cols r c))
              arrays)
          (new_values, a.values)
      else some (new_values, a.values)
    match swapped with
    | none => ResizeOutcome.outOfBounds
    | some arrays =>
      ResizeOutcome.returned { values := arrays.1, rows := newRows, cols := newCols }

/-- The function `operator()(r, c)` (lines 418-440); `none` stands for a failed `UG_ASSERT`
or an access outside `values`. -/
def entry (T_ordering : eMatrixOrdering) (a : VariableArray2) (r c : Nat) : Option number :=
  if r < a.rows ∧ c < a.cols then a.values[index T_ordering a.rows a.cols r c]? else none

/-- The array `values` has `rows*cols` elements, and the sizes are values of `size_t`. -/
def WellFormed (a : VariableArray2) : Prop :=
  a.values.length = a.rows * a.cols ∧ a.rows * a.cols < 2 ^ 64 ∧
    a.rows < 2 ^ 64 ∧ a.cols < 2 ^ 64

/-- An array with two rows and three columns, stored row by row. -/
def example23 : VariableArray2 := { values := [1, 2, 3, 4, 5, 6], rows := 2, cols := 3 }

end VariableArray2

/-! ## Scheduling of user data (data_evaluator.cpp) -/

/-- A pointer to an `ICplUserData` object; `find` compares these pointers. -/
abbrev UserData := Nat

/-- The two vectors `vEvalData` and `vTryingToAdd` that `add_data_to_eval_data` works on. -/
abbrev EvalVectors := List UserData × List UserData

/-- The outcome of a call: `none` if the depth of the recursion exceeds the fuel, an error if
`UG_THROW` is reached, and otherwise the two vectors at the return. -/
abbrev EvalResult := Option (Except UGError EvalVectors)

/-- The exception of lines 131-133. -/
def circleDependency : UGError :=
  { msg := "DataEvaluator<TDomain>::add_data_to_eval_data: Circle dependency of data detected for UserData." }

/-- Continuation after a call: an exception and an exceeded depth are passed on. -/
def afterCall (r : EvalResult) (f : EvalVectors → EvalResult) : EvalResult :=
  match r with
  | none => none
  | some (Except.error e) => some (Except.error e)
  | some (Except.ok vectors) => f vectors

/-- The loop of lines 137-142 over `data->needed_data(i)`: each needed item is pushed to
`vTryingToAdd` and the function calls itself (`call`). -/
def addNeededData (call : EvalVectors → EvalResult) :
    List UserData → EvalVectors → EvalResult
  | [], vectors => some (Except.ok vectors)
  | needed :: rest, vectors =>
    afterCall (call (vectors.1, vectors.2 ++ [needed])) (addNeededData call rest)

/-- The function `DataEvaluator::add_data_to_eval_data` (lines 107-151) on the pair
`(vEvalData, vTryingToAdd)`; `vTryingToAdd.back()` is the last element of the list.
`needed_data x` lists `x->needed_data(0), ..., x->needed_data(x->num_needed_data() - 1)`.
The first argument bounds the depth of the recursion. -/
def DataEvaluator.add_data_to_eval_data (needed_data : UserData → List UserData) :
    Nat → EvalVectors → EvalResult
  | 0, _ => none
  | fuel + 1, (vEvalData, vTryingToAdd) =>
    match vTryingToAdd.getLast? with
    | none => some (Except.ok (vEvalData, vTryingToAdd))
    | some back =>
      if back ∈ vEvalData then some (Except.ok (vEvalData, vTryingToAdd.dropLast))
      else if back ∈ vTryingToAdd.dropLast then some (Except.error circleDependency)
      else
        afterCall
          (addNeededData (DataEvaluator.add_data_to_eval_data needed_data fuel)
            (needed_data back) (vEvalData, vTryingToAdd))
          (fun vectors =>
            some (Except.ok (vectors.1 ++ [back],
              if vectors.2.isEmpty then vectors.2 else vectors.2.dropLast)))

/-- The relation of dependency: `a` needs `b` if `b` is one of `a->needed_data(i)`. -/
def Needs (needed_data : UserData → List UserData) (a b : UserData) : Prop :=
  b ∈ needed_data a

/-- A vector of scheduled data as `add_data_to_eval_data` builds it from the empty vector: no
item stands in it twice, and with every item it holds all items that one needs, each at a
smaller position. -/
def Scheduled (needed_data : UserData → List UserData) (vEvalData : List UserData) : Prop :=
  vEvalData.Nodup ∧
  ∀ a ∈ vEvalData, ∀ b ∈ needed_data a,
    b ∈ vEvalData ∧ vEvalData.indexOf b < vEvalData.indexOf a

/-- Item 3 needs 2 and 1, item 2 needs 1, item 1 needs 0. -/
def exampleNeeds : UserData → List UserData
  | 3 => [2, 1]
  | 2 => [1]
  | 1 => [0]
  | _ => []

/-- Item 0 needs 1 and item 1 needs 0; item 2 needs 1. -/
def cyclicNeeds : UserData → List UserData
  | 0 => [1]
  | 1 => [0]
  | 2 => [1]
  | _ => []

/-! ## The closure loop of MarkForRefinement_AnisotropicElements (refinement_bridge.cpp) -/

/-- Modelled from the spec: `IRefiner::get_mark` is not among the sources. The spec takes
`refiner->mark` on an edge to set the mark of that edge only and marks not to be removed:
the mark of an edge is the one of the last call of `mark` on it, `RM_NONE` without one. -/
def IRefiner.get_mark (refiner : IRefiner) (e : EdgeBase) : RefinementMark :=
  match refiner.edgeMarks.reverse.find? (fun p => decide (p.1 = e)) with
  | some p => p.2
  | none => RefinementMark.RM_NONE

/-- Modelled from the spec: `get_mark` on a face, the mark of the last call of `mark` on
it. -/
def IRefiner.get_markFace (refiner : IRefiner) (f : Face) : RefinementMark :=
  match refiner.faceMarks.reverse.find? (fun p => decide (p.1 = f)) with
  | some p => p.2
  | none => RefinementMark.RM_NONE

/-- The state of the loop of lines 452-548: the queue `queFaces` (front first), the marks of
`grid.mark`, `grid.unmark` and `grid.is_marked`, and the refiner. The list `processed`
is not in the code: it records the faces taken from the queue, in order. -/
structure ClosureState where
  queFaces : List Face
  is_marked : Face → Bool
  refiner : IRefiner
  processed : List Face

/-- Lines 444-450: after `grid.begin_marking()` every face is pushed and marked. -/
def closureInit (grid : Grid) (refiner : IRefiner) : ClosureState :=
  grid.faces.foldl
    (fun st f =>
      { st with queFaces := st.queFaces ++ [f], is_marked := Function.update st.is_marked f true })
    { queFaces := [], is_marked := fun _ => false, refiner := refiner, processed := [] }

/-- Lines 526-534: a face `nbr` stored by `CollectFaces` is marked and pushed if it is not
marked and carries `RM_ANISOTROPIC`. -/
def closureNeighbour (st : ClosureState) (nbr : Face) : ClosureState :=
  if st.is_marked nbr = false ∧
      st.refiner.get_markFace nbr = RefinementMark.RM_ANISOTROPIC then
    { st with is_marked := Function.update st.is_marked nbr true
              queFaces := st.queFaces ++ [nbr] }
  else st

/-- Lines 513-537: an edge without a mark is marked and the faces that
`CollectFaces(faces, grid, e)` stores (`associatedFaces e`) are visited. -/
def closureEdge (associatedFaces : EdgeBase → List Face) (st : ClosureState)
    (e : EdgeBase) : ClosureState :=
  if st.refiner.get_mark e = RefinementMark.RM_NONE then
    (associatedFaces e).foldl closureNeighbour { st with refiner := st.refiner.mark e }
  else st

/-- Lines 493-508: the flags `(longEdgeSelected, shortEdgeSelected)` after one more edge. -/
def edgeSelection (round : ℚ → Number) (grid : Grid) (refiner : IRefiner)
    (minLen sizeRatio : Number) (flags : Bool × Bool) (e : EdgeBase) : Bool × Bool :=
  if refiner.get_mark e = RefinementMark.RM_NONE then flags
  else
    let len := grid.EdgeLength e
    if Number.lt (Number.finite 0) len then
      if Number.le (Number.div round minLen len) sizeRatio then (true, flags.2)
      else (flags.1, true)
    else flags

/-- One iteration of the loop of lines 452-548 on a queue that is not empty; `none` stands
for a failed `UG_ASSERT`. -/
def closureStep (round : ℚ → Number) (grid : Grid) (associatedFaces : EdgeBase → List Face)
    (sizeRatio : Number) (st : ClosureState) : Option ClosureState :=
  match st.queFaces with
  | [] => some st
  | f :: rest =>
    let st0 : ClosureState := { st with queFaces := rest, processed := st.processed ++ [f] }
    if grid.has_children f then
      some { st0 with is_marked := Function.update st0.is_marked f false }
    else
      let edges := grid.associatedEdges f
      if st0.refiner.get_markFace f = RefinementMark.RM_ANISOTROPIC then
        match FindShortestEdge grid.EdgeLength edges with
        | none => none
        | some minEdge =>
          let minLen := grid.EdgeLength minEdge
          let flags := edges.foldl (edgeSelection round grid st0.refiner minLen sizeRatio)
            (false, false)
          let st1 :=
            if flags.1 = true ∧ flags.2 = true then
              edges.foldl (closureEdge associatedFaces) st0
            else st0
          some { st1 with is_marked := Function.update st1.is_marked f false }
      else
        some { st0 with is_marked := Function.update st0.is_marked f false }

/-- The first `n` iterations of the loop `while(!queFaces.empty())`, fewer if the queue is
empty before; `none` stands for a failed `UG_ASSERT`. -/
def closureRun (round : ℚ → Number) (grid : Grid) (associatedFaces : EdgeBase → List Face)
    (sizeRatio : Number) : Nat → ClosureState → Option ClosureState
  | 0, st => some st
  | n + 1, st =>
    if st.queFaces = [] then some st
    else (closureStep round grid associatedFaces sizeRatio st).bind
      (closureRun round grid associatedFaces sizeRatio n)

/-- The loop of lines 452-548 with a bound on the number of iterations: the state in which
the queue is empty; `none` if the bound does not suffice or a `UG_ASSERT` fails. -/
def closureLoop (round : ℚ → Number) (grid : Grid) (associatedFaces : EdgeBase → List Face)
    (sizeRatio : Number) (fuel : Nat) (st : ClosureState) : Option ClosureState :=
  (closureRun round grid associatedFaces sizeRatio fuel st).bind
    (fun st1 => if st1.queFaces = [] then some st1 else none)

/-- Lines 397-550 of `MarkForRefinement_AnisotropicElements`: the first loop over the faces,
then the closure loop; the state when the queue is empty. -/
def MarkForRefinement_AnisotropicElements_closure (round : ℚ → Number) (grid : Grid)
    (associatedFaces : EdgeBase → List Face) (refiner : IRefiner) (sizeRatio : Number)
    (fuel : Nat) : Option ClosureState :=
  (MarkForRefinement_AnisotropicElements_firstPass round grid refiner sizeRatio).bind
    (fun refiner1 =>
      closureLoop round grid associatedFaces sizeRatio fuel (closureInit grid refiner1))

/-- The edges of all faces of the grid, each once. -/
def allEdges (grid : Grid) : List EdgeBase :=
  (grid.faces.flatMap grid.associatedEdges).dedup

/-- The edge `e` of the face `f` is marked and long: its length is positive and the quotient
of the length of the shortest edge of `f` and its length, as the code computes it, is at
most `sizeRatio`. -/
def MarkedLong (round : ℚ → Number) (grid : Grid) (refiner : IRefiner) (sizeRatio : Number)
    (f : Face) (e : EdgeBase) : Prop :=
  refiner.get_mark e ≠ RefinementMark.RM_NONE ∧
    Number.lt (Number.finite 0) (grid.EdgeLength e) = true ∧
    ∃ minLen, IsMinEdgeLength grid f minLen ∧
      Number.le (Number.div round minLen (grid.EdgeLength e)) sizeRatio = true

/-- The edge `e` of the face `f` is marked and short: its length is positive and the
quotient of the length of the shortest edge of `f` and its length, as the code computes
it, exceeds `sizeRatio`. -/
def MarkedShort (round : ℚ → Number) (grid : Grid) (refiner : IRefiner) (sizeRatio : Number)
    (f : Face) (e : EdgeBase) : Prop :=
  refiner.get_mark e ≠ RefinementMark.RM_NONE ∧
    Number.lt (Number.finite 0) (grid.EdgeLength e) = true ∧
    ∃ minLen, IsMinEdgeLength grid f minLen ∧
      Number.lt sizeRatio (Number.div round minLen (grid.EdgeLength e)) = true

/-- What the closure loop assumes of the grid: the iterator yields every face once, every
face has an associated edge, `CollectFaces` stores faces of the grid, and it stores a face
for each of the associated edges of that face. -/
def Grid.Consistent (grid : Grid) (associatedFaces : EdgeBase → List Face) : Prop :=
  grid.faces.Nodup ∧
  (∀ f ∈ grid.faces, grid.associatedEdges f ≠ []) ∧
  (∀ e, ∀ f ∈ associatedFaces e, f ∈ grid.faces) ∧
  (∀ f ∈ grid.faces, ∀ e ∈ grid.associatedEdges f, f ∈ associatedFaces e)

/-- The test of lines 495-504 on the edge `e`: it has a mark, its length is positive and the
quotient `minLen / len` is at most `sizeRatio`, so that `longEdgeSelected` is set. -/
def isLongEdge (round : ℚ → Number) (grid : Grid) (refiner : IRefiner)
    (minLen sizeRatio : Number) (e : EdgeBase) : Bool :=
  decide (refiner.get_mark e ≠ RefinementMark.RM_NONE) &&
    (Number.lt (Number.finite 0) (grid.EdgeLength e) &&
      Number.le (Number.div round minLen (grid.EdgeLength e)) sizeRatio)

/-- The test of lines 495-507 on the edge `e`: it has a mark, its length is positive and the
comparison `minLen / len <= sizeRatio` is false, so that `shortEdgeSelected` is set. -/
def isShortEdge (round : ℚ → Number) (grid : Grid) (refiner : IRefiner)
    (minLen sizeRatio : Number) (e : EdgeBase) : Bool :=
  decide (refiner.get_mark e ≠ RefinementMark.RM_NONE) &&
    (Number.lt (Number.finite 0) (grid.EdgeLength e) &&
      !Number.le (Number.div round minLen (grid.EdgeLength e)) sizeRatio)

/-- The face `f` is closed with respect to the marks of `refiner`: if it has no children,
carries `RM_ANISOTROPIC` and the loop of lines 493-508 finds a long and a short edge among
its marked edges, then all of its edges have a mark. -/
def FaceClosed (round : ℚ → Number) (grid : Grid) (sizeRatio : Number) (refiner : IRefiner)
    (f : Face) : Prop :=
  grid.has_children f = false → refiner.get_markFace f = RefinementMark.RM_ANISOTROPIC →
  ∀ minEdge, FindShortestEdge grid.EdgeLength (grid.associatedEdges f) = some minEdge →
    (grid.associatedEdges f).any
      (isLongEdge round grid refiner (grid.EdgeLength minEdge) sizeRatio) = true →
    (grid.associatedEdges f).any
      (isShortEdge round grid refiner (grid.EdgeLength minEdge) sizeRatio) = true →
    ∀ e ∈ grid.associatedEdges f, refiner.get_mark e ≠ RefinementMark.RM_NONE

/-- What holds between two iterations of the closure loop: no face is on the queue twice,
the faces marked by `grid.mark` are those on the queue, they are faces of the grid, and
every face of the grid that is not on the queue is closed. -/
def ClosureInv (round : ℚ → Number) (grid : Grid) (sizeRatio : Number)
    (st : ClosureState) : Prop :=
  st.queFaces.Nodup ∧
  (∀ g, st.is_marked g = true ↔ g ∈ st.queFaces) ∧
  (∀ g ∈ st.queFaces, g ∈ grid.faces) ∧
  (∀ g ∈ grid.faces, st.is_marked g = false → FaceClosed round grid sizeRatio st.refiner g)

/-- The number of the edges of the grid without a mark. -/
def unmarkedEdges (grid : Grid) (refiner : IRefiner) : Nat :=
  ((allEdges grid).filter
    (fun e => decide (refiner.get_mark e = RefinementMark.RM_NONE))).length

/-- A number that every iteration of the closure loop makes smaller: marking an edge
outweighs the faces that it pushes. -/
def closureMeasure (grid : Grid) (st : ClosureState) : Nat :=
  unmarkedEdges grid st.refiner * (grid.faces.length + 1) + st.queFaces.length

/-- A number of iterations that suffices for the closure loop. -/
def closureBound (grid : Grid) : Nat :=
  (allEdges grid).length * (grid.faces.length + 1) + grid.faces.length

/-- A strip of three triangles: face 0 with the edges 0, 1, 2, face 1 with the edges 0, 3, 4
and face 2 with the edges 3, 5, 6. The edges 0 and 3 are shared and have length 3, the edges
1, 2 and 4 have length 4, the edges 5 and 6 have length 9/4. -/
def exampleStrip : Grid :=
  { faces := [0, 1, 2]
    has_children := fun _ => false
    num_edges := fun _ => 3
    associatedEdges := fun f =>
      match f with
      | 0 => [0, 1, 2]
      | 1 => [0, 3, 4]
      | 2 => [3, 5, 6]
      | _ => []
    EdgeLength := fun e =>
      match e with
      | 0 => Number.finite 3
      | 3 => Number.finite 3
      | 5 => Number.finite (9 / 4)
      | 6 => Number.finite (9 / 4)
      | _ => Number.finite 4 }

/-- The faces that `CollectFaces` stores for the edges of the strip. -/
def exampleStripFaces : EdgeBase → List Face
  | 0 => [0, 1]
  | 1 => [0]
  | 2 => [0]
  | 3 => [1, 2]
  | 4 => [1]
  | 5 => [2]
  | 6 => [2]
  | _ => []

/-- The exception that `UG_CATCH_THROW` of lines 202-206 raises when the call has thrown. -/
def circleDependencyRethrown : UGError :=
  { msg := "DataEvaluator: Circle dependency of data detected for UserData." }

/-- The exception of lines 209-211. -/
def queueNotEmpty : UGError :=
  { msg := "DataEvaluator: Internal Error, UserData queue not empty after adding." }

/-- The loop over the imports in `extract_imports_and_userdata` (lines 181-214) as far as
the two vectors are concerned: `imports` lists `iimp->data()` of the imports that are not
skipped; each is pushed to `vTryingToAdd` and `add_data_to_eval_data` is called. -/
def scheduleImports (needed_data : UserData → List UserData) (fuel : Nat) :
    List UserData → EvalVectors → EvalResult
  | [], vectors => some (Except.ok vectors)
  | data :: rest, vectors =>
    match DataEvaluator.add_data_to_eval_data needed_data fuel
        (vectors.1, vectors.2 ++ [data]) with
    | none => none
    | some (Except.error _) => some (Except.error circleDependencyRethrown)
    | some (Except.ok vectors1) =>
      if vectors1.2.isEmpty then scheduleImports needed_data fuel rest vectors1
      else some (Except.error queueNotEmpty)

/-- The vectors `vEvalData` and `vTryingToAdd` of `extract_imports_and_userdata` after the
loop over the imports; both are empty when it starts (lines 159-160). -/
def DataEvaluator.extract_imports_and_userdata (needed_data : UserData → List UserData)
    (fuel : Nat) (imports : List UserData) : EvalResult :=
  scheduleImports needed_data fuel imports ([], [])

/-! ## What a recorded pair denotes, in the words of the format -/

/-- What a recorded pair (type code, index) denotes: the type code 1 with the index of an
edge read from the file that is a `ConstrainingEdge` denotes that edge, the type code 2
with the index of a face read from the file that is a `ConstrainingFace` denotes that
face, and nothing else denotes an object. An index is one of an element read if it is in
the range from 0 to the number of elements read, the number taken as an `int`. A
constrained vertex or edge accepts both kinds (`allowEdge = true`), a constrained face
accepts faces only (`allowEdge = false`). This is written from the description of the
format, not from the switch of `get_grid`. -/
def PairDenotes (st : ReaderState) (allowEdge : Bool) (pair : Int × Int) :
    ConstrainingObject → Prop
  | ConstrainingObject.edge e =>
    allowEdge = true ∧ pair.1 = 1 ∧ 0 ≤ pair.2 ∧ pair.2 < toInt st.edges.length ∧
      st.edges[pair.2.toNat]? = some e ∧
      st.grid.edges[e]? = some ObjectType.ConstrainingEdge
  | ConstrainingObject.face f =>
    pair.1 = 2 ∧ 0 ≤ pair.2 ∧ pair.2 < toInt st.faces.length ∧
      st.faces[pair.2.toNat]? = some f ∧
      (st.grid.faces[f]? = some ObjectType.ConstrainingTriangle ∨
        st.grid.faces[f]? = some ObjectType.ConstrainingQuadrilateral)

/-- The `k`-th recorded pair is applied to the `k`-th constrained object: there are as many
pairs as objects, and the reference of the `k`-th object is set to `p` exactly if the
`k`-th pair denotes `p`. -/
def PairsLinked (st : ReaderState) (allowEdge : Bool) (pairs : List (Int × Int))
    (elems : List Nat) (links : ConstraintLinks) : Prop :=
  pairs.length = elems.length ∧
  ∀ (k : Nat) (pair : Int × Int) (c : Nat), pairs[k]? = some pair → elems[k]? = some c →
    ∀ p : ConstrainingObject, links.constraining c = some p ↔ PairDenotes st allowEdge pair p

/-- A node that stands for a block of constrained edges or faces with the given recorded
pairs, read successfully. -/
def constrainedNode (name : String) (pairs : List (Int × Int)) : XmlNode :=
  { name := name, coords := none, value := []
    elementsRead := true, numElements := 0, constrainingObjs := pairs }

/-- A file with one grid: a constraining edge, a constraining triangle, two constrained
edges (on the edge 0 and on the face 0), three constrained triangles (on the face 0, with
an edge as parent, and on a face 7 that does not exist), a constrained quadrilateral on the
face 0, and two hanging vertices (on the edge 0 and on an edge 5 that does not exist). -/
def exampleConstraintFile : List (List XmlNode) :=
  [[elementNode "constraining_edges" 1,
    elementNode "constraining_triangles" 1,
    constrainedNode "constrained_edges" [(1, 0), (2, 0)],
    constrainedNode "constrained_triangles" [(2, 0), (1, 0), (2, 7)],
    constrainedNode "constrained_quadrilaterals" [(2, 0)],
    textNode "constrained_vertices" (some 2) exampleConstrainedText]]

/-! # Theorems -/

/-! ## Lemmas on interface maps and layouts -/

theorem bitfield_of_range (w : Nat) (x : Int) (h1 : -(2 : Int) ^ (w - 1) ≤ x)
    (h2 : x < (2 : Int) ^ (w - 1)) (hw : 0 < w) : bitfield w x = x := by
  unfold bitfield
  have hp : (2 : Int) ^ w = 2 * 2 ^ (w - 1) := by
    obtain ⟨k, rfl⟩ : ∃ k, w = k + 1 := ⟨w - 1, by omega⟩
    simp [pow_succ, mul_comm]
  rw [Int.emod_eq_of_lt (by omega) (by omega)]
  omega

namespace InterfaceMap

theorem find_insertNew_ne (k q : Int) (v : Interface) (m : InterfaceMap) (h : q ≠ k) :
    find (insertNew k v m) q = find m q := by
  induction m with
  | nil => simp [insertNew, find, Ne.symm h]
  | cons p rest ih =>
    obtain ⟨k1, w⟩ := p
    by_cases hlt : k < k1
    · simp [insertNew, hlt, find, Ne.symm h]
    · simp [insertNew, hlt, find, ih]

theorem find_insertNew_self (k : Int) (v : Interface) (m : InterfaceMap)
    (h : find m k = none) : find (insertNew k v m) k = some v := by
  induction m with
  | nil => simp [insertNew, find]
  | cons p rest ih =>
    obtain ⟨k1, w⟩ := p
    have hk : k1 ≠ k := by
      intro hk
      simp [find, hk] at h
    have hrest : find rest k = none := by
      simpa [find, hk] using h
    by_cases hlt : k < k1
    · simp [insertNew, hlt, find]
    · simp [insertNew, hlt, find, hk, ih hrest]

theorem find_assign (k q : Int) (v : Interface) (m : InterfaceMap) :
    find (assign k v m) q =
      if q = k then (find m k).map (fun _ => v) else find m q := by
  induction m with
  | nil => simp [assign, find]
  | cons p rest ih =>
    obtain ⟨k1, w⟩ := p
    by_cases hk : k1 = k
    · subst hk
      by_cases hq : q = k1
      · subst hq
        simp [assign, find]
      · simp [assign, find, hq, Ne.symm hq]
    · by_cases hq : q = k
      · subst hq
        simp [assign, find, hk, ih]
      · by_cases hq1 : k1 = q
        · simp [assign, find, hk, hq, hq1]
        · simp [assign, find, hk, hq, hq1, ih]

theorem get_index (m : InterfaceMap) (k q : Int) : get (index m k) q = get m q := by
  unfold index
  cases h : find m k with
  | some v => rfl
  | none =>
    by_cases hq : q = k
    · subst hq
      simp [get, find_insertNew_self _ _ _ h, h]
    · simp [get, find_insertNew_ne _ _ _ _ hq]

theorem find_index_self (m : InterfaceMap) (k : Int) :
    find (index m k) k = some (get m k) := by
  unfold index
  cases h : find m k with
  | some v => simp [get, h]
  | none => simp [get, find_insertNew_self _ _ _ h, h]

theorem get_assign_index (m : InterfaceMap) (k q : Int) (v : Interface) :
    get (assign k v (index m k)) q = if q = k then v else get m q := by
  unfold get
  rw [find_assign]
  by_cases hq : q = k
  · simp [hq, find_index_self]
  · simp only [hq, if_false]
    exact congrArg (fun o => Option.getD o []) (by
      have := get_index m k q
      unfold index at this ⊢
      cases h : find m k with
      | some v => rfl
      | none => simp [find_insertNew_ne _ _ _ _ hq])

end InterfaceMap

namespace DistributionNodeLayout

theorem getD_pad (ms : List InterfaceMap) (k lv : Nat) :
    (ms ++ List.replicate k []).getD lv [] = ms.getD lv [] := by
  simp only [List.getD_eq_getElem?_getD]
  by_cases h : lv < ms.length
  · rw [List.getElem?_append_left h]
  · rw [List.getElem?_append_right (by omega), List.getElem?_eq_none (by omega : ms.length ≤ lv)]
    by_cases h2 : lv - ms.length < k
    · simp [List.getElem?_replicate, h2]
    · simp [List.getElem?_replicate, h2]

theorem getD_set (ms : List InterfaceMap) (level lv : Nat) (x : InterfaceMap)
    (h : level < ms.length) :
    (ms.set level x).getD lv [] = if lv = level then x else ms.getD lv [] := by
  simp only [List.getD_eq_getElem?_getD, List.getElem?_set]
  by_cases h1 : level = lv
  · subst h1
    simp [h]
  · simp [h1, Ne.symm h1]

theorem interface_map_interface_map_touch (l : DistributionNodeLayout) (level lv : Nat) :
    (l.interface_map_touch level).interface_map lv = l.interface_map lv := by
  unfold interface_map_touch interface_map
  split
  · exact getD_pad _ _ _
  · rfl

theorem length_interface_map_touch (l : DistributionNodeLayout) (level : Nat) :
    level < (l.interface_map_touch level).m_vInterfaceMaps.length := by
  unfold interface_map_touch
  split
  · simp
    omega
  · omega

theorem length_interface_touch (l : DistributionNodeLayout) (p : Int) (level : Nat) :
    level < (l.interface_touch p level).m_vInterfaceMaps.length := by
  simp [interface_touch, length_interface_map_touch]

theorem node_vec_interface_touch (l : DistributionNodeLayout) (p : Int) (level : Nat) :
    (l.interface_touch p level).node_vec = l.node_vec := by
  unfold interface_touch interface_map_touch node_vec
  split <;> rfl

theorem node_vec_interface_push_back (l : DistributionNodeLayout) (p : Int) (level : Nat)
    (e : DistributionInterfaceEntry) :
    (l.interface_push_back p level e).node_vec = l.node_vec := by
  have h := node_vec_interface_touch l p level
  unfold node_vec at h ⊢
  simpa [interface_push_back] using h

theorem interface_interface_touch (l : DistributionNodeLayout) (p q : Int) (level lv : Nat) :
    (l.interface_touch p level).interface q lv = l.interface q lv := by
  have hlen := length_interface_map_touch l level
  have hmap := interface_map_interface_map_touch l level
  unfold interface interface_touch
  unfold interface_map at hmap ⊢
  simp only [getD_set _ _ _ _ hlen]
  by_cases h : lv = level
  · subst h
    simp only [if_true, InterfaceMap.get_index, hmap]
  · simp only [h, if_false, hmap]

theorem interface_interface_push_back (l : DistributionNodeLayout) (p q : Int)
    (level lv : Nat) (e : DistributionInterfaceEntry) :
    (l.interface_push_back p level e).interface q lv =
      if q = p ∧ lv = level then l.interface p level ++ [e] else l.interface q lv := by
  have hlen := length_interface_touch l p level
  have hint := interface_interface_touch l p
  have hself : (l.interface_touch p level).interface_map level =
      ((l.interface_map_touch level).interface_map level).index p := by
    have := length_interface_map_touch l level
    simp only [interface_touch, interface_map, getD_set _ _ _ _ this, if_true]
  have hmt := interface_map_interface_map_touch l level level
  unfold interface_push_back
  simp only []
  unfold interface at hint ⊢
  simp only [interface_map, getD_set _ _ _ _ hlen] at hint ⊢
  by_cases h : lv = level
  · subst h
    simp only [if_true, and_true]
    unfold interface_map at hself hmt
    rw [hself, InterfaceMap.get_assign_index, hmt]
    by_cases hq : q = p
    · subst hq
      simp only [if_true]
      rw [InterfaceMap.get_index]
    · simp only [hq, if_false]
  · simp only [h, if_false, and_false]
    exact hint q level lv

theorem node_vec_push_node (l : DistributionNodeLayout) (n : Node) :
    (l.push_node n).node_vec = l.node_vec ++ [n] := rfl

theorem interface_push_node (l : DistributionNodeLayout) (n : Node) (q : Int) (lv : Nat) :
    (l.push_node n).interface q lv = l.interface q lv := rfl

end DistributionNodeLayout

/-! ## Lemmas on vectors of layouts -/

theorem length_modifyLayout (ls : List DistributionNodeLayout) (i : Nat)
    (f : DistributionNodeLayout → DistributionNodeLayout) :
    (modifyLayout ls i f).length = ls.length := by
  unfold modifyLayout
  split <;> simp

theorem getElem?_modifyLayout (ls : List DistributionNodeLayout) (i j : Nat)
    (f : DistributionNodeLayout → DistributionNodeLayout) :
    (modifyLayout ls i f)[j]? = if j = i then (ls[i]?).map f else ls[j]? := by
  unfold modifyLayout
  cases h : ls[i]? with
  | none =>
    by_cases hj : j = i
    · subst hj
      simp [h]
    · simp [hj]
  | some l =>
    have hi : i < ls.length := by
      by_contra hc
      rw [List.getElem?_eq_none (by omega)] at h
      exact Option.noConfusion h
    by_cases hj : j = i
    · subst hj
      simp [List.getElem?_set, hi]
    · simp [List.getElem?_set, hj, Ne.symm hj]

theorem nodeVecOf_modifyLayout (ls : List DistributionNodeLayout) (i j : Nat)
    (f : DistributionNodeLayout → DistributionNodeLayout) (app : List Node)
    (hf : ∀ l, (f l).node_vec = l.node_vec ++ app) :
    nodeVecOf (modifyLayout ls i f) j =
      nodeVecOf ls j ++ (if j = i ∧ i < ls.length then app else []) := by
  unfold nodeVecOf
  rw [getElem?_modifyLayout]
  by_cases hj : j = i
  · subst hj
    cases h : ls[j]? with
    | none =>
      have : ¬ j < ls.length := by
        intro hc
        rw [List.getElem?_eq_getElem hc] at h
        exact Option.noConfusion h
      simp [this]
    | some l =>
      have : j < ls.length := by
        by_contra hc
        rw [List.getElem?_eq_none (by omega)] at h
        exact Option.noConfusion h
      simp [this, hf]
  · simp [hj]

theorem interfaceOf_modifyLayout_same (ls : List DistributionNodeLayout) (i : Nat)
    (f : DistributionNodeLayout → DistributionNodeLayout)
    (hf : ∀ l q lv, (f l).interface q lv = l.interface q lv) (P : Nat) (Q : Int) (L : Nat) :
    interfaceOf (modifyLayout ls i f) P Q L = interfaceOf ls P Q L := by
  unfold interfaceOf
  rw [getElem?_modifyLayout]
  by_cases hj : P = i
  · subst hj
    cases h : ls[P]? <;> simp [hf]
  · simp [hj]

theorem interfaceOf_modifyLayout_push_back (ls : List DistributionNodeLayout) (i : Nat)
    (p : Int) (lv : Nat) (e : DistributionInterfaceEntry) (P : Nat) (Q : Int) (L : Nat)
    (hi : i < ls.length) :
    interfaceOf (modifyLayout ls i (fun l => l.interface_push_back p lv e)) P Q L =
      interfaceOf ls P Q L ++ (if P = i ∧ Q = p ∧ L = lv then [e] else []) := by
  unfold interfaceOf
  rw [getElem?_modifyLayout]
  by_cases hj : P = i
  · subst hj
    rw [List.getElem?_eq_getElem hi]
    simp only [if_true, Option.map_some', true_and,
      DistributionNodeLayout.interface_interface_push_back]
    by_cases hq : Q = p ∧ L = lv
    · obtain ⟨rfl, rfl⟩ := hq
      simp
    · simp [hq]
  · simp [hj]

/-! ## The effect of one iteration of AddNodesToLayout -/

theorem AddNodeToLayout_first (T : InterfaceNodeTypes) (i : Nat) (level iol : Int)
    (mgr : Option (Node → Bool)) (st : LayoutState) (node : Node)
    (hi : i < st.layouts.length) (h : st.aaFirstLayout node = -1) :
    AddNodeToLayout T i level iol mgr st node =
      some { layouts := modifyLayout st.layouts i (fun l => l.push_node node)
             aaFirstLayout := Function.update st.aaFirstLayout node (i : Int)
             aaFirstProcLocalInd :=
               Function.update st.aaFirstProcLocalInd node
                 (toInt (nodeVecOf st.layouts i).length) } := by
  unfold AddNodeToLayout nodeVecOf
  rw [List.getElem?_eq_getElem hi]
  simp [h]

theorem AddNodeToLayout_claimed (T : InterfaceNodeTypes) (i : Nat) (level iol : Int)
    (mgr : Option (Node → Bool)) (st st1 : LayoutState) (node : Node)
    (h : st.aaFirstLayout node ≠ -1)
    (hres : AddNodeToLayout T i level iol mgr st node = some st1) :
    i < st.layouts.length ∧ level ≠ -1 ∧ 0 ≤ st.aaFirstLayout node ∧
    st.aaFirstLayout node < st.layouts.length ∧
    st1.aaFirstLayout = st.aaFirstLayout ∧
    st1.aaFirstProcLocalInd = st.aaFirstProcLocalInd ∧
    st1.layouts.length = st.layouts.length ∧
    (∀ j, nodeVecOf st1.layouts j = nodeVecOf st.layouts j ++ if j = i then [node] else []) ∧
    (∀ P Q L, interfaceOf st1.layouts P Q L =
      interfaceOf st.layouts P Q L ++
        (if (is_interface_element mgr node = false ∧ (iol = -1 ∨ iol = level)) ∧
            P = (st.aaFirstLayout node).toNat ∧ Q = (i : Int) ∧ L = level.toNat
          then [DistributionInterfaceEntry.create (st.aaFirstProcLocalInd node) T.INT_MASTER]
          else []) ++
        (if (is_interface_element mgr node = false ∧ (iol = -1 ∨ iol = level)) ∧
            P = i ∧ Q = st.aaFirstLayout node ∧ L = level.toNat
          then [DistributionInterfaceEntry.create (toInt (nodeVecOf st.layouts i).length)
                  T.INT_SLAVE]
          else [])) := by
  unfold AddNodeToLayout at hres
  have hi : i < st.layouts.length := by
    by_contra hc
    rw [List.getElem?_eq_none (by omega)] at hres
    exact Option.noConfusion hres
  rw [List.getElem?_eq_getElem hi] at hres
  simp only [h, if_false] at hres
  have hnv : nodeVecOf st.layouts i = (st.layouts[i]).node_vec := by
    unfold nodeVecOf
    rw [List.getElem?_eq_getElem hi]
  rw [← hnv] at hres
  have hpush : ∀ j, nodeVecOf (modifyLayout st.layouts i (fun l => l.push_node node)) j =
      nodeVecOf st.layouts j ++ if j = i then [node] else [] := by
    intro j
    rw [nodeVecOf_modifyLayout st.layouts i j (fun l => l.push_node node) [node]
      (fun l => rfl)]
    simp [hi]
  have hpushI : ∀ P Q L,
      interfaceOf (modifyLayout st.layouts i (fun l => l.push_node node)) P Q L =
        interfaceOf st.layouts P Q L :=
    fun P Q L => interfaceOf_modifyLayout_same st.layouts i (fun l => l.push_node node)
      (fun _ _ _ => rfl) P Q L
  by_cases hl : level = -1
  · simp [hl] at hres
  simp only [hl, if_false] at hres
  by_cases hm : st.aaFirstLayout node < 0 ∨ (st.layouts.length : Int) ≤ st.aaFirstLayout node
  · simp [hm] at hres
  simp only [hm, if_false] at hres
  have hm0 : 0 ≤ st.aaFirstLayout node := by omega
  have hm1 : st.aaFirstLayout node < st.layouts.length := by omega
  refine ⟨hi, hl, hm0, hm1, ?_⟩
  by_cases hie : is_interface_element mgr node = true
  · simp only [hie, if_true, Option.some.injEq] at hres
    subst hres
    refine ⟨rfl, rfl, by simp [length_modifyLayout], hpush, ?_⟩
    intro P Q L
    simp [hpushI, hie]
  have hie2 : is_interface_element mgr node = false := by simpa using hie
  simp only [hie2, Bool.false_eq_true, if_false] at hres
  by_cases hiol : iol = -1 ∨ iol = level
  · simp only [hiol, if_true] at hres
    by_cases hneg : level < 0
    · simp [hneg] at hres
    simp only [hneg, if_false, Option.some.injEq] at hres
    subst hres
    refine ⟨rfl, rfl, by simp [length_modifyLayout], ?_, ?_⟩
    · intro j
      simp only []
      rw [nodeVecOf_modifyLayout _ _ _ _ []
            (fun l => by simp [DistributionNodeLayout.node_vec_interface_push_back]),
        nodeVecOf_modifyLayout _ _ _ _ []
            (fun l => by simp [DistributionNodeLayout.node_vec_interface_push_back]),
        nodeVecOf_modifyLayout _ _ _ _ []
            (fun l => by simp [DistributionNodeLayout.node_vec_interface_touch]),
        nodeVecOf_modifyLayout _ _ _ _ []
            (fun l => by simp [DistributionNodeLayout.node_vec_interface_touch]),
        hpush]
      simp
    · intro P Q L
      simp only []
      have hmt : (st.aaFirstLayout node).toNat < st.layouts.length := by omega
      rw [interfaceOf_modifyLayout_push_back _ _ _ _ _ _ _ _ (by simpa [length_modifyLayout] using hi),
        interfaceOf_modifyLayout_push_back _ _ _ _ _ _ _ _ (by simpa [length_modifyLayout] using hmt),
        interfaceOf_modifyLayout_same _ _ _
          (fun l q lv => DistributionNodeLayout.interface_interface_touch l _ q _ lv),
        interfaceOf_modifyLayout_same _ _ _
          (fun l q lv => DistributionNodeLayout.interface_interface_touch l _ q _ lv),
        hpushI]
      simp [hie2, hiol]
  · simp only [hiol, if_false, Option.some.injEq] at hres
    subst hres
    refine ⟨rfl, rfl, by simp [length_modifyLayout], hpush, ?_⟩
    intro P Q L
    simp [hpushI, hiol]

/-! ## From the four interleaved instances to the calls of one element kind -/

theorem kinds_foldlM_eq_some_iff (f : Kind → LayoutState → Option LayoutState)
    (S S1 : KindStates) :
    allKinds.foldlM (fun S kind => (f kind (S kind)).map (Function.update S kind)) S = some S1
      ↔ ∀ k, f k (S k) = some (S1 k) := by
  constructor
  · intro h
    simp only [allKinds, List.foldlM_cons, List.foldlM_nil] at h
    cases hV : f Kind.VertexBase (S Kind.VertexBase) with
    | none => simp [hV] at h
    | some a =>
      cases hE : f Kind.EdgeBase (S Kind.EdgeBase) with
      | none => simp [hV, hE] at h
      | some b =>
        cases hF : f Kind.Face (S Kind.Face) with
        | none => simp [hV, hE, hF] at h
        | some c =>
          cases hO : f Kind.Volume (S Kind.Volume) with
          | none => simp [hV, hE, hF, hO] at h
          | some d =>
            simp [hV, hE, hF, hO] at h
            subst h
            intro k
            cases k <;> simp [hV, hE, hF, hO]
  · intro h
    have hV := h Kind.VertexBase
    have hE := h Kind.EdgeBase
    have hF := h Kind.Face
    have hO := h Kind.Volume
    simp only [allKinds, List.foldlM_cons, List.foldlM_nil]
    simp [hV, hE, hF, hO]
    funext k
    cases k <;> simp

theorem foldlM_kinds_eq_some_iff {ι : Type} (F : KindStates → ι → Option KindStates)
    (f : ι → Kind → LayoutState → Option LayoutState)
    (hF : ∀ i S S1, F S i = some S1 ↔ ∀ k, f i k (S k) = some (S1 k))
    (l : List ι) (S S1 : KindStates) :
    l.foldlM F S = some S1 ↔ ∀ k, l.foldlM (fun s i => f i k s) (S k) = some (S1 k) := by
  induction l generalizing S with
  | nil =>
    simp only [List.foldlM_nil]
    constructor
    · intro h k
      cases h
      rfl
    · intro h
      have : S = S1 := funext fun k => by
        have := h k
        simpa using this
      rw [this]
      rfl
  | cons i l ih =>
    simp only [List.foldlM_cons]
    constructor
    · intro h k
      cases hS : F S i with
      | none => simp [hS] at h
      | some S2 =>
        simp only [hS, Option.some_bind, Option.bind_eq_bind] at h
        rw [(hF i S S2).1 hS k]
        exact (ih S2).1 h k
    · intro h
      have hex : ∀ k, ∃ s, f i k (S k) = some s ∧
          l.foldlM (fun s i => f i k s) s = some (S1 k) := by
        intro k
        have := h k
        cases hs : f i k (S k) with
        | none => simp [hs] at this
        | some s => exact ⟨s, rfl, by simpa [hs] using this⟩
      have hS2 : F S i = some (fun k => (hex k).choose) :=
        (hF i S _).2 fun k => (hex k).choose_spec.1
      rw [hS2]
      simp only [Option.some_bind, Option.bind_eq_bind]
      exact (ih _).2 fun k => (hex k).choose_spec.2

theorem foldlM_flatMap {σ α β : Type} (G : σ → β → Option σ) (H : α → List β)
    (l : List α) (s : σ) :
    (l.flatMap H).foldlM G s = l.foldlM (fun s a => (H a).foldlM G s) s := by
  induction l generalizing s with
  | nil => rfl
  | cons a l ih =>
    simp only [List.flatMap_cons, List.foldlM_append, List.foldlM_cons]
    cases (H a).foldlM G s with
    | none => rfl
    | some s1 => exact ih s1

theorem foldlM_map_list {σ α β : Type} (G : σ → β → Option σ) (g : α → β)
    (l : List α) (s : σ) :
    (l.map g).foldlM G s = l.foldlM (fun s a => G s (g a)) s := by
  induction l generalizing s with
  | nil => rfl
  | cons a l ih =>
    simp only [List.map_cons, List.foldlM_cons]
    cases G s (g a) with
    | none => rfl
    | some s1 => exact ih s1


theorem AddNodeToLayout_step1_mgr (T : InterfaceNodeTypes) (i : Nat) (iol : Int)
    (mgr : Option (Node → Bool)) (st : LayoutState) (node : Node) :
    AddNodeToLayout T i (-1) iol mgr st node = AddNodeToLayout T i (-1) iol none st node := by
  unfold AddNodeToLayout
  cases st.layouts[i]? with
  | none => rfl
  | some l =>
    by_cases h : st.aaFirstLayout node = -1
    · simp [h]
    · simp [h]

theorem runCalls_append (T : InterfaceNodeTypes) (mgr : Option (Node → Bool))
    (st : LayoutState) (c1 c2 : List Call) :
    runCalls T mgr st (c1 ++ c2) = (runCalls T mgr st c1).bind (fun s => runCalls T mgr s c2) := by
  unfold runCalls
  rw [List.foldlM_append]
  rfl

theorem step1_eq_some_iff (T : InterfaceNodeTypes) (sh : SubsetHandler)
    (mgr : Option (Kind → Node → Bool)) (S S1 : KindStates) :
    step1 T sh S = some S1 ↔
      ∀ k, runCalls T (mgr.map (fun m => m k)) (S k) (step1Calls sh k) = some (S1 k) := by
  unfold step1
  rw [foldlM_kinds_eq_some_iff (step1Body T sh)
    (fun i k s => AddNodesToLayout T s i (sh.elems k i) (-1) (-1) none)
    (fun i S S1 => by
      unfold step1Body
      exact kinds_foldlM_eq_some_iff
        (fun k s => AddNodesToLayout T s i (sh.elems k i) (-1) (-1) none) S S1)]
  refine forall_congr' fun k => ?_
  unfold runCalls step1Calls
  rw [foldlM_flatMap]
  have : ∀ s i, AddNodesToLayout T s i (sh.elems k i) (-1) (-1) none =
      ((sh.elems k i).map fun n => (⟨i, -1, -1, n⟩ : Call)).foldlM
        (fun st c => AddNodeToLayout T c.layoutIndex c.level c.interfacesOnLevelOnly
          (mgr.map (fun m => m k)) st c.node) s := by
    intro s i
    rw [foldlM_map_list]
    unfold AddNodesToLayout
    simp only [AddNodeToLayout_step1_mgr T i (-1) (mgr.map (fun m => m k))]
  simp only [this]

theorem step2_eq_some_iff (T : InterfaceNodeTypes) (mg : MultiGrid) (sh : SubsetHandler)
    (g : Bool) (selection : Nat → MGSelector)
    (mgr : Option (Kind → Node → Bool)) (S S1 : KindStates) :
    step2 T mg sh g selection mgr S = some S1 ↔
      ∀ k, runCalls T (mgr.map (fun m => m k)) (S k) (step2Calls mg sh g selection k) =
        some (S1 k) := by
  unfold step2
  rw [foldlM_kinds_eq_some_iff (step2Body T mg sh g selection mgr)
    (fun i k s => (List.range (deselectSubset (selection i) sh i).num_levels).foldlM
      (fun s level => AddNodesToLayout T s i
        ((deselectSubset (selection i) sh i).elems k level) (level : Int)
        (interfacesOnLevelOnly mg g) (mgr.map (fun m => m k))) s)
    (fun i S S1 => by
      unfold step2Body
      exact foldlM_kinds_eq_some_iff
        (step2Level T i (deselectSubset (selection i) sh i) (interfacesOnLevelOnly mg g) mgr)
        (fun level k s => AddNodesToLayout T s i
          ((deselectSubset (selection i) sh i).elems k level) (level : Int)
          (interfacesOnLevelOnly mg g) (mgr.map (fun m => m k)))
        (fun level S S1 => by
          unfold step2Level
          exact kinds_foldlM_eq_some_iff
            (fun k s => AddNodesToLayout T s i
              ((deselectSubset (selection i) sh i).elems k level) (level : Int)
              (interfacesOnLevelOnly mg g) (mgr.map (fun m => m k))) S S1) _ S S1)]
  refine forall_congr' fun k => ?_
  unfold runCalls step2Calls
  rw [foldlM_flatMap]
  simp only [foldlM_flatMap, foldlM_map_list]
  rfl

theorem CreateDistributionLayouts_eq_some_iff (T : InterfaceNodeTypes) (mg : MultiGrid)
    (sh : SubsetHandler) (g : Bool) (selection : Nat → MGSelector)
    (mgr : Option (Kind → Node → Bool)) (R : Kind → List DistributionNodeLayout) :
    CreateDistributionLayouts T mg sh g selection mgr = some R ↔
      ∀ k, ∃ st, runCalls T (mgr.map (fun m => m k)) (initialState sh)
        (step1Calls sh k ++ step2Calls mg sh g selection k) = some st ∧ st.layouts = R k := by
  unfold CreateDistributionLayouts CreateDistributionLayouts_step1
  constructor
  · intro h k
    cases h1 : step1 T sh (fun _ => initialState sh) with
    | none => simp [h1] at h
    | some S1 =>
      cases h2 : step2 T mg sh g selection mgr S1 with
      | none => simp [h1, h2] at h
      | some S2 =>
        simp only [h1, h2, Option.some.injEq] at h
        refine ⟨S2 k, ?_, by rw [← h]⟩
        rw [runCalls_append, (step1_eq_some_iff T sh mgr _ S1).1 h1 k]
        exact (step2_eq_some_iff T mg sh g selection mgr S1 S2).1 h2 k
  · intro h
    have hex : ∀ k, ∃ s1 s2, runCalls T (mgr.map (fun m => m k)) (initialState sh)
        (step1Calls sh k) = some s1 ∧
        runCalls T (mgr.map (fun m => m k)) s1 (step2Calls mg sh g selection k) = some s2 ∧
        s2.layouts = R k := by
      intro k
      obtain ⟨st, hst, hR⟩ := h k
      rw [runCalls_append] at hst
      cases h1 : runCalls T (mgr.map (fun m => m k)) (initialState sh) (step1Calls sh k) with
      | none => simp [h1] at hst
      | some s1 => exact ⟨s1, st, rfl, by simpa [h1] using hst, hR⟩
    have h1 : step1 T sh (fun _ => initialState sh) = some (fun k => (hex k).choose) :=
      (step1_eq_some_iff T sh mgr _ _).2 fun k => (hex k).choose_spec.choose_spec.1
    have h2 : step2 T mg sh g selection mgr (fun k => (hex k).choose) =
        some (fun k => (hex k).choose_spec.choose) :=
      (step2_eq_some_iff T mg sh g selection mgr _ _).2
        fun k => (hex k).choose_spec.choose_spec.2.1
    simp only [h1, h2, Option.some.injEq]
    funext k
    exact (hex k).choose_spec.choose_spec.2.2

/-! ## The effect of an iteration in terms of node vectors and interfaces -/

theorem AddNodeToLayout_effect (T : InterfaceNodeTypes) (i : Nat) (level iol : Int)
    (mgr : Option (Node → Bool)) (st st1 : LayoutState) (node : Node)
    (hres : AddNodeToLayout T i level iol mgr st node = some st1) :
    i < st.layouts.length ∧ st1.layouts.length = st.layouts.length ∧
    (∀ j, nodeVecOf st1.layouts j = nodeVecOf st.layouts j ++ if j = i then [node] else []) ∧
    (∀ x, st1.aaFirstLayout x =
      if x = node ∧ st.aaFirstLayout node = -1 then (i : Int) else st.aaFirstLayout x) ∧
    (∀ x, st1.aaFirstProcLocalInd x =
      if x = node ∧ st.aaFirstLayout node = -1 then toInt (nodeVecOf st.layouts i).length
      else st.aaFirstProcLocalInd x) ∧
    (st.aaFirstLayout node ≠ -1 → level ≠ -1 ∧ 0 ≤ st.aaFirstLayout node ∧
      st.aaFirstLayout node < st.layouts.length) ∧
    (∀ P Q L, interfaceOf st1.layouts P Q L =
      interfaceOf st.layouts P Q L ++
        (if createsPair st level iol mgr node ∧
            P = (st.aaFirstLayout node).toNat ∧ Q = (i : Int) ∧ L = level.toNat
          then [masterEntry T st node] else []) ++
        (if createsPair st level iol mgr node ∧
            P = i ∧ Q = st.aaFirstLayout node ∧ L = level.toNat
          then [slaveEntry T st i] else [])) := by
  by_cases h : st.aaFirstLayout node = -1
  · have hi : i < st.layouts.length := by
      unfold AddNodeToLayout at hres
      by_contra hc
      rw [List.getElem?_eq_none (by omega)] at hres
      exact Option.noConfusion hres
    rw [AddNodeToLayout_first T i level iol mgr st node hi h, Option.some.injEq] at hres
    subst hres
    refine ⟨hi, by simp [length_modifyLayout], ?_, ?_, ?_, fun hc => absurd h hc, ?_⟩
    · intro j
      rw [nodeVecOf_modifyLayout st.layouts i j (fun l => l.push_node node) [node]
        (fun l => rfl)]
      simp [hi]
    · intro x
      by_cases hx : x = node
      · subst hx
        simp [h]
      · simp [hx, Function.update_noteq hx]
    · intro x
      by_cases hx : x = node
      · subst hx
        simp [h]
      · simp [hx, Function.update_noteq hx]
    · intro P Q L
      rw [interfaceOf_modifyLayout_same st.layouts i (fun l => l.push_node node)
        (fun _ _ _ => rfl) P Q L]
      simp [createsPair, h]
  · obtain ⟨hi, hl, hm0, hm1, ha, hb, hlen, hnv, hint⟩ :=
      AddNodeToLayout_claimed T i level iol mgr st st1 node h hres
    refine ⟨hi, hlen, hnv, ?_, ?_, fun _ => ⟨hl, hm0, hm1⟩, ?_⟩
    · intro x
      simp [ha, h]
    · intro x
      simp [hb, h]
    · intro P Q L
      rw [hint P Q L]
      simp only [createsPair, masterEntry, slaveEntry, h, ne_eq, not_false_eq_true, true_and]

theorem AddNodeToLayout_isSome (T : InterfaceNodeTypes) (i : Nat) (level iol : Int)
    (mgr : Option (Node → Bool)) (st : LayoutState) (node : Node)
    (hi : i < st.layouts.length)
    (h : st.aaFirstLayout node = -1 ∨
      (0 ≤ level ∧ 0 ≤ st.aaFirstLayout node ∧ st.aaFirstLayout node < st.layouts.length)) :
    ∃ st1, AddNodeToLayout T i level iol mgr st node = some st1 := by
  by_cases hf : st.aaFirstLayout node = -1
  · exact ⟨_, AddNodeToLayout_first T i level iol mgr st node hi hf⟩
  · obtain ⟨hl, hm0, hm1⟩ := h.resolve_left hf
    unfold AddNodeToLayout
    rw [List.getElem?_eq_getElem hi]
    have hl1 : level ≠ -1 := by omega
    have hl2 : ¬ level < 0 := by omega
    have hm : ¬ (st.aaFirstLayout node < 0 ∨ (st.layouts.length : Int) ≤ st.aaFirstLayout node) := by
      omega
    simp only [hf, hl1, hl2, hm, if_false]
    split
    · exact ⟨_, rfl⟩
    · split
      · exact ⟨_, rfl⟩
      · exact ⟨_, rfl⟩

theorem runCalls_nil (T : InterfaceNodeTypes) (mgr : Option (Node → Bool)) (st : LayoutState) :
    runCalls T mgr st [] = some st := rfl

theorem runCalls_cons (T : InterfaceNodeTypes) (mgr : Option (Node → Bool)) (st : LayoutState)
    (c : Call) (cs : List Call) :
    runCalls T mgr st (c :: cs) =
      (AddNodeToLayout T c.layoutIndex c.level c.interfacesOnLevelOnly mgr st c.node).bind
        (fun s => runCalls T mgr s cs) := by
  unfold runCalls
  rw [List.foldlM_cons]
  rfl

/-- Induction along the iterations: a property of the iterations made so far and the state
reached, which holds at the start and is kept by every iteration, holds at the end. -/
theorem runCalls_induction (T : InterfaceNodeTypes) (mgr : Option (Node → Bool))
    (Inv : List Call → LayoutState → Prop) (calls : List Call) (st0 st1 : LayoutState)
    (h0 : Inv [] st0)
    (hstep : ∀ done c st st2, c ∈ calls → Inv done st →
      AddNodeToLayout T c.layoutIndex c.level c.interfacesOnLevelOnly mgr st c.node = some st2 →
      Inv (done ++ [c]) st2)
    (hrun : runCalls T mgr st0 calls = some st1) : Inv calls st1 := by
  suffices H : ∀ (rest done : List Call) (st : LayoutState), (∀ c ∈ rest, c ∈ calls) →
      Inv done st → runCalls T mgr st rest = some st1 → Inv (done ++ rest) st1 by
    simpa using H calls [] st0 (fun _ hc => hc) h0 hrun
  intro rest
  induction rest with
  | nil =>
    intro done st _ hinv hr
    rw [runCalls_nil, Option.some.injEq] at hr
    subst hr
    simpa using hinv
  | cons c cs ih =>
    intro done st hmem hinv hr
    rw [runCalls_cons] at hr
    cases hc : AddNodeToLayout T c.layoutIndex c.level c.interfacesOnLevelOnly mgr st c.node with
    | none => simp [hc] at hr
    | some st2 =>
      simp only [hc, Option.some_bind] at hr
      have := ih (done ++ [c]) st2 (fun d hd => hmem d (List.mem_cons_of_mem _ hd))
        (hstep done c st st2 (hmem c (List.mem_cons_self _ _)) hinv hc) hr
      simpa using this

/-- Success along the iterations: when an invariant guarantees that each iteration
returns, the whole sequence returns. -/
theorem runCalls_isSome (T : InterfaceNodeTypes) (mgr : Option (Node → Bool))
    (Inv : List Call → LayoutState → Prop) (calls : List Call) (st0 : LayoutState)
    (h0 : Inv [] st0)
    (hstep : ∀ done c st st2, c ∈ calls → Inv done st →
      AddNodeToLayout T c.layoutIndex c.level c.interfacesOnLevelOnly mgr st c.node = some st2 →
      Inv (done ++ [c]) st2)
    (hsome : ∀ done c rest st, calls = done ++ c :: rest → Inv done st →
      ∃ st2, AddNodeToLayout T c.layoutIndex c.level c.interfacesOnLevelOnly mgr st c.node =
        some st2) :
    ∃ st1, runCalls T mgr st0 calls = some st1 := by
  suffices H : ∀ (rest done : List Call) (st : LayoutState), calls = done ++ rest →
      Inv done st → ∃ st1, runCalls T mgr st rest = some st1 from H calls [] st0 rfl h0
  intro rest
  induction rest with
  | nil =>
    intro done st _ _
    exact ⟨st, rfl⟩
  | cons c cs ih =>
    intro done st hsplit hinv
    obtain ⟨st2, hc⟩ := hsome done c cs st hsplit hinv
    rw [runCalls_cons, hc]
    have hmem : c ∈ calls := by
      rw [hsplit]
      simp
    exact ih (done ++ [c]) st2 (by simp [hsplit]) (hstep done c st st2 hmem hinv hc)

/-! ## The attachments stay consistent with the layouts -/

theorem getElem?_append_some {α : Type} (l1 l2 : List α) (k : Nat) (x : α)
    (h : l1[k]? = some x) : (l1 ++ l2)[k]? = some x := by
  have hk : k < l1.length := by
    by_contra hc
    rw [List.getElem?_eq_none (by omega)] at h
    exact Option.noConfusion h
  rw [List.getElem?_append_left hk]
  exact h

theorem BaseInv_initialState (sh : SubsetHandler) : BaseInv sh.num_subsets (initialState sh) := by
  refine ⟨by simp [initialState], ?_⟩
  intro x hx
  exact absurd rfl hx

theorem BaseInv_step (T : InterfaceNodeTypes) (n i : Nat) (level iol : Int)
    (mgr : Option (Node → Bool)) (st st1 : LayoutState) (node : Node)
    (hinv : BaseInv n st)
    (hres : AddNodeToLayout T i level iol mgr st node = some st1) : BaseInv n st1 := by
  obtain ⟨hi, hlen, hnv, hfl, hli, -, -⟩ := AddNodeToLayout_effect T i level iol mgr st st1 node hres
  obtain ⟨hn, hatt⟩ := hinv
  refine ⟨by omega, ?_⟩
  intro x hx
  by_cases hc : x = node ∧ st.aaFirstLayout node = -1
  · obtain ⟨rfl, hun⟩ := hc
    refine ⟨i, (nodeVecOf st.layouts i).length, by simp [hfl, hun], by omega, ?_, by simp [hli, hun]⟩
    rw [hnv i]
    simp
  · rw [hfl x, if_neg hc] at hx
    obtain ⟨m, k, h1, h2, h3, h4⟩ := hatt x hx
    refine ⟨m, k, by rw [hfl x, if_neg hc]; exact h1, h2, ?_, by rw [hli x, if_neg hc]; exact h4⟩
    rw [hnv m]
    exact getElem?_append_some _ _ _ _ h3

theorem runCalls_BaseInv (T : InterfaceNodeTypes) (mgr : Option (Node → Bool)) (n : Nat)
    (calls : List Call) (st0 st1 : LayoutState) (h0 : BaseInv n st0)
    (hrun : runCalls T mgr st0 calls = some st1) : BaseInv n st1 :=
  runCalls_induction T mgr (fun _ st => BaseInv n st) calls st0 st1 h0
    (fun _ c st st2 _ hinv hc =>
      BaseInv_step T n c.layoutIndex c.level c.interfacesOnLevelOnly mgr st st2 c.node hinv hc)
    hrun

/-- The nodes that a sequence of iterations hands to layout `j`. -/
theorem filter_step1Calls (f : Nat → List Node) (is : List Nat) (his : is.Nodup) (j : Nat) :
    ((is.flatMap fun i => (f i).map fun n => (⟨i, -1, -1, n⟩ : Call)).filter
      (fun c => decide (c.layoutIndex = j))).map (fun c => c.node) =
      if j ∈ is then f j else [] := by
  induction is with
  | nil => simp
  | cons i is ih =>
    have hi : i ∉ is := (List.nodup_cons.1 his).1
    have ih2 := ih (List.nodup_cons.1 his).2
    simp only [List.flatMap_cons, List.filter_append, List.map_append, ih2, List.mem_cons]
    by_cases hj : j = i
    · subst hj
      simp [hi, List.filter_map, Function.comp_def]
    · simp [hj, Ne.symm hj, List.filter_map, Function.comp_def]

theorem mem_step1Calls (sh : SubsetHandler) (kind : Kind) (c : Call) :
    c ∈ step1Calls sh kind ↔
      c.layoutIndex < sh.num_subsets ∧ c.level = -1 ∧ c.interfacesOnLevelOnly = -1 ∧
        c.node ∈ sh.elems kind c.layoutIndex := by
  unfold step1Calls
  simp only [List.mem_flatMap, List.mem_range, List.mem_map]
  constructor
  · rintro ⟨i, hi, n, hn, rfl⟩
    exact ⟨hi, rfl, rfl, hn⟩
  · rintro ⟨h1, h2, h3, h4⟩
    refine ⟨c.layoutIndex, h1, c.node, h4, ?_⟩
    cases c
    simp_all

theorem map_node_step1Calls (sh : SubsetHandler) (kind : Kind) :
    (step1Calls sh kind).map (fun c => c.node) =
      (List.range sh.num_subsets).flatMap (sh.elems kind) := by
  unfold step1Calls
  rw [List.map_flatMap]
  simp [Function.comp_def]

/-! ## Step 1 -/

theorem runCalls_step1 (T : InterfaceNodeTypes) (mgr : Option (Node → Bool))
    (sh : SubsetHandler) (kind : Kind) (hsh : sh.WellFormed) :
    ∃ st1, runCalls T mgr (initialState sh) (step1Calls sh kind) = some st1 ∧
      Step1Post sh kind st1 := by
  let Inv : List Call → LayoutState → Prop := fun done st =>
    BaseInv sh.num_subsets st ∧
    (∀ j, nodeVecOf st.layouts j =
      (done.filter (fun c => decide (c.layoutIndex = j))).map (fun c => c.node)) ∧
    (∀ (j : Nat) (l : DistributionNodeLayout), st.layouts[j]? = some l →
      l.m_vInterfaceMaps = []) ∧
    (∀ x, st.aaFirstLayout x ≠ -1 → ∃ c ∈ done, c.node = x) ∧
    (∀ c ∈ done, st.aaFirstLayout c.node = (c.layoutIndex : Int))
  have h0 : Inv [] (initialState sh) := by
    refine ⟨BaseInv_initialState sh, ?_, ?_, ?_, ?_⟩
    · intro j
      unfold nodeVecOf initialState
      simp only [List.filter_nil, List.map_nil]
      cases h : (List.replicate sh.num_subsets DistributionNodeLayout.empty)[j]? with
      | none => rfl
      | some l =>
        have := List.getElem?_mem h
        rw [List.mem_replicate] at this
        rw [this.2]
        rfl
    · intro j l h
      have := List.getElem?_mem h
      simp only [initialState, List.mem_replicate] at this
      rw [this.2]
      rfl
    · intro x hx
      exact absurd rfl hx
    · intro c hc
      cases hc
  have hstep : ∀ done c st st2, c ∈ step1Calls sh kind → Inv done st →
      AddNodeToLayout T c.layoutIndex c.level c.interfacesOnLevelOnly mgr st c.node = some st2 →
      Inv (done ++ [c]) st2 := by
    intro done c st st2 hc hinv hres
    obtain ⟨hb, hnv, hmaps, hcl, hown⟩ := hinv
    obtain ⟨hi, hlen, hnv2, hfl, hli, hclaimed, -⟩ :=
      AddNodeToLayout_effect T _ _ _ mgr st st2 c.node hres
    have hlevel : c.level = -1 := ((mem_step1Calls sh kind c).1 hc).2.1
    have hun : st.aaFirstLayout c.node = -1 := by
      by_contra hne
      exact (hclaimed hne).1 hlevel
    refine ⟨BaseInv_step T _ _ _ _ mgr st st2 c.node hb hres, ?_, ?_, ?_, ?_⟩
    · intro j
      rw [hnv2 j, hnv j, List.filter_append, List.map_append]
      by_cases hj : j = c.layoutIndex
      · subst hj
        simp
      · simp [hj, Ne.symm hj]
    · intro j l hl
      rw [AddNodeToLayout_first T _ _ _ mgr st c.node hi hun, Option.some.injEq] at hres
      subst hres
      simp only [] at hl
      rw [getElem?_modifyLayout] at hl
      by_cases hj : j = c.layoutIndex
      · simp only [hj, if_true] at hl
        cases h0 : st.layouts[c.layoutIndex]? with
        | none => simp [h0] at hl
        | some l0 =>
          simp only [h0, Option.map_some', Option.some.injEq] at hl
          rw [← hl]
          exact hmaps _ l0 h0
      · simp only [hj, if_false] at hl
        exact hmaps _ _ hl
    · intro x hx
      by_cases hxc : x = c.node
      · exact ⟨c, by simp, hxc.symm⟩
      · rw [hfl x] at hx
        simp only [hxc, false_and, if_false] at hx
        obtain ⟨d, hd, hdx⟩ := hcl x hx
        exact ⟨d, by simp [hd], hdx⟩
    · intro d hd
      rw [hfl d.node]
      rcases List.mem_append.1 hd with hd | hd
      · have := hown d hd
        by_cases hdc : d.node = c.node
        · rw [hdc] at this
          rw [hun] at this
          omega
        · simp [hdc, this]
      · simp only [List.mem_singleton] at hd
        subst hd
        simp [hun]
  have hnodup : ((step1Calls sh kind).map (fun c => c.node)).Nodup := by
    rw [map_node_step1Calls]
    exact hsh kind
  obtain ⟨st1, hrun⟩ := runCalls_isSome T mgr Inv (step1Calls sh kind) (initialState sh) h0 hstep
    (by
      intro done c rest st hsplit hinv
      obtain ⟨hb, -, -, hcl, -⟩ := hinv
      have hc : c ∈ step1Calls sh kind := by
        rw [hsplit]
        simp
      refine AddNodeToLayout_isSome T _ _ _ mgr st c.node ?_ (Or.inl ?_)
      · rw [hb.1]
        exact ((mem_step1Calls sh kind c).1 hc).1
      · by_contra hne
        obtain ⟨d, hd, hdc⟩ := hcl c.node hne
        rw [hsplit, List.map_append, List.map_cons] at hnodup
        have := (List.nodup_append.1 hnodup).2.2
        exact this (List.mem_map.2 ⟨d, hd, hdc⟩) (List.mem_cons_self _ _))
  refine ⟨st1, hrun, ?_⟩
  obtain ⟨hb, hnv, hmaps, hcl, hown⟩ :=
    runCalls_induction T mgr Inv (step1Calls sh kind) (initialState sh) st1 h0 hstep hrun
  refine ⟨hb, ?_, hmaps, ?_, ?_⟩
  · intro j hj
    rw [hnv j]
    unfold step1Calls
    rw [filter_step1Calls (sh.elems kind) _ (List.nodup_range _) j]
    simp [hj]
  · intro i x hi hx
    exact hown ⟨i, -1, -1, x⟩ ((mem_step1Calls sh kind _).2 ⟨hi, rfl, rfl, hx⟩)
  · intro x hx
    obtain ⟨c, hc, hcx⟩ := hcl x hx
    have := (mem_step1Calls sh kind c).1 hc
    exact ⟨c.layoutIndex, this.1, hcx ▸ this.2.2.2⟩

/-! ## Step 2 and the return of CreateDistributionLayouts -/

theorem num_levels_deselectSubset (msel : MGSelector) (sh : SubsetHandler) (i : Nat) :
    (deselectSubset msel sh i).num_levels = msel.num_levels := rfl

theorem mem_elems_deselectSubset (msel : MGSelector) (sh : SubsetHandler) (i : Nat)
    (kind : Kind) (level : Nat) (x : Node) :
    x ∈ (deselectSubset msel sh i).elems kind level ↔
      x ∈ msel.elems kind level ∧ x ∉ sh.elems kind i := by
  cases kind <;> simp [deselectSubset, MGSelector.deselect]

theorem mem_step2Calls (mg : MultiGrid) (sh : SubsetHandler) (g : Bool)
    (selection : Nat → MGSelector) (kind : Kind) (c : Call) :
    c ∈ step2Calls mg sh g selection kind ↔
      c.layoutIndex < sh.num_subsets ∧
      c.interfacesOnLevelOnly = interfacesOnLevelOnly mg g ∧
      ∃ level : Nat, c.level = (level : Int) ∧ level < (selection c.layoutIndex).num_levels ∧
        c.node ∈ (selection c.layoutIndex).elems kind level ∧
        c.node ∉ sh.elems kind c.layoutIndex := by
  unfold step2Calls
  simp only [List.mem_flatMap, List.mem_range, List.mem_map, num_levels_deselectSubset,
    mem_elems_deselectSubset]
  constructor
  · rintro ⟨i, hi, level, hl, n, hn, rfl⟩
    exact ⟨hi, rfl, level, rfl, hl, hn.1, hn.2⟩
  · rintro ⟨h1, h2, level, h3, h4, h5, h6⟩
    refine ⟨c.layoutIndex, h1, level, h4, c.node, ⟨h5, h6⟩, ?_⟩
    cases c
    simp_all

/-- Step 2 returns from every state in which the attachments are consistent. -/
theorem runCalls_step2_isSome (T : InterfaceNodeTypes) (mgr : Option (Node → Bool))
    (mg : MultiGrid) (sh : SubsetHandler) (g : Bool) (selection : Nat → MGSelector)
    (kind : Kind) (st1 : LayoutState) (h1 : BaseInv sh.num_subsets st1) :
    ∃ st2, runCalls T mgr st1 (step2Calls mg sh g selection kind) = some st2 := by
  refine runCalls_isSome T mgr (fun _ st => BaseInv sh.num_subsets st) _ st1 h1
    (fun _ c st st2 _ hinv hc => BaseInv_step T _ _ _ _ mgr st st2 c.node hinv hc) ?_
  intro done c rest st hsplit hinv
  have hc : c ∈ step2Calls mg sh g selection kind := by
    rw [hsplit]
    simp
  obtain ⟨hi, -, level, hl, -⟩ := (mem_step2Calls mg sh g selection kind c).1 hc
  refine AddNodeToLayout_isSome T _ _ _ mgr st c.node (by rw [hinv.1]; exact hi) ?_
  by_cases hun : st.aaFirstLayout c.node = -1
  · exact Or.inl hun
  · obtain ⟨m, k, hm, hmn, -, -⟩ := hinv.2 c.node hun
    refine Or.inr ⟨by omega, by omega, ?_⟩
    rw [hinv.1, hm]
    exact_mod_cast hmn

/-- With a well-formed subset handler `CreateDistributionLayouts` returns; for every element
kind its result is reached by the iterations of step 1 followed by those of step 2. -/
theorem CreateDistributionLayouts_returns (T : InterfaceNodeTypes) (mg : MultiGrid)
    (sh : SubsetHandler) (g : Bool) (selection : Nat → MGSelector)
    (mgr : Option (Kind → Node → Bool)) (hsh : sh.WellFormed) :
    ∃ R, CreateDistributionLayouts T mg sh g selection mgr = some R ∧
      ∀ kind, ∃ st1 st2,
        runCalls T (mgr.map (fun m => m kind)) (initialState sh) (step1Calls sh kind) =
          some st1 ∧
        Step1Post sh kind st1 ∧
        runCalls T (mgr.map (fun m => m kind)) st1 (step2Calls mg sh g selection kind) =
          some st2 ∧
        st2.layouts = R kind := by
  have hex : ∀ kind, ∃ st1 st2,
      runCalls T (mgr.map (fun m => m kind)) (initialState sh) (step1Calls sh kind) =
        some st1 ∧
      Step1Post sh kind st1 ∧
      runCalls T (mgr.map (fun m => m kind)) st1 (step2Calls mg sh g selection kind) =
        some st2 := by
    intro kind
    obtain ⟨st1, hr1, hp1⟩ := runCalls_step1 T (mgr.map (fun m => m kind)) sh kind hsh
    obtain ⟨st2, hr2⟩ := runCalls_step2_isSome T (mgr.map (fun m => m kind)) mg sh g selection
      kind st1 hp1.1
    exact ⟨st1, st2, hr1, hp1, hr2⟩
  choose f1 f2 hf1 hp1 hf2 using hex
  refine ⟨fun kind => (f2 kind).layouts, ?_, ?_⟩
  · rw [CreateDistributionLayouts_eq_some_iff]
    intro kind
    refine ⟨f2 kind, ?_, rfl⟩
    rw [runCalls_append, hf1 kind]
    exact hf2 kind
  · intro kind
    exact ⟨f1 kind, f2 kind, hf1 kind, hp1 kind, hf2 kind, rfl⟩

/-! ## Interfaces between two layouts consist of matching pairs -/

theorem forall₂_append_singleton {α β : Type} (R : α → β → Prop) (l1 : List α) (l2 : List β)
    (a : α) (b : β) (h : List.Forall₂ R l1 l2) (hab : R a b) :
    List.Forall₂ R (l1 ++ [a]) (l2 ++ [b]) :=
  List.rel_append h (List.Forall₂.cons hab List.Forall₂.nil)

theorem masterEntry_type (T : InterfaceNodeTypes) (st : LayoutState) (node : Node) :
    (masterEntry T st node).type = bitfield 4 T.INT_MASTER := by
  simp only [masterEntry, DistributionInterfaceEntry.create]

theorem masterEntry_localID (T : InterfaceNodeTypes) (st : LayoutState) (node : Node) :
    (masterEntry T st node).localID = bitfield 28 (st.aaFirstProcLocalInd node) := by
  simp only [masterEntry, DistributionInterfaceEntry.create]

theorem slaveEntry_type (T : InterfaceNodeTypes) (st : LayoutState) (i : Nat) :
    (slaveEntry T st i).type = bitfield 4 T.INT_SLAVE := by
  simp only [slaveEntry, DistributionInterfaceEntry.create]

theorem slaveEntry_localID (T : InterfaceNodeTypes) (st : LayoutState) (i : Nat) :
    (slaveEntry T st i).localID = bitfield 28 (toInt (nodeVecOf st.layouts i).length) := by
  simp only [slaveEntry, DistributionInterfaceEntry.create]

theorem PairInv_step (T : InterfaceNodeTypes) (n i : Nat) (level iol : Int)
    (mgr : Option (Node → Bool)) (st st1 : LayoutState) (node : Node)
    (hb : BaseInv n st) (hinv : PairInv T st)
    (hres : AddNodeToLayout T i level iol mgr st node = some st1) : PairInv T st1 := by
  obtain ⟨hi, hlen, hnv, hfl, hli, hclaimed, hint⟩ :=
    AddNodeToLayout_effect T i level iol mgr st st1 node hres
  intro P Q hPQ L
  have hold : List.Forall₂ (PairRel T st1.layouts P Q)
      (interfaceOf st.layouts P (Q : Int) L) (interfaceOf st.layouts Q (P : Int) L) := by
    refine (hinv P Q hPQ L).imp ?_
    rintro a b ⟨ht, x, kP, kQ, h1, h2, h3, h4⟩
    refine ⟨ht, x, kP, kQ, h1, h2, ?_, ?_⟩
    · rw [hnv P]
      exact getElem?_append_some _ _ _ _ h3
    · rw [hnv Q]
      exact getElem?_append_some _ _ _ _ h4
  rw [hint P Q L, hint Q P L]
  by_cases hcp : createsPair st level iol mgr node
  swap
  · simpa [hcp] using hold
  obtain ⟨hm1, hm0, hmlen⟩ := hclaimed hcp.1
  obtain ⟨m, k, hm, hmn, hk, hloc⟩ := hb.2 node hcp.1
  have hmt : (st.aaFirstLayout node).toNat = m := by
    rw [hm]
    simp
  simp only [hcp, true_and, hm, Int.toNat_ofNat, Nat.cast_inj]
  by_cases hL : L = level.toNat
  swap
  · simpa [hL] using hold
  simp only [hL, and_true]
  have hnew_i : (nodeVecOf st1.layouts i)[(nodeVecOf st.layouts i).length]? = some node := by
    rw [hnv i]
    simp
  have hnew_m : (nodeVecOf st1.layouts m)[k]? = some node := by
    rw [hnv m]
    exact getElem?_append_some _ _ _ _ hk
  by_cases hA : P = m ∧ Q = i
  · obtain ⟨rfl, rfl⟩ := hA
    have h2 : ¬ (P = Q ∧ Q = P) := fun h => hPQ h.1
    have h3 : ¬ (Q = P ∧ P = Q) := fun h => hPQ h.2
    simp only [and_self, if_true, h2, h3, if_false, List.append_nil]
    rw [hL] at hold
    refine forall₂_append_singleton _ _ _ _ _ hold
      ⟨Or.inl ⟨masterEntry_type T st node, slaveEntry_type T st Q⟩, node, k,
        (nodeVecOf st.layouts Q).length, ?_, slaveEntry_localID T st Q, hnew_m, hnew_i⟩
    rw [masterEntry_localID, hloc]
  · by_cases hB : P = i ∧ Q = m
    · obtain ⟨rfl, rfl⟩ := hB
      have h2 : ¬ (P = Q ∧ Q = P) := fun h => hPQ h.1
      have h3 : ¬ (Q = P ∧ P = Q) := fun h => hPQ h.2
      simp only [and_self, if_true, h2, h3, if_false, List.append_nil, List.nil_append]
      rw [hL] at hold
      refine forall₂_append_singleton _ _ _ _ _ hold
        ⟨Or.inr ⟨slaveEntry_type T st P, masterEntry_type T st node⟩, node,
          (nodeVecOf st.layouts P).length, k, slaveEntry_localID T st P, ?_, hnew_i, hnew_m⟩
      rw [masterEntry_localID, hloc]
    · have hA2 : ¬ (Q = m ∧ P = i) := fun h => hB ⟨h.2, h.1⟩
      have hB2 : ¬ (Q = i ∧ P = m) := fun h => hA ⟨h.2, h.1⟩
      simp only [hA, hB, hA2, hB2, if_false, List.append_nil]
      rw [hL] at hold
      exact hold

theorem PairInv_of_maps_nil (T : InterfaceNodeTypes) (st : LayoutState)
    (h : ∀ (j : Nat) (l : DistributionNodeLayout), st.layouts[j]? = some l →
      l.m_vInterfaceMaps = []) : PairInv T st := by
  have hnil : ∀ P Q L, interfaceOf st.layouts P Q L = [] := by
    intro P Q L
    unfold interfaceOf
    cases hl : st.layouts[P]? with
    | none => rfl
    | some l =>
      simp [DistributionNodeLayout.interface, DistributionNodeLayout.interface_map, h P l hl,
        InterfaceMap.get, InterfaceMap.find]
  intro P Q _ L
  rw [hnil, hnil]
  exact List.Forall₂.nil

theorem runCalls_PairInv (T : InterfaceNodeTypes) (mgr : Option (Node → Bool)) (n : Nat)
    (calls : List Call) (st0 st1 : LayoutState) (hb : BaseInv n st0) (h0 : PairInv T st0)
    (hrun : runCalls T mgr st0 calls = some st1) : PairInv T st1 :=
  (runCalls_induction T mgr (fun _ st => BaseInv n st ∧ PairInv T st) calls st0 st1 ⟨hb, h0⟩
    (fun _ c st st2 _ hinv hc =>
      ⟨BaseInv_step T n c.layoutIndex c.level c.interfacesOnLevelOnly mgr st st2 c.node hinv.1 hc,
        PairInv_step T n c.layoutIndex c.level c.interfacesOnLevelOnly mgr st st2 c.node
          hinv.1 hinv.2 hc⟩)
    hrun).2

/-! ## Counting entries -/

theorem exampleTypes_wellFormed : exampleTypes.WellFormed := by
  unfold InterfaceNodeTypes.WellFormed exampleTypes
  decide

theorem exampleSubsetHandler_wellFormed : exampleSubsetHandler.WellFormed := by
  intro kind
  cases kind <;> decide

theorem bitfield_localID (k : Nat) (h : k < 2 ^ 27) : bitfield 28 (toInt k) = (k : Int) := by
  have hk : (k : Int) < 2 ^ 27 := by exact_mod_cast h
  have h1 : toInt k = (k : Int) := by
    unfold toInt
    apply bitfield_of_range 32 _ _ _ (by norm_num)
    · norm_num
      omega
    · norm_num
      omega
  rw [h1]
  apply bitfield_of_range 28 _ _ _ (by norm_num)
  · norm_num
    omega
  · norm_num
    omega

theorem bitfield_type (t : Int) (h1 : -8 ≤ t) (h2 : t < 8) : bitfield 4 t = t := by
  apply bitfield_of_range 4 _ _ _ (by norm_num)
  · norm_num
    omega
  · norm_num
    omega

theorem NumEntries_foldl (t : Int) (l : Interface) (c : Nat) :
    l.foldl (fun counter e => if e.type = t then counter + 1 else counter) c =
      c + NumEntriesOfTypeInDistributionInterface t l := by
  unfold NumEntriesOfTypeInDistributionInterface
  induction l generalizing c with
  | nil => simp
  | cons a l ih =>
    simp only [List.foldl_cons]
    rw [ih, ih (if a.type = t then 0 + 1 else 0)]
    split <;> omega

theorem NumEntries_nil (t : Int) : NumEntriesOfTypeInDistributionInterface t [] = 0 := rfl

theorem NumEntries_cons (t : Int) (a : DistributionInterfaceEntry) (l : Interface) :
    NumEntriesOfTypeInDistributionInterface t (a :: l) =
      (if a.type = t then 1 else 0) + NumEntriesOfTypeInDistributionInterface t l := by
  have := NumEntries_foldl t l (if a.type = t then 0 + 1 else 0)
  unfold NumEntriesOfTypeInDistributionInterface at this ⊢
  simp only [List.foldl_cons]
  rw [this]

theorem NumEntries_of_pairs (T : InterfaceNodeTypes) (hT : T.WellFormed)
    (ls : List DistributionNodeLayout) (P Q : Nat) (l1 l2 : Interface)
    (h : List.Forall₂ (PairRel T ls P Q) l1 l2) :
    NumEntriesOfTypeInDistributionInterface T.INT_MASTER l1 =
      NumEntriesOfTypeInDistributionInterface T.INT_SLAVE l2 ∧
    NumEntriesOfTypeInDistributionInterface T.INT_VERTICAL_MASTER l1 = 0 ∧
    NumEntriesOfTypeInDistributionInterface T.INT_VERTICAL_SLAVE l2 = 0 := by
  obtain ⟨⟨hm1, hm2⟩, ⟨hs1, hs2⟩, hms, hvm1, hvm2, hvs1, hvs2⟩ := hT
  have hM := bitfield_type T.INT_MASTER hm1 hm2
  have hS := bitfield_type T.INT_SLAVE hs1 hs2
  induction h with
  | nil => exact ⟨rfl, rfl, rfl⟩
  | cons hab _ ih =>
    obtain ⟨ih1, ih2, ih3⟩ := ih
    simp only [NumEntries_cons, ih1, ih2, ih3]
    rcases hab.1 with ⟨ha, hb⟩ | ⟨ha, hb⟩
    · rw [hM] at ha
      rw [hS] at hb
      simp [ha, hb, hms, Ne.symm hvm1, Ne.symm hvs2]
    · rw [hS] at ha
      rw [hM] at hb
      simp [ha, hb, hms, Ne.symm hms, Ne.symm hvm2, Ne.symm hvs1]

theorem forall₂_getElem? {α β : Type} (R : α → β → Prop) (l1 : List α) (l2 : List β)
    (h : List.Forall₂ R l1 l2) (k : Nat) (a : α) (b : β)
    (ha : l1[k]? = some a) (hb : l2[k]? = some b) : R a b := by
  induction h generalizing k with
  | nil => simp at ha
  | cons hab _ ih =>
    cases k with
    | zero =>
      simp only [List.getElem?_cons_zero, Option.some.injEq] at ha hb
      subst ha
      subst hb
      exact hab
    | succ k =>
      simp only [List.getElem?_cons_succ] at ha hb
      exact ih k ha hb

/-- What `CreateDistributionLayouts` returns for one kind satisfies the pairing invariant. -/
theorem CreateDistributionLayouts_PairInv (T : InterfaceNodeTypes) (mg : MultiGrid)
    (sh : SubsetHandler) (g : Bool) (selection : Nat → MGSelector)
    (mgr : Option (Kind → Node → Bool)) (hsh : sh.WellFormed) :
    ∃ R, CreateDistributionLayouts T mg sh g selection mgr = some R ∧
      ∀ (kind : Kind) (P Q : Nat), P ≠ Q → ∀ L : Nat,
        List.Forall₂ (PairRel T (R kind) P Q)
          (interfaceOf (R kind) P (Q : Int) L) (interfaceOf (R kind) Q (P : Int) L) := by
  obtain ⟨R, hR, hk⟩ := CreateDistributionLayouts_returns T mg sh g selection mgr hsh
  refine ⟨R, hR, ?_⟩
  intro kind
  obtain ⟨st1, st2, -, hp1, hr2, hl⟩ := hk kind
  have := runCalls_PairInv T _ sh.num_subsets _ st1 st2 hp1.1
    (PairInv_of_maps_nil T st1 hp1.2.2.1) hr2
  rw [← hl]
  exact this

/-! ## Claims C1 and C2 -/

/-- C1 (interface symmetry): for every multigrid, every well-formed subset handler, both
values of `distributeGenealogy` and every selection, with `pDistGridMgr = NULL`,
`CreateDistributionLayouts` returns, and in the layouts of every element kind, for all layout
indices `P ≠ Q` and every level `L`, the number of `INT_MASTER` entries of
`layouts[P].interface(Q, L)` equals the number of `INT_SLAVE` entries of
`layouts[Q].interface(P, L)`; the numbers of vertical master and vertical slave entries
match too, both being 0. -/
theorem C1_interface_symmetry (T : InterfaceNodeTypes) (hT : T.WellFormed) (mg : MultiGrid)
    (sh : SubsetHandler) (hsh : sh.WellFormed) (distributeGenealogy : Bool)
    (selection : Nat → MGSelector) :
    ∃ R, CreateDistributionLayouts T mg sh distributeGenealogy selection none = some R ∧
      ∀ (kind : Kind) (P Q L : Nat), P ≠ Q →
        NumEntriesOfTypeInDistributionInterface T.INT_MASTER (interfaceOf (R kind) P Q L) =
          NumEntriesOfTypeInDistributionInterface T.INT_SLAVE (interfaceOf (R kind) Q P L) ∧
        NumEntriesOfTypeInDistributionInterface T.INT_VERTICAL_MASTER
            (interfaceOf (R kind) P Q L) =
          NumEntriesOfTypeInDistributionInterface T.INT_VERTICAL_SLAVE
            (interfaceOf (R kind) Q P L) ∧
        NumEntriesOfTypeInDistributionInterface T.INT_VERTICAL_MASTER
            (interfaceOf (R kind) P Q L) = 0 ∧
        NumEntriesOfTypeInDistributionInterface T.INT_VERTICAL_SLAVE
            (interfaceOf (R kind) Q P L) = 0 := by
  obtain ⟨R, hR, hpair⟩ :=
    CreateDistributionLayouts_PairInv T mg sh distributeGenealogy selection none hsh
  refine ⟨R, hR, ?_⟩
  intro kind P Q L hPQ
  obtain ⟨h1, h2, h3⟩ := NumEntries_of_pairs T hT (R kind) P Q _ _ (hpair kind P Q hPQ L)
  exact ⟨h1, by rw [h2, h3], h2, h3⟩

/-- Witness of C1 on the example input. -/
theorem C1_interface_symmetry_witness :
    exampleTypes.WellFormed ∧ exampleSubsetHandler.WellFormed ∧
    ∃ R, CreateDistributionLayouts exampleTypes exampleMultiGrid exampleSubsetHandler true
        exampleSelection none = some R ∧
      ∀ (kind : Kind) (P Q L : Nat), P ≠ Q →
        NumEntriesOfTypeInDistributionInterface exampleTypes.INT_MASTER
            (interfaceOf (R kind) P Q L) =
          NumEntriesOfTypeInDistributionInterface exampleTypes.INT_SLAVE
            (interfaceOf (R kind) Q P L) ∧
        NumEntriesOfTypeInDistributionInterface exampleTypes.INT_VERTICAL_MASTER
            (interfaceOf (R kind) P Q L) =
          NumEntriesOfTypeInDistributionInterface exampleTypes.INT_VERTICAL_SLAVE
            (interfaceOf (R kind) Q P L) ∧
        NumEntriesOfTypeInDistributionInterface exampleTypes.INT_VERTICAL_MASTER
            (interfaceOf (R kind) P Q L) = 0 ∧
        NumEntriesOfTypeInDistributionInterface exampleTypes.INT_VERTICAL_SLAVE
            (interfaceOf (R kind) Q P L) = 0 :=
  ⟨by unfold InterfaceNodeTypes.WellFormed exampleTypes; decide,
    by intro kind; cases kind <;> decide,
    C1_interface_symmetry exampleTypes
      (by unfold InterfaceNodeTypes.WellFormed exampleTypes; decide) exampleMultiGrid
      exampleSubsetHandler (by intro kind; cases kind <;> decide) true exampleSelection⟩

/-- C2 (pairing by local index): with `pDistGridMgr = NULL`, in the layouts returned by
`CreateDistributionLayouts` for an element kind whose node vectors are all shorter than
2^27, for all `P ≠ Q` and every level `L` the interfaces `layouts[P].interface(Q, L)` and
`layouts[Q].interface(P, L)` have the same length, and at every position one of the two
entries has type `INT_MASTER` and the other `INT_SLAVE`, and the local ids of both are valid
positions of the node vectors of `P` and `Q` that hold the same element. -/
theorem C2_entries_paired_by_local_index (T : InterfaceNodeTypes) (hT : T.WellFormed)
    (mg : MultiGrid) (sh : SubsetHandler) (hsh : sh.WellFormed) (distributeGenealogy : Bool)
    (selection : Nat → MGSelector) :
    ∃ R, CreateDistributionLayouts T mg sh distributeGenealogy selection none = some R ∧
      ∀ kind : Kind, (∀ j, (nodeVecOf (R kind) j).length < 2 ^ 27) →
        ∀ (P Q L : Nat), P ≠ Q →
          (interfaceOf (R kind) P Q L).length = (interfaceOf (R kind) Q P L).length ∧
          ∀ (k : Nat) (entryP entryQ : DistributionInterfaceEntry),
            (interfaceOf (R kind) P Q L)[k]? = some entryP →
            (interfaceOf (R kind) Q P L)[k]? = some entryQ →
            ((entryP.type = T.INT_MASTER ∧ entryQ.type = T.INT_SLAVE) ∨
              (entryP.type = T.INT_SLAVE ∧ entryQ.type = T.INT_MASTER)) ∧
            entryP.type ≠ entryQ.type ∧
            0 ≤ entryP.localID ∧ 0 ≤ entryQ.localID ∧
            ∃ x, (nodeVecOf (R kind) P)[entryP.localID.toNat]? = some x ∧
              (nodeVecOf (R kind) Q)[entryQ.localID.toNat]? = some x := by
  obtain ⟨R, hR, hpair⟩ :=
    CreateDistributionLayouts_PairInv T mg sh distributeGenealogy selection none hsh
  refine ⟨R, hR, ?_⟩
  intro kind hbound P Q L hPQ
  refine ⟨(hpair kind P Q hPQ L).length_eq, ?_⟩
  intro k a b ha hb
  obtain ⟨ht, x, kP, kQ, h1, h2, h3, h4⟩ := forall₂_getElem? _ _ _ (hpair kind P Q hPQ L) k a b ha hb
  obtain ⟨⟨hm1, hm2⟩, ⟨hs1, hs2⟩, hms, -⟩ := hT
  rw [bitfield_type T.INT_MASTER hm1 hm2, bitfield_type T.INT_SLAVE hs1 hs2] at ht
  have hkP : kP < 2 ^ 27 := by
    have : kP < (nodeVecOf (R kind) P).length := by
      by_contra hc
      rw [List.getElem?_eq_none (by omega)] at h3
      exact Option.noConfusion h3
    exact lt_trans this (hbound P)
  have hkQ : kQ < 2 ^ 27 := by
    have : kQ < (nodeVecOf (R kind) Q).length := by
      by_contra hc
      rw [List.getElem?_eq_none (by omega)] at h4
      exact Option.noConfusion h4
    exact lt_trans this (hbound Q)
  rw [bitfield_localID kP hkP] at h1
  rw [bitfield_localID kQ hkQ] at h2
  refine ⟨ht, ?_, by rw [h1]; exact Int.ofNat_nonneg _, by rw [h2]; exact Int.ofNat_nonneg _,
    x, by rw [h1]; exact h3, by rw [h2]; exact h4⟩
  rcases ht with ⟨ha, hb⟩ | ⟨ha, hb⟩
  · rw [ha, hb]
    exact hms
  · rw [ha, hb]
    exact Ne.symm hms


/-- Witness of C2 on the example input; the vertex layouts returned there are shorter than
2^27. -/
theorem C2_entries_paired_by_local_index_witness :
    exampleTypes.WellFormed ∧ exampleSubsetHandler.WellFormed ∧
    (∀ R, CreateDistributionLayouts exampleTypes exampleMultiGrid exampleSubsetHandler true
        exampleSelection none = some R →
      ∀ j, (nodeVecOf (R Kind.VertexBase) j).length < 2 ^ 27) ∧
    ∃ R, CreateDistributionLayouts exampleTypes exampleMultiGrid exampleSubsetHandler true
        exampleSelection none = some R ∧
      ∀ kind : Kind, (∀ j, (nodeVecOf (R kind) j).length < 2 ^ 27) →
        ∀ (P Q L : Nat), P ≠ Q →
          (interfaceOf (R kind) P Q L).length = (interfaceOf (R kind) Q P L).length ∧
          ∀ (k : Nat) (entryP entryQ : DistributionInterfaceEntry),
            (interfaceOf (R kind) P Q L)[k]? = some entryP →
            (interfaceOf (R kind) Q P L)[k]? = some entryQ →
            ((entryP.type = exampleTypes.INT_MASTER ∧ entryQ.type = exampleTypes.INT_SLAVE) ∨
              (entryP.type = exampleTypes.INT_SLAVE ∧
                entryQ.type = exampleTypes.INT_MASTER)) ∧
            entryP.type ≠ entryQ.type ∧
            0 ≤ entryP.localID ∧ 0 ≤ entryQ.localID ∧
            ∃ x, (nodeVecOf (R kind) P)[entryP.localID.toNat]? = some x ∧
              (nodeVecOf (R kind) Q)[entryQ.localID.toNat]? = some x :=
  ⟨by unfold InterfaceNodeTypes.WellFormed exampleTypes; decide,
    by intro kind; cases kind <;> decide,
    by
      intro R hR j
      have h : (CreateDistributionLayouts exampleTypes exampleMultiGrid exampleSubsetHandler
          true exampleSelection none).map (fun R => R Kind.VertexBase) =
          some [{ m_vNodes := [10, 11, 12, 13, 14],
                  m_vInterfaceMaps := [[], [(1, [{ localID := 4, type := 1 }])]] },
                { m_vNodes := [12, 10, 11, 13, 14],
                  m_vInterfaceMaps := [[], [(0, [{ localID := 4, type := 2 }])]] }] := by
        decide
      rw [hR, Option.map_some', Option.some.injEq] at h
      rw [h]
      rcases j with _ | _ | j <;> simp [nodeVecOf, DistributionNodeLayout.node_vec],
    C2_entries_paired_by_local_index exampleTypes
      (by unfold InterfaceNodeTypes.WellFormed exampleTypes; decide) exampleMultiGrid
      exampleSubsetHandler (by intro kind; cases kind <;> decide) true exampleSelection⟩

/-! ## Well-formed subset handlers and the state after step 1 -/

theorem SubsetHandler.WellFormed.disjoint (sh : SubsetHandler) (hsh : sh.WellFormed)
    (kind : Kind) (i j : Nat) (hi : i < sh.num_subsets) (hj : j < sh.num_subsets)
    (hij : i ≠ j) (e : Node) (hei : e ∈ sh.elems kind i) : e ∉ sh.elems kind j := by
  have hp := (List.nodup_flatMap.1 (hsh kind)).2
  have hsym : Symmetric (Function.onFun List.Disjoint (sh.elems kind)) :=
    fun a b h => List.Disjoint.symm h
  have := List.Pairwise.forall hsym hp (List.mem_range.2 hi) (List.mem_range.2 hj) hij
  exact fun hej => this hei hej

theorem SubsetHandler.WellFormed.nodup (sh : SubsetHandler) (hsh : sh.WellFormed)
    (kind : Kind) (i : Nat) (hi : i < sh.num_subsets) : (sh.elems kind i).Nodup :=
  (List.nodup_flatMap.1 (hsh kind)).1 i (List.mem_range.2 hi)

theorem nodeVecOf_eq_nil (ls : List DistributionNodeLayout) (j : Nat) (h : ls.length ≤ j) :
    nodeVecOf ls j = [] := by
  unfold nodeVecOf
  rw [List.getElem?_eq_none h]

/-- Step 1 returns for a well-formed subset handler, with `Step1Post` for every kind. -/
theorem CreateDistributionLayouts_step1_returns (T : InterfaceNodeTypes) (sh : SubsetHandler)
    (hsh : sh.WellFormed) :
    ∃ S1, CreateDistributionLayouts_step1 T sh = some S1 ∧ ∀ kind, Step1Post sh kind (S1 kind) := by
  have hex : ∀ kind, ∃ st1, runCalls T ((none : Option (Kind → Node → Bool)).map (fun m => m kind))
      (initialState sh) (step1Calls sh kind) = some st1 ∧ Step1Post sh kind st1 :=
    fun kind => runCalls_step1 T _ sh kind hsh
  choose f hf hp using hex
  exact ⟨f, (step1_eq_some_iff T sh none _ f).2 hf, hp⟩

/-! ## Claim C3 -/

/-- C3 (no double primary assignment): for a well-formed subset handler step 1 of
`CreateDistributionLayouts` returns, and afterwards, for every element kind, no element is
in the node vectors of two different layouts, the node vector of layout `i` is the list of
the elements of subset `i`, and an element of subset `i` is in no other layout and has the
first-owner attachment `i`. -/
theorem C3_no_double_primary_assignment (T : InterfaceNodeTypes) (sh : SubsetHandler)
    (hsh : sh.WellFormed) :
    ∃ S1, CreateDistributionLayouts_step1 T sh = some S1 ∧
      ∀ kind : Kind,
        (∀ (e : Node) (i j : Nat), i ≠ j →
          ¬ (e ∈ nodeVecOf (S1 kind).layouts i ∧ e ∈ nodeVecOf (S1 kind).layouts j)) ∧
        (∀ i, i < sh.num_subsets → nodeVecOf (S1 kind).layouts i = sh.elems kind i) ∧
        (∀ (i : Nat) (e : Node), i < sh.num_subsets → e ∈ sh.elems kind i →
          e ∈ nodeVecOf (S1 kind).layouts i ∧
          (∀ j, j ≠ i → e ∉ nodeVecOf (S1 kind).layouts j) ∧
          (S1 kind).aaFirstLayout e = (i : Int)) := by
  obtain ⟨S1, hS1, hpost⟩ := CreateDistributionLayouts_step1_returns T sh hsh
  refine ⟨S1, hS1, ?_⟩
  intro kind
  obtain ⟨hb, hnv, -, hown, -⟩ := hpost kind
  have hout : ∀ j, ¬ j < sh.num_subsets → nodeVecOf (S1 kind).layouts j = [] := by
    intro j hj
    exact nodeVecOf_eq_nil _ _ (by rw [hb.1]; omega)
  have hdis : ∀ (e : Node) (i j : Nat), i < sh.num_subsets → i ≠ j →
      e ∈ sh.elems kind i → e ∉ nodeVecOf (S1 kind).layouts j := by
    intro e i j hi hij hei
    by_cases hj : j < sh.num_subsets
    · rw [hnv j hj]
      exact hsh.disjoint sh kind i j hi hj hij e hei
    · rw [hout j hj]
      simp
  refine ⟨?_, hnv, ?_⟩
  · rintro e i j hij ⟨hei, hej⟩
    by_cases hi : i < sh.num_subsets
    · rw [hnv i hi] at hei
      exact hdis e i j hi hij hei hej
    · rw [hout i hi] at hei
      simp at hei
  · intro i e hi hei
    refine ⟨by rw [hnv i hi]; exact hei, ?_, hown i e hi hei⟩
    intro j hji
    exact hdis e i j hi (Ne.symm hji) hei

/-- Witness of C3 on the example subset handler. -/
theorem C3_no_double_primary_assignment_witness :
    exampleSubsetHandler.WellFormed ∧
    ∃ S1, CreateDistributionLayouts_step1 exampleTypes exampleSubsetHandler = some S1 ∧
      ∀ kind : Kind,
        (∀ (e : Node) (i j : Nat), i ≠ j →
          ¬ (e ∈ nodeVecOf (S1 kind).layouts i ∧ e ∈ nodeVecOf (S1 kind).layouts j)) ∧
        (∀ i, i < exampleSubsetHandler.num_subsets →
          nodeVecOf (S1 kind).layouts i = exampleSubsetHandler.elems kind i) ∧
        (∀ (i : Nat) (e : Node), i < exampleSubsetHandler.num_subsets →
          e ∈ exampleSubsetHandler.elems kind i →
          e ∈ nodeVecOf (S1 kind).layouts i ∧
          (∀ j, j ≠ i → e ∉ nodeVecOf (S1 kind).layouts j) ∧
          (S1 kind).aaFirstLayout e = (i : Int)) :=
  ⟨by intro kind; cases kind <;> decide,
    C3_no_double_primary_assignment exampleTypes exampleSubsetHandler
      (by intro kind; cases kind <;> decide)⟩

/-! ## Claim C4 -/

theorem AddNodesToLayout_cons (T : InterfaceNodeTypes) (st : LayoutState) (i : Nat)
    (node : Node) (nodes : List Node) (level iol : Int) (mgr : Option (Node → Bool)) :
    AddNodesToLayout T st i (node :: nodes) level iol mgr =
      (AddNodeToLayout T i level iol mgr st node).bind
        (fun s => AddNodesToLayout T s i nodes level iol mgr) := by
  unfold AddNodesToLayout
  rw [List.foldlM_cons]
  rfl

theorem AddNodeToLayout_claimed_step1 (T : InterfaceNodeTypes) (i : Nat) (iol : Int)
    (mgr : Option (Node → Bool)) (st : LayoutState) (node : Node)
    (h : st.aaFirstLayout node ≠ -1) : AddNodeToLayout T i (-1) iol mgr st node = none := by
  cases hres : AddNodeToLayout T i (-1) iol mgr st node with
  | none => rfl
  | some st1 =>
    exact absurd rfl ((AddNodeToLayout_effect T i (-1) iol mgr st st1 node hres).2.2.2.2.2.1 h).1

/-- C4 as the code has it: a call of `AddNodesToLayout` in the form of step 1 (level -1, no
level restriction, no grid manager) whose range holds a node with a first-owner entry
different from -1 does not skip that node; it stops at `assert(level != -1)` and does not
return. -/
theorem C4_claimed_node_in_step1_form_asserts (T : InterfaceNodeTypes) (st : LayoutState)
    (layoutIndex : Nat) (nodes : List Node)
    (h : ∃ x ∈ nodes, st.aaFirstLayout x ≠ -1) :
    AddNodesToLayout T st layoutIndex nodes (-1) (-1) none = none := by
  induction nodes generalizing st with
  | nil =>
    obtain ⟨x, hx, -⟩ := h
    cases hx
  | cons n rest ih =>
    rw [AddNodesToLayout_cons]
    by_cases hn : st.aaFirstLayout n = -1
    · cases hres : AddNodeToLayout T layoutIndex (-1) (-1) none st n with
      | none => rfl
      | some st1 =>
        simp only [Option.some_bind]
        apply ih
        obtain ⟨x, hx, hxc⟩ := h
        have hxn : x ≠ n := by
          rintro rfl
          exact hxc hn
        refine ⟨x, (List.mem_cons.1 hx).resolve_left hxn, ?_⟩
        rw [(AddNodeToLayout_effect T _ _ _ _ st st1 n hres).2.2.2.1 x]
        simp [hxn, hxc]
    · rw [AddNodeToLayout_claimed_step1 T _ _ _ st n hn]
      rfl

/-- Witness of the amended C4: vertex 5, claimed by layout 0, handed to layout 1. -/
theorem C4_claimed_node_in_step1_form_asserts_witness :
    (∃ x ∈ [5], exampleClaimedState.aaFirstLayout x ≠ -1) ∧
    AddNodesToLayout exampleTypes exampleClaimedState 1 [5] (-1) (-1) none = none :=
  ⟨⟨5, by simp, by decide⟩,
    C4_claimed_node_in_step1_form_asserts exampleTypes exampleClaimedState 1 [5]
      ⟨5, by simp, by decide⟩⟩

/-- Counterexample to C4 as stated: for vertex 5, already claimed by layout 0, the call in
the form of step 1 for layout 1 yields no state at all, in particular none in which the
vertex was skipped (node vector of layout 1 and all interfaces as before). -/
theorem C4_counterexample :
    AddNodesToLayout exampleTypes exampleClaimedState 1 [5] (-1) (-1) none = none ∧
    ¬ ∃ st1, AddNodesToLayout exampleTypes exampleClaimedState 1 [5] (-1) (-1) none = some st1 ∧
        nodeVecOf st1.layouts 1 = nodeVecOf exampleClaimedState.layouts 1 ∧
        ∀ P Q L, interfaceOf st1.layouts P Q L = interfaceOf exampleClaimedState.layouts P Q L := by
  have h : AddNodesToLayout exampleTypes exampleClaimedState 1 [5] (-1) (-1) none = none := rfl
  refine ⟨h, ?_⟩
  rintro ⟨st1, hst1, -⟩
  rw [h] at hst1
  exact Option.noConfusion hst1

/-! ## Owners of the elements of a subset -/

theorem interfaceOf_of_maps_nil (st : LayoutState)
    (h : ∀ (j : Nat) (l : DistributionNodeLayout), st.layouts[j]? = some l →
      l.m_vInterfaceMaps = []) (P : Nat) (Q : Int) (L : Nat) :
    interfaceOf st.layouts P Q L = [] := by
  unfold interfaceOf
  cases hl : st.layouts[P]? with
  | none => rfl
  | some l =>
    simp [DistributionNodeLayout.interface, DistributionNodeLayout.interface_map, h P l hl,
      InterfaceMap.get, InterfaceMap.find]

theorem OwnerInv_step (T : InterfaceNodeTypes) (sh : SubsetHandler) (kind : Kind) (i : Nat)
    (level iol : Int) (mgr : Option (Node → Bool)) (st st1 : LayoutState) (node : Node)
    (hnode : node ∉ sh.elems kind i) (hinv : OwnerInv T sh kind st)
    (hres : AddNodeToLayout T i level iol mgr st node = some st1) :
    OwnerInv T sh kind st1 := by
  obtain ⟨hb, hown, hent⟩ := hinv
  obtain ⟨hi, hlen, hnv, hfl, hli, hclaimed, hint⟩ :=
    AddNodeToLayout_effect T i level iol mgr st st1 node hres
  have hkeep : ∀ x, st.aaFirstLayout x ≠ -1 → st1.aaFirstLayout x = st.aaFirstLayout x := by
    intro x hx
    rw [hfl x]
    by_cases hxn : x = node
    · subst hxn
      simp [hx]
    · simp [hxn]
  refine ⟨BaseInv_step T _ i level iol mgr st st1 node hb hres, ?_, ?_⟩
  · intro j x hj hx
    have := hown j x hj hx
    rw [hkeep x (by rw [this]; omega)]
    exact this
  · intro P Q L a ha
    rw [hint P Q L] at ha
    rcases List.mem_append.1 ha with ha | ha
    · rcases List.mem_append.1 ha with ha | ha
      · obtain ⟨k, x, h1, h2, h3⟩ := hent P Q L a ha
        refine ⟨k, x, h1, by rw [hnv P]; exact getElem?_append_some _ _ _ _ h2, ?_⟩
        rcases h3 with ⟨ht, ho⟩ | ⟨ht, ho, hne, hns⟩
        · exact Or.inl ⟨ht, by rw [hkeep x (by rw [ho]; omega)]; exact ho⟩
        · exact Or.inr ⟨ht, by rw [hkeep x hne]; exact ho, by rw [hkeep x hne]; exact hne, hns⟩
      · split at ha
        next hc =>
          obtain ⟨hcp, hP, hQ, hL⟩ := hc
          simp only [List.mem_singleton] at ha
          subst ha
          obtain ⟨m, k, hm, hmn, hk, hloc⟩ := hb.2 node hcp.1
          have hPm : P = m := by
            rw [hP, hm]
            simp
          refine ⟨k, node, by rw [masterEntry_localID, hloc], ?_, Or.inl
            ⟨masterEntry_type T st node, by rw [hkeep node hcp.1, hm, hPm]⟩⟩
          rw [hPm, hnv m]
          exact getElem?_append_some _ _ _ _ hk
        next => simp at ha
    · split at ha
      next hc =>
        obtain ⟨hcp, hP, hQ, hL⟩ := hc
        simp only [List.mem_singleton] at ha
        subst ha
        refine ⟨(nodeVecOf st.layouts i).length, node, slaveEntry_localID T st i, ?_, Or.inr
          ⟨slaveEntry_type T st i, by rw [hkeep node hcp.1, hQ],
            by rw [hkeep node hcp.1]; exact hcp.1, by rw [hP]; exact hnode⟩⟩
        rw [hP, hnv i]
        simp
      next => simp at ha

theorem OwnerInv_of_Step1Post (T : InterfaceNodeTypes) (sh : SubsetHandler) (kind : Kind)
    (st : LayoutState) (h : Step1Post sh kind st) : OwnerInv T sh kind st := by
  obtain ⟨hb, -, hmaps, hown, -⟩ := h
  refine ⟨hb, hown, ?_⟩
  intro P Q L a ha
  rw [interfaceOf_of_maps_nil st hmaps] at ha
  cases ha

theorem runCalls_step2_OwnerInv (T : InterfaceNodeTypes) (mgr : Option (Node → Bool))
    (mg : MultiGrid) (sh : SubsetHandler) (g : Bool) (selection : Nat → MGSelector)
    (kind : Kind) (st1 st2 : LayoutState) (h1 : OwnerInv T sh kind st1)
    (hrun : runCalls T mgr st1 (step2Calls mg sh g selection kind) = some st2) :
    OwnerInv T sh kind st2 :=
  runCalls_induction T mgr (fun _ st => OwnerInv T sh kind st) _ st1 st2 h1
    (fun _ c st st3 hc hinv hres => by
      obtain ⟨-, -, level, -, -, -, hns⟩ := (mem_step2Calls mg sh g selection kind c).1 hc
      exact OwnerInv_step T sh kind _ _ _ mgr st st3 c.node hns hinv hres)
    hrun

/-- What `CreateDistributionLayouts` returns comes from a state satisfying `OwnerInv`. -/
theorem CreateDistributionLayouts_OwnerInv (T : InterfaceNodeTypes) (mg : MultiGrid)
    (sh : SubsetHandler) (g : Bool) (selection : Nat → MGSelector)
    (mgr : Option (Kind → Node → Bool)) (hsh : sh.WellFormed) :
    ∃ R, CreateDistributionLayouts T mg sh g selection mgr = some R ∧
      ∀ kind, ∃ st2, OwnerInv T sh kind st2 ∧ st2.layouts = R kind := by
  obtain ⟨R, hR, hk⟩ := CreateDistributionLayouts_returns T mg sh g selection mgr hsh
  refine ⟨R, hR, ?_⟩
  intro kind
  obtain ⟨st1, st2, -, hp1, hr2, hl⟩ := hk kind
  exact ⟨st2, runCalls_step2_OwnerInv T _ mg sh g selection kind st1 st2
    (OwnerInv_of_Step1Post T sh kind st1 hp1) hr2, hl⟩

/-! ## A layout with more than 2^28 nodes -/

theorem overflowSubsetHandler_wellFormed (N : Nat) : (overflowSubsetHandler N).WellFormed := by
  intro kind
  have h2 : List.range 2 = [0, 1] := rfl
  cases kind
  · simp only [overflowSubsetHandler, h2, List.flatMap_cons, List.flatMap_nil, List.append_nil]
    rw [List.nodup_append]
    refine ⟨List.nodup_range N, by simp, ?_⟩
    intro a ha hb
    simp only [List.mem_singleton] at hb
    subst hb
    simp at ha
  all_goals simp [overflowSubsetHandler, h2]

theorem step2Calls_overflow (mg : MultiGrid) (N : Nat) :
    step2Calls mg (overflowSubsetHandler N) false (overflowSelection N) Kind.VertexBase =
      [⟨0, 0, -1, N⟩] := by
  have h2 : List.range 2 = [0, 1] := rfl
  have h1 : List.range 1 = [0] := rfl
  have h0 : List.range 0 = [] := rfl
  simp [step2Calls, overflowSubsetHandler, overflowSelection, deselectSubset,
    MGSelector.deselect, interfacesOnLevelOnly, h2, h1, h0]

/-- With more than 2^28 nodes the local id of a slave entry wraps around: in the overflow
example layout 0 receives, for the vertex `N` at position `N` of its node vector, a slave
entry whose local id is what the 28 bit field keeps of `N`. -/
theorem CreateDistributionLayouts_overflow (T : InterfaceNodeTypes) (mg : MultiGrid)
    (N : Nat) :
    ∃ R, CreateDistributionLayouts T mg (overflowSubsetHandler N) false (overflowSelection N)
        none = some R ∧
      nodeVecOf (R Kind.VertexBase) 0 = List.range N ++ [N] ∧
      interfaceOf (R Kind.VertexBase) 0 1 0 =
        [DistributionInterfaceEntry.create (toInt N) T.INT_SLAVE] := by
  obtain ⟨R, hR, hk⟩ := CreateDistributionLayouts_returns T mg (overflowSubsetHandler N) false
    (overflowSelection N) none (overflowSubsetHandler_wellFormed N)
  refine ⟨R, hR, ?_⟩
  obtain ⟨st1, st2, -, hp1, hr2, hl⟩ := hk Kind.VertexBase
  obtain ⟨hb, hnv, hmaps, hown, -⟩ := hp1
  rw [step2Calls_overflow, runCalls_cons] at hr2
  simp only [Option.map_none'] at hr2
  cases hres : AddNodeToLayout T 0 0 (-1) none st1 N with
  | none => simp [hres] at hr2
  | some st3 =>
    simp only [hres, Option.some_bind, runCalls_nil, Option.some.injEq] at hr2
    subst hr2
    obtain ⟨-, -, hnv2, -, -, -, hint⟩ := AddNodeToLayout_effect T 0 0 (-1) none st1 st3 N hres
    have hnv0 : nodeVecOf st1.layouts 0 = List.range N :=
      hnv 0 (by simp [overflowSubsetHandler])
    have hownN : st1.aaFirstLayout N = 1 := by
      have := hown 1 N (by simp [overflowSubsetHandler]) (by simp [overflowSubsetHandler])
      simpa using this
    have hcp : createsPair st1 0 (-1) none N := by
      refine ⟨by rw [hownN]; decide, rfl, Or.inl rfl⟩
    rw [← hl]
    refine ⟨by rw [hnv2 0, hnv0]; simp, ?_⟩
    rw [hint 0 1 0, interfaceOf_of_maps_nil st1 hmaps]
    simp [hcp, hownN, slaveEntry, hnv0]

/-! ## Claim C5 -/

/-- C5 as the code has it (elements are masters on the process they are assigned to): with
`pDistGridMgr = NULL`, in the layouts returned by `CreateDistributionLayouts` for an element
kind whose node vectors are all shorter than 2^27, for every element `e` of subset `i`:
every interface entry of `layouts[i]` that denotes `e` has type `INT_MASTER`; every
interface entry of another layout `j` that denotes `e` has type `INT_SLAVE` and lies in an
interface `layouts[j].interface(i, L)`; and no `INT_SLAVE` entry of `layouts[i]` denotes
`e`. -/
theorem C5_elements_are_masters_where_assigned (T : InterfaceNodeTypes) (hT : T.WellFormed)
    (mg : MultiGrid) (sh : SubsetHandler) (hsh : sh.WellFormed) (distributeGenealogy : Bool)
    (selection : Nat → MGSelector) :
    ∃ R, CreateDistributionLayouts T mg sh distributeGenealogy selection none = some R ∧
      ∀ kind : Kind, (∀ j, (nodeVecOf (R kind) j).length < 2 ^ 27) →
        ∀ (i : Nat) (e : Node), i < sh.num_subsets → e ∈ sh.elems kind i →
          (∀ (Q : Int) (L : Nat) (a : DistributionInterfaceEntry),
            a ∈ interfaceOf (R kind) i Q L → denotes (R kind) i a e →
              a.type = T.INT_MASTER) ∧
          (∀ (j : Nat) (Q : Int) (L : Nat) (a : DistributionInterfaceEntry), j ≠ i →
            a ∈ interfaceOf (R kind) j Q L → denotes (R kind) j a e →
              a.type = T.INT_SLAVE ∧ Q = (i : Int)) ∧
          (∀ (Q : Int) (L : Nat) (a : DistributionInterfaceEntry),
            a ∈ interfaceOf (R kind) i Q L → a.type = T.INT_SLAVE →
              ¬ denotes (R kind) i a e) := by
  obtain ⟨R, hR, hk⟩ :=
    CreateDistributionLayouts_OwnerInv T mg sh distributeGenealogy selection none hsh
  refine ⟨R, hR, ?_⟩
  intro kind hbound i e hi he
  obtain ⟨st2, ⟨-, hown, hent⟩, hl⟩ := hk kind
  obtain ⟨⟨hm1, hm2⟩, ⟨hs1, hs2⟩, hms, -⟩ := hT
  have hM := bitfield_type T.INT_MASTER hm1 hm2
  have hS := bitfield_type T.INT_SLAVE hs1 hs2
  -- an entry that denotes `e` was written for `e`
  have hkey : ∀ (P : Nat) (Q : Int) (L : Nat) (a : DistributionInterfaceEntry),
      a ∈ interfaceOf (R kind) P Q L → denotes (R kind) P a e →
        (a.type = T.INT_MASTER ∧ (i : Int) = (P : Int)) ∨
        (a.type = T.INT_SLAVE ∧ (i : Int) = Q ∧ e ∉ sh.elems kind P) := by
    intro P Q L a ha hden
    rw [← hl] at ha hden hbound
    obtain ⟨k, x, h1, h2, h3⟩ := hent P Q L a ha
    have hk27 : k < 2 ^ 27 := by
      have : k < (nodeVecOf st2.layouts P).length := by
        by_contra hc
        rw [List.getElem?_eq_none (by omega)] at h2
        exact Option.noConfusion h2
      exact lt_trans this (hbound P)
    rw [bitfield_localID k hk27] at h1
    have hx : x = e := by
      have := hden.2
      rw [h1, Int.toNat_ofNat, h2, Option.some.injEq] at this
      exact this
    subst hx
    rw [hown i x hi he, hM, hS] at h3
    rcases h3 with ⟨ht, ho⟩ | ⟨ht, ho, -, hns⟩
    · exact Or.inl ⟨ht, ho⟩
    · exact Or.inr ⟨ht, ho, hns⟩
  have hpart1 : ∀ (Q : Int) (L : Nat) (a : DistributionInterfaceEntry),
      a ∈ interfaceOf (R kind) i Q L → denotes (R kind) i a e → a.type = T.INT_MASTER := by
    intro Q L a ha hden
    rcases hkey i Q L a ha hden with ⟨ht, -⟩ | ⟨-, -, hns⟩
    · exact ht
    · exact absurd he hns
  refine ⟨hpart1, ?_, ?_⟩
  · intro j Q L a hji ha hden
    rcases hkey j Q L a ha hden with ⟨-, hij⟩ | ⟨ht, hQ, -⟩
    · exact absurd (by exact_mod_cast hij.symm) hji
    · exact ⟨ht, hQ.symm⟩
  · intro Q L a ha ht hden
    have := hpart1 Q L a ha hden
    rw [ht] at this
    exact hms this.symm

/-- Witness of the amended C5 on the example input. -/
theorem C5_elements_are_masters_where_assigned_witness :
    exampleTypes.WellFormed ∧ exampleSubsetHandler.WellFormed ∧
    (∀ R, CreateDistributionLayouts exampleTypes exampleMultiGrid exampleSubsetHandler false
        exampleSelection none = some R →
      ∀ j, (nodeVecOf (R Kind.VertexBase) j).length < 2 ^ 27) ∧
    ∃ R, CreateDistributionLayouts exampleTypes exampleMultiGrid exampleSubsetHandler false
        exampleSelection none = some R ∧
      ∀ kind : Kind, (∀ j, (nodeVecOf (R kind) j).length < 2 ^ 27) →
        ∀ (i : Nat) (e : Node), i < exampleSubsetHandler.num_subsets →
          e ∈ exampleSubsetHandler.elems kind i →
          (∀ (Q : Int) (L : Nat) (a : DistributionInterfaceEntry),
            a ∈ interfaceOf (R kind) i Q L → denotes (R kind) i a e →
              a.type = exampleTypes.INT_MASTER) ∧
          (∀ (j : Nat) (Q : Int) (L : Nat) (a : DistributionInterfaceEntry), j ≠ i →
            a ∈ interfaceOf (R kind) j Q L → denotes (R kind) j a e →
              a.type = exampleTypes.INT_SLAVE ∧ Q = (i : Int)) ∧
          (∀ (Q : Int) (L : Nat) (a : DistributionInterfaceEntry),
            a ∈ interfaceOf (R kind) i Q L → a.type = exampleTypes.INT_SLAVE →
              ¬ denotes (R kind) i a e) :=
  ⟨by unfold InterfaceNodeTypes.WellFormed exampleTypes; decide,
    by intro kind; cases kind <;> decide,
    by
      intro R hR j
      have h : (CreateDistributionLayouts exampleTypes exampleMultiGrid exampleSubsetHandler
          false exampleSelection none).map
            (fun R => (R Kind.VertexBase).map (fun l => l.m_vNodes)) =
          some [[10, 11, 12, 13, 14], [12, 10, 11, 13, 14]] := by
        decide
      rw [hR, Option.map_some', Option.some.injEq] at h
      rcases j with _ | _ | j
      · have := congrArg (fun l => (l[0]?).map List.length) h
        simp only [List.getElem?_map] at this
        unfold nodeVecOf DistributionNodeLayout.node_vec
        cases h0 : (R Kind.VertexBase)[0]? with
        | none => simp
        | some l =>
          simp only [h0, Option.map_some'] at this
          simp at this
          simp [this]
      · have := congrArg (fun l => (l[1]?).map List.length) h
        simp only [List.getElem?_map] at this
        unfold nodeVecOf DistributionNodeLayout.node_vec
        cases h0 : (R Kind.VertexBase)[1]? with
        | none => simp
        | some l =>
          simp only [h0, Option.map_some'] at this
          simp at this
          simp [this]
      · have := congrArg List.length h
        simp only [List.length_map] at this
        rw [nodeVecOf_eq_nil _ _ (by rw [this]; simp)]
        simp,
    C5_elements_are_masters_where_assigned exampleTypes
      (by unfold InterfaceNodeTypes.WellFormed exampleTypes; decide) exampleMultiGrid
      exampleSubsetHandler (by intro kind; cases kind <;> decide) false exampleSelection⟩

/-- In the overflow example a slave entry of layout 0 denotes vertex 0 of subset 0 as soon
as the 28 bit field keeps 0 of `N`. -/
theorem overflow_slave_denotes (T : InterfaceNodeTypes) (mg : MultiGrid) (N : Nat)
    (hN : 0 < N) (hwrap : bitfield 28 (toInt N) = 0)
    (hS : bitfield 4 T.INT_SLAVE = T.INT_SLAVE) :
    ∃ R, CreateDistributionLayouts T mg (overflowSubsetHandler N) false (overflowSelection N)
        none = some R ∧
      (0 : Node) ∈ (overflowSubsetHandler N).elems Kind.VertexBase 0 ∧
      ∃ a ∈ interfaceOf (R Kind.VertexBase) 0 1 0,
        a.type = T.INT_SLAVE ∧ denotes (R Kind.VertexBase) 0 a 0 := by
  obtain ⟨R, hR, hnv, hint⟩ := CreateDistributionLayouts_overflow T mg N
  refine ⟨R, hR, List.mem_range.2 hN,
    DistributionInterfaceEntry.create (toInt N) T.INT_SLAVE,
    by rw [hint]; exact List.mem_singleton.2 rfl, hS, ?_⟩
  unfold denotes
  simp only [DistributionInterfaceEntry.create, hwrap, hnv]
  refine ⟨le_refl _, ?_⟩
  rw [Int.toNat_zero, List.getElem?_append_left (by simpa using hN)]
  simp [hN]

/-- Counterexample to C5 as stated: subset 0 holds the vertices `0, ..., 2^28 - 1` and
vertex `2^28` of subset 1 is selected for layout 0. Layout 0 then holds `2^28 + 1` nodes and
its slave entry for vertex `2^28` has the local id 0 (the 28 bit field wraps around), so an
`INT_SLAVE` entry of layout 0 denotes vertex 0, an element of subset 0. -/
theorem C5_counterexample :
    ∃ R, CreateDistributionLayouts exampleTypes exampleMultiGrid
        (overflowSubsetHandler (2 ^ 28)) false (overflowSelection (2 ^ 28)) none = some R ∧
      (0 : Node) ∈ (overflowSubsetHandler (2 ^ 28)).elems Kind.VertexBase 0 ∧
      ∃ a ∈ interfaceOf (R Kind.VertexBase) 0 1 0,
        a.type = exampleTypes.INT_SLAVE ∧ denotes (R Kind.VertexBase) 0 a 0 :=
  overflow_slave_denotes exampleTypes exampleMultiGrid (2 ^ 28) (Nat.two_pow_pos 28)
    (by decide) (by decide)

/-! ## Claim C6 -/

theorem PrefixInv_step (T : InterfaceNodeTypes) (sh : SubsetHandler) (kind : Kind) (i : Nat)
    (level iol : Int) (mgr : Option (Node → Bool)) (st st1 : LayoutState) (node : Node)
    (hnode : node ∉ sh.elems kind i) (hinv : PrefixInv sh kind st)
    (hres : AddNodeToLayout T i level iol mgr st node = some st1) :
    PrefixInv sh kind st1 := by
  obtain ⟨hi, hlen, hnv, -⟩ := AddNodeToLayout_effect T i level iol mgr st st1 node hres
  refine ⟨by rw [hlen]; exact hinv.1, ?_⟩
  intro j hj
  obtain ⟨extra, he, hx⟩ := hinv.2 j hj
  by_cases hji : j = i
  · subst hji
    refine ⟨extra ++ [node], by rw [hnv j, he]; simp, ?_⟩
    intro x hxm
    rcases List.mem_append.1 hxm with h | h
    · exact hx x h
    · rw [List.mem_singleton.1 h]
      exact hnode
  · exact ⟨extra, by rw [hnv j, he]; simp [hji], hx⟩

theorem PrefixInv_of_Step1Post (sh : SubsetHandler) (kind : Kind) (st : LayoutState)
    (h : Step1Post sh kind st) : PrefixInv sh kind st :=
  ⟨h.1.1, fun j hj => ⟨[], by rw [h.2.1 j hj]; simp, fun _ hx => by cases hx⟩⟩

theorem runCalls_step2_PrefixInv (T : InterfaceNodeTypes) (mgr : Option (Node → Bool))
    (mg : MultiGrid) (sh : SubsetHandler) (g : Bool) (selection : Nat → MGSelector)
    (kind : Kind) (st1 st2 : LayoutState) (h1 : PrefixInv sh kind st1)
    (hrun : runCalls T mgr st1 (step2Calls mg sh g selection kind) = some st2) :
    PrefixInv sh kind st2 :=
  runCalls_induction T mgr (fun _ st => PrefixInv sh kind st) _ st1 st2 h1
    (fun _ c st st3 hc hinv hres => by
      obtain ⟨-, -, level, -, -, -, hns⟩ := (mem_step2Calls mg sh g selection kind c).1 hc
      exact PrefixInv_step T sh kind _ _ _ mgr st st3 c.node hns hinv hres)
    hrun

/-- C6 (one layout per subset): for a well-formed subset handler `CreateDistributionLayouts`
returns, for each of the four element kinds, exactly `sh.num_subsets()` layouts, and for
every `k` the node vector of layout `k` consists of the elements of subset `k` in the
iteration order of the subset handler (so they have the local indices
`0 .. |subset k| - 1`), followed only by elements that are not in subset `k`. -/
theorem C6_one_layout_per_subset (T : InterfaceNodeTypes) (mg : MultiGrid)
    (sh : SubsetHandler) (hsh : sh.WellFormed) (distributeGenealogy : Bool)
    (selection : Nat → MGSelector) (pDistGridMgr : Option (Kind → Node → Bool)) :
    ∃ R, CreateDistributionLayouts T mg sh distributeGenealogy selection pDistGridMgr =
        some R ∧
      ∀ kind : Kind, (R kind).length = sh.num_subsets ∧
        ∀ k, k < sh.num_subsets →
          (∃ extra : List Node, nodeVecOf (R kind) k = sh.elems kind k ++ extra ∧
            ∀ x ∈ extra, x ∉ sh.elems kind k) ∧
          ∀ idx, idx < (sh.elems kind k).length →
            (nodeVecOf (R kind) k)[idx]? = (sh.elems kind k)[idx]? := by
  obtain ⟨R, hR, hk⟩ :=
    CreateDistributionLayouts_returns T mg sh distributeGenealogy selection pDistGridMgr hsh
  refine ⟨R, hR, ?_⟩
  intro kind
  obtain ⟨st1, st2, -, hp1, hr2, hl⟩ := hk kind
  obtain ⟨hlen, hpre⟩ := runCalls_step2_PrefixInv T _ mg sh distributeGenealogy selection kind
    st1 st2 (PrefixInv_of_Step1Post sh kind st1 hp1) hr2
  rw [hl] at hlen hpre
  refine ⟨hlen, ?_⟩
  intro k hk
  refine ⟨hpre k hk, ?_⟩
  intro idx hidx
  obtain ⟨extra, he, -⟩ := hpre k hk
  rw [he, List.getElem?_append_left hidx]

/-- Witness of C6 on the example input. -/
theorem C6_one_layout_per_subset_witness :
    exampleSubsetHandler.WellFormed ∧
    ∃ R, CreateDistributionLayouts exampleTypes exampleMultiGrid exampleSubsetHandler true
        exampleSelection none = some R ∧
      ∀ kind : Kind, (R kind).length = exampleSubsetHandler.num_subsets ∧
        ∀ k, k < exampleSubsetHandler.num_subsets →
          (∃ extra : List Node,
            nodeVecOf (R kind) k = exampleSubsetHandler.elems kind k ++ extra ∧
            ∀ x ∈ extra, x ∉ exampleSubsetHandler.elems kind k) ∧
          ∀ idx, idx < (exampleSubsetHandler.elems kind k).length →
            (nodeVecOf (R kind) k)[idx]? = (exampleSubsetHandler.elems kind k)[idx]? :=
  ⟨by intro kind; cases kind <;> decide,
    C6_one_layout_per_subset exampleTypes exampleMultiGrid exampleSubsetHandler
      (by intro kind; cases kind <;> decide) true exampleSelection none⟩

/-! ## A single claimed node -/

/-- Part of C7 on a single claimed node: the call returns, the pair is written exactly when
the level restriction admits the level and the node is no genuine interface element, and
only interfaces of level `L` change. -/
theorem AddNodesToLayout_claimed_node (T : InterfaceNodeTypes) (st : LayoutState)
    (layoutIndex : Nat) (node : Node) (L : Nat) (iol : Int) (mgr : Option (Node → Bool))
    (m : Nat) (hi : layoutIndex < st.layouts.length) (hm : st.aaFirstLayout node = (m : Int))
    (hmlen : m < st.layouts.length) :
    ∃ st1, AddNodesToLayout T st layoutIndex [node] (L : Int) iol mgr = some st1 ∧
      (∀ P Q L1, interfaceOf st1.layouts P Q L1 =
        interfaceOf st.layouts P Q L1 ++
          (if ((iol = -1 ∨ iol = (L : Int)) ∧ is_interface_element mgr node = false) ∧
              P = m ∧ Q = (layoutIndex : Int) ∧ L1 = L
            then [masterEntry T st node] else []) ++
          (if ((iol = -1 ∨ iol = (L : Int)) ∧ is_interface_element mgr node = false) ∧
              P = layoutIndex ∧ Q = (m : Int) ∧ L1 = L
            then [slaveEntry T st layoutIndex] else [])) ∧
      ((∀ P Q L1, interfaceOf st1.layouts P Q L1 = interfaceOf st.layouts P Q L1) ↔
        ¬ ((iol = -1 ∨ iol = (L : Int)) ∧ is_interface_element mgr node = false)) := by
  have hne : st.aaFirstLayout node ≠ -1 := by rw [hm]; omega
  obtain ⟨st1, hres⟩ := AddNodeToLayout_isSome T layoutIndex (L : Int) iol mgr st node hi
    (Or.inr ⟨by omega, by rw [hm]; omega, by rw [hm]; exact_mod_cast hmlen⟩)
  have hrun : AddNodesToLayout T st layoutIndex [node] (L : Int) iol mgr = some st1 := by
    rw [AddNodesToLayout_cons, hres]
    rfl
  obtain ⟨-, -, -, -, -, -, hint⟩ := AddNodeToLayout_effect T _ _ _ mgr st st1 node hres
  have hform : ∀ P Q L1, interfaceOf st1.layouts P Q L1 =
        interfaceOf st.layouts P Q L1 ++
          (if ((iol = -1 ∨ iol = (L : Int)) ∧ is_interface_element mgr node = false) ∧
              P = m ∧ Q = (layoutIndex : Int) ∧ L1 = L
            then [masterEntry T st node] else []) ++
          (if ((iol = -1 ∨ iol = (L : Int)) ∧ is_interface_element mgr node = false) ∧
              P = layoutIndex ∧ Q = (m : Int) ∧ L1 = L
            then [slaveEntry T st layoutIndex] else []) := by
    intro P Q L1
    have hmne : ¬ (m : Int) = -1 := by omega
    rw [hint P Q L1]
    simp only [createsPair, ne_eq, hm, hmne, not_false_eq_true, true_and, Int.toNat_ofNat]
    congr 2
    · simp only [and_comm, and_assoc]
    · simp only [and_comm, and_assoc]
  refine ⟨st1, hrun, hform, ?_⟩
  constructor
  · intro hsame hC
    have h1 := hform layoutIndex (m : Int) L
    rw [hsame] at h1
    have := congrArg List.length h1
    simp [hC] at this
  · intro hC P Q L1
    rw [hform P Q L1]
    simp [hC]

/-! ## Levels of the interface entries -/

/-- With `distributeGenealogy = true` step 2 writes entries on level `num_levels - 1` only. -/
theorem runCalls_step2_finest_level (T : InterfaceNodeTypes) (mgr : Option (Node → Bool))
    (mg : MultiGrid) (sh : SubsetHandler) (selection : Nat → MGSelector)
    (hsel : ∀ i, (selection i).num_levels ≤ mg.num_levels)
    (kind : Kind) (st1 st2 : LayoutState)
    (h1 : ∀ P Q L, interfaceOf st1.layouts P Q L = [])
    (hrun : runCalls T mgr st1 (step2Calls mg sh true selection kind) = some st2) :
    ∀ P Q L, L + 1 ≠ mg.num_levels → interfaceOf st2.layouts P Q L = [] := by
  refine runCalls_induction T mgr
    (fun _ st => ∀ P Q L, L + 1 ≠ mg.num_levels → interfaceOf st.layouts P Q L = []) _ st1 st2
    (fun P Q L _ => h1 P Q L) ?_ hrun
  intro done c st st3 hc hinv hres P Q L hL
  obtain ⟨-, hiol, level, hlevel, hlt, -, -⟩ := (mem_step2Calls mg sh true selection kind c).1 hc
  have hpos : level < mg.num_levels := lt_of_lt_of_le hlt (hsel c.layoutIndex)
  obtain ⟨-, -, -, -, -, -, hint⟩ := AddNodeToLayout_effect T _ _ _ mgr st st3 c.node hres
  rw [hint P Q L, hinv P Q L hL]
  have hno : ¬ (createsPair st c.level c.interfacesOnLevelOnly mgr c.node ∧ L = c.level.toNat) := by
    rintro ⟨⟨-, -, hcase⟩, hLl⟩
    rw [hiol, hlevel] at hcase
    simp only [interfacesOnLevelOnly, if_true] at hcase
    rw [hlevel, Int.toNat_ofNat] at hLl
    omega
  have hA : ¬ (createsPair st c.level c.interfacesOnLevelOnly mgr c.node ∧
      P = (st.aaFirstLayout c.node).toNat ∧ Q = (c.layoutIndex : Int) ∧ L = c.level.toNat) :=
    fun h => hno ⟨h.1, h.2.2.2⟩
  have hB : ¬ (createsPair st c.level c.interfacesOnLevelOnly mgr c.node ∧
      P = c.layoutIndex ∧ Q = st.aaFirstLayout c.node ∧ L = c.level.toNat) :=
    fun h => hno ⟨h.1, h.2.2.2⟩
  simp only [hA, hB, if_false, List.append_nil]

theorem SharedPair_mono (T : InterfaceNodeTypes) (ls ls1 : List DistributionNodeLayout)
    (hnv : ∀ j, ∃ app, nodeVecOf ls1 j = nodeVecOf ls j ++ app)
    (hint : ∀ P Q L, ∃ app, interfaceOf ls1 P Q L = interfaceOf ls P Q L ++ app)
    (j m level : Nat) (x : Node) (h : SharedPair T ls j m level x) :
    SharedPair T ls1 j m level x := by
  obtain ⟨idx, a, b, kj, km, h1, h2, h3, h4, h5, h6, h7, h8⟩ := h
  obtain ⟨a1, ha1⟩ := hint j (m : Int) level
  obtain ⟨a2, ha2⟩ := hint m (j : Int) level
  obtain ⟨a3, ha3⟩ := hnv j
  obtain ⟨a4, ha4⟩ := hnv m
  exact ⟨idx, a, b, kj, km, by rw [ha1]; exact getElem?_append_some _ _ _ _ h1,
    by rw [ha2]; exact getElem?_append_some _ _ _ _ h2, h3, h4, h5, h6,
    by rw [ha3]; exact getElem?_append_some _ _ _ _ h7,
    by rw [ha4]; exact getElem?_append_some _ _ _ _ h8⟩

/-- With `distributeGenealogy = false` and no grid manager every node that step 2 appends to
a layout other than its owner has its pair of entries on the level of the call. -/
theorem runCalls_step2_shared (T : InterfaceNodeTypes) (mg : MultiGrid) (sh : SubsetHandler)
    (selection : Nat → MGSelector) (kind : Kind) (st1 st2 : LayoutState)
    (hb : BaseInv sh.num_subsets st1) (hp : PairInv T st1)
    (hrun : runCalls T none st1 (step2Calls mg sh false selection kind) = some st2) :
    ∀ c ∈ step2Calls mg sh false selection kind, st2.aaFirstLayout c.node ≠ -1 ∧
      ∀ m : Nat, st2.aaFirstLayout c.node = (m : Int) → m ≠ c.layoutIndex →
        SharedPair T st2.layouts c.layoutIndex m c.level.toNat c.node := by
  have := runCalls_induction T none
    (fun done st => BaseInv sh.num_subsets st ∧ PairInv T st ∧
      ∀ c ∈ done, st.aaFirstLayout c.node ≠ -1 ∧
        ∀ m : Nat, st.aaFirstLayout c.node = (m : Int) → m ≠ c.layoutIndex →
          SharedPair T st.layouts c.layoutIndex m c.level.toNat c.node)
    (step2Calls mg sh false selection kind) st1 st2 ⟨hb, hp, fun c hc => by cases hc⟩ ?_ hrun
  · exact this.2.2
  intro done c st st3 hc hinv hres
  obtain ⟨hb1, hp1, hdone⟩ := hinv
  obtain ⟨-, hiol, level, hlevel, -, -, -⟩ := (mem_step2Calls mg sh false selection kind c).1 hc
  obtain ⟨hi, hlen, hnv, hfl, hli, hclaimed, hint⟩ :=
    AddNodeToLayout_effect T _ _ _ none st st3 c.node hres
  have hkeep : ∀ x, st.aaFirstLayout x ≠ -1 → st3.aaFirstLayout x = st.aaFirstLayout x := by
    intro x hx
    rw [hfl x]
    by_cases hxn : x = c.node
    · subst hxn
      simp [hx]
    · simp [hxn]
  have hmono : ∀ j m lv x, SharedPair T st.layouts j m lv x →
      SharedPair T st3.layouts j m lv x :=
    fun j m lv x h => SharedPair_mono T st.layouts st3.layouts
      (fun j => ⟨_, hnv j⟩) (fun P Q L => ⟨_, by rw [hint P Q L, List.append_assoc]⟩) j m lv x h
  refine ⟨BaseInv_step T _ _ _ _ none st st3 c.node hb1 hres,
    PairInv_step T _ _ _ _ none st st3 c.node hb1 hp1 hres, ?_⟩
  intro d hd
  rcases List.mem_append.1 hd with hd | hd
  · obtain ⟨hne, hpair⟩ := hdone d hd
    refine ⟨by rw [hkeep d.node hne]; exact hne, ?_⟩
    intro m hm hmd
    rw [hkeep d.node hne] at hm
    exact hmono _ _ _ _ (hpair m hm hmd)
  · rw [List.mem_singleton.1 hd]
    by_cases hun : st.aaFirstLayout c.node = -1
    · have hnew : st3.aaFirstLayout c.node = (c.layoutIndex : Int) := by
        rw [hfl c.node]
        simp [hun]
      refine ⟨by rw [hnew]; omega, ?_⟩
      intro m hm hmc
      rw [hnew] at hm
      exact absurd (by exact_mod_cast hm.symm) hmc
    · refine ⟨by rw [hkeep c.node hun]; exact hun, ?_⟩
      intro m hm hmc
      rw [hkeep c.node hun] at hm
      obtain ⟨m1, k, hm1, hm1n, hk, hloc⟩ := hb1.2 c.node hun
      have hmm : m1 = m := by
        rw [hm] at hm1
        exact_mod_cast hm1.symm
      subst hmm
      have hcp : createsPair st c.level c.interfacesOnLevelOnly none c.node :=
        ⟨hun, rfl, Or.inl (by rw [hiol]; rfl)⟩
      have hlenEq := (hp1 c.layoutIndex m1 (Ne.symm hmc) c.level.toNat).length_eq
      have hcm : ¬ (c.layoutIndex = m1) := fun h => hmc h.symm
      have hI1 : interfaceOf st3.layouts c.layoutIndex (m1 : Int) c.level.toNat =
          interfaceOf st.layouts c.layoutIndex (m1 : Int) c.level.toNat ++
            [slaveEntry T st c.layoutIndex] := by
        rw [hint]
        simp [hcp, hm, hcm]
      have hI2 : interfaceOf st3.layouts m1 (c.layoutIndex : Int) c.level.toNat =
          interfaceOf st.layouts m1 (c.layoutIndex : Int) c.level.toNat ++
            [masterEntry T st c.node] := by
        rw [hint]
        simp [hcp, hm, hmc]
      refine ⟨(interfaceOf st.layouts c.layoutIndex (m1 : Int) c.level.toNat).length,
        slaveEntry T st c.layoutIndex, masterEntry T st c.node,
        (nodeVecOf st.layouts c.layoutIndex).length, k, ?_, ?_,
        slaveEntry_type T st _, masterEntry_type T st _, slaveEntry_localID T st _,
        by rw [masterEntry_localID, hloc], ?_, ?_⟩
      · rw [hI1]
        simp
      · rw [hI2, hlenEq]
        simp
      · rw [hnv]
        simp
      · rw [hnv]
        exact getElem?_append_some _ _ _ _ hk

/-! ## Claim C7 -/

/-- C7 (level restriction of interfaces). (1) For a node already claimed by layout `m`,
handed to `AddNodesToLayout` on level `L`, the call returns and writes the master/slave pair
if and only if `interfacesOnLevelOnly` is -1 or `L` and the node is no genuine interface
element; the pair goes into the interfaces of level `L` and nothing else changes in any
interface. (2) With `distributeGenealogy = true`, for a selector with at most
`mg.num_levels()` levels, every interface of a level other than `mg.num_levels() - 1` is
empty in the result of `CreateDistributionLayouts`. (3) With `distributeGenealogy = false`
and no grid manager every element `x` has an owner `m` (its subset, if it has one) such that
each other layout `j` for which `x` is selected on a level holds, on that level, a slave
entry for `x` in `interface(m, level)`, matched at the same position by a master entry for
`x` in `layouts[m].interface(j, level)`. -/
theorem C7_level_restriction (T : InterfaceNodeTypes) (hT : T.WellFormed) (mg : MultiGrid)
    (sh : SubsetHandler) (hsh : sh.WellFormed) (selection : Nat → MGSelector)
    (hsel : ∀ i, (selection i).num_levels ≤ mg.num_levels) :
    (∀ (st : LayoutState) (layoutIndex : Nat) (node : Node) (L : Nat) (iol : Int)
        (pDistGridMgr : Option (Node → Bool)) (m : Nat),
      layoutIndex < st.layouts.length → st.aaFirstLayout node = (m : Int) →
      m < st.layouts.length →
      ∃ st1, AddNodesToLayout T st layoutIndex [node] (L : Int) iol pDistGridMgr = some st1 ∧
        (∀ P Q L1, interfaceOf st1.layouts P Q L1 =
          interfaceOf st.layouts P Q L1 ++
            (if ((iol = -1 ∨ iol = (L : Int)) ∧
                  is_interface_element pDistGridMgr node = false) ∧
                P = m ∧ Q = (layoutIndex : Int) ∧ L1 = L
              then [DistributionInterfaceEntry.create (st.aaFirstProcLocalInd node)
                T.INT_MASTER] else []) ++
            (if ((iol = -1 ∨ iol = (L : Int)) ∧
                  is_interface_element pDistGridMgr node = false) ∧
                P = layoutIndex ∧ Q = (m : Int) ∧ L1 = L
              then [DistributionInterfaceEntry.create
                (toInt (nodeVecOf st.layouts layoutIndex).length) T.INT_SLAVE] else [])) ∧
        ((∀ P Q L1, interfaceOf st1.layouts P Q L1 = interfaceOf st.layouts P Q L1) ↔
          ¬ ((iol = -1 ∨ iol = (L : Int)) ∧
            is_interface_element pDistGridMgr node = false))) ∧
    (∀ pDistGridMgr : Option (Kind → Node → Bool),
      ∃ R, CreateDistributionLayouts T mg sh true selection pDistGridMgr = some R ∧
        ∀ (kind : Kind) (P : Nat) (Q : Int) (L : Nat), L + 1 ≠ mg.num_levels →
          interfaceOf (R kind) P Q L = []) ∧
    (∃ R, CreateDistributionLayouts T mg sh false selection none = some R ∧
      ∀ (kind : Kind) (x : Node), ∃ m : Nat,
        (∀ m0, m0 < sh.num_subsets → x ∈ sh.elems kind m0 → m = m0) ∧
        ∀ (j level : Nat), j < sh.num_subsets → level < (selection j).num_levels →
          x ∈ (selection j).elems kind level → x ∉ sh.elems kind j → j ≠ m →
          ∃ (idx : Nat) (a b : DistributionInterfaceEntry) (kj km : Nat),
            (interfaceOf (R kind) j (m : Int) level)[idx]? = some a ∧
            (interfaceOf (R kind) m (j : Int) level)[idx]? = some b ∧
            a.type = T.INT_SLAVE ∧ b.type = T.INT_MASTER ∧
            a.localID = bitfield 28 (toInt kj) ∧ b.localID = bitfield 28 (toInt km) ∧
            (nodeVecOf (R kind) j)[kj]? = some x ∧ (nodeVecOf (R kind) m)[km]? = some x) := by
  refine ⟨?_, ?_, ?_⟩
  · intro st layoutIndex node L iol mgr m hi hm hmlen
    exact AddNodesToLayout_claimed_node T st layoutIndex node L iol mgr m hi hm hmlen
  · intro mgr
    obtain ⟨R, hR, hk⟩ := CreateDistributionLayouts_returns T mg sh true selection mgr hsh
    refine ⟨R, hR, ?_⟩
    intro kind
    obtain ⟨st1, st2, -, hp1, hr2, hl⟩ := hk kind
    rw [← hl]
    exact runCalls_step2_finest_level T _ mg sh selection hsel kind st1 st2
      (interfaceOf_of_maps_nil st1 hp1.2.2.1) hr2
  · obtain ⟨R, hR, hk⟩ := CreateDistributionLayouts_returns T mg sh false selection none hsh
    refine ⟨R, hR, ?_⟩
    intro kind x
    obtain ⟨st1, st2, -, hp1, hr2, hl⟩ := hk kind
    simp only [Option.map_none'] at hr2
    have hshared := runCalls_step2_shared T mg sh selection kind st1 st2 hp1.1
      (PairInv_of_maps_nil T st1 hp1.2.2.1) hr2
    have hown := (runCalls_step2_OwnerInv T none mg sh false selection kind st1 st2
      (OwnerInv_of_Step1Post T sh kind st1 hp1) hr2).2.1
    have hb2 := runCalls_BaseInv T none sh.num_subsets _ st1 st2 hp1.1 hr2
    obtain ⟨⟨hm1, hm2⟩, ⟨hs1, hs2⟩, -⟩ := hT
    refine ⟨(st2.aaFirstLayout x).toNat, ?_, ?_⟩
    · intro m0 hm0 hx
      rw [hown m0 x hm0 hx]
      simp
    · intro j level hj hlevel hxsel hxsh hjm
      have hc : (⟨j, (level : Int), -1, x⟩ : Call) ∈ step2Calls mg sh false selection kind :=
        (mem_step2Calls mg sh false selection kind _).2
          ⟨hj, rfl, level, rfl, hlevel, hxsel, hxsh⟩
      obtain ⟨hne, hpair⟩ := hshared _ hc
      obtain ⟨m1, k, hm1eq, -, -, -⟩ := hb2.2 x hne
      have hmt : (st2.aaFirstLayout x).toNat = m1 := by
        rw [hm1eq]
        simp
      rw [hmt] at hjm ⊢
      obtain ⟨idx, a, b, kj, km, h1, h2, h3, h4, h5, h6, h7, h8⟩ :=
        hpair m1 hm1eq (Ne.symm hjm)
      simp only [Int.toNat_ofNat] at h1 h2
      rw [hl] at h1 h2 h7 h8
      rw [bitfield_type T.INT_SLAVE hs1 hs2] at h3
      rw [bitfield_type T.INT_MASTER hm1 hm2] at h4
      exact ⟨idx, a, b, kj, km, h1, h2, h3, h4, h5, h6, h7, h8⟩

/-- Witness of C7: part (1) at vertex 5, claimed by layout 0 and handed to layout 1 on
level 0 without restriction, part (2) on the example input. -/
theorem C7_level_restriction_witness :
    exampleTypes.WellFormed ∧ exampleSubsetHandler.WellFormed ∧
    (∀ i, (exampleSelection i).num_levels ≤ exampleMultiGrid.num_levels) ∧
    (1 < exampleClaimedState.layouts.length ∧
      exampleClaimedState.aaFirstLayout 5 = ((0 : Nat) : Int) ∧
      0 < exampleClaimedState.layouts.length) ∧
    (∃ st1, AddNodesToLayout exampleTypes exampleClaimedState 1 [5] ((0 : Nat) : Int) (-1)
        none = some st1 ∧
      (∀ P Q L1, interfaceOf st1.layouts P Q L1 =
        interfaceOf exampleClaimedState.layouts P Q L1 ++
          (if ((((-1 : Int) = -1 ∨ (-1 : Int) = ((0 : Nat) : Int)) ∧
                is_interface_element none 5 = false) ∧
              P = 0 ∧ Q = ((1 : Nat) : Int) ∧ L1 = 0)
            then [DistributionInterfaceEntry.create
              (exampleClaimedState.aaFirstProcLocalInd 5) exampleTypes.INT_MASTER] else []) ++
          (if ((((-1 : Int) = -1 ∨ (-1 : Int) = ((0 : Nat) : Int)) ∧
                is_interface_element none 5 = false) ∧
              P = 1 ∧ Q = ((0 : Nat) : Int) ∧ L1 = 0)
            then [DistributionInterfaceEntry.create
              (toInt (nodeVecOf exampleClaimedState.layouts 1).length)
              exampleTypes.INT_SLAVE] else [])) ∧
      ((∀ P Q L1, interfaceOf st1.layouts P Q L1 =
          interfaceOf exampleClaimedState.layouts P Q L1) ↔
        ¬ (((-1 : Int) = -1 ∨ (-1 : Int) = ((0 : Nat) : Int)) ∧
          is_interface_element none 5 = false))) ∧
    (∃ R, CreateDistributionLayouts exampleTypes exampleMultiGrid exampleSubsetHandler true
        exampleSelection none = some R ∧
      ∀ (kind : Kind) (P : Nat) (Q : Int) (L : Nat), L + 1 ≠ exampleMultiGrid.num_levels →
        interfaceOf (R kind) P Q L = []) :=
  ⟨by unfold InterfaceNodeTypes.WellFormed exampleTypes; decide,
    by intro kind; cases kind <;> decide,
    fun _ => Nat.le_refl 2,
    ⟨by decide, rfl, by decide⟩,
    (C7_level_restriction exampleTypes
      (by unfold InterfaceNodeTypes.WellFormed exampleTypes; decide) exampleMultiGrid
      exampleSubsetHandler (by intro kind; cases kind <;> decide) exampleSelection
      (fun _ => Nat.le_refl 2)).1 exampleClaimedState 1 5 0 (-1) none 0
        (by decide) rfl (by decide),
    (C7_level_restriction exampleTypes
      (by unfold InterfaceNodeTypes.WellFormed exampleTypes; decide) exampleMultiGrid
      exampleSubsetHandler (by intro kind; cases kind <;> decide) exampleSelection
      (fun _ => Nat.le_refl 2)).2.1 none⟩

/-! ## Claim C8 -/

/-- C8 (genuine interface elements get no distribution interface): when a grid manager is
passed, `is_interface_element(node)` holds and the node was already claimed by a layout `m`,
the call of `AddNodesToLayout` for this node (on a level other than the debugging value -1)
returns, leaves the interface maps of every layout and both attachments as they were, and
appends the node to the node vector of `layouts[layoutIndex]` and to no other. -/
theorem C8_genuine_interface_elements_skipped (T : InterfaceNodeTypes) (st : LayoutState)
    (layoutIndex : Nat) (node : Node) (level interfacesOnLevelOnly : Int)
    (is_interface_elem : Node → Bool) (m : Nat)
    (hi : layoutIndex < st.layouts.length) (hm : st.aaFirstLayout node = (m : Int))
    (hmlen : m < st.layouts.length) (hlevel : level ≠ -1)
    (hie : is_interface_elem node = true) :
    ∃ st1, AddNodesToLayout T st layoutIndex [node] level interfacesOnLevelOnly
        (some is_interface_elem) = some st1 ∧
      st1.layouts.length = st.layouts.length ∧
      (∀ j : Nat, (st1.layouts[j]?).map (fun l => l.m_vInterfaceMaps) =
        (st.layouts[j]?).map (fun l => l.m_vInterfaceMaps)) ∧
      (∀ P Q L, interfaceOf st1.layouts P Q L = interfaceOf st.layouts P Q L) ∧
      nodeVecOf st1.layouts layoutIndex = nodeVecOf st.layouts layoutIndex ++ [node] ∧
      (∀ j, j ≠ layoutIndex → nodeVecOf st1.layouts j = nodeVecOf st.layouts j) ∧
      st1.aaFirstLayout = st.aaFirstLayout ∧
      st1.aaFirstProcLocalInd = st.aaFirstProcLocalInd := by
  have hne : st.aaFirstLayout node ≠ -1 := by rw [hm]; omega
  have hrange : ¬ (st.aaFirstLayout node < 0 ∨
      (st.layouts.length : Int) ≤ st.aaFirstLayout node) := by
    rw [hm]
    omega
  have hres : AddNodeToLayout T layoutIndex level interfacesOnLevelOnly
      (some is_interface_elem) st node =
      some { layouts := (modifyLayout st.layouts layoutIndex (fun l => l.push_node node))
             aaFirstLayout := st.aaFirstLayout
             aaFirstProcLocalInd := st.aaFirstProcLocalInd } := by
    unfold AddNodeToLayout
    rw [List.getElem?_eq_getElem hi]
    simp only [hne, hlevel, hrange, if_false, is_interface_element, hie, if_true]
  refine ⟨{ layouts := (modifyLayout st.layouts layoutIndex (fun l => l.push_node node))
            aaFirstLayout := st.aaFirstLayout
            aaFirstProcLocalInd := st.aaFirstProcLocalInd },
    by rw [AddNodesToLayout_cons, hres]; rfl, length_modifyLayout _ _ _, ?_, ?_, ?_,
    ?_, rfl, rfl⟩
  · intro j
    simp only []
    rw [getElem?_modifyLayout]
    by_cases hj : j = layoutIndex
    · subst hj
      cases st.layouts[j]? <;> simp [DistributionNodeLayout.push_node]
    · simp [hj]
  · intro P Q L
    exact interfaceOf_modifyLayout_same st.layouts layoutIndex (fun l => l.push_node node)
      (fun _ _ _ => rfl) P Q L
  · simp only []
    rw [nodeVecOf_modifyLayout st.layouts layoutIndex layoutIndex (fun l => l.push_node node)
      [node] (fun l => rfl)]
    simp [hi]
  · intro j hj
    simp only []
    rw [nodeVecOf_modifyLayout st.layouts layoutIndex j (fun l => l.push_node node)
      [node] (fun l => rfl)]
    simp [hj]

/-- Witness of C8: vertex 5, claimed by layout 0, is a genuine interface element and is
handed to layout 1 on level 0. -/
theorem C8_genuine_interface_elements_skipped_witness :
    (1 < exampleClaimedState.layouts.length ∧
      exampleClaimedState.aaFirstLayout 5 = ((0 : Nat) : Int) ∧
      0 < exampleClaimedState.layouts.length ∧ (0 : Int) ≠ -1 ∧
      (fun _ : Node => true) 5 = true) ∧
    ∃ st1, AddNodesToLayout exampleTypes exampleClaimedState 1 [5] 0 (-1)
        (some (fun _ => true)) = some st1 ∧
      st1.layouts.length = exampleClaimedState.layouts.length ∧
      (∀ j : Nat, (st1.layouts[j]?).map (fun l => l.m_vInterfaceMaps) =
        (exampleClaimedState.layouts[j]?).map (fun l => l.m_vInterfaceMaps)) ∧
      (∀ P Q L, interfaceOf st1.layouts P Q L = interfaceOf exampleClaimedState.layouts P Q L) ∧
      nodeVecOf st1.layouts 1 = nodeVecOf exampleClaimedState.layouts 1 ++ [5] ∧
      (∀ j, j ≠ 1 → nodeVecOf st1.layouts j = nodeVecOf exampleClaimedState.layouts j) ∧
      st1.aaFirstLayout = exampleClaimedState.aaFirstLayout ∧
      st1.aaFirstProcLocalInd = exampleClaimedState.aaFirstProcLocalInd :=
  ⟨⟨by decide, rfl, by decide, by decide, rfl⟩,
    C8_genuine_interface_elements_skipped exampleTypes exampleClaimedState 1 5 0 (-1)
      (fun _ => true) 0 (by decide) rfl (by decide) (by decide) rfl⟩

/-! ## Claim C9 -/

/-- C9 at the failing input: the interfaces 0 -> 1 and 1 -> 0 on level 0 have the same size,
the interface 0 -> 1 holds one `INT_MASTER` entry and the interface 1 -> 0 holds no
`INT_SLAVE` entry; `TestDistributionLayouts` logs the master/slave mismatch and returns
`true`. -/
theorem C9_TestDistributionLayouts_ignores_count_mismatch :
    (interfaceOf exampleInconsistentLayouts 0 1 0).length =
      (interfaceOf exampleInconsistentLayouts 1 0 0).length ∧
    NumEntriesOfTypeInDistributionInterface exampleTypes.INT_MASTER
      (interfaceOf exampleInconsistentLayouts 0 1 0) = 1 ∧
    NumEntriesOfTypeInDistributionInterface exampleTypes.INT_SLAVE
      (interfaceOf exampleInconsistentLayouts 1 0 0) = 0 ∧
    (TestDistributionLayouts exampleTypes exampleInconsistentLayouts).map
      (fun st => (st.bSuccess, st.log)) =
      some (true, [TestLogEntry.masterSlaveMismatch 0 1 0,
        TestLogEntry.slaveMasterMismatch 0 0 1]) := by
  decide

/-! ## Rounding in the format binary64 -/

theorem roundHalfEven_intCast (n : Int) : roundHalfEven (n : ℚ) = n := by
  unfold roundHalfEven
  simp

theorem floor_le_roundHalfEven (y : ℚ) : ⌊y⌋ ≤ roundHalfEven y := by
  unfold roundHalfEven
  simp only
  split_ifs <;> omega

theorem roundHalfEven_le_floor_add_one (y : ℚ) : roundHalfEven y ≤ ⌊y⌋ + 1 := by
  unfold roundHalfEven
  simp only
  split_ifs <;> omega

theorem le_roundHalfEven (n : Int) (y : ℚ) (h : (n : ℚ) ≤ y) : n ≤ roundHalfEven y :=
  le_trans (Int.le_floor.2 h) (floor_le_roundHalfEven y)

theorem roundHalfEven_le (n : Int) (y : ℚ) (h : y ≤ (n : ℚ)) : roundHalfEven y ≤ n := by
  rcases eq_or_lt_of_le h with h1 | h1
  · rw [h1, roundHalfEven_intCast]
  · have : ⌊y⌋ < n := Int.floor_lt.2 h1
    have := roundHalfEven_le_floor_add_one y
    omega

theorem roundHalfEven_mono (y1 y2 : ℚ) (h : y1 ≤ y2) :
    roundHalfEven y1 ≤ roundHalfEven y2 := by
  have hf : ⌊y1⌋ ≤ ⌊y2⌋ := Int.floor_mono h
  rcases eq_or_lt_of_le hf with h1 | h1
  · unfold roundHalfEven
    simp only
    rw [← h1]
    split_ifs <;> first | omega | (exfalso; linarith)
  · have := roundHalfEven_le_floor_add_one y1
    have := floor_le_roundHalfEven y2
    omega

theorem intPow_mul_zpow (n : Nat) (z : Int) :
    (((2 : Int) ^ n : Int) : ℚ) * 2 ^ z = 2 ^ (z + n) := by
  rw [Int.cast_pow, Int.cast_ofNat, ← zpow_natCast, ← zpow_add₀ (by norm_num)]
  congr 1
  ring

theorem ulp_pos (a : ℚ) : (0 : ℚ) < 2 ^ (binade a - 52) := by positivity

theorem roundMagnitude_nonneg (a : ℚ) (ha : 0 ≤ a) : 0 ≤ roundMagnitude a := by
  unfold roundMagnitude
  have h0 : (0 : Int) ≤ roundHalfEven (a / 2 ^ (binade a - 52)) :=
    le_roundHalfEven 0 _ (by simpa using div_nonneg ha (le_of_lt (ulp_pos a)))
  exact mul_nonneg (by exact_mod_cast h0) (le_of_lt (ulp_pos a))

theorem roundMagnitude_zero : roundMagnitude 0 = 0 := by
  unfold roundMagnitude
  rw [zero_div]
  have := roundHalfEven_intCast 0
  simp only [Int.cast_zero] at this
  rw [this]
  simp

theorem log_le_binade (a : ℚ) : Int.log 2 a ≤ binade a := le_max_left _ _

theorem roundMagnitude_le (a : ℚ) : roundMagnitude a ≤ 2 ^ (binade a + 1) := by
  unfold roundMagnitude
  have hu := ulp_pos a
  have h1 : a < 2 ^ (Int.log 2 a + 1) := by
    have := Int.lt_zpow_succ_log_self (b := 2) (by decide) a
    simpa using this
  have h2 : (2 : ℚ) ^ (Int.log 2 a + 1) ≤ 2 ^ (binade a + 1) :=
    zpow_le_zpow_right₀ (by norm_num) (by have := log_le_binade a; omega)
  have h3 : a / 2 ^ (binade a - 52) ≤ ((2 ^ 53 : Int) : ℚ) := by
    rw [div_le_iff₀ hu]
    have : ((2 ^ 53 : Int) : ℚ) * 2 ^ (binade a - 52) = 2 ^ (binade a + 1) := by
      rw [intPow_mul_zpow]
      congr 1
      push_cast
      ring
    rw [this]
    linarith
  have h4 := roundHalfEven_le _ _ h3
  have h5 : (roundHalfEven (a / 2 ^ (binade a - 52)) : ℚ) ≤ ((2 ^ 53 : Int) : ℚ) := by
    exact_mod_cast h4
  calc (roundHalfEven (a / 2 ^ (binade a - 52)) : ℚ) * 2 ^ (binade a - 52)
      ≤ ((2 ^ 53 : Int) : ℚ) * 2 ^ (binade a - 52) :=
        mul_le_mul_of_nonneg_right h5 (le_of_lt hu)
    _ = 2 ^ (binade a + 1) := by
      rw [intPow_mul_zpow]
      congr 1
      push_cast
      ring

theorem le_roundMagnitude (a : ℚ) (ha : 0 < a) (hn : binade a = Int.log 2 a) :
    2 ^ binade a ≤ roundMagnitude a := by
  unfold roundMagnitude
  have hu := ulp_pos a
  have h1 : (2 : ℚ) ^ binade a ≤ a := by
    rw [hn]
    have := Int.zpow_log_le_self (b := 2) (by decide) ha
    simpa using this
  have e : ((2 ^ 52 : Int) : ℚ) * 2 ^ (binade a - 52) = 2 ^ binade a := by
    rw [intPow_mul_zpow]
    congr 1
    push_cast
    ring
  have h3 : ((2 ^ 52 : Int) : ℚ) ≤ a / 2 ^ (binade a - 52) := by
    rw [le_div_iff₀ hu, e]
    exact h1
  have h4 := le_roundHalfEven _ _ h3
  have h5 : ((2 ^ 52 : Int) : ℚ) ≤ (roundHalfEven (a / 2 ^ (binade a - 52)) : ℚ) := by
    exact_mod_cast h4
  calc (2 : ℚ) ^ binade a = ((2 ^ 52 : Int) : ℚ) * 2 ^ (binade a - 52) := e.symm
    _ ≤ (roundHalfEven (a / 2 ^ (binade a - 52)) : ℚ) * 2 ^ (binade a - 52) :=
        mul_le_mul_of_nonneg_right h5 (le_of_lt hu)

theorem binade_mono (a b : ℚ) (ha : 0 < a) (h : a ≤ b) : binade a ≤ binade b := by
  unfold binade
  exact max_le_max (Int.log_mono_right ha h) (le_refl _)

theorem roundMagnitude_mono (a b : ℚ) (ha : 0 ≤ a) (h : a ≤ b) :
    roundMagnitude a ≤ roundMagnitude b := by
  rcases eq_or_lt_of_le ha with h0 | h0
  · rw [← h0, roundMagnitude_zero]
    exact roundMagnitude_nonneg b (le_trans ha h)
  · have hb : 0 < b := lt_of_lt_of_le h0 h
    rcases eq_or_lt_of_le (binade_mono a b h0 h) with he | he
    · unfold roundMagnitude
      rw [he]
      have hu := ulp_pos b
      have h1 : a / 2 ^ (binade b - 52) ≤ b / 2 ^ (binade b - 52) :=
        div_le_div_of_nonneg_right h (le_of_lt hu)
      have h2 := roundHalfEven_mono _ _ h1
      exact mul_le_mul_of_nonneg_right (by exact_mod_cast h2) (le_of_lt hu)
    · have hn : binade b = Int.log 2 b := by
        unfold binade at he ⊢
        rcases max_cases (Int.log 2 b) (-1022) with ⟨h1, -⟩ | ⟨h1, -⟩
        · exact h1
        · rw [h1] at he
          have := le_max_right (Int.log 2 a) (-1022)
          omega
      calc roundMagnitude a ≤ 2 ^ (binade a + 1) := roundMagnitude_le a
        _ ≤ 2 ^ binade b := zpow_le_zpow_right₀ (by norm_num) (by omega)
        _ ≤ roundMagnitude b := le_roundMagnitude b hb hn

theorem roundMagnitude_exact (M k : Nat) (hM : M < 2 ^ 53) (hk : k ≤ 1074) :
    roundMagnitude ((M : ℚ) / 2 ^ k) = (M : ℚ) / 2 ^ k := by
  rcases Nat.eq_zero_or_pos M with h0 | h0
  · subst h0
    simp [roundMagnitude_zero]
  · have hM0 : (0 : ℚ) < M := by exact_mod_cast h0
    have hapos : (0 : ℚ) < (M : ℚ) / 2 ^ k := by positivity
    have hlt : (M : ℚ) / 2 ^ k < 2 ^ ((53 : Int) - k) := by
      rw [zpow_sub₀ (by norm_num), zpow_natCast]
      apply div_lt_div_of_pos_right _ (by positivity)
      have : (M : ℚ) < ((2 ^ 53 : Nat) : ℚ) := by exact_mod_cast hM
      rw [Nat.cast_pow, Nat.cast_ofNat] at this
      exact_mod_cast this
    have hlog : Int.log 2 ((M : ℚ) / 2 ^ k) < 53 - k :=
      (Int.lt_zpow_iff_log_lt (by decide) hapos).1 (by simpa using hlt)
    have he : binade ((M : ℚ) / 2 ^ k) ≤ 52 - k := by
      unfold binade
      apply max_le <;> omega
    obtain ⟨j, hj⟩ : ∃ j : Nat, (j : Int) = 52 - k - binade ((M : ℚ) / 2 ^ k) :=
      ⟨(52 - k - binade ((M : ℚ) / 2 ^ k)).toNat, by omega⟩
    have hu := ulp_pos ((M : ℚ) / 2 ^ k)
    have hq : (M : ℚ) / 2 ^ k / 2 ^ (binade ((M : ℚ) / 2 ^ k) - 52) =
        (((M : Int) * 2 ^ j : Int) : ℚ) := by
      rw [div_eq_iff (ne_of_gt hu)]
      push_cast
      rw [mul_assoc, ← zpow_natCast 2 j, ← zpow_add₀ (by norm_num), hj]
      have : (52 : Int) - k - binade ((M : ℚ) / 2 ^ k) +
          (binade ((M : ℚ) / 2 ^ k) - 52) = -(k : Int) := by ring
      rw [this, zpow_neg, zpow_natCast]
      rfl
    unfold roundMagnitude
    rw [hq, roundHalfEven_intCast, ← hq, div_mul_cancel₀ _ (ne_of_gt hu)]

theorem Number.le_of_le_of_le (a b c : Number) (h1 : Number.le a b = true)
    (h2 : Number.le b c = true) : Number.le a c = true := by
  cases a <;> cases b <;> cases c <;> simp_all [Number.le]
  · exact le_trans h1 h2
  · rename_i n1 n2 n3
    cases n1 <;> cases n2 <;> cases n3 <;> simp_all

theorem overflowMagnitude_ge (n : Nat) (h : n ≤ 1024) : (2 : ℚ) ^ n ≤ overflowMagnitude :=
  pow_le_pow_right₀ (by norm_num) h

/-- A number with at most 53 binary digits and an exponent in the range of the format is a
number of the format binary64: rounding leaves it as it is. -/
theorem roundBinary64_exact (m : Int) (k : Nat) (hm : m.natAbs < 2 ^ 53) (hk : k ≤ 1074) :
    roundBinary64 ((m : ℚ) / 2 ^ k) = Number.finite ((m : ℚ) / 2 ^ k) := by
  have habs : |(m : ℚ) / 2 ^ k| = ((m.natAbs : Nat) : ℚ) / 2 ^ k := by
    rw [abs_div, abs_of_pos (by positivity : (0 : ℚ) < 2 ^ k), Nat.cast_natAbs,
      Int.cast_abs]
  have hex := roundMagnitude_exact m.natAbs k hm hk
  have hlt : ((m.natAbs : Nat) : ℚ) / 2 ^ k < overflowMagnitude := by
    have h1 : ((m.natAbs : Nat) : ℚ) / 2 ^ k ≤ (m.natAbs : ℚ) :=
      div_le_self (by positivity) (one_le_pow₀ (by norm_num))
    have h2 : ((m.natAbs : Nat) : ℚ) < ((2 ^ 53 : Nat) : ℚ) := by exact_mod_cast hm
    have h3 : (((2 : Nat) ^ 53 : Nat) : ℚ) ≤ overflowMagnitude := by
      rw [Nat.cast_pow, Nat.cast_ofNat]
      exact overflowMagnitude_ge 53 (by omega)
    linarith
  unfold roundBinary64
  rw [habs, hex, if_neg (not_le.2 hlt)]
  congr 1
  split_ifs with hneg
  · rw [← habs, abs_of_neg hneg, neg_neg]
  · rw [← habs, abs_of_nonneg (not_lt.1 hneg)]

theorem isRounding_roundBinary64 : IsRounding roundBinary64 where
  ne_nan := by
    intro q
    unfold roundBinary64
    split_ifs <;> simp
  mono := by
    intro q r h
    have hA := roundMagnitude_nonneg |q| (abs_nonneg q)
    have hB := roundMagnitude_nonneg |r| (abs_nonneg r)
    have hT : (0 : ℚ) < overflowMagnitude := by unfold overflowMagnitude; positivity
    by_cases hq : q < 0
    · by_cases hr : r < 0
      · have hm := roundMagnitude_mono |r| |q| (abs_nonneg r)
          (by rw [abs_of_neg hq, abs_of_neg hr]; linarith)
        by_cases h1 : overflowMagnitude ≤ roundMagnitude |q| <;>
          by_cases h2 : overflowMagnitude ≤ roundMagnitude |r| <;>
          simp [roundBinary64, hq, hr, h1, h2, Number.le]
        · exact h1 (le_trans h2 hm)
        · exact hm
      · by_cases h1 : overflowMagnitude ≤ roundMagnitude |q| <;>
          by_cases h2 : overflowMagnitude ≤ roundMagnitude |r| <;>
          simp [roundBinary64, hq, hr, h1, h2, Number.le]
        linarith
    · have hr : ¬ r < 0 := by linarith
      have hm := roundMagnitude_mono |q| |r| (abs_nonneg q)
        (by rw [abs_of_nonneg (not_lt.1 hq), abs_of_nonneg (not_lt.1 hr)]; exact h)
      by_cases h1 : overflowMagnitude ≤ roundMagnitude |q| <;>
        by_cases h2 : overflowMagnitude ≤ roundMagnitude |r| <;>
        simp [roundBinary64, hq, hr, h1, h2, Number.le]
      · exact h2 (le_trans h1 hm)
      · exact hm
  exact := fun m k hm hk => roundBinary64_exact m k (by omega) (by omega)

/-! ## Anisotropic marking -/

theorem Number.lt_imp_le (a b : Number) (h : Number.lt a b = true) :
    Number.le a b = true := by
  cases a <;> cases b <;> simp_all [Number.lt, Number.le]
  exact h.le

theorem Number.le_of_lt_eq_false (a b : Number) (ha : a ≠ Number.nan) (hb : b ≠ Number.nan)
    (h : Number.lt a b = false) : Number.le b a = true := by
  cases a <;> cases b <;> simp_all [Number.lt, Number.le]
  rename_i n1 n2
  cases n1 <;> cases n2 <;> simp_all

theorem Number.le_self (a : Number) (ha : a ≠ Number.nan) : Number.le a a = true := by
  cases a <;> simp_all [Number.le]

theorem Number.le_antisymm_eq (a b : Number) (h1 : Number.le a b = true)
    (h2 : Number.le b a = true) : a = b := by
  cases a <;> cases b <;> simp_all [Number.le]
  · exact le_antisymm h1 h2
  · rename_i n1 n2
    cases n1 <;> cases n2 <;> simp_all

theorem Number.ne_nan_of_le_left (a b : Number) (h : Number.le a b = true) :
    a ≠ Number.nan := by
  cases a <;> simp_all [Number.le]

theorem Number.ne_nan_of_le_right (a b : Number) (h : Number.le a b = true) :
    b ≠ Number.nan := by
  cases a <;> cases b <;> simp_all [Number.le]

theorem foldl_shortest (len : EdgeBase → Number) (rest : List EdgeBase) (e : EdgeBase) :
    let r := rest.foldl (fun shortest cur =>
      if Number.lt (len cur) (len shortest) then cur else shortest) e
    (r = e ∨ r ∈ rest) ∧
      (len e ≠ Number.nan → (∀ x ∈ rest, len x ≠ Number.nan) →
        Number.le (len r) (len e) = true ∧ ∀ x ∈ rest, Number.le (len r) (len x) = true) := by
  induction rest generalizing e with
  | nil =>
    simp only [List.foldl_nil, true_or, List.not_mem_nil, false_implies, implies_true,
      and_true, true_and]
    intro he _
    exact Number.le_self _ he
  | cons c rest ih =>
    simp only [List.foldl_cons]
    by_cases h : Number.lt (len c) (len e) = true
    · simp only [h, if_true]
      obtain ⟨h1, h2⟩ := ih c
      refine ⟨?_, ?_⟩
      · rcases h1 with h1 | h1
        · exact Or.inr (by rw [h1]; exact List.mem_cons_self _ _)
        · exact Or.inr (List.mem_cons_of_mem _ h1)
      · intro he hrest
        obtain ⟨h3, h4⟩ := h2 (hrest c (List.mem_cons_self _ _))
          (fun x hx => hrest x (List.mem_cons_of_mem _ hx))
        refine ⟨Number.le_of_le_of_le _ _ _ h3 (Number.lt_imp_le _ _ h), ?_⟩
        intro x hx
        rcases List.mem_cons.1 hx with hx | hx
        · rw [hx]
          exact h3
        · exact h4 x hx
    · simp only [h, if_false]
      obtain ⟨h1, h2⟩ := ih e
      refine ⟨?_, ?_⟩
      · rcases h1 with h1 | h1
        · exact Or.inl h1
        · exact Or.inr (List.mem_cons_of_mem _ h1)
      · intro he hrest
        obtain ⟨h3, h4⟩ := h2 he (fun x hx => hrest x (List.mem_cons_of_mem _ hx))
        refine ⟨h3, ?_⟩
        intro x hx
        rcases List.mem_cons.1 hx with hx | hx
        · rw [hx]
          exact Number.le_of_le_of_le _ _ _ h3
            (Number.le_of_lt_eq_false _ _ (hrest c (List.mem_cons_self _ _)) he
              (by simpa using h))
        · exact h4 x hx

/-- The function `FindShortestEdge` returns an associated edge, unless the range is empty;
if no length is a NaN, the length of this edge is the smallest one. -/
theorem FindShortestEdge_spec (grid : Grid) (f : Face) (h : grid.associatedEdges f ≠ []) :
    ∃ minEdge, FindShortestEdge grid.EdgeLength (grid.associatedEdges f) = some minEdge ∧
      minEdge ∈ grid.associatedEdges f ∧
      ((∀ e ∈ grid.associatedEdges f, grid.EdgeLength e ≠ Number.nan) →
        IsMinEdgeLength grid f (grid.EdgeLength minEdge)) := by
  unfold IsMinEdgeLength
  cases hedges : grid.associatedEdges f with
  | nil => exact absurd hedges h
  | cons e rest =>
    obtain ⟨h1, h2⟩ := foldl_shortest grid.EdgeLength rest e
    have hmem : rest.foldl (fun shortest cur =>
        if Number.lt (grid.EdgeLength cur) (grid.EdgeLength shortest) then cur
        else shortest) e ∈ e :: rest := by
      rcases h1 with h1 | h1
      · rw [h1]
        exact List.mem_cons_self _ _
      · exact List.mem_cons_of_mem _ h1
    refine ⟨_, rfl, hmem, ?_⟩
    intro hnan
    obtain ⟨h3, h4⟩ := h2 (hnan e (List.mem_cons_self _ _))
      (fun x hx => hnan x (List.mem_cons_of_mem _ hx))
    refine ⟨⟨_, hmem, rfl⟩, ?_⟩
    intro x hx
    rcases List.mem_cons.1 hx with hx | hx
    · rw [hx]
      exact h3
    · exact h4 x hx

/-- There is at most one smallest length. -/
theorem IsMinEdgeLength_unique (grid : Grid) (f : Face) (m1 m2 : Number)
    (h1 : IsMinEdgeLength grid f m1) (h2 : IsMinEdgeLength grid f m2) : m1 = m2 := by
  obtain ⟨⟨e1, he1, rfl⟩, hle1⟩ := h1
  obtain ⟨⟨e2, he2, rfl⟩, hle2⟩ := h2
  exact Number.le_antisymm_eq _ _ (hle1 e2 he2) (hle2 e1 he1)

theorem foldlM_range_getElem? {α β : Type} (l : List α) (g : β → α → β) (k : Nat)
    (hk : k ≤ l.length) (a : β) :
    (List.range k).foldlM (fun acc i => (l[i]?).map (g acc)) a =
      some ((l.take k).foldl g a) := by
  induction k with
  | zero => rfl
  | succ k ih =>
    have hlt : k < l.length := by omega
    rw [List.range_succ, List.foldlM_append, ih (by omega)]
    simp only [Option.bind_eq_bind, Option.some_bind, List.foldlM_cons, List.foldlM_nil,
      List.getElem?_eq_getElem hlt]
    rw [List.take_succ, List.foldl_append, List.getElem?_eq_getElem hlt]
    rfl

theorem selected_eq_true_iff (round : ℚ → Number) (grid : Grid) (minLen sizeRatio : Number)
    (e : EdgeBase) :
    selected round grid minLen sizeRatio e = true ↔
      Number.lt (Number.finite 0) (grid.EdgeLength e) = true ∧
        Number.le (Number.div round minLen (grid.EdgeLength e)) sizeRatio = true := by
  unfold selected
  rw [Bool.and_eq_true]

theorem foldl_markIfAnisotropicEdge (round : ℚ → Number) (grid : Grid)
    (minLen sizeRatio : Number) (edges : List EdgeBase) (b : Bool) (r : IRefiner) :
    edges.foldl (markIfAnisotropicEdge round grid minLen sizeRatio) (b, r) =
      (b || edges.any (selected round grid minLen sizeRatio),
        { edgeMarks := r.edgeMarks ++
            (edges.filter (selected round grid minLen sizeRatio)).map
              (fun e => (e, RefinementMark.RM_REGULAR))
          faceMarks := r.faceMarks }) := by
  induction edges generalizing b r with
  | nil => simp
  | cons e edges ih =>
    simp only [List.foldl_cons]
    by_cases hs : selected round grid minLen sizeRatio e = true
    · have hstep : markIfAnisotropicEdge round grid minLen sizeRatio (b, r) e =
          (true, r.mark e) := by
        rw [selected_eq_true_iff] at hs
        simp [markIfAnisotropicEdge, hs.1, hs.2]
      rw [hstep, ih]
      simp [hs, IRefiner.mark]
    · have hstep : markIfAnisotropicEdge round grid minLen sizeRatio (b, r) e = (b, r) := by
        rw [selected_eq_true_iff, not_and] at hs
        unfold markIfAnisotropicEdge
        by_cases h0 : Number.lt (Number.finite 0) (grid.EdgeLength e) = true
        · simp [h0, hs h0]
        · simp [h0]
      rw [hstep, ih]
      simp [hs]

theorem foldl_firstPassEdge (round : ℚ → Number) (grid : Grid) (f : Face)
    (minLen sizeRatio : Number) (edges : List EdgeBase) (r : IRefiner) :
    edges.foldl (firstPassEdge round grid f minLen sizeRatio) r =
      { edgeMarks := r.edgeMarks ++
          (edges.filter (selected round grid minLen sizeRatio)).map
            (fun e => (e, RefinementMark.RM_REGULAR))
        faceMarks := r.faceMarks ++
          (edges.filter (selected round grid minLen sizeRatio)).map
            (fun _ => (f, RefinementMark.RM_ANISOTROPIC)) } := by
  induction edges generalizing r with
  | nil => simp
  | cons e edges ih =>
    simp only [List.foldl_cons]
    by_cases hs : selected round grid minLen sizeRatio e = true
    · have hstep : firstPassEdge round grid f minLen sizeRatio r e =
          (r.mark e).markFace f RefinementMark.RM_ANISOTROPIC := by
        rw [selected_eq_true_iff] at hs
        simp [firstPassEdge, hs.1, hs.2]
      rw [hstep, ih]
      simp [hs, IRefiner.mark, IRefiner.markFace]
    · have hstep : firstPassEdge round grid f minLen sizeRatio r e = r := by
        rw [selected_eq_true_iff, not_and] at hs
        unfold firstPassEdge
        by_cases h0 : Number.lt (Number.finite 0) (grid.EdgeLength e) = true
        · simp [h0, hs h0]
        · simp [h0]
      rw [hstep, ih]
      simp [hs]

/-- The result of `MarkIfAnisotropic` in closed form. -/
theorem MarkIfAnisotropic_eq (round : ℚ → Number) (grid : Grid) (f : Face)
    (refiner : IRefiner) (sizeRatio : Number) (minEdge : EdgeBase)
    (hn : grid.num_edges f = (grid.associatedEdges f).length)
    (hmin : FindShortestEdge grid.EdgeLength (grid.associatedEdges f) = some minEdge) :
    MarkIfAnisotropic round grid f refiner sizeRatio =
      some ((grid.associatedEdges f).any
          (selected round grid (grid.EdgeLength minEdge) sizeRatio),
        { edgeMarks := refiner.edgeMarks ++
            ((grid.associatedEdges f).filter
              (selected round grid (grid.EdgeLength minEdge) sizeRatio)).map
              (fun e => (e, RefinementMark.RM_REGULAR))
          faceMarks := refiner.faceMarks ++
            if (grid.associatedEdges f).any
              (selected round grid (grid.EdgeLength minEdge) sizeRatio)
            then [(f, RefinementMark.RM_ANISOTROPIC)] else [] }) := by
  unfold MarkIfAnisotropic
  simp only [hmin]
  rw [foldlM_range_getElem? (grid.associatedEdges f)
    (markIfAnisotropicEdge round grid (grid.EdgeLength minEdge) sizeRatio) (grid.num_edges f)
    (le_of_eq hn) (false, refiner), hn, List.take_length, foldl_markIfAnisotropicEdge]
  simp only [Bool.false_or]
  cases (grid.associatedEdges f).any
    (selected round grid (grid.EdgeLength minEdge) sizeRatio) <;>
    simp [IRefiner.markFace]

/-- The result of one iteration of the first pass for a face without children. -/
theorem firstPassFace_eq (round : ℚ → Number) (grid : Grid) (f : Face) (refiner : IRefiner)
    (sizeRatio : Number) (minEdge : EdgeBase) (hc : grid.has_children f = false)
    (hmin : FindShortestEdge grid.EdgeLength (grid.associatedEdges f) = some minEdge) :
    firstPassFace round grid sizeRatio refiner f =
      some { edgeMarks := refiner.edgeMarks ++
              ((grid.associatedEdges f).filter
                (selected round grid (grid.EdgeLength minEdge) sizeRatio)).map
                (fun e => (e, RefinementMark.RM_REGULAR))
             faceMarks := refiner.faceMarks ++
              ((grid.associatedEdges f).filter
                (selected round grid (grid.EdgeLength minEdge) sizeRatio)).map
                (fun _ => (f, RefinementMark.RM_ANISOTROPIC)) } := by
  unfold firstPassFace
  simp only [hc, hmin, Bool.false_eq_true, if_false]
  rw [foldl_firstPassEdge]

theorem IsRounding.round_one (round : ℚ → Number) (h : IsRounding round) :
    round 1 = Number.finite 1 := by
  have := h.exact 1 0 (by decide) (by decide)
  simpa using this

theorem IsRounding.round_half (round : ℚ → Number) (h : IsRounding round) :
    round (1 / 2) = Number.finite (1 / 2) := by
  have := h.exact 1 1 (by decide) (by decide)
  simpa using this

theorem IsRounding.round_three_quarters (round : ℚ → Number) (h : IsRounding round) :
    round (3 / 4) = Number.finite (3 / 4) := by
  have := h.exact 3 2 (by decide) (by decide)
  norm_num at this
  exact this

theorem Number.div_finite (round : ℚ → Number) (x y : number) (hy : 0 < y) :
    Number.div round (Number.finite x) (Number.finite y) = round (x / y) := by
  simp [Number.div, hy]

theorem selected_finite (round : ℚ → Number) (grid : Grid) (x y s q : number)
    (e : EdgeBase) (hlen : grid.EdgeLength e = Number.finite y) (hy : 0 < y)
    (hq : round (x / y) = Number.finite q) :
    selected round grid (Number.finite x) (Number.finite s) e = decide (q ≤ s) := by
  unfold selected
  rw [hlen, Number.div_finite _ _ _ hy, hq]
  simp [Number.lt, Number.le, hy]

theorem selected_of_length_zero (round : ℚ → Number) (grid : Grid) (minLen sizeRatio : Number)
    (e : EdgeBase) (hlen : grid.EdgeLength e = Number.finite 0) :
    selected round grid minLen sizeRatio e = false := by
  unfold selected
  rw [hlen]
  simp [Number.lt]

theorem filter_three {α : Type} (p : α → Bool) (a b c : α) :
    [a, b, c].filter p =
      (if p a then [a] else []) ++ (if p b then [b] else []) ++ (if p c then [c] else []) := by
  cases ha : p a <;> cases hb : p b <;> cases hc : p c <;> simp [List.filter, ha, hb, hc]

theorem FindShortestEdge_exampleTriangle (c : Bool) :
    FindShortestEdge (exampleTriangle c).EdgeLength ((exampleTriangle c).associatedEdges 0) =
      some 0 := by
  simp [FindShortestEdge, exampleTriangle, Number.lt]

theorem selected_exampleTriangle_half (round : ℚ → Number) (h : IsRounding round)
    (c : Bool) :
    ((exampleTriangle c).associatedEdges 0).filter
      (selected round (exampleTriangle c) ((exampleTriangle c).EdgeLength 0)
        (Number.finite (1 / 2))) = [2] := by
  have hone : round (1 / 1) = Number.finite 1 := by
    rw [div_one]
    exact h.round_one
  have h0 : selected round (exampleTriangle c) (Number.finite 1) (Number.finite (1 / 2)) 0 =
      false := by
    rw [selected_finite round _ 1 1 (1 / 2) 1 0 rfl (by norm_num) hone]
    exact decide_eq_false (by norm_num)
  have h1 : selected round (exampleTriangle c) (Number.finite 1) (Number.finite (1 / 2)) 1 =
      false := by
    rw [selected_finite round _ 1 1 (1 / 2) 1 1 rfl (by norm_num) hone]
    exact decide_eq_false (by norm_num)
  have h2 : selected round (exampleTriangle c) (Number.finite 1) (Number.finite (1 / 2)) 2 =
      true := by
    rw [selected_finite round _ 1 2 (1 / 2) (1 / 2) 2 rfl (by norm_num) h.round_half]
    exact decide_eq_true (le_refl _)
  have he : (exampleTriangle c).associatedEdges 0 = [0, 1, 2] := rfl
  have hl : (exampleTriangle c).EdgeLength 0 = Number.finite 1 := rfl
  rw [he, hl, filter_three, h0, h1, h2]
  rfl

theorem selected_exampleTriangle_049 (round : ℚ → Number) (h : IsRounding round)
    (c : Bool) :
    ((exampleTriangle c).associatedEdges 0).filter
      (selected round (exampleTriangle c) ((exampleTriangle c).EdgeLength 0)
        (Number.finite (49 / 100))) = [] := by
  have hone : round (1 / 1) = Number.finite 1 := by
    rw [div_one]
    exact h.round_one
  have h0 : selected round (exampleTriangle c) (Number.finite 1) (Number.finite (49 / 100))
      0 = false := by
    rw [selected_finite round _ 1 1 (49 / 100) 1 0 rfl (by norm_num) hone]
    exact decide_eq_false (by norm_num)
  have h1 : selected round (exampleTriangle c) (Number.finite 1) (Number.finite (49 / 100))
      1 = false := by
    rw [selected_finite round _ 1 1 (49 / 100) 1 1 rfl (by norm_num) hone]
    exact decide_eq_false (by norm_num)
  have h2 : selected round (exampleTriangle c) (Number.finite 1) (Number.finite (49 / 100))
      2 = false := by
    rw [selected_finite round _ 1 2 (49 / 100) (1 / 2) 2 rfl (by norm_num) h.round_half]
    exact decide_eq_false (by norm_num)
  have he : (exampleTriangle c).associatedEdges 0 = [0, 1, 2] := rfl
  have hl : (exampleTriangle c).EdgeLength 0 = Number.finite 1 := rfl
  rw [he, hl, filter_three, h0, h1, h2]
  rfl

theorem log_third : Int.log 2 (1 / 3 : ℚ) = -2 := by
  apply le_antisymm
  · have h : Int.log 2 (1 / 3 : ℚ) < -1 :=
      (Int.lt_zpow_iff_log_lt (by decide) (by norm_num)).1 (by norm_num)
    omega
  · exact (Int.zpow_le_iff_le_log (by decide) (by norm_num)).1 (by norm_num)

theorem roundMagnitude_third :
    roundMagnitude (1 / 3) = 6004799503160661 / 18014398509481984 := by
  have hb : binade (1 / 3) = -2 := by
    unfold binade
    rw [log_third]
    rfl
  have hq : (1 / 3 : ℚ) / 2 ^ ((-2 : Int) - 52) = 18014398509481984 / 3 := by
    norm_num
  have hfl : ⌊(18014398509481984 / 3 : ℚ)⌋ = 6004799503160661 := by
    rw [Int.floor_eq_iff]
    norm_num
  have hr : roundHalfEven (18014398509481984 / 3 : ℚ) = 6004799503160661 := by
    unfold roundHalfEven
    simp only [hfl]
    rw [if_pos (by norm_num)]
  unfold roundMagnitude
  rw [hb, hq, hr]
  norm_num

/-- The number of the format binary64 nearest to 1/3, which is less than 1/3. -/
theorem roundBinary64_third :
    roundBinary64 (1 / 3) = Number.finite (6004799503160661 / 18014398509481984) := by
  have ha : |(1 / 3 : ℚ)| = 1 / 3 := abs_of_pos (by norm_num)
  have hlt : ¬ overflowMagnitude ≤ (6004799503160661 / 18014398509481984 : ℚ) := by
    have := overflowMagnitude_ge 0 (by omega)
    rw [pow_zero] at this
    intro h
    have h1 : (6004799503160661 / 18014398509481984 : ℚ) < 1 := by norm_num
    linarith
  unfold roundBinary64
  rw [ha, roundMagnitude_third, if_neg hlt, if_neg (by norm_num)]

/-! ## Claim C10 -/

theorem div_one_one (round : ℚ → Number) (h : IsRounding round) :
    Number.div round (Number.finite 1) (Number.finite 1) = Number.finite 1 := by
  rw [Number.div_finite round 1 1 (by norm_num), div_one]
  exact h.round_one

theorem div_one_two (round : ℚ → Number) (h : IsRounding round) :
    Number.div round (Number.finite 1) (Number.finite 2) = Number.finite (1 / 2) := by
  rw [Number.div_finite round 1 2 (by norm_num)]
  exact h.round_half

theorem isMinEdgeLength_of_first (grid : Grid) (f : Face) (e : EdgeBase) (rest : List EdgeBase)
    (hedges : grid.associatedEdges f = e :: rest)
    (hle : ∀ x ∈ e :: rest, Number.le (grid.EdgeLength e) (grid.EdgeLength x) = true) :
    IsMinEdgeLength grid f (grid.EdgeLength e) := by
  unfold IsMinEdgeLength
  rw [hedges]
  exact ⟨⟨e, List.mem_cons_self _ _, rfl⟩, hle⟩

theorem isMinEdgeLength_exampleTriangle (c : Bool) :
    IsMinEdgeLength (exampleTriangle c) 0 (Number.finite 1) := by
  refine isMinEdgeLength_of_first (exampleTriangle c) 0 0 [1, 2] rfl ?_
  intro x hx
  simp only [List.mem_cons, List.mem_singleton, List.not_mem_nil, or_false] at hx
  rcases hx with rfl | rfl | rfl <;> simp [exampleTriangle, Number.le]

theorem isMinEdgeLength_thirdTriangle : IsMinEdgeLength thirdTriangle 0 (Number.finite 1) := by
  refine isMinEdgeLength_of_first thirdTriangle 0 0 [1, 2] rfl ?_
  intro x hx
  simp only [List.mem_cons, List.mem_singleton, List.not_mem_nil, or_false] at hx
  rcases hx with rfl | rfl | rfl <;> simp [thirdTriangle, Number.le]

theorem FindShortestEdge_thirdTriangle :
    FindShortestEdge thirdTriangle.EdgeLength (thirdTriangle.associatedEdges 0) = some 0 := by
  simp [FindShortestEdge, thirdTriangle, Number.lt]

theorem selected_thirdTriangle :
    (thirdTriangle.associatedEdges 0).filter
      (selected roundBinary64 thirdTriangle (thirdTriangle.EdgeLength 0)
        (Number.finite (6004799503160661 / 18014398509481984))) = [1, 2] := by
  have hone : roundBinary64 (1 / 1) = Number.finite 1 := by
    rw [div_one]
    exact isRounding_roundBinary64.round_one
  have h0 : selected roundBinary64 thirdTriangle (Number.finite 1)
      (Number.finite (6004799503160661 / 18014398509481984)) 0 = false := by
    rw [selected_finite roundBinary64 _ 1 1 _ 1 0 rfl (by norm_num) hone]
    exact decide_eq_false (by norm_num)
  have h1 : selected roundBinary64 thirdTriangle (Number.finite 1)
      (Number.finite (6004799503160661 / 18014398509481984)) 1 = true := by
    rw [selected_finite roundBinary64 _ 1 3 _ _ 1 rfl (by norm_num) roundBinary64_third]
    exact decide_eq_true (le_refl _)
  have h2 : selected roundBinary64 thirdTriangle (Number.finite 1)
      (Number.finite (6004799503160661 / 18014398509481984)) 2 = true := by
    rw [selected_finite roundBinary64 _ 1 3 _ _ 2 rfl (by norm_num) roundBinary64_third]
    exact decide_eq_true (le_refl _)
  have he : thirdTriangle.associatedEdges 0 = [0, 1, 2] := rfl
  have hl : thirdTriangle.EdgeLength 0 = Number.finite 1 := rfl
  rw [he, hl, filter_three, h0, h1, h2]
  rfl

theorem firstPass_exampleTriangle_children (round : ℚ → Number) (sizeRatio : Number) :
    MarkForRefinement_AnisotropicElements_firstPass round (exampleTriangle true) emptyRefiner
      sizeRatio = some emptyRefiner := by
  unfold MarkForRefinement_AnisotropicElements_firstPass
  have hf : (exampleTriangle true).faces = [0] := rfl
  rw [hf, List.foldlM_cons]
  simp [firstPassFace, exampleTriangle]

/-- C10 as the code has it (anisotropic selection rule). The quotient and the comparison
are those of the floating-point type `number`, with a rounding `round` to nearest. For
every face `f` all of whose `num_edges()` associated edges exist, with `minLen` the length
of the edge that `FindShortestEdge` returns (the smallest length if no length is a NaN):
`MarkIfAnisotropic` returns and marks exactly the edges `e` of `f` with `length(e) > 0` for
which the rounded quotient `minLen / length(e)` is `<= sizeRatio` (equality included), in
the order of the edges; it returns `true` if and only if an edge was marked, and marks `f`
with `RM_ANISOTROPIC` exactly then. The iteration of the first pass of
`MarkForRefinement_AnisotropicElements` for `f` marks the same edges, and marks `f` with
`RM_ANISOTROPIC` exactly if an edge was marked, provided `f` has no children; a face with
children is skipped and nothing is marked for it. For the edge lengths 1, 1, 2: with
`sizeRatio = 1/2` exactly the edge of length 2 is marked and the face is marked, with
`sizeRatio = 49/100` no edge and no face is marked. -/
theorem C10_anisotropic_selection_rule (round : ℚ → Number) (hround : IsRounding round)
    (grid : Grid) (f : Face) (refiner : IRefiner) (sizeRatio : Number)
    (hn : grid.num_edges f = (grid.associatedEdges f).length)
    (hedges : grid.associatedEdges f ≠ []) :
    (∃ (minEdge : EdgeBase) (newMarks : List (EdgeBase × RefinementMark)),
      FindShortestEdge grid.EdgeLength (grid.associatedEdges f) = some minEdge ∧
      minEdge ∈ grid.associatedEdges f ∧
      ((∀ e ∈ grid.associatedEdges f, grid.EdgeLength e ≠ Number.nan) →
        IsMinEdgeLength grid f (grid.EdgeLength minEdge)) ∧
      (∀ e ∈ grid.associatedEdges f,
        Number.lt (Number.finite 0) (grid.EdgeLength e) = true →
        ((e, RefinementMark.RM_REGULAR) ∈ newMarks ↔
          Number.le (Number.div round (grid.EdgeLength minEdge) (grid.EdgeLength e))
            sizeRatio = true)) ∧
      (∀ p ∈ newMarks, p.2 = RefinementMark.RM_REGULAR ∧ p.1 ∈ grid.associatedEdges f ∧
        Number.lt (Number.finite 0) (grid.EdgeLength p.1) = true) ∧
      (∃ (marked : Bool) (refiner1 : IRefiner),
        MarkIfAnisotropic round grid f refiner sizeRatio = some (marked, refiner1) ∧
        refiner1.edgeMarks = refiner.edgeMarks ++ newMarks ∧
        (marked = true ↔ newMarks ≠ []) ∧
        refiner1.faceMarks = refiner.faceMarks ++
          if marked then [(f, RefinementMark.RM_ANISOTROPIC)] else []) ∧
      (grid.has_children f = false →
        ∃ (refiner2 : IRefiner) (newFaceMarks : List (Face × RefinementMark)),
          firstPassFace round grid sizeRatio refiner f = some refiner2 ∧
          refiner2.edgeMarks = refiner.edgeMarks ++ newMarks ∧
          refiner2.faceMarks = refiner.faceMarks ++ newFaceMarks ∧
          (∀ p ∈ newFaceMarks, p = (f, RefinementMark.RM_ANISOTROPIC)) ∧
          (newFaceMarks ≠ [] ↔ newMarks ≠ [])) ∧
      (grid.has_children f = true →
        firstPassFace round grid sizeRatio refiner f = some refiner)) ∧
    MarkIfAnisotropic round (exampleTriangle false) 0 emptyRefiner (Number.finite (1 / 2)) =
      some (true, { edgeMarks := [(2, RefinementMark.RM_REGULAR)]
                    faceMarks := [(0, RefinementMark.RM_ANISOTROPIC)] }) ∧
    MarkForRefinement_AnisotropicElements_firstPass round (exampleTriangle false) emptyRefiner
      (Number.finite (1 / 2)) =
      some { edgeMarks := [(2, RefinementMark.RM_REGULAR)]
             faceMarks := [(0, RefinementMark.RM_ANISOTROPIC)] } ∧
    MarkIfAnisotropic round (exampleTriangle false) 0 emptyRefiner
      (Number.finite (49 / 100)) = some (false, emptyRefiner) ∧
    MarkForRefinement_AnisotropicElements_firstPass round (exampleTriangle false) emptyRefiner
      (Number.finite (49 / 100)) = some emptyRefiner := by
  refine ⟨?_, ?_, ?_, ?_, ?_⟩
  · obtain ⟨minEdge, hmin, hmem0, hml⟩ := FindShortestEdge_spec grid f hedges
    have hsel := selected_eq_true_iff round grid (grid.EdgeLength minEdge) sizeRatio
    have hmem : ∀ p : EdgeBase × RefinementMark,
        p ∈ ((grid.associatedEdges f).filter
          (selected round grid (grid.EdgeLength minEdge) sizeRatio)).map
          (fun e => (e, RefinementMark.RM_REGULAR)) ↔
        p.2 = RefinementMark.RM_REGULAR ∧ p.1 ∈ grid.associatedEdges f ∧
          selected round grid (grid.EdgeLength minEdge) sizeRatio p.1 = true := by
      rintro ⟨e, mk⟩
      simp only [List.mem_map, List.mem_filter, Prod.mk.injEq]
      constructor
      · rintro ⟨e1, ⟨h1, h2⟩, rfl, rfl⟩
        exact ⟨rfl, h1, h2⟩
      · rintro ⟨h1, h2, h3⟩
        exact ⟨e, ⟨h2, h3⟩, rfl, h1.symm⟩
    have hany : (grid.associatedEdges f).any
        (selected round grid (grid.EdgeLength minEdge) sizeRatio) = true ↔
        ((grid.associatedEdges f).filter
          (selected round grid (grid.EdgeLength minEdge) sizeRatio)).map
          (fun e => (e, RefinementMark.RM_REGULAR)) ≠ [] := by
      rw [List.any_eq_true, Ne, List.map_eq_nil_iff, List.filter_eq_nil_iff]
      push_neg
      rfl
    refine ⟨minEdge,
      ((grid.associatedEdges f).filter
        (selected round grid (grid.EdgeLength minEdge) sizeRatio)).map
        (fun e => (e, RefinementMark.RM_REGULAR)), hmin, hmem0, hml, ?_, ?_, ?_, ?_, ?_⟩
    · intro e he hpos
      rw [hmem]
      simp only [true_and, he, hsel, hpos]
    · intro p hp
      have := (hmem p).1 hp
      exact ⟨this.1, this.2.1, ((hsel p.1).1 this.2.2).1⟩
    · exact ⟨_, _, MarkIfAnisotropic_eq round grid f refiner sizeRatio minEdge hn hmin, rfl,
        hany, rfl⟩
    · intro hc
      refine ⟨_, _, firstPassFace_eq round grid f refiner sizeRatio minEdge hc hmin, rfl, rfl,
        ?_, ?_⟩
      · intro p hp
        simp only [List.mem_map] at hp
        obtain ⟨_, _, rfl⟩ := hp
        rfl
      · simp only [Ne, List.map_eq_nil_iff]
    · intro hc
      simp [firstPassFace, hc]
  · rw [MarkIfAnisotropic_eq round (exampleTriangle false) 0 emptyRefiner _ 0 rfl
      (FindShortestEdge_exampleTriangle false)]
    have : ((exampleTriangle false).associatedEdges 0).any
        (selected round (exampleTriangle false) ((exampleTriangle false).EdgeLength 0)
          (Number.finite (1 / 2))) = true := by
      rw [List.any_eq_true]
      refine ⟨2, by simp [exampleTriangle], ?_⟩
      have h2 : (2 : EdgeBase) ∈ ((exampleTriangle false).associatedEdges 0).filter
          (selected round (exampleTriangle false) ((exampleTriangle false).EdgeLength 0)
            (Number.finite (1 / 2))) := by
        rw [selected_exampleTriangle_half round hround]
        exact List.mem_singleton_self _
      exact (List.mem_filter.1 h2).2
    simp only [this, selected_exampleTriangle_half round hround]
    rfl
  · unfold MarkForRefinement_AnisotropicElements_firstPass
    have hf : (exampleTriangle false).faces = [0] := rfl
    rw [hf, List.foldlM_cons, firstPassFace_eq round (exampleTriangle false) 0 emptyRefiner _ 0
      rfl (FindShortestEdge_exampleTriangle false), selected_exampleTriangle_half round hround]
    rfl
  · rw [MarkIfAnisotropic_eq round (exampleTriangle false) 0 emptyRefiner _ 0 rfl
      (FindShortestEdge_exampleTriangle false)]
    have : ((exampleTriangle false).associatedEdges 0).any
        (selected round (exampleTriangle false) ((exampleTriangle false).EdgeLength 0)
          (Number.finite (49 / 100))) = false := by
      rw [← Bool.not_eq_true, List.any_eq_true]
      rintro ⟨e, he, hs⟩
      have : e ∈ ((exampleTriangle false).associatedEdges 0).filter
          (selected round (exampleTriangle false) ((exampleTriangle false).EdgeLength 0)
            (Number.finite (49 / 100))) := List.mem_filter.2 ⟨he, hs⟩
      rw [selected_exampleTriangle_049 round hround] at this
      exact absurd this (List.not_mem_nil _)
    simp only [this, selected_exampleTriangle_049 round hround]
    rfl
  · unfold MarkForRefinement_AnisotropicElements_firstPass
    have hf : (exampleTriangle false).faces = [0] := rfl
    rw [hf, List.foldlM_cons, firstPassFace_eq round (exampleTriangle false) 0 emptyRefiner _
      0 rfl (FindShortestEdge_exampleTriangle false),
      selected_exampleTriangle_049 round hround]
    rfl

/-- Witness of the amended C10 on the triangle with the edge lengths 1, 1, 2 and
`sizeRatio = 1/2`, for the rounding of the format binary64. -/
theorem C10_anisotropic_selection_rule_witness :
    IsRounding roundBinary64 ∧
    (exampleTriangle false).num_edges 0 = ((exampleTriangle false).associatedEdges 0).length ∧
    (exampleTriangle false).associatedEdges 0 ≠ [] ∧
    ∃ (minEdge : EdgeBase) (newMarks : List (EdgeBase × RefinementMark)),
      FindShortestEdge (exampleTriangle false).EdgeLength
        ((exampleTriangle false).associatedEdges 0) = some minEdge ∧
      minEdge ∈ (exampleTriangle false).associatedEdges 0 ∧
      ((∀ e ∈ (exampleTriangle false).associatedEdges 0,
          (exampleTriangle false).EdgeLength e ≠ Number.nan) →
        IsMinEdgeLength (exampleTriangle false) 0
          ((exampleTriangle false).EdgeLength minEdge)) ∧
      (∀ e ∈ (exampleTriangle false).associatedEdges 0,
        Number.lt (Number.finite 0) ((exampleTriangle false).EdgeLength e) = true →
        ((e, RefinementMark.RM_REGULAR) ∈ newMarks ↔
          Number.le (Number.div roundBinary64 ((exampleTriangle false).EdgeLength minEdge)
            ((exampleTriangle false).EdgeLength e)) (Number.finite (1 / 2)) = true)) ∧
      (∀ p ∈ newMarks, p.2 = RefinementMark.RM_REGULAR ∧
        p.1 ∈ (exampleTriangle false).associatedEdges 0 ∧
        Number.lt (Number.finite 0) ((exampleTriangle false).EdgeLength p.1) = true) ∧
      (∃ (marked : Bool) (refiner1 : IRefiner),
        MarkIfAnisotropic roundBinary64 (exampleTriangle false) 0 emptyRefiner
          (Number.finite (1 / 2)) = some (marked, refiner1) ∧
        refiner1.edgeMarks = emptyRefiner.edgeMarks ++ newMarks ∧
        (marked = true ↔ newMarks ≠ []) ∧
        refiner1.faceMarks = emptyRefiner.faceMarks ++
          if marked then [(0, RefinementMark.RM_ANISOTROPIC)] else []) ∧
      ((exampleTriangle false).has_children 0 = false →
        ∃ (refiner2 : IRefiner) (newFaceMarks : List (Face × RefinementMark)),
          firstPassFace roundBinary64 (exampleTriangle false) (Number.finite (1 / 2))
            emptyRefiner 0 = some refiner2 ∧
          refiner2.edgeMarks = emptyRefiner.edgeMarks ++ newMarks ∧
          refiner2.faceMarks = emptyRefiner.faceMarks ++ newFaceMarks ∧
          (∀ p ∈ newFaceMarks, p = (0, RefinementMark.RM_ANISOTROPIC)) ∧
          (newFaceMarks ≠ [] ↔ newMarks ≠ [])) ∧
      ((exampleTriangle false).has_children 0 = true →
        firstPassFace roundBinary64 (exampleTriangle false) (Number.finite (1 / 2))
          emptyRefiner 0 = some emptyRefiner) :=
  ⟨isRounding_roundBinary64, rfl, by decide,
    (C10_anisotropic_selection_rule roundBinary64 isRounding_roundBinary64
      (exampleTriangle false) 0 emptyRefiner (Number.finite (1 / 2)) rfl (by decide)).1⟩

/-- Counterexample to C10 as stated, in two parts. First the triangle with the edge lengths
1, 1, 2 that has children: edge 2 has positive length and
`minEdgeLength / length = 1/2 <= sizeRatio = 1/2`, but the first pass of
`MarkForRefinement_AnisotropicElements` skips the face: it marks neither the edge nor the
face. Then the triangle with the edge lengths 1, 3, 3 in the format binary64, with
`sizeRatio` the number of the format nearest to 1/3, which is less than 1/3: the quotient
`minEdgeLength / length = 1/3` exceeds `sizeRatio`, but the quotient that the code computes
is rounded to `sizeRatio`, and `MarkIfAnisotropic` marks the edges 1 and 2 and the face. -/
theorem C10_counterexample :
    ((exampleTriangle true).num_edges 0 = ((exampleTriangle true).associatedEdges 0).length ∧
      (2 : EdgeBase) ∈ (exampleTriangle true).associatedEdges 0 ∧
      IsMinEdgeLength (exampleTriangle true) 0 (Number.finite 1) ∧
      Number.lt (Number.finite 0) ((exampleTriangle true).EdgeLength 2) = true ∧
      Number.le (Number.div roundBinary64 (Number.finite 1)
        ((exampleTriangle true).EdgeLength 2)) (Number.finite (1 / 2)) = true ∧
      MarkForRefinement_AnisotropicElements_firstPass roundBinary64 (exampleTriangle true)
        emptyRefiner (Number.finite (1 / 2)) = some emptyRefiner ∧
      emptyRefiner.edgeMarks = [] ∧ emptyRefiner.faceMarks = []) ∧
    (thirdTriangle.num_edges 0 = (thirdTriangle.associatedEdges 0).length ∧
      (1 : EdgeBase) ∈ thirdTriangle.associatedEdges 0 ∧
      IsMinEdgeLength thirdTriangle 0 (Number.finite 1) ∧
      thirdTriangle.EdgeLength 1 = Number.finite 3 ∧
      ¬ ((1 : ℚ) / 3 ≤ 6004799503160661 / 18014398509481984) ∧
      roundBinary64 (6004799503160661 / 18014398509481984) =
        Number.finite (6004799503160661 / 18014398509481984) ∧
      MarkIfAnisotropic roundBinary64 thirdTriangle 0 emptyRefiner
        (Number.finite (6004799503160661 / 18014398509481984)) =
        some (true, { edgeMarks := [(1, RefinementMark.RM_REGULAR),
                                    (2, RefinementMark.RM_REGULAR)]
                      faceMarks := [(0, RefinementMark.RM_ANISOTROPIC)] })) := by
  refine ⟨⟨rfl, by decide, isMinEdgeLength_exampleTriangle true, ?_, ?_,
    firstPass_exampleTriangle_children _ _, rfl, rfl⟩,
    ⟨rfl, by decide, isMinEdgeLength_thirdTriangle, rfl, by norm_num, ?_, ?_⟩⟩
  · simp [exampleTriangle, Number.lt]
  · have hl : (exampleTriangle true).EdgeLength 2 = Number.finite 2 := rfl
    rw [hl, div_one_two roundBinary64 isRounding_roundBinary64]
    simp [Number.le]
  · have := roundBinary64_exact 6004799503160661 54 (by norm_num) (by norm_num)
    norm_num at this
    exact this
  · rw [MarkIfAnisotropic_eq roundBinary64 thirdTriangle 0 emptyRefiner _ 0 rfl
      FindShortestEdge_thirdTriangle]
    have : (thirdTriangle.associatedEdges 0).any
        (selected roundBinary64 thirdTriangle (thirdTriangle.EdgeLength 0)
          (Number.finite (6004799503160661 / 18014398509481984))) = true := by
      rw [List.any_eq_true]
      have h1 : (1 : EdgeBase) ∈ (thirdTriangle.associatedEdges 0).filter
          (selected roundBinary64 thirdTriangle (thirdTriangle.EdgeLength 0)
            (Number.finite (6004799503160661 / 18014398509481984))) := by
        rw [selected_thirdTriangle]
        exact List.mem_cons_self _ _
      exact ⟨1, (List.mem_filter.1 h1).1, (List.mem_filter.1 h1).2⟩
    simp only [this, selected_thirdTriangle]
    rfl

/-! ## Claim C11 -/

theorem IsRounding.round_zero (round : ℚ → Number) (h : IsRounding round) :
    round 0 = Number.finite 0 := by
  have := h.exact 0 0 (by decide) (by decide)
  simpa using this

/-- A rounded quotient of at most 1 is at most a `sizeRatio >= 1`. -/
theorem div_le_sizeRatio (round : ℚ → Number) (hround : IsRounding round) (x y : number)
    (sizeRatio : Number) (hs : Number.le (Number.finite 1) sizeRatio = true) (hy : 0 < y)
    (hxy : x ≤ y) :
    Number.le (Number.div round (Number.finite x) (Number.finite y)) sizeRatio = true := by
  rw [Number.div_finite round x y hy]
  have h1 : x / y ≤ 1 := (div_le_one hy).2 hxy
  have h2 := hround.mono _ _ h1
  rw [hround.round_one] at h2
  exact Number.le_of_le_of_le _ _ _ h2 hs

/-- With `sizeRatio >= 1`, finite lengths and `minLen` the smallest of them, the edges
selected are those of positive length. -/
theorem filter_selected_of_one_le (round : ℚ → Number) (hround : IsRounding round)
    (grid : Grid) (minLen sizeRatio : Number) (edges : List EdgeBase)
    (hs : Number.le (Number.finite 1) sizeRatio = true)
    (hfin : ∀ e ∈ edges, ∃ x, grid.EdgeLength e = Number.finite x)
    (hminfin : ∃ x, minLen = Number.finite x)
    (hle : ∀ e ∈ edges, Number.le minLen (grid.EdgeLength e) = true) :
    edges.filter (selected round grid minLen sizeRatio) =
      edges.filter (fun e => Number.lt (Number.finite 0) (grid.EdgeLength e)) := by
  apply List.filter_congr
  intro e he
  obtain ⟨y, hy⟩ := hfin e he
  obtain ⟨x, hx⟩ := hminfin
  have hxy := hle e he
  rw [hx, hy] at hxy
  unfold selected
  rw [hx, hy]
  by_cases hpos : 0 < y
  · have h1 : x ≤ y := by simpa [Number.le] using hxy
    rw [div_le_sizeRatio round hround x y sizeRatio hs hpos h1]
    simp
  · simp [Number.lt, hpos]

theorem FindShortestEdge_degenerateTriangle :
    FindShortestEdge degenerateTriangle.EdgeLength (degenerateTriangle.associatedEdges 0) =
      some 0 := by
  simp [FindShortestEdge, degenerateTriangle, Number.lt]
  norm_num

theorem FindShortestEdge_infiniteTriangle :
    FindShortestEdge infiniteTriangle.EdgeLength (infiniteTriangle.associatedEdges 0) =
      some 0 := by
  simp [FindShortestEdge, infiniteTriangle, Number.lt]

theorem exampleTriangle_finite :
    ∀ e ∈ (exampleTriangle false).associatedEdges 0,
      ∃ x, (exampleTriangle false).EdgeLength e = Number.finite x := by
  intro e _
  by_cases h : e = 2
  · exact ⟨2, by simp [exampleTriangle, h]⟩
  · exact ⟨1, by simp [exampleTriangle, h]⟩

/-- C11 as the code has it (`sizeRatio >= 1`, finite lengths). The quotient and the
comparison are those of the floating-point type `number`, with a rounding `round` to
nearest. For every face `f` all of whose `num_edges()` associated edges exist and have a
finite length, and every `sizeRatio >= 1`, `MarkIfAnisotropic` returns and marks, in the
order of the edges, exactly the associated edges of `f` of positive length, each with
`RM_REGULAR`; an edge of length 0 is not marked, even if it is the shortest edge. The
function returns `true` and marks `f` with `RM_ANISOTROPIC` if and only if `f` has an edge
of positive length. -/
theorem C11_all_edges_of_positive_length_marked (round : ℚ → Number)
    (hround : IsRounding round) (grid : Grid) (f : Face) (refiner : IRefiner)
    (sizeRatio : Number) (hs : Number.le (Number.finite 1) sizeRatio = true)
    (hn : grid.num_edges f = (grid.associatedEdges f).length)
    (hedges : grid.associatedEdges f ≠ [])
    (hfin : ∀ e ∈ grid.associatedEdges f, ∃ x, grid.EdgeLength e = Number.finite x) :
    ∃ (marked : Bool) (refiner1 : IRefiner) (newMarks : List (EdgeBase × RefinementMark)),
      MarkIfAnisotropic round grid f refiner sizeRatio = some (marked, refiner1) ∧
      refiner1.edgeMarks = refiner.edgeMarks ++ newMarks ∧
      newMarks = ((grid.associatedEdges f).filter
        (fun e => Number.lt (Number.finite 0) (grid.EdgeLength e))).map
        (fun e => (e, RefinementMark.RM_REGULAR)) ∧
      (∀ e ∈ grid.associatedEdges f,
        Number.lt (Number.finite 0) (grid.EdgeLength e) = true →
        (e, RefinementMark.RM_REGULAR) ∈ newMarks) ∧
      (∀ e, Number.lt (Number.finite 0) (grid.EdgeLength e) = false →
        ∀ m, (e, m) ∉ newMarks) ∧
      (marked = true ↔ ∃ e ∈ grid.associatedEdges f,
        Number.lt (Number.finite 0) (grid.EdgeLength e) = true) ∧
      refiner1.faceMarks = refiner.faceMarks ++
        if marked then [(f, RefinementMark.RM_ANISOTROPIC)] else [] := by
  obtain ⟨minEdge, hmin, hmem, hml⟩ := FindShortestEdge_spec grid f hedges
  have hnan : ∀ e ∈ grid.associatedEdges f, grid.EdgeLength e ≠ Number.nan := by
    intro e he
    obtain ⟨x, hx⟩ := hfin e he
    rw [hx]
    simp
  have hf := filter_selected_of_one_le round hround grid (grid.EdgeLength minEdge) sizeRatio
    (grid.associatedEdges f) hs hfin (hfin minEdge hmem) (hml hnan).2
  refine ⟨_, _, _, MarkIfAnisotropic_eq round grid f refiner sizeRatio minEdge hn hmin, rfl,
    by rw [hf], ?_, ?_, ?_, rfl⟩
  · intro e he hpos
    rw [hf]
    simp only [List.mem_map, List.mem_filter]
    exact ⟨e, ⟨he, hpos⟩, rfl⟩
  · intro e hz m hm
    rw [hf] at hm
    simp only [List.mem_map, List.mem_filter, Prod.mk.injEq] at hm
    obtain ⟨e1, ⟨-, hpos⟩, rfl, -⟩ := hm
    rw [hz] at hpos
    exact absurd hpos (by simp)
  · rw [List.any_eq_true]
    constructor
    · rintro ⟨e, he, hsel⟩
      exact ⟨e, he, ((selected_eq_true_iff _ _ _ _ _).1 hsel).1⟩
    · rintro ⟨e, he, hpos⟩
      refine ⟨e, he, ?_⟩
      have : e ∈ (grid.associatedEdges f).filter
          (selected round grid (grid.EdgeLength minEdge) sizeRatio) := by
        rw [hf]
        exact List.mem_filter.2 ⟨he, hpos⟩
      exact (List.mem_filter.1 this).2

/-- Witness of the amended C11 on the triangle with the edge lengths 1, 1, 2 and
`sizeRatio = 1`, for the rounding of the format binary64. -/
theorem C11_all_edges_of_positive_length_marked_witness :
    IsRounding roundBinary64 ∧
    Number.le (Number.finite 1) (Number.finite 1) = true ∧
    (exampleTriangle false).num_edges 0 = ((exampleTriangle false).associatedEdges 0).length ∧
    (exampleTriangle false).associatedEdges 0 ≠ [] ∧
    (∀ e ∈ (exampleTriangle false).associatedEdges 0,
      ∃ x, (exampleTriangle false).EdgeLength e = Number.finite x) ∧
    ∃ (marked : Bool) (refiner1 : IRefiner) (newMarks : List (EdgeBase × RefinementMark)),
      MarkIfAnisotropic roundBinary64 (exampleTriangle false) 0 emptyRefiner
        (Number.finite 1) = some (marked, refiner1) ∧
      refiner1.edgeMarks = emptyRefiner.edgeMarks ++ newMarks ∧
      newMarks = (((exampleTriangle false).associatedEdges 0).filter
        (fun e => Number.lt (Number.finite 0) ((exampleTriangle false).EdgeLength e))).map
        (fun e => (e, RefinementMark.RM_REGULAR)) ∧
      (∀ e ∈ (exampleTriangle false).associatedEdges 0,
        Number.lt (Number.finite 0) ((exampleTriangle false).EdgeLength e) = true →
        (e, RefinementMark.RM_REGULAR) ∈ newMarks) ∧
      (∀ e, Number.lt (Number.finite 0) ((exampleTriangle false).EdgeLength e) = false →
        ∀ m, (e, m) ∉ newMarks) ∧
      (marked = true ↔ ∃ e ∈ (exampleTriangle false).associatedEdges 0,
        Number.lt (Number.finite 0) ((exampleTriangle false).EdgeLength e) = true) ∧
      refiner1.faceMarks = emptyRefiner.faceMarks ++
        if marked then [(0, RefinementMark.RM_ANISOTROPIC)] else [] :=
  ⟨isRounding_roundBinary64, Number.le_self _ (by simp), rfl, by decide,
    exampleTriangle_finite,
    C11_all_edges_of_positive_length_marked roundBinary64 isRounding_roundBinary64
      (exampleTriangle false) 0 emptyRefiner (Number.finite 1) (Number.le_self _ (by simp))
      rfl (by decide) exampleTriangle_finite⟩

/-- Counterexample to C11 as stated, in two parts, for the rounding of the format binary64
and `sizeRatio = 1`. First the degenerate triangle with the edge lengths 0, 1, 1: edge 0
is an associated edge of the face, and the shortest one, but `MarkIfAnisotropic` marks the
edges 1 and 2 only: edge 0 has no mark afterwards. Then the triangle whose three edges
have an infinite length: every quotient is a NaN, and `MarkIfAnisotropic` marks no edge
and returns false. -/
theorem C11_counterexample :
    (degenerateTriangle.num_edges 0 = (degenerateTriangle.associatedEdges 0).length ∧
      (0 : EdgeBase) ∈ degenerateTriangle.associatedEdges 0 ∧
      FindShortestEdge degenerateTriangle.EdgeLength (degenerateTriangle.associatedEdges 0) =
        some 0 ∧
      MarkIfAnisotropic roundBinary64 degenerateTriangle 0 emptyRefiner (Number.finite 1) =
        some (true, { edgeMarks := [(1, RefinementMark.RM_REGULAR),
                                    (2, RefinementMark.RM_REGULAR)]
                      faceMarks := [(0, RefinementMark.RM_ANISOTROPIC)] }) ∧
      ∀ m, ((0 : EdgeBase), m) ∉
        [((1 : EdgeBase), RefinementMark.RM_REGULAR), (2, RefinementMark.RM_REGULAR)]) ∧
    (infiniteTriangle.num_edges 0 = (infiniteTriangle.associatedEdges 0).length ∧
      infiniteTriangle.associatedEdges 0 = [0, 1, 2] ∧
      (∀ e, Number.lt (Number.finite 0) (infiniteTriangle.EdgeLength e) = true) ∧
      MarkIfAnisotropic roundBinary64 infiniteTriangle 0 emptyRefiner (Number.finite 1) =
        some (false, emptyRefiner)) := by
  refine ⟨⟨rfl, by decide, FindShortestEdge_degenerateTriangle, ?_, by intro m; simp⟩,
    ⟨rfl, rfl, fun _ => rfl, ?_⟩⟩
  · rw [MarkIfAnisotropic_eq roundBinary64 degenerateTriangle 0 emptyRefiner _ 0 rfl
      FindShortestEdge_degenerateTriangle]
    have hq : roundBinary64 (0 / 1) = Number.finite 0 := by
      rw [zero_div]
      exact isRounding_roundBinary64.round_zero
    have h0 : selected roundBinary64 degenerateTriangle (Number.finite 0) (Number.finite 1)
        0 = false := selected_of_length_zero _ _ _ _ _ rfl
    have h1 : selected roundBinary64 degenerateTriangle (Number.finite 0) (Number.finite 1)
        1 = true := by
      rw [selected_finite roundBinary64 _ 0 1 1 0 1 rfl (by norm_num) hq]
      exact decide_eq_true (by norm_num)
    have h2 : selected roundBinary64 degenerateTriangle (Number.finite 0) (Number.finite 1)
        2 = true := by
      rw [selected_finite roundBinary64 _ 0 1 1 0 2 rfl (by norm_num) hq]
      exact decide_eq_true (by norm_num)
    have he : degenerateTriangle.associatedEdges 0 = [0, 1, 2] := rfl
    have hl : degenerateTriangle.EdgeLength 0 = Number.finite 0 := rfl
    have hf : [0, 1, 2].filter
        (selected roundBinary64 degenerateTriangle (Number.finite 0) (Number.finite 1)) =
        [1, 2] := by
      rw [filter_three, h0, h1, h2]
      rfl
    have ha : [0, 1, 2].any
        (selected roundBinary64 degenerateTriangle (Number.finite 0) (Number.finite 1)) =
        true := by
      rw [List.any_eq_true]
      exact ⟨1, by simp, h1⟩
    rw [he, hl]
    simp only [ha, hf]
    rfl
  · rw [MarkIfAnisotropic_eq roundBinary64 infiniteTriangle 0 emptyRefiner _ 0 rfl
      FindShortestEdge_infiniteTriangle]
    have hsel : ∀ e, selected roundBinary64 infiniteTriangle (infiniteTriangle.EdgeLength 0)
        (Number.finite 1) e = false := by
      intro e
      simp [selected, infiniteTriangle, Number.div, Number.le]
    have he : infiniteTriangle.associatedEdges 0 = [0, 1, 2] := rfl
    have hf : [0, 1, 2].filter (selected roundBinary64 infiniteTriangle
        (infiniteTriangle.EdgeLength 0) (Number.finite 1)) = [] := by
      rw [filter_three, hsel 0, hsel 1, hsel 2]
      rfl
    have ha : [0, 1, 2].any (selected roundBinary64 infiniteTriangle
        (infiniteTriangle.EdgeLength 0) (Number.finite 1)) = false := by
      simp [hsel]
    rw [he]
    simp only [ha, hf]
    rfl

/-! ## Claim C13 -/

/-- C13 (adaptive refiner on a non-adaptive domain). For every build, domain and history of
actions: each of `HangingNodeDomainRefiner`, `CreateAdaptiveRegularDomainRefiner` and
`CreateGlobalFracturedDomainRefiner` throws if and only if `dom->is_adaptive()` is false;
when it throws, it has performed no action (no refiner constructed on the grid or on the
distributed grid manager, no subset handler set); when it does not throw it ends by
constructing the refiner it returns (and, for the fractured one, setting the subset
handler). `GlobalDomainRefiner` never throws, whatever `is_adaptive()` is. -/
theorem C13_adaptive_refiner_needs_adaptive_domain (build : Build) (dom : Domain)
    (actions : List FactoryAction) :
    ((HangingNodeDomainRefiner build dom actions).failed = true ↔ dom.is_adaptive = false) ∧
    ((CreateAdaptiveRegularDomainRefiner build dom actions).failed = true ↔
      dom.is_adaptive = false) ∧
    ((CreateGlobalFracturedDomainRefiner build dom actions).failed = true ↔
      dom.is_adaptive = false) ∧
    (dom.is_adaptive = false →
      (HangingNodeDomainRefiner build dom actions).actions = actions ∧
      (CreateAdaptiveRegularDomainRefiner build dom actions).actions = actions ∧
      (CreateGlobalFracturedDomainRefiner build dom actions).actions = actions) ∧
    (dom.is_adaptive = true →
      (∃ cls target, (HangingNodeDomainRefiner build dom actions).result = Except.ok cls ∧
        (HangingNodeDomainRefiner build dom actions).actions =
          actions ++ [FactoryAction.construct cls target]) ∧
      (∃ cls target,
        (CreateAdaptiveRegularDomainRefiner build dom actions).result = Except.ok cls ∧
        (CreateAdaptiveRegularDomainRefiner build dom actions).actions =
          actions ++ [FactoryAction.construct cls target]) ∧
      (∃ cls target,
        (CreateGlobalFracturedDomainRefiner build dom actions).result = Except.ok cls ∧
        (CreateGlobalFracturedDomainRefiner build dom actions).actions =
          actions ++ [FactoryAction.construct cls target,
            FactoryAction.set_subset_handler])) ∧
    (GlobalDomainRefiner build dom actions).failed = false ∧
    (∃ cls target, (GlobalDomainRefiner build dom actions).result = Except.ok cls ∧
      (GlobalDomainRefiner build dom actions).actions =
        actions ++ [FactoryAction.construct cls target]) := by
  cases ha : dom.is_adaptive <;>
    cases hp : (build.UG_PARALLEL && decide (build.GetNumProcesses > 1)) <;>
    simp [HangingNodeDomainRefiner, CreateAdaptiveRegularDomainRefiner,
      CreateGlobalFracturedDomainRefiner, GlobalDomainRefiner, FactoryResult.failed, ha, hp]

/-! ## Claim C12 -/

/-- C12 (refiner/grid mismatch), the behaviour of the code. The five functions
`MarkForRefinement_VerticesInSphere`, `_ElementsInSphere`, `_VerticesInCube`,
`_AnisotropicElements` and `_AnisotropicElements2` throw before anything else if the refiner
is not associated with the grid of the domain, leaving marks and grid options as they were,
and go on to their bodies otherwise. The two functions `MarkForRefinement_ElementsByLuaCallback`
and `MarkForCoarsen_ElementsByLuaCallback` have no such check: they never throw, and with
a refiner created for the grid at address 2, the domain with the grid at address 1 and one
element, and a callback returning 1, they issue the mark of that element on the refiner. -/
theorem C12_lua_callback_marks_despite_grid_mismatch :
    (∀ (dom : Domain) (refiner : RefinerHandle) (body : MarkBody) (st : BridgeState),
      (gridMismatch dom refiner = true →
        (∃ err, MarkForRefinement_VerticesInSphere dom refiner body st = (st, some err)) ∧
        (∃ err, MarkForRefinement_ElementsInSphere dom refiner body st = (st, some err)) ∧
        (∃ err, MarkForRefinement_VerticesInCube dom refiner body st = (st, some err)) ∧
        (∃ err, MarkForRefinement_AnisotropicElements dom refiner body st = (st, some err)) ∧
        (∃ err, MarkForRefinement_AnisotropicElements2 dom refiner body st =
          (st, some err))) ∧
      (gridMismatch dom refiner = false →
        MarkForRefinement_VerticesInSphere dom refiner body st = body st ∧
        MarkForRefinement_ElementsInSphere dom refiner body st = body st ∧
        MarkForRefinement_VerticesInCube dom refiner body st = body st ∧
        MarkForRefinement_AnisotropicElements dom refiner body st = body st ∧
        MarkForRefinement_AnisotropicElements2 dom refiner body st = body st)) ∧
    (∀ (dom : Domain) (refiner : RefinerHandle) (time : number) (maxLvl : Nat)
      (callback : LuaCallback) (st : BridgeState),
      (MarkForRefinement_ElementsByLuaCallback dom refiner time maxLvl callback st).2 = none ∧
      (MarkForCoarsen_ElementsByLuaCallback dom refiner time callback st).2 = none) ∧
    gridMismatch exampleLuaDomain exampleForeignRefiner = true ∧
    MarkForRefinement_ElementsByLuaCallback exampleLuaDomain exampleForeignRefiner 0 1
      exampleCallback emptyBridgeState =
      ({ marks := [(0, RefinementMark.RM_REGULAR)], enabledOptions := [] }, none) ∧
    MarkForCoarsen_ElementsByLuaCallback exampleLuaDomain exampleForeignRefiner 0
      exampleCallback emptyBridgeState =
      ({ marks := [(0, RefinementMark.RM_COARSEN)], enabledOptions := [] }, none) := by
  refine ⟨?_, ?_, by decide, ?_, ?_⟩
  · intro dom refiner body st
    constructor
    · intro h
      simp [MarkForRefinement_VerticesInSphere, MarkForRefinement_ElementsInSphere,
        MarkForRefinement_VerticesInCube, MarkForRefinement_AnisotropicElements,
        MarkForRefinement_AnisotropicElements2, h]
    · intro h
      simp [MarkForRefinement_VerticesInSphere, MarkForRefinement_ElementsInSphere,
        MarkForRefinement_VerticesInCube, MarkForRefinement_AnisotropicElements,
        MarkForRefinement_AnisotropicElements2, h]
  · intro dom refiner time maxLvl callback st
    constructor
    · rfl
    · unfold MarkForCoarsen_ElementsByLuaCallback
      split <;> rfl
  · simp [MarkForRefinement_ElementsByLuaCallback, exampleLuaDomain, markByLuaCallback,
      exampleCallback, emptyBridgeState, BridgeState.mark]
  · simp [MarkForCoarsen_ElementsByLuaCallback, exampleLuaDomain, coarsenByLuaCallback,
      exampleCallback, emptyBridgeState, BridgeState.mark, exampleForeignRefiner]

/-! ## Claim C20 -/

/-- The node vectors after a sequence of iterations: every iteration appends its node to
the layout it was called for. -/
theorem runCalls_nodeVecOf (T : InterfaceNodeTypes) (mgr : Option (Node → Bool))
    (calls : List Call) (st0 st1 : LayoutState)
    (hrun : runCalls T mgr st0 calls = some st1) (j : Nat) :
    nodeVecOf st1.layouts j = nodeVecOf st0.layouts j ++
      (calls.filter (fun c => decide (c.layoutIndex = j))).map (fun c => c.node) := by
  refine runCalls_induction T mgr
    (fun done st => ∀ j, nodeVecOf st.layouts j = nodeVecOf st0.layouts j ++
      (done.filter (fun c => decide (c.layoutIndex = j))).map (fun c => c.node))
    calls st0 st1 (by intro j; simp) ?_ hrun j
  intro done c st st2 _ hinv hres j
  obtain ⟨-, -, hnv, -⟩ := AddNodeToLayout_effect T _ _ _ mgr st st2 c.node hres
  rw [hnv j, hinv j]
  by_cases hj : j = c.layoutIndex
  · subst hj
    simp [List.filter_append]
  · simp [List.filter_append, hj, Ne.symm hj]

/-- The iterations that a sequence of calls, one per layout index, hands to layout `j`. -/
theorem filter_flatMap_layoutIndex (F : Nat → List Call)
    (hF : ∀ i, ∀ c ∈ F i, c.layoutIndex = i) (is : List Nat) (his : is.Nodup) (j : Nat) :
    (is.flatMap F).filter (fun c => decide (c.layoutIndex = j)) =
      if j ∈ is then F j else [] := by
  induction is with
  | nil => simp
  | cons i is ih =>
    have hi : i ∉ is := (List.nodup_cons.1 his).1
    have ih2 := ih (List.nodup_cons.1 his).2
    simp only [List.flatMap_cons, List.filter_append, ih2, List.mem_cons]
    by_cases hj : j = i
    · subst hj
      have : (F j).filter (fun c => decide (c.layoutIndex = j)) = F j :=
        List.filter_eq_self.2 fun c hc => by simp [hF j c hc]
      simp [hi, this]
    · have : (F i).filter (fun c => decide (c.layoutIndex = j)) = [] :=
        List.filter_eq_nil_iff.2 fun c hc => by simp [hF i c hc, Ne.symm hj]
      simp [hj, this]

theorem elems_deselectSubset (msel : MGSelector) (sh : SubsetHandler) (i : Nat)
    (kind : Kind) (level : Nat) :
    (deselectSubset msel sh i).elems kind level =
      (msel.elems kind level).filter (fun n => decide (n ∉ sh.elems kind i)) := by
  cases kind <;> simp [deselectSubset, MGSelector.deselect]

/-- The nodes that step 2 hands to layout `j`. -/
theorem filter_step2Calls (mg : MultiGrid) (sh : SubsetHandler) (g : Bool)
    (selection : Nat → MGSelector) (kind : Kind) (j : Nat) (hj : j < sh.num_subsets) :
    ((step2Calls mg sh g selection kind).filter
      (fun c => decide (c.layoutIndex = j))).map (fun c => c.node) =
      ((List.range (selection j).num_levels).flatMap ((selection j).elems kind)).filter
        (fun n => decide (n ∉ sh.elems kind j)) := by
  unfold step2Calls
  rw [filter_flatMap_layoutIndex _ _ _ (List.nodup_range _) j]
  · simp only [List.mem_range, hj, if_true, num_levels_deselectSubset]
    rw [List.map_flatMap]
    simp only [List.map_map, Function.comp_def, List.map_id', elems_deselectSubset]
    generalize List.range (selection j).num_levels = levels
    induction levels with
    | nil => rfl
    | cons a l ih => simp only [List.flatMap_cons, List.filter_append, ih]
  · intro i c hc
    simp only [List.mem_flatMap, List.mem_map] at hc
    obtain ⟨_, _, _, _, rfl⟩ := hc
    rfl

/-- C20 (no element is added twice to a layout). Given that the subset handler yields every
element at most once over all subsets (each element lies in at most one subset and the
subset iterators repeat nothing) and that the selector of every subset yields every element
at most once, `CreateDistributionLayouts` returns and, for every element kind and every
layout index `i`, the node vector of `layouts[i]` contains no element more than once: it
is the list of the elements of subset `i` followed by the selected elements of the levels
that are not in subset `i`. -/
theorem C20_no_element_twice_in_a_layout (T : InterfaceNodeTypes) (mg : MultiGrid)
    (sh : SubsetHandler) (hsh : sh.WellFormed) (distributeGenealogy : Bool)
    (selection : Nat → MGSelector)
    (hsel : ∀ i, i < sh.num_subsets → (selection i).WellFormed)
    (pDistGridMgr : Option (Kind → Node → Bool)) :
    ∃ R, CreateDistributionLayouts T mg sh distributeGenealogy selection pDistGridMgr =
        some R ∧
      ∀ kind : Kind,
        (∀ (i : Nat) (l : DistributionNodeLayout), (R kind)[i]? = some l → l.node_vec.Nodup) ∧
        ∀ i, i < sh.num_subsets →
          nodeVecOf (R kind) i = sh.elems kind i ++
            ((List.range (selection i).num_levels).flatMap ((selection i).elems kind)).filter
              (fun n => decide (n ∉ sh.elems kind i)) := by
  obtain ⟨R, hR, hk⟩ :=
    CreateDistributionLayouts_returns T mg sh distributeGenealogy selection pDistGridMgr hsh
  refine ⟨R, hR, ?_⟩
  intro kind
  obtain ⟨st1, st2, -, hp1, hr2, hl⟩ := hk kind
  have hlen : st2.layouts.length = sh.num_subsets :=
    (runCalls_step2_PrefixInv T _ mg sh distributeGenealogy selection kind
      st1 st2 (PrefixInv_of_Step1Post sh kind st1 hp1) hr2).1
  have hnv : ∀ i, i < sh.num_subsets →
      nodeVecOf (R kind) i = sh.elems kind i ++
        ((List.range (selection i).num_levels).flatMap ((selection i).elems kind)).filter
          (fun n => decide (n ∉ sh.elems kind i)) := by
    intro i hi
    rw [← hl, runCalls_nodeVecOf T _ _ st1 st2 hr2 i, hp1.2.1 i hi,
      filter_step2Calls mg sh distributeGenealogy selection kind i hi]
  refine ⟨?_, hnv⟩
  intro i l hil
  have hi : i < sh.num_subsets := by
    rw [← hlen, hl]
    exact (List.getElem?_eq_some_iff.1 hil).1
  have hnl : nodeVecOf (R kind) i = l.node_vec := by
    unfold nodeVecOf
    rw [hil]
  rw [← hnl, hnv i hi]
  refine List.Nodup.append (hsh.nodup sh kind i hi) ((hsel i hi kind).filter _) ?_
  intro x hx1 hx2
  have := (List.mem_filter.1 hx2).2
  simp only [decide_eq_true_eq] at this
  exact this hx1

theorem exampleSelection_wellFormed (i : Nat) : (exampleSelection i).WellFormed := by
  have h : exampleSelection i = exampleSelection 0 := rfl
  rw [h]
  intro kind
  cases kind <;> decide

/-- Witness of C20 on the example input. -/
theorem C20_no_element_twice_in_a_layout_witness :
    exampleSubsetHandler.WellFormed ∧
    (∀ i, i < exampleSubsetHandler.num_subsets → (exampleSelection i).WellFormed) ∧
    ∃ R, CreateDistributionLayouts exampleTypes exampleMultiGrid exampleSubsetHandler true
        exampleSelection none = some R ∧
      ∀ kind : Kind,
        (∀ (i : Nat) (l : DistributionNodeLayout), (R kind)[i]? = some l → l.node_vec.Nodup) ∧
        ∀ i, i < exampleSubsetHandler.num_subsets →
          nodeVecOf (R kind) i = exampleSubsetHandler.elems kind i ++
            ((List.range (exampleSelection i).num_levels).flatMap
              ((exampleSelection i).elems kind)).filter
              (fun n => decide (n ∉ exampleSubsetHandler.elems kind i)) :=
  ⟨by intro kind; cases kind <;> decide,
    fun i _ => exampleSelection_wellFormed i,
    C20_no_element_twice_in_a_layout exampleTypes exampleMultiGrid exampleSubsetHandler
      (by intro kind; cases kind <;> decide) true exampleSelection
      (fun i _ => exampleSelection_wellFormed i) none⟩

/-! ## Reading from a string stream -/

theorem tokens_skipBlanks (r : List Piece) : tokens (skipBlanks r) = tokens r := by
  induction r with
  | nil => rfl
  | cons p r ih =>
    cases p with
    | text t => rfl
    | blank => simpa [skipBlanks, tokens] using ih

theorem skipBlanks_of_tokens_cons (r : List Piece) (t : Token) (ts : List Token)
    (h : tokens r = t :: ts) : ∃ r1, skipBlanks r = Piece.text t :: r1 ∧ tokens r1 = ts := by
  induction r with
  | nil => simp [tokens] at h
  | cons p r ih =>
    cases p with
    | text t1 =>
      simp only [tokens, List.cons.injEq] at h
      exact ⟨r, by rw [← h.1]; rfl, h.2⟩
    | blank =>
      simp only [tokens] at h
      obtain ⟨r1, h1, h2⟩ := ih h
      exact ⟨r1, by simpa [skipBlanks] using h1, h2⟩

theorem skipBlanks_of_tokens_nil (r : List Piece) (h : tokens r = []) : skipBlanks r = [] := by
  induction r with
  | nil => rfl
  | cons p r ih =>
    cases p with
    | text t1 => simp [tokens] at h
    | blank =>
      simp only [tokens] at h
      simpa [skipBlanks] using ih h

theorem tokens_length_le (r : List Piece) : (tokens r).length ≤ r.length := by
  induction r with
  | nil => simp [tokens]
  | cons p r ih =>
    cases p with
    | text t1 => simpa [tokens] using ih
    | blank =>
      simp only [tokens, List.length_cons]
      omega

theorem StreamOk_ofString (str : List Piece) : StreamOk (StringStream.ofString str) :=
  ⟨rfl, fun h => by simp [StringStream.ofString] at h⟩

theorem StreamOk.eofbit_false (ss : StringStream) (h : StreamOk ss) (t : Token)
    (ts : List Token) (ht : tokens ss.rest = t :: ts) : ss.eofbit = false := by
  cases he : ss.eofbit with
  | false => rfl
  | true =>
    rw [h.2 he] at ht
    simp [tokens] at ht

/-- A numeric literal is read from a stream that is in order. -/
theorem extractNumber_number (ss : StringStream) (h : StreamOk ss) (x : number)
    (ts : List Token) (ht : tokens ss.rest = Token.number x :: ts) :
    ∃ ss1, ss.extractNumber = (ss1, x) ∧ StreamOk ss1 ∧ tokens ss1.rest = ts := by
  obtain ⟨r1, h1, h2⟩ := skipBlanks_of_tokens_cons _ _ _ ht
  have he := h.eofbit_false ss _ ts ht
  refine ⟨{ rest := r1, eofbit := r1.isEmpty, failbit := false }, ?_, ⟨rfl, ?_⟩, h2⟩
  · unfold StringStream.extractNumber
    simp [he, h.1, h1]
  · intro hr
    simpa using hr

/-- Nothing is read where no numeric literal follows. -/
theorem extractNumber_fail (ss : StringStream) (ht : NoNumberAhead (tokens ss.rest)) :
    ss.extractNumber.1.failbit = true := by
  unfold StringStream.extractNumber
  by_cases hb : (ss.eofbit || ss.failbit) = true
  · simp [hb]
  · simp only [hb, Bool.false_eq_true, if_false]
    rcases ht with ht | ⟨tl, ht⟩
    · rw [skipBlanks_of_tokens_nil _ ht]
    · obtain ⟨r1, h1, -⟩ := skipBlanks_of_tokens_cons _ _ _ ht
      rw [h1]

theorem extractNumber_failbit (ss : StringStream) (h : ss.failbit = true) :
    ss.extractNumber.1.failbit = true := by
  unfold StringStream.extractNumber
  simp [h]

/-- An integer literal is read from a stream that is in order. -/
theorem extractInt_number (ss : StringStream) (h : StreamOk ss) (x : number) (n : Int)
    (ts : List Token) (ht : tokens ss.rest = Token.number x :: ts) (hx : asInt x = some n) :
    ∃ ss1, ss.extractInt = (ss1, n) ∧ StreamOk ss1 ∧ tokens ss1.rest = ts := by
  obtain ⟨r1, h1, h2⟩ := skipBlanks_of_tokens_cons _ _ _ ht
  have he := h.eofbit_false ss _ ts ht
  refine ⟨{ rest := r1, eofbit := r1.isEmpty, failbit := false }, ?_, ⟨rfl, ?_⟩, h2⟩
  · unfold StringStream.extractInt
    simp [he, h.1, h1, hx]
  · intro hr
    simpa using hr

theorem extractInt_failbit (ss : StringStream) (h : ss.failbit = true) :
    ss.extractInt.1.failbit = true := by
  unfold StringStream.extractInt
  simp [h]

theorem extractNumbers_failbit (n : Nat) (ss : StringStream) (h : ss.failbit = true) :
    (StringStream.extractNumbers n ss).1.failbit = true := by
  induction n generalizing ss with
  | zero => exact h
  | succ n ih => exact ih _ (extractNumber_failbit ss h)

/-- The loop `ss >> v[i]` reads `n` numeric literals from a stream that is in order. -/
theorem extractNumbers_numbers (xs : List number) (ss : StringStream) (h : StreamOk ss)
    (ts : List Token) (ht : tokens ss.rest = xs.map Token.number ++ ts) :
    ∃ ss1, StringStream.extractNumbers xs.length ss = (ss1, xs) ∧ StreamOk ss1 ∧
      tokens ss1.rest = ts := by
  induction xs generalizing ss with
  | nil => exact ⟨ss, rfl, h, by simpa using ht⟩
  | cons x xs ih =>
    obtain ⟨ss1, h1, hok1, ht1⟩ := extractNumber_number ss h x (xs.map Token.number ++ ts)
      (by simpa using ht)
    obtain ⟨ss2, h2, hok2, ht2⟩ := ih ss1 hok1 ht1
    refine ⟨ss2, ?_, hok2, ht2⟩
    simp only [List.length_cons, StringStream.extractNumbers, h1, h2]

/-- The loop `ss >> v[i]` fails where fewer than `n` numeric literals follow. -/
theorem extractNumbers_fail (xs : List number) (n : Nat) (ss : StringStream)
    (h : StreamOk ss) (tail : List Token)
    (ht : tokens ss.rest = xs.map Token.number ++ tail) (hn : xs.length < n)
    (htail : NoNumberAhead tail) :
    (StringStream.extractNumbers n ss).1.failbit = true := by
  induction xs generalizing ss n with
  | nil =>
    obtain ⟨m, rfl⟩ : ∃ m, n = m + 1 := ⟨n - 1, by simp at hn; omega⟩
    simp only [StringStream.extractNumbers]
    exact extractNumbers_failbit m _ (extractNumber_fail ss (by simpa [ht] using htail))
  | cons x xs ih =>
    obtain ⟨m, rfl⟩ : ∃ m, n = m + 1 := ⟨n - 1, by simp at hn; omega⟩
    obtain ⟨ss1, h1, hok1, ht1⟩ := extractNumber_number ss h x (xs.map Token.number ++ tail)
      (by simpa using ht)
    simp only [StringStream.extractNumbers, h1]
    exact ih m ss1 hok1 ht1 (by simpa using hn)

theorem extractNumbers_add (a b : Nat) (ss : StringStream) :
    StringStream.extractNumbers (a + b) ss =
      ((StringStream.extractNumbers b (StringStream.extractNumbers a ss).1).1,
        (StringStream.extractNumbers a ss).2 ++
          (StringStream.extractNumbers b (StringStream.extractNumbers a ss).1).2) := by
  induction a generalizing ss with
  | zero => simp [StringStream.extractNumbers]
  | succ a ih =>
    have : a + 1 + b = (a + b) + 1 := by omega
    rw [this]
    simp only [StringStream.extractNumbers, ih, List.cons_append]

/-! ## Tuples of coordinates and the loop of the readers -/

theorem convertTuple_self (d : Nat) (t : List number) (h : t.length = d) :
    convertTuple d t = t := by
  unfold convertTuple
  rw [← h]
  simp

/-- A complete tuple is read and converted. -/
theorem readConvertedTuple_numbers (s d : Nat) (xs : List number) (hx : xs.length = s)
    (ss : StringStream) (h : StreamOk ss) (ts : List Token)
    (ht : tokens ss.rest = xs.map Token.number ++ ts) :
    ∃ ss1, readConvertedTuple s d ss = (ss1, convertTuple d xs) ∧ StreamOk ss1 ∧
      tokens ss1.rest = ts := by
  have hsplit : xs = xs.take (min s d) ++ xs.drop (min s d) := (List.take_append_drop _ _).symm
  have hl1 : (xs.take (min s d)).length = min s d := by
    rw [List.length_take, hx]
    omega
  have hl2 : (xs.drop (min s d)).length = s - min s d := by
    rw [List.length_drop, hx]
  obtain ⟨ss1, h1, hok1, ht1⟩ := extractNumbers_numbers (xs.take (min s d)) ss h
    ((xs.drop (min s d)).map Token.number ++ ts)
    (by rw [ht, ← List.append_assoc, ← List.map_append, ← hsplit])
  obtain ⟨ss2, h2, hok2, ht2⟩ := extractNumbers_numbers (xs.drop (min s d)) ss1 hok1 ts ht1
  rw [hl1] at h1
  rw [hl2] at h2
  refine ⟨ss2, ?_, hok2, ht2⟩
  unfold readConvertedTuple convertTuple
  simp only [h1, h2, hx]
  have htake : xs.take (min s d) = xs.take d := by
    by_cases hsd : s ≤ d
    · rw [min_eq_left hsd, List.take_of_length_le (by omega), List.take_of_length_le (by omega)]
    · rw [min_eq_right (by omega)]
  have hrep : d - min s d = d - s := by omega
  rw [htake, hrep]

/-- An incomplete tuple is not read. -/
theorem readConvertedTuple_fail (s d : Nat) (xs : List number) (hx : xs.length < s)
    (ss : StringStream) (h : StreamOk ss) (tail : List Token)
    (ht : tokens ss.rest = xs.map Token.number ++ tail) (htail : NoNumberAhead tail) :
    (readConvertedTuple s d ss).1.failbit = true := by
  unfold readConvertedTuple
  have hadd := extractNumbers_add (min s d) (s - min s d) ss
  have hs : min s d + (s - min s d) = s := by omega
  rw [hs] at hadd
  have := extractNumbers_fail xs s ss h tail ht hx htail
  rw [hadd] at this
  exact this

/-- The loop of a reader on a text that consists of complete records followed by something
that `read` fails on: one object is stored for every record. -/
theorem readLoop_records {α σ : Type} (read : StringStream → StringStream × α)
    (store : σ → α → σ) (P : List Token → Prop) (Q : List Token → Prop) (val : List Token → α)
    (hread : ∀ (ss : StringStream) (r ts : List Token), StreamOk ss → P r →
      tokens ss.rest = r ++ ts →
      ∃ ss1, read ss = (ss1, val r) ∧ StreamOk ss1 ∧ tokens ss1.rest = ts)
    (hne : ∀ r, P r → r ≠ [])
    (hfail : ∀ (ss : StringStream) (tail : List Token), StreamOk ss → Q tail →
      tokens ss.rest = tail → (read ss).1.failbit = true)
    (records : List (List Token)) (hrec : ∀ r ∈ records, P r) (tail : List Token)
    (htail : Q tail) (fuel : Nat) (hfuel : records.length < fuel) (ss : StringStream)
    (hok : StreamOk ss) (ht : tokens ss.rest = records.flatten ++ tail) (st : σ) :
    readLoop read store fuel ss st = some (records.foldl (fun st r => store st (val r)) st) := by
  induction records generalizing fuel ss st with
  | nil =>
    obtain ⟨f, rfl⟩ : ∃ f, fuel = f + 1 := ⟨fuel - 1, by simp at hfuel; omega⟩
    unfold readLoop
    by_cases he : ss.eof = true
    · simp [he]
    · have := hfail ss tail hok htail (by simpa using ht)
      simp [he, StringStream.fail, this]
  | cons r records ih =>
    obtain ⟨f, rfl⟩ : ∃ f, fuel = f + 1 := ⟨fuel - 1, by simp at hfuel; omega⟩
    have hP := hrec r (List.mem_cons_self _ _)
    obtain ⟨ss1, h1, hok1, ht1⟩ := hread ss r (records.flatten ++ tail) hok hP
      (by simpa using ht)
    have hne1 := hne r hP
    obtain ⟨t, tl, htl⟩ : ∃ t tl, r = t :: tl := by
      cases r with
      | nil => exact absurd rfl hne1
      | cons t tl => exact ⟨t, tl, rfl⟩
    have he : ss.eof = false := by
      unfold StringStream.eof
      exact hok.eofbit_false ss t (tl ++ (records.flatten ++ tail)) (by rw [ht, htl]; simp)
    unfold readLoop
    simp only [he, Bool.false_eq_true, if_false, h1, StringStream.fail, hok1.1]
    rw [ih (fun r hr => hrec r (List.mem_cons_of_mem _ hr)) f
      (by simp at hfuel; omega) ss1 hok1 ht1]
    rfl

theorem completeTuples_of_lt (s : Nat) (xs : List number) (h : xs.length < s) :
    completeTuples s xs = [] := by
  unfold completeTuples
  rw [Nat.div_eq_of_lt h]
  rfl

theorem completeTuples_append (s : Nat) (hs : 0 < s) (t xs : List number)
    (ht : t.length = s) : completeTuples s (t ++ xs) = t :: completeTuples s xs := by
  unfold completeTuples
  have hlen : (t ++ xs).length / s = xs.length / s + 1 := by
    rw [List.length_append, ht, Nat.add_comm, Nat.add_div_right _ hs]
  rw [hlen, List.range_succ_eq_map, List.map_cons, List.map_map]
  congr 1
  · simp [← ht]
  · apply List.map_congr_left
    intro j _
    simp only [Function.comp]
    have : (j + 1) * s = t.length + j * s := by rw [ht]; ring
    rw [this, List.drop_append]

/-- A sequence of numbers consists of its complete tuples and an incomplete one. -/
theorem completeTuples_flatten (s : Nat) (hs : 0 < s) (xs : List number) :
    ∃ part : List number, xs = (completeTuples s xs).flatten ++ part ∧ part.length < s ∧
      ∀ t ∈ completeTuples s xs, t.length = s := by
  suffices H : ∀ (n : Nat) (xs : List number), xs.length = n →
      ∃ part : List number, xs = (completeTuples s xs).flatten ++ part ∧ part.length < s ∧
        ∀ t ∈ completeTuples s xs, t.length = s from H _ xs rfl
  intro n
  induction n using Nat.strong_induction_on with
  | _ n ih =>
    intro xs hn
    by_cases hlt : xs.length < s
    · exact ⟨xs, by simp [completeTuples_of_lt s xs hlt], hlt,
        by simp [completeTuples_of_lt s xs hlt]⟩
    · have hsplit : xs = xs.take s ++ xs.drop s := (List.take_append_drop _ _).symm
      have hl : (xs.take s).length = s := by
        rw [List.length_take]
        omega
      obtain ⟨part, hp, hpl, hall⟩ := ih (xs.drop s).length
        (by rw [List.length_drop]; omega) (xs.drop s) rfl
      have hc := completeTuples_append s hs (xs.take s) (xs.drop s) hl
      rw [← hsplit] at hc
      refine ⟨part, ?_, hpl, ?_⟩
      · rw [hc, List.flatten_cons, List.append_assoc, ← hp]
        exact hsplit
      · intro t ht
        rw [hc] at ht
        rcases List.mem_cons.1 ht with h | h
        · rw [h]; exact hl
        · exact hall t h

/-- A sequence of tokens starts with its leading numbers; no number follows them. -/
theorem leadingNumbers_append (ts : List Token) :
    ∃ tail, ts = (leadingNumbers ts).map Token.number ++ tail ∧ NoNumberAhead tail := by
  induction ts with
  | nil => exact ⟨[], rfl, Or.inl rfl⟩
  | cons t ts ih =>
    cases t with
    | number x =>
      obtain ⟨tail, h1, h2⟩ := ih
      exact ⟨tail, by simp only [leadingNumbers, List.map_cons, List.cons_append, ← h1], h2⟩
    | other => exact ⟨Token.other :: ts, rfl, Or.inr ⟨ts, rfl⟩⟩

theorem leadingNumbers_map (xs : List number) :
    leadingNumbers (xs.map Token.number) = xs := by
  induction xs with
  | nil => rfl
  | cons x xs ih => simp [leadingNumbers, ih]

/-! ## The function create_vertices in closed form -/

/-- The vertices that a sequence of calls of `createVertex` appends. -/
theorem foldl_createVertex (tuples : List (List number)) (st : ReaderState) :
    (tuples.foldl createVertex st).grid.vertices =
      st.grid.vertices ++ List.replicate tuples.length ObjectType.Vertex ∧
    (tuples.foldl createVertex st).vertices =
      st.vertices ++ List.range' st.grid.vertices.length tuples.length ∧
    (∀ j, (tuples.foldl createVertex st).grid.aaPos (st.grid.vertices.length + j) =
      (tuples[j]?).getD (st.grid.aaPos (st.grid.vertices.length + j))) ∧
    (∀ i, i < st.grid.vertices.length →
      (tuples.foldl createVertex st).grid.aaPos i = st.grid.aaPos i) ∧
    tuples.foldl createVertex st =
      { st with
        grid := { st.grid with
          vertices := (tuples.foldl createVertex st).grid.vertices
          aaPos := (tuples.foldl createVertex st).grid.aaPos }
        vertices := (tuples.foldl createVertex st).vertices } := by
  induction tuples generalizing st with
  | nil => simp
  | cons t tuples ih =>
    obtain ⟨h1, h2, h3, h4, h5⟩ := ih (createVertex st t)
    have hlen : (createVertex st t).grid.vertices.length = st.grid.vertices.length + 1 := by
      simp [createVertex]
    simp only [List.foldl_cons]
    refine ⟨?_, ?_, ?_, ?_, ?_⟩
    · rw [h1]
      simp [createVertex, List.replicate_succ]
    · rw [h2, hlen]
      simp [createVertex, List.range'_succ]
    · intro j
      cases j with
      | zero =>
        rw [h4 _ (by rw [hlen]; omega)]
        simp [createVertex]
      | succ j =>
        have := h3 j
        rw [hlen] at this
        have e : st.grid.vertices.length + (j + 1) = st.grid.vertices.length + 1 + j := by
          omega
        rw [e, this]
        simp only [List.getElem?_cons_succ]
        congr 1
        simp [createVertex, Function.update]
        omega
    · intro i hi
      rw [h4 i (by rw [hlen]; omega)]
      simp [createVertex, Function.update]
      omega
    · rw [h5]
      rfl

/-- The function `create_vertices` in closed form: with a `coords` attribute of `s >= 1` it
returns true and creates one vertex for every complete tuple of `s` numbers at the start
of the text, whatever follows these numbers. -/
theorem create_vertices_eq (s d : Nat) (hs : 0 < s) (hd : 0 < d) (st : ReaderState)
    (vrtNode : XmlNode) (hc : vrtNode.coords = some (s : Int)) :
    GridReaderUGX.create_vertices d st vrtNode =
      some (true, ((completeTuples s (leadingNumbers (tokens vrtNode.value))).map
        (convertTuple d)).foldl createVertex st) := by
  obtain ⟨tail, htok, htail⟩ := leadingNumbers_append (tokens vrtNode.value)
  obtain ⟨part, hpart, hpl, hall⟩ :=
    completeTuples_flatten s hs (leadingNumbers (tokens vrtNode.value))
  generalize completeTuples s (leadingNumbers (tokens vrtNode.value)) = tuples at hpart hall ⊢
  have hloop : ∀ (read : StringStream → StringStream × List number),
      (∀ (ss : StringStream) (xs : List number) (ts : List Token), StreamOk ss →
        xs.length = s → tokens ss.rest = xs.map Token.number ++ ts →
        ∃ ss1, read ss = (ss1, convertTuple d xs) ∧ StreamOk ss1 ∧ tokens ss1.rest = ts) →
      (∀ (ss : StringStream) (xs : List number) (tl : List Token), StreamOk ss →
        xs.length < s → tokens ss.rest = xs.map Token.number ++ tl → NoNumberAhead tl →
        (read ss).1.failbit = true) →
      readLoop read createVertex (vrtNode.value.length + 1)
        (StringStream.ofString vrtNode.value) st =
        some ((tuples.map (convertTuple d)).foldl createVertex st) := by
    intro read hread hfail
    have := readLoop_records read createVertex
      (fun r => ∃ xs : List number, xs.length = s ∧ r = xs.map Token.number)
      (fun tl => ∃ (xs : List number) (tl1 : List Token), xs.length < s ∧
        tl = xs.map Token.number ++ tl1 ∧ NoNumberAhead tl1)
      (fun r => convertTuple d (leadingNumbers r))
      (by
        rintro ss r ts hok ⟨xs, hx, rfl⟩ ht
        simp only [leadingNumbers_map]
        exact hread ss xs ts hok hx ht)
      (by
        rintro r ⟨xs, hx, rfl⟩ hnil
        rw [List.map_eq_nil_iff] at hnil
        rw [hnil] at hx
        simp at hx
        omega)
      (by
        rintro ss tl hok ⟨xs, tl1, hx, rfl, hno⟩ ht
        exact hfail ss xs tl1 hok hx ht hno)
      (tuples.map (List.map Token.number))
      (by
        intro r hr
        obtain ⟨t, ht, rfl⟩ := List.mem_map.1 hr
        exact ⟨t, hall t ht, rfl⟩)
      (part.map Token.number ++ tail) ⟨part, tail, hpl, rfl, htail⟩
      (vrtNode.value.length + 1)
      (by
        have h1 := tokens_length_le vrtNode.value
        have h2 : tuples.length ≤ (tokens vrtNode.value).length := by
          rw [htok, hpart]
          simp only [List.length_append, List.length_map, List.length_flatten]
          have : tuples.length ≤ (tuples.map List.length).sum := by
            clear hpart
            induction tuples with
            | nil => simp
            | cons t tuples ih =>
              have h3 := hall t (List.mem_cons_self _ _)
              have h4 := ih (fun t ht => hall t (List.mem_cons_of_mem _ ht))
              simp only [List.length_cons, List.map_cons, List.sum_cons]
              omega
          omega
        simp only [List.length_map]
        omega)
      (StringStream.ofString vrtNode.value) (StreamOk_ofString _)
      (by
        show tokens vrtNode.value = _
        rw [htok, hpart]
        simp [List.map_flatten])
      st
    rw [this, List.foldl_map, List.foldl_map]
    simp only [leadingNumbers_map]
  unfold GridReaderUGX.create_vertices
  simp only [hc]
  have h0 : ¬ d = 0 := by omega
  have h1 : ¬ ((s : Int) < 1) := by omega
  simp only [h0, h1, if_false, Int.toNat_ofNat]
  by_cases hsd : (s : Int) = (d : Int)
  · have hsd1 : s = d := by exact_mod_cast hsd
    simp only [hsd, if_true]
    rw [hloop (StringStream.extractNumbers s)]
    · rfl
    · intro ss xs ts hok hx ht
      rw [convertTuple_self d xs (by omega), ← hx]
      exact extractNumbers_numbers xs ss hok ts ht
    · intro ss xs tl hok hx ht hno
      exact extractNumbers_fail xs s ss hok tl ht hx hno
  · simp only [hsd, if_false]
    rw [hloop (readConvertedTuple s d)]
    · rfl
    · intro ss xs ts hok hx ht
      exact readConvertedTuple_numbers s d xs hx ss hok ts ht
    · intro ss xs tl hok hx ht hno
      exact readConvertedTuple_fail s d xs hx ss hok tl ht hno

/-- Without a `coords` attribute of at least 1, `create_vertices` returns false and creates
nothing. -/
theorem create_vertices_bad_coords (d : Nat) (hd : 0 < d) (st : ReaderState)
    (vrtNode : XmlNode)
    (hc : vrtNode.coords = none ∨ ∃ n, vrtNode.coords = some n ∧ n < 1) :
    GridReaderUGX.create_vertices d st vrtNode = some (false, st) := by
  have h0 : ¬ d = 0 := by omega
  unfold GridReaderUGX.create_vertices
  rcases hc with hc | ⟨n, hc, hn⟩
  · simp [hc, h0]
  · simp [hc, h0, hn]

/-! ## Claim C14 -/

theorem length_convertTuple (d : Nat) (t : List number) : (convertTuple d t).length = d := by
  unfold convertTuple
  rw [List.length_append, List.length_take, List.length_replicate]
  omega

theorem getElem?_convertTuple (d : Nat) (t : List number) (i : Nat) (hi : i < d) :
    (convertTuple d t)[i]? = if i < min t.length d then t[i]? else some 0 := by
  unfold convertTuple
  by_cases h : i < min t.length d
  · rw [if_pos h, List.getElem?_append_left (by rw [List.length_take]; omega),
      List.getElem?_take_of_lt (by omega)]
  · rw [if_neg h, List.getElem?_append_right (by rw [List.length_take]; omega)]
    rw [List.getElem?_replicate]
    rw [if_pos]
    rw [List.length_take]
    omega

theorem completeTuples_of_length (s k : Nat) (hs : 0 < s) (xs : List number)
    (h : xs.length = k * s) :
    completeTuples s xs = (List.range k).map (fun j => (xs.drop (j * s)).take s) := by
  unfold completeTuples
  rw [h, Nat.mul_div_cancel _ hs]

/-- The function `create_vertices` on a text of `k * s` numbers. -/
theorem create_vertices_numbers (d : Nat) (hd : 1 ≤ d) (st : ReaderState)
    (vrtNode : XmlNode) (s k : Nat) (xs : List number) (hs : 1 ≤ s)
    (hc : vrtNode.coords = some (s : Int))
    (htok : tokens vrtNode.value = xs.map Token.number) (hlen : xs.length = k * s) :
    ∃ st1, GridReaderUGX.create_vertices d st vrtNode = some (true, st1) ∧
      st1.grid.vertices = st.grid.vertices ++ List.replicate k ObjectType.Vertex ∧
      st1.vertices = st.vertices ++ List.range' st.grid.vertices.length k ∧
      (∀ j, j < k → (st1.grid.aaPos (st.grid.vertices.length + j)).length = d ∧
        ∀ i, i < d → (st1.grid.aaPos (st.grid.vertices.length + j))[i]? =
          if i < min s d then xs[j * s + i]? else some 0) ∧
      (s = d → ∀ j, j < k →
        st1.grid.aaPos (st.grid.vertices.length + j) = (xs.drop (j * s)).take s) ∧
      (∀ i, i < st.grid.vertices.length → st1.grid.aaPos i = st.grid.aaPos i) ∧
      st1 = { st with
        grid := { st.grid with vertices := st1.grid.vertices, aaPos := st1.grid.aaPos }
        vertices := st1.vertices } := by
  have heq := create_vertices_eq s d hs hd st vrtNode hc
  rw [htok, leadingNumbers_map, completeTuples_of_length s k hs xs hlen] at heq
  obtain ⟨h1, h2, h3, h4, h5⟩ := foldl_createVertex
    (((List.range k).map (fun j => (xs.drop (j * s)).take s)).map (convertTuple d)) st
  simp only [List.length_map, List.length_range] at h1 h2
  have hpos : ∀ j, j < k →
      (List.foldl createVertex st (((List.range k).map
        (fun j => (xs.drop (j * s)).take s)).map (convertTuple d))).grid.aaPos
        (st.grid.vertices.length + j) = convertTuple d ((xs.drop (j * s)).take s) := by
    intro j hj
    rw [h3 j]
    simp [hj]
  have hts : ∀ j, j < k → ((xs.drop (j * s)).take s).length = s := by
    intro j hj
    rw [List.length_take, List.length_drop, hlen]
    have : j * s + s ≤ k * s := by
      calc j * s + s = (j + 1) * s := by ring
        _ ≤ k * s := Nat.mul_le_mul_right s hj
    omega
  refine ⟨_, heq, h1, h2, ?_, ?_, h4, h5⟩
  · intro j hj
    rw [hpos j hj]
    refine ⟨length_convertTuple _ _, ?_⟩
    intro i hi
    rw [getElem?_convertTuple d _ i hi, hts j hj]
    by_cases hlt : i < min s d
    · rw [if_pos hlt, if_pos hlt, List.getElem?_take_of_lt (by omega), List.getElem?_drop]
    · rw [if_neg hlt, if_neg hlt]
  · intro hsd j hj
    rw [hpos j hj]
    exact convertTuple_self d _ (by rw [hts j hj, hsd])

/-- C14 (coordinate dimension mismatch on read). Let the destination dimension be `d >= 1`.
For every source dimension `s >= 1` given by the `coords` attribute and every text whose
tokens are `k * s` numbers, `create_vertices` returns true and creates exactly `k` vertices,
in the order of the text, appended to the grid and to `vrtsOut`; coordinate `i < d` of
vertex `j` is number `j * s + i` of the text for `i < min(s, d)` and 0 for
`min(s, d) <= i < d`; for `s = d` the position of vertex `j` is the `j`-th tuple of the
text. Nothing else is changed. The function returns false if and only if the `coords`
attribute is missing or less than 1, and then it creates nothing. -/
theorem C14_coordinate_dimension_mismatch_on_read (d : Nat) (hd : 1 ≤ d) (st : ReaderState)
    (vrtNode : XmlNode) :
    (∀ (s k : Nat) (xs : List number), 1 ≤ s → vrtNode.coords = some (s : Int) →
      tokens vrtNode.value = xs.map Token.number → xs.length = k * s →
      ∃ st1, GridReaderUGX.create_vertices d st vrtNode = some (true, st1) ∧
        st1.grid.vertices = st.grid.vertices ++ List.replicate k ObjectType.Vertex ∧
        st1.vertices = st.vertices ++ List.range' st.grid.vertices.length k ∧
        (∀ j, j < k → (st1.grid.aaPos (st.grid.vertices.length + j)).length = d ∧
          ∀ i, i < d → (st1.grid.aaPos (st.grid.vertices.length + j))[i]? =
            if i < min s d then xs[j * s + i]? else some 0) ∧
        (s = d → ∀ j, j < k →
          st1.grid.aaPos (st.grid.vertices.length + j) = (xs.drop (j * s)).take s) ∧
        (∀ i, i < st.grid.vertices.length → st1.grid.aaPos i = st.grid.aaPos i) ∧
        st1 = { st with
          grid := { st.grid with vertices := st1.grid.vertices, aaPos := st1.grid.aaPos }
          vertices := st1.vertices }) ∧
    ((∃ st1, GridReaderUGX.create_vertices d st vrtNode = some (false, st1)) ↔
      (vrtNode.coords = none ∨ ∃ n, vrtNode.coords = some n ∧ n < 1)) ∧
    ((vrtNode.coords = none ∨ ∃ n, vrtNode.coords = some n ∧ n < 1) →
      GridReaderUGX.create_vertices d st vrtNode = some (false, st)) := by
  refine ⟨?_, ?_, create_vertices_bad_coords d hd st vrtNode⟩
  · intro s k xs hs hc htok hlen
    exact create_vertices_numbers d hd st vrtNode s k xs hs hc htok hlen
  · constructor
    · rintro ⟨st1, h⟩
      cases hc : vrtNode.coords with
      | none => exact Or.inl rfl
      | some n =>
        by_cases hn : n < 1
        · exact Or.inr ⟨n, rfl, hn⟩
        · exfalso
          have hn1 : n = ((n.toNat : Nat) : Int) := by omega
          rw [hn1] at hc
          rw [create_vertices_eq n.toNat d (by omega) hd st vrtNode hc] at h
          simp at h
    · intro hc
      exact ⟨st, create_vertices_bad_coords d hd st vrtNode hc⟩

/-- Witness of C14: the text "1 2 3 4 5 6" with `coords = 3`, read into positions with two
coordinates, gives two vertices; the third coordinate of each tuple is dropped. -/
theorem C14_coordinate_dimension_mismatch_on_read_witness :
    1 ≤ 2 ∧
    ∃ st1, GridReaderUGX.create_vertices 2 (ReaderState.start emptyGridData)
        (textNode "vertices" (some 3) exampleText) = some (true, st1) ∧
      st1.grid.vertices = (ReaderState.start emptyGridData).grid.vertices ++
        List.replicate 2 ObjectType.Vertex ∧
      st1.vertices = (ReaderState.start emptyGridData).vertices ++
        List.range' (ReaderState.start emptyGridData).grid.vertices.length 2 ∧
      (∀ j, j < 2 →
        (st1.grid.aaPos ((ReaderState.start emptyGridData).grid.vertices.length + j)).length
          = 2 ∧
        ∀ i, i < 2 →
          (st1.grid.aaPos ((ReaderState.start emptyGridData).grid.vertices.length + j))[i]? =
            if i < min 3 2 then ([1, 2, 3, 4, 5, 6] : List number)[j * 3 + i]?
            else some 0) ∧
      (3 = 2 → ∀ j, j < 2 →
        st1.grid.aaPos ((ReaderState.start emptyGridData).grid.vertices.length + j) =
          (([1, 2, 3, 4, 5, 6] : List number).drop (j * 3)).take 3) ∧
      (∀ i, i < (ReaderState.start emptyGridData).grid.vertices.length →
        st1.grid.aaPos i = (ReaderState.start emptyGridData).grid.aaPos i) ∧
      st1 = { ReaderState.start emptyGridData with
        grid := { (ReaderState.start emptyGridData).grid with
          vertices := st1.grid.vertices, aaPos := st1.grid.aaPos }
        vertices := st1.vertices } :=
  ⟨by decide,
    (C14_coordinate_dimension_mismatch_on_read 2 (by decide) (ReaderState.start emptyGridData)
      (textNode "vertices" (some 3) exampleText)).1 3 2 [1, 2, 3, 4, 5, 6] (by decide) rfl rfl
      rfl⟩

/-! ## Claim C19 -/

theorem tokens_dropLast_blank_spaced (ts : List Token) :
    tokens (Piece.blank :: spaced ts).dropLast = ts := by
  induction ts with
  | nil => rfl
  | cons t ts ih =>
    have h : (Piece.blank :: spaced (t :: ts)).dropLast =
        Piece.blank :: Piece.text t :: (Piece.blank :: spaced ts).dropLast := by
      simp [spaced]
    rw [h]
    simp only [tokens, ih]

/-- The tokens of the text of a written node are the tokens written. -/
theorem tokens_writtenNode (name : String) (numCoords : Nat) (ts : List Token) :
    tokens (writtenNode name numCoords (spaced ts)).value = ts := by
  unfold writtenNode
  cases ts with
  | nil => simp [spaced, tokens]
  | cons t ts =>
    have h : (spaced (t :: ts)).dropLast = Piece.text t :: (Piece.blank :: spaced ts).dropLast := by
      simp [spaced]
    simp only [spaced, List.length_cons, gt_iff_lt, Nat.zero_lt_succ, if_true] at h ⊢
    rw [h]
    simp only [tokens, tokens_dropLast_blank_spaced]

theorem writeCoords_finite (printed : number → number) (pos : List number) :
    writeCoords printed pos.length (pos.map Number.finite) =
      pos.map (fun x => Token.number (printed x)) := by
  unfold writeCoords
  apply List.ext_getElem?
  intro i
  by_cases hi : i < pos.length
  · simp [hi, List.getElem?_eq_getElem hi, List.getD_eq_getElem?_getD, writeNumber]
  · simp [hi, List.getElem?_eq_none (not_lt.1 hi)]
    omega

theorem length_flatten_of_length {α : Type} (L : List (List α)) (d : Nat)
    (hall : ∀ t ∈ L, t.length = d) : L.flatten.length = L.length * d := by
  induction L with
  | nil => simp
  | cons t L ih =>
    rw [List.flatten_cons, List.length_append, hall t (List.mem_cons_self _ _),
      ih (fun t ht => hall t (List.mem_cons_of_mem _ ht)), List.length_cons]
    ring

theorem take_drop_flatten {α : Type} (L : List (List α)) (d : Nat)
    (hall : ∀ t ∈ L, t.length = d) (j : Nat) (hj : j < L.length) :
    (L.flatten.drop (j * d)).take d = L[j] := by
  induction L generalizing j with
  | nil => simp at hj
  | cons t L ih =>
    have ht := hall t (List.mem_cons_self _ _)
    cases j with
    | zero =>
      simp only [Nat.zero_mul, List.drop_zero, List.flatten_cons, List.getElem_cons_zero]
      rw [List.take_append_of_le_length (by omega), List.take_of_length_le (by omega)]
    | succ j =>
      have e : (j + 1) * d = t.length + j * d := by rw [ht]; ring
      rw [List.flatten_cons, e, List.drop_append]
      simp only [List.getElem_cons_succ]
      exact ih (fun t ht => hall t (List.mem_cons_of_mem _ ht)) j
        (by simpa using hj)

/-- C19 as the code has it (vertex round trip for finite coordinates). For every sequence
of `N` vertices with positions of `d >= 1` coordinates, all of them finite, the node
written by `create_vertex_node` is named "vertices", has the `coords` attribute `d` and a
text in which every printed coordinate but the last is followed by one blank;
`create_vertices`, reading it into positions of `d` coordinates, returns true and creates
exactly `N` vertices in the same order, the `j`-th having the numbers that the printed
coordinates of the `j`-th written vertex denote. -/
theorem C19_vertex_round_trip (printed : number → number) (d N : Nat) (hd : 1 ≤ d)
    (vrts : List Nat) (aaPos : Nat → List Number) (pos : Nat → List number)
    (hN : vrts.length = N)
    (hfin : ∀ vrt ∈ vrts, aaPos vrt = (pos vrt).map Number.finite)
    (hdim : ∀ vrt ∈ vrts, (pos vrt).length = d) (st : ReaderState) :
    (GridWriterUGX.create_vertex_node printed d vrts aaPos).name = "vertices" ∧
    (GridWriterUGX.create_vertex_node printed d vrts aaPos).coords = some (d : Int) ∧
    (GridWriterUGX.create_vertex_node printed d vrts aaPos).value =
      (spaced ((vrts.flatMap (fun vrt => pos vrt)).map
        (fun x => Token.number (printed x)))).dropLast ∧
    ∃ st1, GridReaderUGX.create_vertices d st
        (GridWriterUGX.create_vertex_node printed d vrts aaPos) = some (true, st1) ∧
      st1.grid.vertices = st.grid.vertices ++ List.replicate N ObjectType.Vertex ∧
      st1.vertices = st.vertices ++ List.range' st.grid.vertices.length N ∧
      (∀ j (hj : j < vrts.length),
        st1.grid.aaPos (st.grid.vertices.length + j) = (pos vrts[j]).map printed) ∧
      (∀ i, i < st.grid.vertices.length → st1.grid.aaPos i = st.grid.aaPos i) ∧
      st1 = { st with
        grid := { st.grid with vertices := st1.grid.vertices, aaPos := st1.grid.aaPos }
        vertices := st1.vertices } := by
  have hw : ∀ vrt ∈ vrts, writeCoords printed d (aaPos vrt) =
      (pos vrt).map (fun x => Token.number (printed x)) := by
    intro vrt hv
    rw [← hdim vrt hv, hfin vrt hv]
    exact writeCoords_finite printed _
  have hflat : vrts.flatMap (fun vrt => writeCoords printed d (aaPos vrt)) =
      (vrts.flatMap (fun vrt => pos vrt)).map (fun x => Token.number (printed x)) := by
    rw [List.map_flatMap]
    exact List.flatMap_congr hw
  have hall : ∀ t ∈ vrts.map (fun vrt => (pos vrt).map printed), t.length = d := by
    intro t ht
    obtain ⟨vrt, hv, rfl⟩ := List.mem_map.1 ht
    rw [List.length_map]
    exact hdim vrt hv
  have htok : tokens (GridWriterUGX.create_vertex_node printed d vrts aaPos).value =
      ((vrts.map (fun vrt => (pos vrt).map printed)).flatten).map Token.number := by
    unfold GridWriterUGX.create_vertex_node
    rw [tokens_writtenNode, hflat, List.flatMap_def, List.map_flatten, List.map_flatten]
    simp [List.map_map, Function.comp_def]
  have hlen : ((vrts.map (fun vrt => (pos vrt).map printed)).flatten).length = N * d := by
    rw [length_flatten_of_length _ d hall, List.length_map, hN]
  obtain ⟨st1, h1, h2, h3, -, h5, h6, h7⟩ := create_vertices_numbers d hd st
    (GridWriterUGX.create_vertex_node printed d vrts aaPos) d N _ hd rfl htok hlen
  refine ⟨rfl, rfl, ?_, st1, h1, h2, h3, ?_, h6, h7⟩
  · unfold GridWriterUGX.create_vertex_node writtenNode
    rw [hflat]
    split
    · rfl
    · rename_i hz
      simp only [gt_iff_lt, not_lt, Nat.le_zero_eq, List.length_eq_zero] at hz
      rw [hz]
      rfl
  · intro j hj
    rw [h5 rfl j (by omega), take_drop_flatten _ d hall j (by simpa using hj)]
    simp

/-- Witness of the amended C19: the vertices 0 and 1 of the example grid, written with two
coordinates and read back. -/
theorem C19_vertex_round_trip_witness :
    1 ≤ 2 ∧ ([0, 1] : List Nat).length = 2 ∧
    (∀ vrt ∈ ([0, 1] : List Nat), exampleWriterGrid.writtenPos vrt =
      (exampleWriterGrid.aaPos vrt).map Number.finite) ∧
    (∀ vrt ∈ ([0, 1] : List Nat), (exampleWriterGrid.aaPos vrt).length = 2) ∧
    (GridWriterUGX.create_vertex_node sixDecimals 2 [0, 1] exampleWriterGrid.writtenPos).name =
      "vertices" ∧
    (GridWriterUGX.create_vertex_node sixDecimals 2 [0, 1] exampleWriterGrid.writtenPos).coords =
      some ((2 : Nat) : Int) ∧
    (GridWriterUGX.create_vertex_node sixDecimals 2 [0, 1] exampleWriterGrid.writtenPos).value =
      (spaced ((([0, 1] : List Nat).flatMap (fun vrt => exampleWriterGrid.aaPos vrt)).map
        (fun x => Token.number (sixDecimals x)))).dropLast ∧
    ∃ st1, GridReaderUGX.create_vertices 2 (ReaderState.start emptyGridData)
        (GridWriterUGX.create_vertex_node sixDecimals 2 [0, 1] exampleWriterGrid.writtenPos) =
        some (true, st1) ∧
      st1.grid.vertices = (ReaderState.start emptyGridData).grid.vertices ++
        List.replicate 2 ObjectType.Vertex ∧
      st1.vertices = (ReaderState.start emptyGridData).vertices ++
        List.range' (ReaderState.start emptyGridData).grid.vertices.length 2 ∧
      (∀ j (hj : j < ([0, 1] : List Nat).length),
        st1.grid.aaPos ((ReaderState.start emptyGridData).grid.vertices.length + j) =
          (exampleWriterGrid.aaPos ([0, 1] : List Nat)[j]).map sixDecimals) ∧
      (∀ i, i < (ReaderState.start emptyGridData).grid.vertices.length →
        st1.grid.aaPos i = (ReaderState.start emptyGridData).grid.aaPos i) ∧
      st1 = { ReaderState.start emptyGridData with
        grid := { (ReaderState.start emptyGridData).grid with
          vertices := st1.grid.vertices, aaPos := st1.grid.aaPos }
        vertices := st1.vertices } :=
  ⟨by decide, rfl, fun _ _ => rfl, by decide,
    C19_vertex_round_trip sixDecimals 2 2 (by decide) [0, 1] exampleWriterGrid.writtenPos
      exampleWriterGrid.aaPos rfl (fun _ _ => rfl) (by decide)
      (ReaderState.start emptyGridData)⟩

/-- Counterexample to C19 as stated: one vertex with the two coordinates 1 and NaN. The
writer writes "1 nan" (or "1 -nan"), the second token of which is not a number; the reader
returns true without having created a vertex. -/
theorem C19_counterexample :
    ([0] : List Nat).length = 1 ∧ (nanPositions 0).length = 2 ∧
    tokens (GridWriterUGX.create_vertex_node (fun x => x) 2 [0] nanPositions).value =
      [Token.number 1, Token.other] ∧
    ∃ st1, GridReaderUGX.create_vertices 2 (ReaderState.start emptyGridData)
        (GridWriterUGX.create_vertex_node (fun x => x) 2 [0] nanPositions) =
        some (true, st1) ∧
      st1.grid.vertices = [] ∧ st1.vertices = [] :=
  ⟨rfl, rfl, rfl, _, rfl, rfl, rfl⟩

/-! ## Claim C15 -/

theorem resolveConstrained_nil (resolve : Int × Int → Option ConstrainingObject)
    (elems : List Nat) (links : ConstraintLinks) :
    resolveConstrained resolve [] elems links = some links := by
  simp [resolveConstrained]

/-- Without recorded pairs the four loops change nothing. -/
theorem resolveAll_of_no_pairs (st : ReaderState) (h1 : st.constrainingObjsVRT = [])
    (h2 : st.constrainingObjsEDGE = []) (h3 : st.constrainingObjsTRI = [])
    (h4 : st.constrainingObjsQUAD = []) : resolveAll st = some st.grid := by
  unfold resolveAll
  simp [h1, h2, h3, h4, resolveConstrained_nil]

/-- The function `get_grid` on a grid node whose only child is a block of vertices. -/
theorem get_grid_vertices_only (d s : Nat) (hd : 1 ≤ d) (hs : 1 ≤ s) (uninitialized : Int)
    (vrtNode : XmlNode) (hname : vrtNode.name = "vertices")
    (hc : vrtNode.coords = some (s : Int)) (gridOut : GridData) :
    GridReaderUGX.get_grid d uninitialized [[vrtNode]] gridOut 0 =
      some (true,
        { ((completeTuples s (leadingNumbers (tokens vrtNode.value))).map
            (convertTuple d)).foldl createVertex
            (ReaderState.start { gridOut with options := 0 }) with
          grid :=
            { (((completeTuples s (leadingNumbers (tokens vrtNode.value))).map
                (convertTuple d)).foldl createVertex
                (ReaderState.start { gridOut with options := 0 })).grid with
              options := gridOut.options } }) := by
  obtain ⟨-, -, -, -, h5⟩ := foldl_createVertex
    ((completeTuples s (leadingNumbers (tokens vrtNode.value))).map (convertTuple d))
    (ReaderState.start { gridOut with options := 0 })
  have hres := resolveAll_of_no_pairs
    (((completeTuples s (leadingNumbers (tokens vrtNode.value))).map
      (convertTuple d)).foldl createVertex (ReaderState.start { gridOut with options := 0 }))
    (by rw [h5]; rfl) (by rw [h5]; rfl) (by rw [h5]; rfl) (by rw [h5]; rfl)
  unfold GridReaderUGX.get_grid
  simp only [List.getElem?_cons_zero, readNodes, readNode, hname, if_true,
    create_vertices_eq s d hs hd _ vrtNode hc, hres]

theorem length_completeTuples (s : Nat) (xs : List number) :
    (completeTuples s xs).length = xs.length / s := by
  simp [completeTuples]

theorem getElem?_completeTuples (s : Nat) (xs : List number) (j : Nat)
    (hj : j < xs.length / s) :
    (completeTuples s xs)[j]? = some ((xs.drop (j * s)).take s) := by
  simp [completeTuples, hj, List.getElem?_range hj]

/-- The vertices that `create_vertices` creates from an arbitrary text. -/
theorem create_vertices_any_text (d s : Nat) (hd : 1 ≤ d) (hs : 1 ≤ s) (vrtNode : XmlNode)
    (hc : vrtNode.coords = some (s : Int)) (st : ReaderState) :
    ∃ st1, GridReaderUGX.create_vertices d st vrtNode = some (true, st1) ∧
      st1.grid.vertices = st.grid.vertices ++
        List.replicate ((leadingNumbers (tokens vrtNode.value)).length / s)
          ObjectType.Vertex ∧
      st1.vertices = st.vertices ++ List.range' st.grid.vertices.length
        ((leadingNumbers (tokens vrtNode.value)).length / s) ∧
      ∀ j, j < (leadingNumbers (tokens vrtNode.value)).length / s →
        st1.grid.aaPos (st.grid.vertices.length + j) =
          convertTuple d (((leadingNumbers (tokens vrtNode.value)).drop (j * s)).take s) := by
  obtain ⟨h1, h2, h3, -, -⟩ := foldl_createVertex
    ((completeTuples s (leadingNumbers (tokens vrtNode.value))).map (convertTuple d)) st
  rw [List.length_map, length_completeTuples] at h1 h2
  refine ⟨_, create_vertices_eq s d hs hd st vrtNode hc, h1, h2, ?_⟩
  intro j hj
  rw [h3 j, List.getElem?_map, getElem?_completeTuples s _ j hj]
  rfl

/-- C15 as the code has it (a malformed coordinate stream does not fail the load). For a
block of vertices with a `coords` attribute `s >= 1` and any text, `create_vertices`
returns true: it creates one vertex for every complete tuple of `s` numbers that stands
before the first token that is not a number (or before the incomplete last tuple), stops
there, and leaves these vertices in the grid. For a grid node with this block only,
`get_grid` returns true and `LoadGridFromUGX` returns true, the vertices being in the grid.
`LoadGridFromUGX` returns false only if the file could not be parsed or holds no grid. -/
theorem C15_malformed_stream_keeps_vertices_and_succeeds (d s : Nat) (hd : 1 ≤ d)
    (hs : 1 ≤ s) (uninitialized : Int) (vrtNode : XmlNode) (hname : vrtNode.name = "vertices")
    (hc : vrtNode.coords = some (s : Int)) (st : ReaderState) (gridOut : GridData) :
    (∃ st1, GridReaderUGX.create_vertices d st vrtNode = some (true, st1) ∧
      st1.grid.vertices = st.grid.vertices ++
        List.replicate ((leadingNumbers (tokens vrtNode.value)).length / s)
          ObjectType.Vertex ∧
      st1.vertices = st.vertices ++ List.range' st.grid.vertices.length
        ((leadingNumbers (tokens vrtNode.value)).length / s) ∧
      ∀ j, j < (leadingNumbers (tokens vrtNode.value)).length / s →
        st1.grid.aaPos (st.grid.vertices.length + j) =
          convertTuple d (((leadingNumbers (tokens vrtNode.value)).drop (j * s)).take s)) ∧
    (∃ st2, GridReaderUGX.get_grid d uninitialized [[vrtNode]] gridOut 0 = some (true, st2) ∧
      st2.grid.vertices = gridOut.vertices ++
        List.replicate ((leadingNumbers (tokens vrtNode.value)).length / s)
          ObjectType.Vertex ∧
      LoadGridFromUGX d uninitialized (some [[vrtNode]]) gridOut = some (true, st2.grid)) ∧
    (∀ file g, LoadGridFromUGX d uninitialized file gridOut = some (false, g) →
      (file = none ∨ file = some []) ∧ g = gridOut) := by
  refine ⟨create_vertices_any_text d s hd hs vrtNode hc st, ?_, ?_⟩
  · have hg := get_grid_vertices_only d s hd hs uninitialized vrtNode hname hc gridOut
    obtain ⟨h1, -, -, -, -⟩ := foldl_createVertex
      ((completeTuples s (leadingNumbers (tokens vrtNode.value))).map (convertTuple d))
      (ReaderState.start { gridOut with options := 0 })
    rw [List.length_map, length_completeTuples] at h1
    refine ⟨_, hg, h1, ?_⟩
    unfold LoadGridFromUGX
    simp only [List.length_singleton, Nat.lt_irrefl, if_false, hg]
  · intro file g h
    unfold LoadGridFromUGX at h
    cases file with
    | none =>
      simp only [Option.some.injEq, Prod.mk.injEq, true_and] at h
      exact ⟨Or.inl rfl, h.symm⟩
    | some m_entries =>
      by_cases hl : m_entries.length < 1
      · simp only [hl, if_true, Option.some.injEq, Prod.mk.injEq, true_and] at h
        refine ⟨Or.inr ?_, h.symm⟩
        have : m_entries = [] := List.length_eq_zero.1 (by omega)
        rw [this]
      · exfalso
        simp only [hl, if_false] at h
        cases hgg : GridReaderUGX.get_grid d uninitialized m_entries gridOut 0 with
        | none => simp [hgg] at h
        | some r => simp [hgg] at h

/-- Witness of the amended C15: the text "1 2 3 x" with `coords = 3`, read into positions
with two coordinates. -/
theorem C15_malformed_stream_keeps_vertices_and_succeeds_witness :
    1 ≤ 2 ∧ 1 ≤ 3 ∧ (textNode "vertices" (some 3) malformedText).name = "vertices" ∧
    (textNode "vertices" (some 3) malformedText).coords = some ((3 : Nat) : Int) ∧
    (∃ st1, GridReaderUGX.create_vertices 2 (ReaderState.start emptyGridData)
        (textNode "vertices" (some 3) malformedText) = some (true, st1) ∧
      st1.grid.vertices = (ReaderState.start emptyGridData).grid.vertices ++
        List.replicate
          ((leadingNumbers (tokens (textNode "vertices" (some 3) malformedText).value)).length
            / 3) ObjectType.Vertex ∧
      st1.vertices = (ReaderState.start emptyGridData).vertices ++
        List.range' (ReaderState.start emptyGridData).grid.vertices.length
          ((leadingNumbers (tokens (textNode "vertices" (some 3) malformedText).value)).length
            / 3) ∧
      ∀ j, j < (leadingNumbers
          (tokens (textNode "vertices" (some 3) malformedText).value)).length / 3 →
        st1.grid.aaPos ((ReaderState.start emptyGridData).grid.vertices.length + j) =
          convertTuple 2 (((leadingNumbers
            (tokens (textNode "vertices" (some 3) malformedText).value)).drop (j * 3)).take
              3)) ∧
    (∃ st2, GridReaderUGX.get_grid 2 0 [[textNode "vertices" (some 3) malformedText]]
        emptyGridData 0 = some (true, st2) ∧
      st2.grid.vertices = emptyGridData.vertices ++
        List.replicate
          ((leadingNumbers (tokens (textNode "vertices" (some 3) malformedText).value)).length
            / 3) ObjectType.Vertex ∧
      LoadGridFromUGX 2 0 (some [[textNode "vertices" (some 3) malformedText]])
        emptyGridData = some (true, st2.grid)) ∧
    (∀ file g, LoadGridFromUGX 2 0 file emptyGridData = some (false, g) →
      (file = none ∨ file = some []) ∧ g = emptyGridData) :=
  ⟨by decide, by decide, rfl, rfl,
    C15_malformed_stream_keeps_vertices_and_succeeds 2 3 (by decide) (by decide) 0
      (textNode "vertices" (some 3) malformedText) rfl rfl (ReaderState.start emptyGridData)
      emptyGridData⟩

/-- Counterexample to C15 as stated: the block of vertices with `coords = 3` and the text
"1 2 3 x", which contains a token that is not a number. `create_vertices` returns true,
`get_grid` returns true and `LoadGridFromUGX` returns true, and the vertex (1, 2, 3) created
from the block is left in the grid. -/
theorem C15_counterexample :
    Piece.text Token.other ∈ (textNode "vertices" (some 3) malformedText).value ∧
    (∃ st1, GridReaderUGX.create_vertices 3 (ReaderState.start emptyGridData)
        (textNode "vertices" (some 3) malformedText) = some (true, st1) ∧
      st1.grid.vertices = [ObjectType.Vertex] ∧ st1.grid.aaPos 0 = [1, 2, 3]) ∧
    (∃ st2, GridReaderUGX.get_grid 3 0 [[textNode "vertices" (some 3) malformedText]]
        emptyGridData 0 = some (true, st2) ∧
      st2.grid.vertices = [ObjectType.Vertex] ∧ st2.grid.aaPos 0 = [1, 2, 3] ∧
      LoadGridFromUGX 3 0 (some [[textNode "vertices" (some 3) malformedText]])
        emptyGridData = some (true, st2.grid)) := by
  have hc : (textNode "vertices" (some 3) malformedText).coords = some ((3 : Nat) : Int) := rfl
  have htup : (completeTuples 3 (leadingNumbers
      (tokens (textNode "vertices" (some 3) malformedText).value))).map (convertTuple 3) =
      [[1, 2, 3]] := by
    decide
  refine ⟨by decide, ⟨_, create_vertices_eq 3 3 (by decide) (by decide) _ _ hc, ?_, ?_⟩,
    ⟨_, get_grid_vertices_only 3 3 (by decide) (by decide) 0 _ rfl hc emptyGridData,
      ?_, ?_, ?_⟩⟩
  · rw [htup]; rfl
  · rw [htup]; rfl
  · rw [htup]; rfl
  · rw [htup]; rfl
  · unfold LoadGridFromUGX
    simp only [List.length_singleton, Nat.lt_irrefl, if_false,
      get_grid_vertices_only 3 3 (by decide) (by decide) 0 _ rfl hc emptyGridData]

/-! ## Reading the records of hanging vertices -/

theorem asInt_intCast (n : Int) (h1 : -(2 ^ 31) ≤ n) (h2 : n < 2 ^ 31) :
    asInt (n : number) = some n := by
  unfold asInt
  rw [if_pos]
  · simp
  · refine ⟨by simp, ?_, ?_⟩
    · simpa using h1
    · simpa using h2

theorem asInt_one : asInt (1 : number) = some 1 := by
  have := asInt_intCast 1 (by norm_num) (by norm_num)
  simpa using this

theorem asInt_two : asInt (2 : number) = some 2 := by
  have := asInt_intCast 2 (by norm_num) (by norm_num)
  simpa using this

theorem asInt_neg_one : asInt (-1 : number) = some (-1) := by
  have := asInt_intCast (-1) (by norm_num) (by norm_num)
  simpa using this

/-- The loop of a reader on a text that consists of complete records: one object is stored
for every record, with the values of the record. -/
theorem readLoop_values {α σ : Type} (read : StringStream → StringStream × α)
    (store : σ → α → σ) (P : List Token → α → Prop)
    (hread : ∀ (ss : StringStream) (r : List Token) (a : α) (ts : List Token), StreamOk ss →
      P r a → tokens ss.rest = r ++ ts →
      ∃ ss1, read ss = (ss1, a) ∧ StreamOk ss1 ∧ tokens ss1.rest = ts)
    (hne : ∀ r a, P r a → r ≠ [])
    (hfail : ∀ (ss : StringStream), StreamOk ss → tokens ss.rest = [] →
      (read ss).1.failbit = true)
    (records : List (List Token × α)) (hrec : ∀ p ∈ records, P p.1 p.2)
    (fuel : Nat) (hfuel : records.length < fuel) (ss : StringStream)
    (hok : StreamOk ss) (ht : tokens ss.rest = (records.map Prod.fst).flatten) (st : σ) :
    readLoop read store fuel ss st = some ((records.map Prod.snd).foldl store st) := by
  induction records generalizing fuel ss st with
  | nil =>
    obtain ⟨f, rfl⟩ : ∃ f, fuel = f + 1 := ⟨fuel - 1, by simp at hfuel; omega⟩
    unfold readLoop
    by_cases he : ss.eof = true
    · simp [he]
    · have := hfail ss hok (by simpa using ht)
      simp [he, StringStream.fail, this]
  | cons p records ih =>
    obtain ⟨f, rfl⟩ : ∃ f, fuel = f + 1 := ⟨fuel - 1, by simp at hfuel; omega⟩
    have hP := hrec p (List.mem_cons_self _ _)
    obtain ⟨ss1, h1, hok1, ht1⟩ := hread ss p.1 p.2 (records.map Prod.fst).flatten hok hP
      (by simpa using ht)
    have hne1 := hne p.1 p.2 hP
    obtain ⟨t, tl, htl⟩ : ∃ t tl, p.1 = t :: tl := by
      cases hp : p.1 with
      | nil => exact absurd hp hne1
      | cons t tl => exact ⟨t, tl, rfl⟩
    have he : ss.eof = false := by
      unfold StringStream.eof
      exact hok.eofbit_false ss t (tl ++ (records.map Prod.fst).flatten)
        (by rw [ht]; simp [htl])
    unfold readLoop
    simp only [he, Bool.false_eq_true, if_false, h1, StringStream.fail, hok1.1]
    rw [ih (fun r hr => hrec r (List.mem_cons_of_mem _ hr)) f
      (by simp at hfuel; omega) ss1 hok1 ht1]
    rfl

/-- Nothing is read as a hanging vertex where the text has ended. -/
theorem readConstrainedVertex_fail (s d : Nat) (hs : 1 ≤ s)
    (uninitialized : Int) (ss : StringStream) (hok : StreamOk ss)
    (ht : tokens ss.rest = []) :
    (readConstrainedVertex s d uninitialized ss).1.failbit = true := by
  have h1 := readConvertedTuple_fail s d [] (by simpa using hs) ss hok [] (by simpa using ht)
    (Or.inl rfl)
  have h2 := extractInt_failbit _ h1
  unfold readConstrainedVertex
  simp only
  split_ifs
  all_goals first
    | exact extractNumber_failbit _ (extractNumber_failbit _ (extractInt_failbit _ h2))
    | exact extractNumber_failbit _ (extractNumber_failbit _ h2)
    | exact extractNumber_failbit _ (extractInt_failbit _ h2)
    | exact extractNumber_failbit _ h2
    | exact extractInt_failbit _ h2
    | exact h2

/-! ## Reading what the writer wrote for hanging vertices -/

theorem writeConstrainingObject_ne_nil (printed : number → number)
    (aaIndEDGE aaIndFACE : Nat → Int) (hv : HangingVertex) :
    writeConstrainingObject printed aaIndEDGE aaIndFACE hv ≠ [] := by
  unfold writeConstrainingObject
  split <;> simp

/-- The record written for a hanging vertex with finite values is read back, every number
as its printed text denotes it. -/
theorem readConstrainedVertex_written (printed : number → number) (s d : Nat)
    (uninitialized : Int) (aaIndEDGE aaIndFACE : Nat → Int) (hv : HangingVertex)
    (aaPosVrt : List Number) (pos : List number) (lc : number × number)
    (hfin : WrittenFinite aaPosVrt hv pos lc)
    (hdim : pos.length = s) (hE : IsIntAttachment aaIndEDGE)
    (hF : IsIntAttachment aaIndFACE) (ss : StringStream) (hok : StreamOk ss)
    (ts : List Token)
    (ht : tokens ss.rest = (writeCoords printed s aaPosVrt ++
      writeConstrainingObject printed aaIndEDGE aaIndFACE hv) ++ ts) :
    ∃ ss1, readConstrainedVertex s d uninitialized ss =
        (ss1, writtenRecord printed d uninitialized aaIndEDGE aaIndFACE hv.get_parent
          pos lc) ∧
      StreamOk ss1 ∧ tokens ss1.rest = ts := by
  obtain ⟨hpos, hl1, hl2⟩ := hfin
  have hw : writeCoords printed s aaPosVrt = (pos.map printed).map Token.number := by
    rw [hpos, ← hdim, writeCoords_finite, List.map_map]
    rfl
  rw [hw, List.append_assoc] at ht
  obtain ⟨ss1, h1, hok1, ht1⟩ := readConvertedTuple_numbers s d (pos.map printed)
    (by rw [List.length_map, hdim]) ss hok _ ht
  unfold writeConstrainingObject at ht1
  unfold readConstrainedVertex writtenRecord
  cases hp : hv.get_parent with
  | none =>
    simp only [hp, List.singleton_append] at ht1
    obtain ⟨ss2, h2, hok2, ht2⟩ := extractInt_number ss1 hok1 (-1) (-1) ts ht1 asInt_neg_one
    refine ⟨ss2, ?_, hok2, ht2⟩
    simp [h1, h2]
  | some p =>
    have hc1 := hl1 (by rw [hp]; simp)
    cases p with
    | edge ce =>
      simp only [hp, hc1, writeNumber, List.cons_append, List.nil_append] at ht1
      obtain ⟨ss2, h2, hok2, ht2⟩ := extractInt_number ss1 hok1 1 1 _ ht1 asInt_one
      obtain ⟨ss3, h3, hok3, ht3⟩ := extractInt_number ss2 hok2 _ (aaIndEDGE ce) _ ht2
        (asInt_intCast _ (hE ce).1 (hE ce).2)
      obtain ⟨ss4, h4, hok4, ht4⟩ := extractNumber_number ss3 hok3 _ _ ht3
      refine ⟨ss4, ?_, hok4, ht4⟩
      simp [h1, h2, h3, h4]
    | face cf =>
      have hc2 := hl2 cf hp
      simp only [hp, hc1, hc2, writeNumber, List.cons_append, List.nil_append] at ht1
      obtain ⟨ss2, h2, hok2, ht2⟩ := extractInt_number ss1 hok1 2 2 _ ht1 asInt_two
      obtain ⟨ss3, h3, hok3, ht3⟩ := extractInt_number ss2 hok2 _ (aaIndFACE cf) _ ht2
        (asInt_intCast _ (hF cf).1 (hF cf).2)
      obtain ⟨ss4, h4, hok4, ht4⟩ := extractNumber_number ss3 hok3 _ _ ht3
      obtain ⟨ss5, h5, hok5, ht5⟩ := extractNumber_number ss4 hok4 _ _ ht4
      refine ⟨ss5, ?_, hok5, ht5⟩
      simp [h1, h2, h3, h4, h5]

/-- The hanging vertices that a sequence of calls of `createHangingVertex` appends. -/
theorem foldl_createHangingVertex (recs : List HangingVertexRecord) (st : ReaderState) :
    (recs.foldl createHangingVertex st).grid.vertices =
      st.grid.vertices ++ List.replicate recs.length ObjectType.HangingVertex ∧
    (recs.foldl createHangingVertex st).vertices =
      st.vertices ++ List.range' st.grid.vertices.length recs.length ∧
    (recs.foldl createHangingVertex st).constrainingObjsVRT =
      st.constrainingObjsVRT ++ recs.map (fun r => (r.conObjType, r.conObjIndex)) ∧
    (∀ j (r : HangingVertexRecord), recs[j]? = some r →
      (recs.foldl createHangingVertex st).grid.aaPos (st.grid.vertices.length + j) = r.v ∧
      (recs.foldl createHangingVertex st).grid.local_coordinates (st.grid.vertices.length + j)
        = r.localCoords) ∧
    (∀ i, i < st.grid.vertices.length →
      (recs.foldl createHangingVertex st).grid.aaPos i = st.grid.aaPos i ∧
      (recs.foldl createHangingVertex st).grid.local_coordinates i =
        st.grid.local_coordinates i) ∧
    recs.foldl createHangingVertex st =
      { st with
        grid := { st.grid with
          vertices := (recs.foldl createHangingVertex st).grid.vertices
          aaPos := (recs.foldl createHangingVertex st).grid.aaPos
          local_coordinates := (recs.foldl createHangingVertex st).grid.local_coordinates }
        vertices := (recs.foldl createHangingVertex st).vertices
        constrainingObjsVRT := (recs.foldl createHangingVertex st).constrainingObjsVRT } := by
  induction recs generalizing st with
  | nil => simp
  | cons t recs ih =>
    obtain ⟨h1, h2, h3, h4, h5, h6⟩ := ih (createHangingVertex st t)
    have hlen : (createHangingVertex st t).grid.vertices.length =
        st.grid.vertices.length + 1 := by
      simp [createHangingVertex]
    simp only [List.foldl_cons]
    refine ⟨?_, ?_, ?_, ?_, ?_, ?_⟩
    · rw [h1]
      simp [createHangingVertex, List.replicate_succ]
    · rw [h2, hlen]
      simp [createHangingVertex, List.range'_succ]
    · rw [h3]
      simp [createHangingVertex]
    · intro j r hr
      cases j with
      | zero =>
        simp only [List.getElem?_cons_zero, Option.some.injEq] at hr
        subst hr
        have := h5 st.grid.vertices.length (by rw [hlen]; omega)
        rw [Nat.add_zero, this.1, this.2]
        simp [createHangingVertex]
      | succ j =>
        simp only [List.getElem?_cons_succ] at hr
        have := h4 j r hr
        rw [hlen] at this
        have e : st.grid.vertices.length + (j + 1) = st.grid.vertices.length + 1 + j := by
          omega
        rw [e]
        exact this
    · intro i hi
      have := h5 i (by rw [hlen]; omega)
      rw [this.1, this.2]
      have hne : i ≠ st.grid.vertices.length := by omega
      simp [createHangingVertex, Function.update, hne]
    · rw [h6]
      rfl

/-- The function `create_constrained_vertices` on the node that
`create_constrained_vertex_node` writes for hanging vertices with finite values, in closed
form. -/
theorem create_constrained_vertices_written (printed : number → number) (s d : Nat)
    (hs : 1 ≤ s) (hd : 1 ≤ d) (uninitialized : Int) (vrts : List Nat)
    (hanging : Nat → HangingVertex) (aaPos : Nat → List Number)
    (aaIndEDGE aaIndFACE : Nat → Int) (pos : Nat → List number)
    (lc : Nat → number × number)
    (hfin : ∀ vrt ∈ vrts, WrittenFinite (aaPos vrt) (hanging vrt) (pos vrt) (lc vrt))
    (hdim : ∀ vrt ∈ vrts, (pos vrt).length = s)
    (hE : IsIntAttachment aaIndEDGE) (hF : IsIntAttachment aaIndFACE) (st : ReaderState) :
    GridReaderUGX.create_constrained_vertices d uninitialized st
      (GridWriterUGX.create_constrained_vertex_node printed s vrts hanging aaPos aaIndEDGE
        aaIndFACE) =
      some (true, (vrts.map (fun vrt =>
        writtenRecord printed d uninitialized aaIndEDGE aaIndFACE (hanging vrt).get_parent
          (pos vrt) (lc vrt))).foldl createHangingVertex st) := by
  have htok : tokens (GridWriterUGX.create_constrained_vertex_node printed s vrts hanging
      aaPos aaIndEDGE aaIndFACE).value =
      ((vrts.map (fun vrt => (writeCoords printed s (aaPos vrt) ++
        writeConstrainingObject printed aaIndEDGE aaIndFACE (hanging vrt),
        writtenRecord printed d uninitialized aaIndEDGE aaIndFACE (hanging vrt).get_parent
          (pos vrt) (lc vrt)))).map Prod.fst).flatten := by
    unfold GridWriterUGX.create_constrained_vertex_node
    rw [tokens_writtenNode, List.flatMap_def, List.map_map]
    rfl
  have hlen : vrts.length ≤ (tokens (GridWriterUGX.create_constrained_vertex_node printed s
      vrts hanging aaPos aaIndEDGE aaIndFACE).value).length := by
    rw [htok, List.map_map, List.length_flatten, List.map_map]
    clear htok hdim hfin
    induction vrts with
    | nil => simp
    | cons v vrts ih =>
      have hne := writeConstrainingObject_ne_nil printed aaIndEDGE aaIndFACE (hanging v)
      have hpos : 0 < (writeConstrainingObject printed aaIndEDGE aaIndFACE
          (hanging v)).length := List.length_pos.2 hne
      simp only [List.map_cons, List.sum_cons, List.length_cons, Function.comp,
        List.length_append] at ih ⊢
      omega
  have := readLoop_values (readConstrainedVertex s d uninitialized) createHangingVertex
    (fun r a => ∃ vrt ∈ vrts, r = writeCoords printed s (aaPos vrt) ++
        writeConstrainingObject printed aaIndEDGE aaIndFACE (hanging vrt) ∧
      a = writtenRecord printed d uninitialized aaIndEDGE aaIndFACE (hanging vrt).get_parent
        (pos vrt) (lc vrt))
    (by
      rintro ss r a ts hok ⟨vrt, hv, rfl, rfl⟩ ht
      exact readConstrainedVertex_written printed s d uninitialized aaIndEDGE aaIndFACE
        (hanging vrt) (aaPos vrt) (pos vrt) (lc vrt) (hfin vrt hv) (hdim vrt hv) hE hF ss hok
        ts ht)
    (by
      rintro r a ⟨vrt, -, rfl, -⟩ hnil
      exact writeConstrainingObject_ne_nil printed aaIndEDGE aaIndFACE (hanging vrt)
        (List.append_eq_nil.1 hnil).2)
    (fun ss hok ht => readConstrainedVertex_fail s d hs uninitialized ss hok ht)
    (vrts.map (fun vrt => (writeCoords printed s (aaPos vrt) ++
        writeConstrainingObject printed aaIndEDGE aaIndFACE (hanging vrt),
        writtenRecord printed d uninitialized aaIndEDGE aaIndFACE (hanging vrt).get_parent
          (pos vrt) (lc vrt))))
    (by
      intro p hp
      obtain ⟨vrt, hv, rfl⟩ := List.mem_map.1 hp
      exact ⟨vrt, hv, rfl, rfl⟩)
    ((GridWriterUGX.create_constrained_vertex_node printed s vrts hanging aaPos
      aaIndEDGE aaIndFACE).value.length + 1)
    (by
      have := tokens_length_le (GridWriterUGX.create_constrained_vertex_node printed s vrts
        hanging aaPos aaIndEDGE aaIndFACE).value
      rw [List.length_map]
      omega)
    (StringStream.ofString (GridWriterUGX.create_constrained_vertex_node printed s vrts
      hanging aaPos aaIndEDGE aaIndFACE).value) (StreamOk_ofString _) htok st
  have hcoords : (GridWriterUGX.create_constrained_vertex_node printed s vrts hanging aaPos
      aaIndEDGE aaIndFACE).coords = some (s : Int) := rfl
  have h0 : ¬ d = 0 := by omega
  have h1 : ¬ ((s : Int) < 1) := by omega
  unfold GridReaderUGX.create_constrained_vertices
  simp only [hcoords, h0, h1, if_false, Int.toNat_ofNat, this, List.map_map, Option.map_some']
  rfl

/-! ## Claim C16 -/

theorem sixDecimals_third : sixDecimals (1 / 3) = 333333 / 1000000 := by
  unfold sixDecimals
  have h : ⌊(1 / 3 : number) * 1000000 + 1 / 2⌋ = 333333 := by
    rw [Int.floor_eq_iff]
    norm_num
  rw [h]
  norm_num

theorem exampleIndices_isInt : IsIntAttachment exampleIndices := by
  intro e
  show -(2 ^ 31) ≤ (0 : Int) ∧ (0 : Int) < 2 ^ 31
  exact ⟨by decide, by decide⟩

theorem writtenFinite_of_grid (grid : GridData) (vrt : Nat) :
    WrittenFinite (grid.writtenPos vrt) (grid.writtenHanging vrt) (grid.aaPos vrt)
      (grid.local_coordinates vrt) :=
  ⟨rfl, fun _ => rfl, fun _ _ => rfl⟩

/-- C16 as the code has it (round trip of the records of constrained vertices with finite
values). For every sequence of hanging vertices with positions of `s >= 1` coordinates,
whose coordinates and written local coordinates are finite, the node written by
`create_constrained_vertex_node` is named "constrained_vertices" and has the `coords`
attribute `s`; `create_constrained_vertices`, reading it into positions of `d >= 1`
coordinates, returns true and reads one record per iteration: it creates as many hanging
vertices, in the same order, and records for each the type code written (1 for an edge
parent, 2 for a face parent, -1 otherwise) and, for the codes 1 and 2, the index written.
The position and the 1 resp. 2 local coordinates that it stores are the numbers that the
printed texts denote; they are the written ones where printing is exact. -/
theorem C16_constrained_vertex_record_round_trip (printed : number → number) (s d : Nat)
    (hs : 1 ≤ s) (hd : 1 ≤ d) (uninitialized : Int) (vrts : List Nat)
    (hanging : Nat → HangingVertex) (aaPos : Nat → List Number)
    (aaIndEDGE aaIndFACE : Nat → Int) (pos : Nat → List number)
    (lc : Nat → number × number)
    (hfin : ∀ vrt ∈ vrts, WrittenFinite (aaPos vrt) (hanging vrt) (pos vrt) (lc vrt))
    (hdim : ∀ vrt ∈ vrts, (pos vrt).length = s)
    (hE : IsIntAttachment aaIndEDGE) (hF : IsIntAttachment aaIndFACE) (st : ReaderState) :
    (GridWriterUGX.create_constrained_vertex_node printed s vrts hanging aaPos aaIndEDGE
      aaIndFACE).name = "constrained_vertices" ∧
    (GridWriterUGX.create_constrained_vertex_node printed s vrts hanging aaPos aaIndEDGE
      aaIndFACE).coords = some (s : Int) ∧
    ∃ st1, GridReaderUGX.create_constrained_vertices d uninitialized st
        (GridWriterUGX.create_constrained_vertex_node printed s vrts hanging aaPos aaIndEDGE
          aaIndFACE) = some (true, st1) ∧
      st1.grid.vertices =
        st.grid.vertices ++ List.replicate vrts.length ObjectType.HangingVertex ∧
      st1.vertices = st.vertices ++ List.range' st.grid.vertices.length vrts.length ∧
      st1.constrainingObjsVRT.length = st.constrainingObjsVRT.length + vrts.length ∧
      (∀ j (hj : j < vrts.length),
        st1.grid.aaPos (st.grid.vertices.length + j) =
          convertTuple d ((pos vrts[j]).map printed) ∧
        (∀ ce, (hanging vrts[j]).get_parent = some (ConstrainingObject.edge ce) →
          st1.constrainingObjsVRT[st.constrainingObjsVRT.length + j]? =
            some (1, aaIndEDGE ce) ∧
          (st1.grid.local_coordinates (st.grid.vertices.length + j)).1 =
            printed (lc vrts[j]).1 ∧
          (printed (lc vrts[j]).1 = (lc vrts[j]).1 →
            (st1.grid.local_coordinates (st.grid.vertices.length + j)).1 =
              (lc vrts[j]).1)) ∧
        (∀ cf, (hanging vrts[j]).get_parent = some (ConstrainingObject.face cf) →
          st1.constrainingObjsVRT[st.constrainingObjsVRT.length + j]? =
            some (2, aaIndFACE cf) ∧
          st1.grid.local_coordinates (st.grid.vertices.length + j) =
            (printed (lc vrts[j]).1, printed (lc vrts[j]).2) ∧
          (printed (lc vrts[j]).1 = (lc vrts[j]).1 →
            printed (lc vrts[j]).2 = (lc vrts[j]).2 →
            st1.grid.local_coordinates (st.grid.vertices.length + j) = lc vrts[j])) ∧
        ((hanging vrts[j]).get_parent = none →
          ∃ index, st1.constrainingObjsVRT[st.constrainingObjsVRT.length + j]? =
            some (-1, index))) ∧
      st1 = { st with
        grid := { st.grid with
          vertices := st1.grid.vertices
          aaPos := st1.grid.aaPos
          local_coordinates := st1.grid.local_coordinates }
        vertices := st1.vertices
        constrainingObjsVRT := st1.constrainingObjsVRT } := by
  obtain ⟨h1, h2, h3, h4, -, h6⟩ := foldl_createHangingVertex
    (vrts.map (fun vrt => writtenRecord printed d uninitialized aaIndEDGE aaIndFACE
      (hanging vrt).get_parent (pos vrt) (lc vrt))) st
  rw [List.length_map] at h1 h2
  refine ⟨rfl, rfl, _, create_constrained_vertices_written printed s d hs hd uninitialized
    vrts hanging aaPos aaIndEDGE aaIndFACE pos lc hfin hdim hE hF st, h1, h2, ?_, ?_, h6⟩
  · rw [h3]
    simp
  · intro j hj
    have hrec : (vrts.map (fun vrt => writtenRecord printed d uninitialized aaIndEDGE
        aaIndFACE (hanging vrt).get_parent (pos vrt) (lc vrt)))[j]? =
        some (writtenRecord printed d uninitialized aaIndEDGE aaIndFACE
          (hanging vrts[j]).get_parent (pos vrts[j]) (lc vrts[j])) := by
      rw [List.getElem?_map, List.getElem?_eq_getElem hj]
      rfl
    obtain ⟨hpos, hlc⟩ := h4 j _ hrec
    have hpair : (List.foldl createHangingVertex st (vrts.map (fun vrt =>
        writtenRecord printed d uninitialized aaIndEDGE aaIndFACE (hanging vrt).get_parent
          (pos vrt) (lc vrt)))).constrainingObjsVRT[
          st.constrainingObjsVRT.length + j]? =
        some ((writtenRecord printed d uninitialized aaIndEDGE aaIndFACE
          (hanging vrts[j]).get_parent (pos vrts[j]) (lc vrts[j])).conObjType,
          (writtenRecord printed d uninitialized aaIndEDGE aaIndFACE
            (hanging vrts[j]).get_parent (pos vrts[j]) (lc vrts[j])).conObjIndex) := by
      rw [h3, List.getElem?_append_right (by omega), Nat.add_sub_cancel_left, List.map_map,
        List.getElem?_map, List.getElem?_eq_getElem hj]
      rfl
    rw [hpos, hlc, hpair]
    refine ⟨?_, ?_, ?_, ?_⟩
    · unfold writtenRecord
      split <;> rfl
    · intro ce hce
      have hw : writtenRecord printed d uninitialized aaIndEDGE aaIndFACE
          (hanging vrts[j]).get_parent (pos vrts[j]) (lc vrts[j]) =
          { v := convertTuple d ((pos vrts[j]).map printed)
            conObjType := 1
            conObjIndex := aaIndEDGE ce
            localCoords := (printed (lc vrts[j]).1, 0) } := by
        unfold writtenRecord
        simp only [hce]
      rw [hw]
      exact ⟨rfl, rfl, fun h => h⟩
    · intro cf hcf
      have hw : writtenRecord printed d uninitialized aaIndEDGE aaIndFACE
          (hanging vrts[j]).get_parent (pos vrts[j]) (lc vrts[j]) =
          { v := convertTuple d ((pos vrts[j]).map printed)
            conObjType := 2
            conObjIndex := aaIndFACE cf
            localCoords := (printed (lc vrts[j]).1, printed (lc vrts[j]).2) } := by
        unfold writtenRecord
        simp only [hcf]
      rw [hw]
      refine ⟨rfl, rfl, fun ha hb => ?_⟩
      show (printed (lc vrts[j]).1, printed (lc vrts[j]).2) = lc vrts[j]
      rw [ha, hb]
    · intro hn
      have hw : writtenRecord printed d uninitialized aaIndEDGE aaIndFACE
          (hanging vrts[j]).get_parent (pos vrts[j]) (lc vrts[j]) =
          { v := convertTuple d ((pos vrts[j]).map printed)
            conObjType := -1
            conObjIndex := uninitialized
            localCoords := (0, 0) } := by
        unfold writtenRecord
        simp only [hn]
      rw [hw]
      exact ⟨_, rfl⟩

/-- Witness of the amended C16: the hanging vertices 2 and 3 of the example grid, written
with two coordinates and read into positions with three coordinates. -/
theorem C16_constrained_vertex_record_round_trip_witness :
    1 ≤ 2 ∧ 1 ≤ 3 ∧
    (∀ vrt ∈ ([2, 3] : List Nat), WrittenFinite (exampleWriterGrid.writtenPos vrt)
      (exampleWriterGrid.writtenHanging vrt) (exampleWriterGrid.aaPos vrt)
      (exampleWriterGrid.local_coordinates vrt)) ∧
    (∀ vrt ∈ ([2, 3] : List Nat), (exampleWriterGrid.aaPos vrt).length = 2) ∧
    IsIntAttachment exampleIndices ∧ IsIntAttachment exampleIndices ∧
    (GridWriterUGX.create_constrained_vertex_node sixDecimals 2 [2, 3]
      exampleWriterGrid.writtenHanging exampleWriterGrid.writtenPos
      exampleIndices exampleIndices).name = "constrained_vertices" ∧
    (GridWriterUGX.create_constrained_vertex_node sixDecimals 2 [2, 3]
      exampleWriterGrid.writtenHanging exampleWriterGrid.writtenPos
      exampleIndices exampleIndices).coords = some ((2 : Nat) : Int) ∧
    ∃ st1, GridReaderUGX.create_constrained_vertices 3 0 (ReaderState.start emptyGridData)
        (GridWriterUGX.create_constrained_vertex_node sixDecimals 2 [2, 3]
          exampleWriterGrid.writtenHanging exampleWriterGrid.writtenPos
          exampleIndices exampleIndices) = some (true, st1) ∧
      st1.grid.vertices = (ReaderState.start emptyGridData).grid.vertices ++
        List.replicate ([2, 3] : List Nat).length ObjectType.HangingVertex ∧
      st1.vertices = (ReaderState.start emptyGridData).vertices ++
        List.range' (ReaderState.start emptyGridData).grid.vertices.length ([2, 3] : List Nat).length ∧
      st1.constrainingObjsVRT.length =
        (ReaderState.start emptyGridData).constrainingObjsVRT.length + ([2, 3] : List Nat).length ∧
      (∀ j (hj : j < ([2, 3] : List Nat).length),
        st1.grid.aaPos ((ReaderState.start emptyGridData).grid.vertices.length + j) =
          convertTuple 3 ((exampleWriterGrid.aaPos ([2, 3] : List Nat)[j]).map sixDecimals) ∧
        (∀ ce, (exampleWriterGrid.writtenHanging ([2, 3] : List Nat)[j]).get_parent =
            some (ConstrainingObject.edge ce) →
          st1.constrainingObjsVRT[(ReaderState.start emptyGridData).constrainingObjsVRT.length + j]? =
            some (1, exampleIndices ce) ∧
          (st1.grid.local_coordinates ((ReaderState.start emptyGridData).grid.vertices.length + j)).1 =
            sixDecimals (exampleWriterGrid.local_coordinates ([2, 3] : List Nat)[j]).1 ∧
          (sixDecimals (exampleWriterGrid.local_coordinates ([2, 3] : List Nat)[j]).1 =
              (exampleWriterGrid.local_coordinates ([2, 3] : List Nat)[j]).1 →
            (st1.grid.local_coordinates ((ReaderState.start emptyGridData).grid.vertices.length + j)).1 =
              (exampleWriterGrid.local_coordinates ([2, 3] : List Nat)[j]).1)) ∧
        (∀ cf, (exampleWriterGrid.writtenHanging ([2, 3] : List Nat)[j]).get_parent =
            some (ConstrainingObject.face cf) →
          st1.constrainingObjsVRT[(ReaderState.start emptyGridData).constrainingObjsVRT.length + j]? =
            some (2, exampleIndices cf) ∧
          st1.grid.local_coordinates ((ReaderState.start emptyGridData).grid.vertices.length + j) =
            (sixDecimals (exampleWriterGrid.local_coordinates ([2, 3] : List Nat)[j]).1,
              sixDecimals (exampleWriterGrid.local_coordinates ([2, 3] : List Nat)[j]).2) ∧
          (sixDecimals (exampleWriterGrid.local_coordinates ([2, 3] : List Nat)[j]).1 =
              (exampleWriterGrid.local_coordinates ([2, 3] : List Nat)[j]).1 →
            sixDecimals (exampleWriterGrid.local_coordinates ([2, 3] : List Nat)[j]).2 =
              (exampleWriterGrid.local_coordinates ([2, 3] : List Nat)[j]).2 →
            st1.grid.local_coordinates ((ReaderState.start emptyGridData).grid.vertices.length + j) =
              exampleWriterGrid.local_coordinates ([2, 3] : List Nat)[j])) ∧
        ((exampleWriterGrid.writtenHanging ([2, 3] : List Nat)[j]).get_parent = none →
          ∃ index, st1.constrainingObjsVRT[(ReaderState.start emptyGridData).constrainingObjsVRT.length + j]? =
            some (-1, index))) ∧
      st1 = { (ReaderState.start emptyGridData) with
        grid := { (ReaderState.start emptyGridData).grid with
          vertices := st1.grid.vertices
          aaPos := st1.grid.aaPos
          local_coordinates := st1.grid.local_coordinates }
        vertices := st1.vertices
        constrainingObjsVRT := st1.constrainingObjsVRT } :=
  ⟨by decide, by decide, fun vrt _ => writtenFinite_of_grid exampleWriterGrid vrt, by decide,
    exampleIndices_isInt, exampleIndices_isInt,
    C16_constrained_vertex_record_round_trip sixDecimals 2 3 (by decide) (by decide) 0
      [2, 3] exampleWriterGrid.writtenHanging exampleWriterGrid.writtenPos exampleIndices
      exampleIndices exampleWriterGrid.aaPos exampleWriterGrid.local_coordinates
      (fun vrt _ => writtenFinite_of_grid exampleWriterGrid vrt) (by decide)
      exampleIndices_isInt exampleIndices_isInt (ReaderState.start emptyGridData)⟩

/-- Counterexample to C16 as stated: the hanging vertex 3 of the example grid has an edge
as its parent and the local coordinate 1/3, a finite value. The writer prints six digits,
0.333333; the reader creates one hanging vertex with the type code 1 and the index 0, as
written, but with the local coordinate 333333/1000000, which is not the written one. -/
theorem C16_counterexample :
    (exampleWriterGrid.writtenHanging 3).get_parent = some (ConstrainingObject.edge 0) ∧
    (exampleWriterGrid.writtenHanging 3).get_local_coordinate_1 = Number.finite (1 / 3) ∧
    sixDecimals (1 / 3) = 333333 / 1000000 ∧
    ∃ st1, GridReaderUGX.create_constrained_vertices 2 0 (ReaderState.start emptyGridData)
        (GridWriterUGX.create_constrained_vertex_node sixDecimals 2 [3]
          exampleWriterGrid.writtenHanging exampleWriterGrid.writtenPos
          exampleIndices exampleIndices) = some (true, st1) ∧
      st1.grid.vertices = [ObjectType.HangingVertex] ∧
      st1.constrainingObjsVRT = [(1, 0)] ∧
      (st1.grid.local_coordinates 0).1 = 333333 / 1000000 ∧
      Number.finite (st1.grid.local_coordinates 0).1 ≠
        (exampleWriterGrid.writtenHanging 3).get_local_coordinate_1 := by
  have hw : writtenRecord sixDecimals 2 0 exampleIndices exampleIndices
      (exampleWriterGrid.writtenHanging 3).get_parent (exampleWriterGrid.aaPos 3)
      (exampleWriterGrid.local_coordinates 3) =
      { v := convertTuple 2 ((exampleWriterGrid.aaPos 3).map sixDecimals)
        conObjType := 1
        conObjIndex := 0
        localCoords := (333333 / 1000000, 0) } := by
    have hl : (exampleWriterGrid.local_coordinates 3).1 = 1 / 3 := rfl
    have hc : (exampleWriterGrid.writtenHanging 3).get_parent =
        some (ConstrainingObject.edge 0) := rfl
    unfold writtenRecord
    simp only [hc, hl, sixDecimals_third]
    rfl
  refine ⟨rfl, rfl, sixDecimals_third, _,
    create_constrained_vertices_written sixDecimals 2 2 (by decide) (by decide) 0
      [3] exampleWriterGrid.writtenHanging exampleWriterGrid.writtenPos exampleIndices
      exampleIndices exampleWriterGrid.aaPos exampleWriterGrid.local_coordinates
      (fun vrt _ => writtenFinite_of_grid exampleWriterGrid vrt) (by decide)
      exampleIndices_isInt exampleIndices_isInt (ReaderState.start emptyGridData), ?_, ?_, ?_, ?_⟩
  · simp only [List.map_cons, List.map_nil, List.foldl_cons, List.foldl_nil, hw]
    rfl
  · simp only [List.map_cons, List.map_nil, List.foldl_cons, List.foldl_nil, hw]
    rfl
  · simp only [List.map_cons, List.map_nil, List.foldl_cons, List.foldl_nil, hw]
    simp [createHangingVertex, ReaderState.start, emptyGridData]
  · simp only [List.map_cons, List.map_nil, List.foldl_cons, List.foldl_nil, hw]
    simp [createHangingVertex, ReaderState.start, emptyGridData, exampleWriterGrid,
      GridData.writtenHanging]
    norm_num

/-! ## The reader of constrained vertices returns -/

theorem length_skipBlanks_le (r : List Piece) : (skipBlanks r).length ≤ r.length := by
  induction r with
  | nil => simp [skipBlanks]
  | cons p r ih =>
    cases p with
    | text t => simp [skipBlanks]
    | blank =>
      simp only [skipBlanks, List.length_cons]
      omega

theorem extractNumber_rest_le (ss : StringStream) :
    ss.extractNumber.1.rest.length ≤ ss.rest.length := by
  have h := length_skipBlanks_le ss.rest
  unfold StringStream.extractNumber
  split_ifs
  · exact Nat.le_refl _
  · split
    · simp
    · next heq => rw [heq] at h; simp only [List.length_cons] at h ⊢; omega
    · exact h

theorem extractNumber_rest_lt (ss : StringStream) (hf : ss.extractNumber.1.failbit = false) :
    ss.extractNumber.1.rest.length < ss.rest.length := by
  have h := length_skipBlanks_le ss.rest
  unfold StringStream.extractNumber at hf ⊢
  by_cases hb : (ss.eofbit || ss.failbit) = true
  · simp [hb] at hf
  · simp only [hb, Bool.false_eq_true, if_false] at hf ⊢
    split at hf
    · simp at hf
    · next heq =>
      rw [heq] at h
      simp only [heq, List.length_cons] at h ⊢
      omega
    · simp at hf

theorem extractInt_rest_le (ss : StringStream) :
    ss.extractInt.1.rest.length ≤ ss.rest.length := by
  have h := length_skipBlanks_le ss.rest
  unfold StringStream.extractInt
  split_ifs
  · exact Nat.le_refl _
  · split
    · simp
    · next heq =>
      rw [heq] at h
      simp only [List.length_cons] at h
      split <;> simp only <;> omega
    · exact h

theorem extractNumbers_rest_le (n : Nat) (ss : StringStream) :
    (StringStream.extractNumbers n ss).1.rest.length ≤ ss.rest.length := by
  induction n generalizing ss with
  | zero => exact Nat.le_refl _
  | succ n ih =>
    simp only [StringStream.extractNumbers]
    exact Nat.le_trans (ih _) (extractNumber_rest_le ss)

theorem extractNumbers_rest_lt (n : Nat) (hn : 0 < n) (ss : StringStream)
    (hf : (StringStream.extractNumbers n ss).1.failbit = false) :
    (StringStream.extractNumbers n ss).1.rest.length < ss.rest.length := by
  obtain ⟨m, rfl⟩ : ∃ m, n = m + 1 := ⟨n - 1, by omega⟩
  simp only [StringStream.extractNumbers] at hf ⊢
  have h1 : ss.extractNumber.1.failbit = false := by
    cases h : ss.extractNumber.1.failbit with
    | false => rfl
    | true => rw [extractNumbers_failbit m _ h] at hf; exact absurd hf (by simp)
  exact Nat.lt_of_le_of_lt (extractNumbers_rest_le m _) (extractNumber_rest_lt ss h1)

theorem readConvertedTuple_rest_le (s d : Nat) (ss : StringStream) :
    (readConvertedTuple s d ss).1.rest.length ≤ ss.rest.length := by
  unfold readConvertedTuple
  exact Nat.le_trans (extractNumbers_rest_le _ _) (extractNumbers_rest_le _ _)

theorem readConvertedTuple_failbit (s d : Nat) (ss : StringStream) (h : ss.failbit = true) :
    (readConvertedTuple s d ss).1.failbit = true := by
  unfold readConvertedTuple
  exact extractNumbers_failbit _ _ (extractNumbers_failbit _ _ h)

theorem readConvertedTuple_rest_lt (s d : Nat) (hs : 1 ≤ s) (hd : 1 ≤ d) (ss : StringStream)
    (hf : (readConvertedTuple s d ss).1.failbit = false) :
    (readConvertedTuple s d ss).1.rest.length < ss.rest.length := by
  unfold readConvertedTuple at hf ⊢
  simp only at hf ⊢
  have h1 : (StringStream.extractNumbers (min s d) ss).1.failbit = false := by
    cases h : (StringStream.extractNumbers (min s d) ss).1.failbit with
    | false => rfl
    | true => rw [extractNumbers_failbit _ _ h] at hf; exact absurd hf (by simp)
  exact Nat.lt_of_le_of_lt (extractNumbers_rest_le _ _)
    (extractNumbers_rest_lt (min s d) (by omega) ss h1)

/-- A property of the stream that holds after the type code was read and is kept by every
extraction holds after the record of a hanging vertex was read. -/
theorem readConstrainedVertex_stream (s d : Nat) (uninitialized : Int) (ss : StringStream)
    (Q : StringStream → Prop) (h0 : Q (readConvertedTuple s d ss).1.extractInt.1)
    (hN : ∀ x, Q x → Q x.extractNumber.1) (hI : ∀ x, Q x → Q x.extractInt.1) :
    Q (readConstrainedVertex s d uninitialized ss).1 := by
  unfold readConstrainedVertex
  simp only
  split_ifs
  all_goals first
    | exact hN _ (hN _ (hI _ h0))
    | exact hN _ (hN _ h0)
    | exact hN _ (hI _ h0)
    | exact hN _ h0
    | exact hI _ h0
    | exact h0

/-- A hanging vertex that is read takes text from the stream. -/
theorem readConstrainedVertex_rest_lt (s d : Nat) (hs : 1 ≤ s) (hd : 1 ≤ d)
    (uninitialized : Int) (ss : StringStream)
    (hf : (readConstrainedVertex s d uninitialized ss).1.failbit = false) :
    (readConstrainedVertex s d uninitialized ss).1.rest.length < ss.rest.length := by
  have hle : (readConstrainedVertex s d uninitialized ss).1.rest.length ≤
      (readConvertedTuple s d ss).1.rest.length :=
    readConstrainedVertex_stream s d uninitialized ss
      (fun x => x.rest.length ≤ (readConvertedTuple s d ss).1.rest.length)
      (extractInt_rest_le _)
      (fun x hx => Nat.le_trans (extractNumber_rest_le x) hx)
      (fun x hx => Nat.le_trans (extractInt_rest_le x) hx)
  have h1 : (readConvertedTuple s d ss).1.failbit = false := by
    cases h : (readConvertedTuple s d ss).1.failbit with
    | false => rfl
    | true =>
      exfalso
      have : (readConstrainedVertex s d uninitialized ss).1.failbit = true :=
        readConstrainedVertex_stream s d uninitialized ss (fun x => x.failbit = true)
          (extractInt_failbit _ h) (fun x hx => extractNumber_failbit x hx)
          (fun x hx => extractInt_failbit x hx)
      rw [this] at hf
      exact absurd hf (by simp)
  exact Nat.lt_of_le_of_lt hle (readConvertedTuple_rest_lt s d hs hd ss h1)

/-- The loop of a reader ends if every record read takes text from the stream; what it
stores is a sequence of records. -/
theorem readLoop_total {α σ : Type} (read : StringStream → StringStream × α)
    (store : σ → α → σ)
    (hdec : ∀ ss, (read ss).1.failbit = false → (read ss).1.rest.length < ss.rest.length)
    (fuel : Nat) (ss : StringStream) (hfuel : ss.rest.length < fuel) (st : σ) :
    ∃ recs : List α, readLoop read store fuel ss st = some (recs.foldl store st) := by
  induction fuel generalizing ss st with
  | zero => omega
  | succ f ih =>
    unfold readLoop
    by_cases he : ss.eof = true
    · exact ⟨[], by simp [he]⟩
    · by_cases hfl : (read ss).1.fail = true
      · exact ⟨[], by simp [he, hfl]⟩
      · have hf : (read ss).1.failbit = false := by
          unfold StringStream.fail at hfl
          simpa using hfl
        obtain ⟨recs, hrecs⟩ := ih (read ss).1 (by have := hdec ss hf; omega)
          (store st (read ss).2)
        exact ⟨(read ss).2 :: recs, by simp [he, hfl, hrecs]⟩

/-- The function `create_constrained_vertices` returns for every text: with a `coords`
attribute of at least 1 it returns true and has created a sequence of hanging vertices,
otherwise it returns false and has created nothing. -/
theorem create_constrained_vertices_total (d : Nat) (hd : 1 ≤ d) (uninitialized : Int)
    (st : ReaderState) (vrtNode : XmlNode) :
    (coordsMissing vrtNode = true ∧
      GridReaderUGX.create_constrained_vertices d uninitialized st vrtNode =
        some (false, st)) ∨
    (coordsMissing vrtNode = false ∧ ∃ recs : List HangingVertexRecord,
      GridReaderUGX.create_constrained_vertices d uninitialized st vrtNode =
        some (true, recs.foldl createHangingVertex st)) := by
  have h0 : ¬ d = 0 := by omega
  unfold GridReaderUGX.create_constrained_vertices coordsMissing
  cases hc : vrtNode.coords with
  | none => exact Or.inl ⟨rfl, by simp [h0]⟩
  | some n =>
    by_cases hn : n < 1
    · exact Or.inl ⟨by simp [hn], by simp [h0, hn]⟩
    · refine Or.inr ⟨by simp [hn], ?_⟩
      obtain ⟨recs, hrecs⟩ := readLoop_total (readConstrainedVertex n.toNat d uninitialized)
        createHangingVertex
        (fun ss hf => readConstrainedVertex_rest_lt n.toNat d (by omega) hd uninitialized ss hf)
        (vrtNode.value.length + 1) (StringStream.ofString vrtNode.value)
        (by simp [StringStream.ofString]) st
      exact ⟨recs, by simp [h0, hn, hrecs]⟩

/-! ## The state of the reader while it reads the blocks -/

theorem ReaderInv_start (grid0 : GridData) (options : Nat) :
    ReaderInv grid0 (ReaderState.start { grid0 with options := options }) :=
  ⟨⟨[], by simp [ReaderState.start], rfl⟩, ⟨[], by simp [ReaderState.start], rfl⟩,
    ⟨[], by simp [ReaderState.start], rfl, rfl⟩, rfl, rfl, rfl⟩

theorem count_replicate_of_ne (n : Nat) (a b : ObjectType) (h : a ≠ b) :
    (List.replicate n a).count b = 0 := by
  rw [List.count_replicate]
  simp [h]

theorem ReaderInv_foldl_createVertex (grid0 : GridData) (st : ReaderState)
    (tuples : List (List number)) (hinv : ReaderInv grid0 st) :
    ReaderInv grid0 (tuples.foldl createVertex st) := by
  obtain ⟨h1, -, -, -, h5⟩ := foldl_createVertex tuples st
  obtain ⟨⟨nv, hv1, hv2⟩, he, hf, hl1, hl2, hl3⟩ := hinv
  have hE : (tuples.foldl createVertex st).grid.edges = st.grid.edges :=
    congrArg (fun s => s.grid.edges) h5
  have hF : (tuples.foldl createVertex st).grid.faces = st.grid.faces :=
    congrArg (fun s => s.grid.faces) h5
  have hp1 : (tuples.foldl createVertex st).constrainingObjsVRT = st.constrainingObjsVRT :=
    congrArg (fun s => s.constrainingObjsVRT) h5
  have hp2 : (tuples.foldl createVertex st).constrainingObjsEDGE = st.constrainingObjsEDGE :=
    congrArg (fun s => s.constrainingObjsEDGE) h5
  have hp3 : (tuples.foldl createVertex st).constrainingObjsTRI = st.constrainingObjsTRI :=
    congrArg (fun s => s.constrainingObjsTRI) h5
  have hp4 : (tuples.foldl createVertex st).constrainingObjsQUAD = st.constrainingObjsQUAD :=
    congrArg (fun s => s.constrainingObjsQUAD) h5
  have hk1 : (tuples.foldl createVertex st).grid.vertexLinks = st.grid.vertexLinks :=
    congrArg (fun s => s.grid.vertexLinks) h5
  have hk2 : (tuples.foldl createVertex st).grid.edgeLinks = st.grid.edgeLinks :=
    congrArg (fun s => s.grid.edgeLinks) h5
  have hk3 : (tuples.foldl createVertex st).grid.faceLinks = st.grid.faceLinks :=
    congrArg (fun s => s.grid.faceLinks) h5
  refine ⟨⟨nv ++ List.replicate tuples.length ObjectType.Vertex, ?_, ?_⟩, ?_, ?_, ?_, ?_, ?_⟩
  · rw [h1, hv1, List.append_assoc]
  · rw [hp1, hv2, List.count_append, count_replicate_of_ne _ _ _ (by decide)]
    rfl
  · rw [hE, hp2]; exact he
  · rw [hF, hp3, hp4]; exact hf
  · rw [hk1]; exact hl1
  · rw [hk2]; exact hl2
  · rw [hk3]; exact hl3

theorem ReaderInv_foldl_createHangingVertex (grid0 : GridData) (st : ReaderState)
    (recs : List HangingVertexRecord) (hinv : ReaderInv grid0 st) :
    ReaderInv grid0 (recs.foldl createHangingVertex st) := by
  obtain ⟨h1, -, h3, -, -, h6⟩ := foldl_createHangingVertex recs st
  obtain ⟨⟨nv, hv1, hv2⟩, he, hf, hl1, hl2, hl3⟩ := hinv
  have hE : (recs.foldl createHangingVertex st).grid.edges = st.grid.edges :=
    congrArg (fun s => s.grid.edges) h6
  have hF : (recs.foldl createHangingVertex st).grid.faces = st.grid.faces :=
    congrArg (fun s => s.grid.faces) h6
  have hp2 : (recs.foldl createHangingVertex st).constrainingObjsEDGE =
      st.constrainingObjsEDGE := congrArg (fun s => s.constrainingObjsEDGE) h6
  have hp3 : (recs.foldl createHangingVertex st).constrainingObjsTRI =
      st.constrainingObjsTRI := congrArg (fun s => s.constrainingObjsTRI) h6
  have hp4 : (recs.foldl createHangingVertex st).constrainingObjsQUAD =
      st.constrainingObjsQUAD := congrArg (fun s => s.constrainingObjsQUAD) h6
  have hk1 : (recs.foldl createHangingVertex st).grid.vertexLinks = st.grid.vertexLinks :=
    congrArg (fun s => s.grid.vertexLinks) h6
  have hk2 : (recs.foldl createHangingVertex st).grid.edgeLinks = st.grid.edgeLinks :=
    congrArg (fun s => s.grid.edgeLinks) h6
  have hk3 : (recs.foldl createHangingVertex st).grid.faceLinks = st.grid.faceLinks :=
    congrArg (fun s => s.grid.faceLinks) h6
  refine ⟨⟨nv ++ List.replicate recs.length ObjectType.HangingVertex, ?_, ?_⟩,
    ?_, ?_, ?_, ?_, ?_⟩
  · rw [h1, hv1, List.append_assoc]
  · rw [h3, List.length_append, List.length_map, hv2, List.count_append,
      List.count_replicate_self]
  · rw [hE, hp2]; exact he
  · rw [hF, hp3, hp4]; exact hf
  · rw [hk1]; exact hl1
  · rw [hk2]; exact hl2
  · rw [hk3]; exact hl3

theorem ReaderInv_createEdges (grid0 : GridData) (st : ReaderState) (node : XmlNode)
    (type : ObjectType) (ht : type ≠ ObjectType.ConstrainedEdge) (hinv : ReaderInv grid0 st) :
    ReaderInv grid0 (createEdges type st node).2 := by
  obtain ⟨hv, ⟨ne, he1, he2⟩, hf, hl1, hl2, hl3⟩ := hinv
  refine ⟨hv, ⟨ne ++ List.replicate node.numElements type, ?_, ?_⟩, hf, hl1, hl2, hl3⟩
  · show st.grid.edges ++ _ = _
    rw [he1, List.append_assoc]
  · show st.constrainingObjsEDGE.length = _
    rw [he2, List.count_append, count_replicate_of_ne _ _ _ ht]
    rfl

theorem ReaderInv_createConstrainedEdges (grid0 : GridData) (st : ReaderState)
    (node : XmlNode) (hinv : ReaderInv grid0 st) :
    ReaderInv grid0 (createConstrainedEdges st node).2 := by
  obtain ⟨hv, ⟨ne, he1, he2⟩, hf, hl1, hl2, hl3⟩ := hinv
  refine ⟨hv, ⟨ne ++ List.replicate node.constrainingObjs.length ObjectType.ConstrainedEdge,
    ?_, ?_⟩, hf, hl1, hl2, hl3⟩
  · show st.grid.edges ++ _ = _
    rw [he1, List.append_assoc]
  · show (st.constrainingObjsEDGE ++ node.constrainingObjs).length = _
    rw [List.length_append, he2, List.count_append, List.count_replicate_self]

theorem ReaderInv_createFaces (grid0 : GridData) (st : ReaderState) (node : XmlNode)
    (type : ObjectType) (ht1 : type ≠ ObjectType.ConstrainedTriangle)
    (ht2 : type ≠ ObjectType.ConstrainedQuadrilateral) (hinv : ReaderInv grid0 st) :
    ReaderInv grid0 (createFaces type st node).2 := by
  obtain ⟨hv, he, ⟨nf, hf1, hf2, hf3⟩, hl1, hl2, hl3⟩ := hinv
  refine ⟨hv, he, ⟨nf ++ List.replicate node.numElements type, ?_, ?_, ?_⟩, hl1, hl2, hl3⟩
  · show st.grid.faces ++ _ = _
    rw [hf1, List.append_assoc]
  · show st.constrainingObjsTRI.length = _
    rw [hf2, List.count_append, count_replicate_of_ne _ _ _ ht1]
    rfl
  · show st.constrainingObjsQUAD.length = _
    rw [hf3, List.count_append, count_replicate_of_ne _ _ _ ht2]
    rfl

theorem ReaderInv_createConstrainedTriangles (grid0 : GridData) (st : ReaderState)
    (node : XmlNode) (hinv : ReaderInv grid0 st) :
    ReaderInv grid0 (createConstrainedTriangles st node).2 := by
  obtain ⟨hv, he, ⟨nf, hf1, hf2, hf3⟩, hl1, hl2, hl3⟩ := hinv
  refine ⟨hv, he, ⟨nf ++ List.replicate node.constrainingObjs.length
    ObjectType.ConstrainedTriangle, ?_, ?_, ?_⟩, hl1, hl2, hl3⟩
  · show st.grid.faces ++ _ = _
    rw [hf1, List.append_assoc]
  · show (st.constrainingObjsTRI ++ node.constrainingObjs).length = _
    rw [List.length_append, hf2, List.count_append, List.count_replicate_self]
  · show st.constrainingObjsQUAD.length = _
    rw [hf3, List.count_append, count_replicate_of_ne _ _ _ (by decide)]
    rfl

theorem ReaderInv_createConstrainedQuadrilaterals (grid0 : GridData) (st : ReaderState)
    (node : XmlNode) (hinv : ReaderInv grid0 st) :
    ReaderInv grid0 (createConstrainedQuadrilaterals st node).2 := by
  obtain ⟨hv, he, ⟨nf, hf1, hf2, hf3⟩, hl1, hl2, hl3⟩ := hinv
  refine ⟨hv, he, ⟨nf ++ List.replicate node.constrainingObjs.length
    ObjectType.ConstrainedQuadrilateral, ?_, ?_, ?_⟩, hl1, hl2, hl3⟩
  · show st.grid.faces ++ _ = _
    rw [hf1, List.append_assoc]
  · show st.constrainingObjsTRI.length = _
    rw [hf2, List.count_append, count_replicate_of_ne _ _ _ (by decide)]
    rfl
  · show (st.constrainingObjsQUAD ++ node.constrainingObjs).length = _
    rw [List.length_append, hf3, List.count_append, List.count_replicate_self]

theorem ReaderInv_createVolumes (grid0 : GridData) (st : ReaderState) (node : XmlNode)
    (hinv : ReaderInv grid0 st) : ReaderInv grid0 (createVolumes st node).2 := hinv

/-! ## The function get_grid returns -/

theorem blockReadFails_block (node : XmlNode) (h1 : ¬ node.name = "vertices")
    (h2 : ¬ node.name = "constrained_vertices")
    (h : node.name = "edges" ∨ node.name = "constraining_edges" ∨
      node.name = "constrained_edges" ∨ node.name = "triangles" ∨
      node.name = "constraining_triangles" ∨ node.name = "constrained_triangles" ∨
      node.name = "quadrilaterals" ∨ node.name = "constraining_quadrilaterals" ∨
      node.name = "constrained_quadrilaterals" ∨ node.name = "tetrahedrons" ∨
      node.name = "hexahedrons" ∨ node.name = "prisms" ∨ node.name = "pyramids") :
    (!blockReadFails node) = node.elementsRead := by
  unfold blockReadFails
  rw [if_neg h1, if_neg h2, if_pos h, Bool.not_not]

theorem blockReadFails_other (node : XmlNode) (h1 : ¬ node.name = "vertices")
    (h2 : ¬ node.name = "constrained_vertices")
    (h : ¬ (node.name = "edges" ∨ node.name = "constraining_edges" ∨
      node.name = "constrained_edges" ∨ node.name = "triangles" ∨
      node.name = "constraining_triangles" ∨ node.name = "constrained_triangles" ∨
      node.name = "quadrilaterals" ∨ node.name = "constraining_quadrilaterals" ∨
      node.name = "constrained_quadrilaterals" ∨ node.name = "tetrahedrons" ∨
      node.name = "hexahedrons" ∨ node.name = "prisms" ∨ node.name = "pyramids")) :
    (!blockReadFails node) = true := by
  unfold blockReadFails
  rw [if_neg h1, if_neg h2, if_neg h]
  rfl

/-- The body of the loop over the children returns, with `bSuccess` false exactly for a
block whose reader fails, and keeps the state of the reader in order. -/
theorem readNode_spec (d : Nat) (hd : 1 ≤ d) (uninitialized : Int) (grid0 : GridData)
    (st : ReaderState) (node : XmlNode) (hinv : ReaderInv grid0 st) :
    ∃ st1, readNode d uninitialized st node = some (!blockReadFails node, st1) ∧
      ReaderInv grid0 st1 := by
  by_cases h1 : node.name = "vertices"
  · have hb : blockReadFails node = coordsMissing node := by
      unfold blockReadFails
      rw [if_pos h1]
    have hr : readNode d uninitialized st node =
        GridReaderUGX.create_vertices d st node := by
      unfold readNode
      simp only [h1, if_true]
    rw [hr, hb]
    cases hc : node.coords with
    | none =>
      refine ⟨st, ?_, hinv⟩
      rw [create_vertices_bad_coords d hd st node (Or.inl hc)]
      simp [coordsMissing, hc]
    | some n =>
      by_cases hn : n < 1
      · refine ⟨st, ?_, hinv⟩
        rw [create_vertices_bad_coords d hd st node (Or.inr ⟨n, hc, hn⟩)]
        simp [coordsMissing, hc, hn]
      · have hn1 : node.coords = some ((n.toNat : Nat) : Int) := by
          rw [hc]
          congr 1
          omega
        refine ⟨_, ?_, ReaderInv_foldl_createVertex grid0 st
          ((completeTuples n.toNat (leadingNumbers (tokens node.value))).map
            (convertTuple d)) hinv⟩
        rw [create_vertices_eq n.toNat d (by omega) hd st node hn1]
        simp [coordsMissing, hc, hn]
  by_cases h2 : node.name = "constrained_vertices"
  · have hb : blockReadFails node = coordsMissing node := by
      unfold blockReadFails
      rw [if_neg h1, if_pos h2]
    have hr : readNode d uninitialized st node =
        GridReaderUGX.create_constrained_vertices d uninitialized st node := by
      unfold readNode
      simp only [h2, String.reduceEq, if_true, if_false]
    rw [hr, hb]
    rcases create_constrained_vertices_total d hd uninitialized st node with
      ⟨hm, hr2⟩ | ⟨hm, recs, hr2⟩
    · exact ⟨st, by rw [hr2, hm]; rfl, hinv⟩
    · exact ⟨_, by rw [hr2, hm]; rfl, ReaderInv_foldl_createHangingVertex grid0 st recs hinv⟩
  by_cases h : node.name = "edges" ∨ node.name = "constraining_edges" ∨
      node.name = "constrained_edges" ∨ node.name = "triangles" ∨
      node.name = "constraining_triangles" ∨ node.name = "constrained_triangles" ∨
      node.name = "quadrilaterals" ∨ node.name = "constraining_quadrilaterals" ∨
      node.name = "constrained_quadrilaterals" ∨ node.name = "tetrahedrons" ∨
      node.name = "hexahedrons" ∨ node.name = "prisms" ∨ node.name = "pyramids"
  · rw [blockReadFails_block node h1 h2 h]
    unfold readNode
    simp only [h1, h2, if_false]
    rcases h with h | h | h | h | h | h | h | h | h | h | h | h | h
    · simp only [h, if_true]
      exact ⟨_, rfl, ReaderInv_createEdges grid0 st node _ (by decide) hinv⟩
    · simp only [h, String.reduceEq, if_true, if_false]
      exact ⟨_, rfl, ReaderInv_createEdges grid0 st node _ (by decide) hinv⟩
    · simp only [h, String.reduceEq, if_true, if_false]
      exact ⟨_, rfl, ReaderInv_createConstrainedEdges grid0 st node hinv⟩
    · simp only [h, String.reduceEq, if_true, if_false]
      exact ⟨_, rfl, ReaderInv_createFaces grid0 st node _ (by decide) (by decide) hinv⟩
    · simp only [h, String.reduceEq, if_true, if_false]
      exact ⟨_, rfl, ReaderInv_createFaces grid0 st node _ (by decide) (by decide) hinv⟩
    · simp only [h, String.reduceEq, if_true, if_false]
      exact ⟨_, rfl, ReaderInv_createConstrainedTriangles grid0 st node hinv⟩
    · simp only [h, String.reduceEq, if_true, if_false]
      exact ⟨_, rfl, ReaderInv_createFaces grid0 st node _ (by decide) (by decide) hinv⟩
    · simp only [h, String.reduceEq, if_true, if_false]
      exact ⟨_, rfl, ReaderInv_createFaces grid0 st node _ (by decide) (by decide) hinv⟩
    · simp only [h, String.reduceEq, if_true, if_false]
      exact ⟨_, rfl, ReaderInv_createConstrainedQuadrilaterals grid0 st node hinv⟩
    · simp only [h, String.reduceEq, if_true, if_false]
      exact ⟨_, rfl, ReaderInv_createVolumes grid0 st node hinv⟩
    · simp only [h, String.reduceEq, if_true, if_false]
      exact ⟨_, rfl, ReaderInv_createVolumes grid0 st node hinv⟩
    · simp only [h, String.reduceEq, if_true, if_false]
      exact ⟨_, rfl, ReaderInv_createVolumes grid0 st node hinv⟩
    · simp only [h, String.reduceEq, if_true, if_false]
      exact ⟨_, rfl, ReaderInv_createVolumes grid0 st node hinv⟩
  · rw [blockReadFails_other node h1 h2 h]
    refine ⟨st, ?_, hinv⟩
    simp only [not_or] at h
    obtain ⟨e1, e2, e3, e4, e5, e6, e7, e8, e9, e10, e11, e12, e13⟩ := h
    unfold readNode
    simp only [h1, h2, e1, e2, e3, e4, e5, e6, e7, e8, e9, e10, e11, e12, e13, if_false]

/-- The loop over the children returns: true if no reader fails, false otherwise. -/
theorem readNodes_spec (d : Nat) (hd : 1 ≤ d) (uninitialized : Int) (grid0 : GridData)
    (nodes : List XmlNode) (st : ReaderState) (hinv : ReaderInv grid0 st) :
    ∃ st1, readNodes d uninitialized nodes st =
        some (nodes.all (fun node => !blockReadFails node), st1) ∧
      ReaderInv grid0 st1 := by
  induction nodes generalizing st with
  | nil => exact ⟨st, rfl, hinv⟩
  | cons node nodes ih =>
    obtain ⟨st1, h1, hinv1⟩ := readNode_spec d hd uninitialized grid0 st node hinv
    cases hb : blockReadFails node with
    | true =>
      refine ⟨st1, ?_, hinv1⟩
      simp only [readNodes, h1, hb, List.all_cons, Bool.not_true, Bool.false_and]
    | false =>
      obtain ⟨st2, h2, hinv2⟩ := ih st1 hinv1
      refine ⟨st2, ?_, hinv2⟩
      simp only [readNodes, h1, hb, List.all_cons, Bool.not_false, Bool.true_and, h2]

theorem objectsOfType_append_singleton (l : List ObjectType) (a type : ObjectType) :
    objectsOfType (l ++ [a]) type =
      objectsOfType l type ++ if a = type then [l.length] else [] := by
  unfold objectsOfType
  rw [List.length_append, List.length_singleton, List.range_succ, List.filter_append]
  congr 1
  · apply List.filter_congr
    intro i hi
    rw [List.mem_range] at hi
    rw [List.getElem?_append_left hi]
  · by_cases h : a = type <;> simp [h]

theorem length_objectsOfType (l : List ObjectType) (type : ObjectType) :
    (objectsOfType l type).length = l.count type := by
  induction l using List.reverseRecOn with
  | nil => rfl
  | append_singleton l a ih =>
    rw [objectsOfType_append_singleton, List.length_append, ih, List.count_append]
    by_cases h : a = type
    · simp [h]
    · simp [List.count_cons, h]

theorem nodup_objectsOfType (l : List ObjectType) (type : ObjectType) :
    (objectsOfType l type).Nodup :=
  List.Nodup.filter _ (List.nodup_range _)

theorem mem_objectsOfType (l : List ObjectType) (type : ObjectType) (i : Nat) :
    i ∈ objectsOfType l type ↔ l[i]? = some type := by
  unfold objectsOfType
  simp only [List.mem_filter, List.mem_range, decide_eq_true_eq]
  constructor
  · exact fun h => h.2
  · intro h
    exact ⟨(List.getElem?_eq_some_iff.1 h).1, h⟩

theorem resolveConstrained_eq (resolve : Int × Int → Option ConstrainingObject)
    (pairs : List (Int × Int)) (elems : List Nat) (links : ConstraintLinks)
    (h : pairs.length ≤ elems.length) :
    resolveConstrained resolve pairs elems links =
      some ((pairs.zip elems).foldl (linkConstrained resolve) links) := by
  unfold resolveConstrained
  rw [if_pos h]

/-- The four loops that resolve the recorded pairs return, in closed form. -/
theorem resolveAll_eq (grid0 : GridData) (st : ReaderState) (hinv : ReaderInv grid0 st) :
    resolveAll st = some { st.grid with
      vertexLinks := (st.constrainingObjsVRT.zip
        (objectsOfType st.grid.vertices ObjectType.HangingVertex)).foldl
        (linkConstrained (constrainingObjectOfPair st)) st.grid.vertexLinks
      edgeLinks := (st.constrainingObjsEDGE.zip
        (objectsOfType st.grid.edges ObjectType.ConstrainedEdge)).foldl
        (linkConstrained (constrainingObjectOfPair st)) st.grid.edgeLinks
      faceLinks := (st.constrainingObjsQUAD.zip
        (objectsOfType st.grid.faces ObjectType.ConstrainedQuadrilateral)).foldl
        (linkConstrained (constrainingFaceOfPair st))
        ((st.constrainingObjsTRI.zip
          (objectsOfType st.grid.faces ObjectType.ConstrainedTriangle)).foldl
          (linkConstrained (constrainingFaceOfPair st)) st.grid.faceLinks) } := by
  obtain ⟨⟨nv, hv1, hv2⟩, ⟨ne, he1, he2⟩, ⟨nf, hf1, hf2, hf3⟩, -, -, -⟩ := hinv
  have h1 : st.constrainingObjsVRT.length ≤
      (objectsOfType st.grid.vertices ObjectType.HangingVertex).length := by
    rw [length_objectsOfType, hv1, List.count_append, hv2]
    omega
  have h2 : st.constrainingObjsEDGE.length ≤
      (objectsOfType st.grid.edges ObjectType.ConstrainedEdge).length := by
    rw [length_objectsOfType, he1, List.count_append, he2]
    omega
  have h3 : st.constrainingObjsTRI.length ≤
      (objectsOfType st.grid.faces ObjectType.ConstrainedTriangle).length := by
    rw [length_objectsOfType, hf1, List.count_append, hf2]
    omega
  have h4 : st.constrainingObjsQUAD.length ≤
      (objectsOfType st.grid.faces ObjectType.ConstrainedQuadrilateral).length := by
    rw [length_objectsOfType, hf1, List.count_append, hf3]
    omega
  unfold resolveAll
  rw [resolveConstrained_eq _ _ _ _ h1, resolveConstrained_eq _ _ _ _ h2,
    resolveConstrained_eq _ _ _ _ h3]
  simp only [Option.some_bind, resolveConstrained_eq _ _ _ _ h4, Option.map_some']

/-- The function `get_grid` returns for every file: false if the index is bad or the
reader of a block fails, and true otherwise, whatever pairs were recorded. -/
theorem get_grid_total (d : Nat) (hd : 1 ≤ d) (uninitialized : Int)
    (m_entries : List (List XmlNode)) (gridOut : GridData) (index : Nat) :
    ∃ st, GridReaderUGX.get_grid d uninitialized m_entries gridOut index =
      some ((match m_entries[index]? with
        | none => false
        | some nodes => nodes.all (fun node => !blockReadFails node)), st) := by
  unfold GridReaderUGX.get_grid
  cases hm : m_entries[index]? with
  | none => exact ⟨_, rfl⟩
  | some nodes =>
    obtain ⟨st1, h1, hinv1⟩ := readNodes_spec d hd uninitialized gridOut nodes
      (ReaderState.start { gridOut with options := 0 }) (ReaderInv_start gridOut 0)
    simp only [h1]
    cases hb : nodes.all (fun node => !blockReadFails node) with
    | false => exact ⟨_, rfl⟩
    | true =>
      simp only [resolveAll_eq gridOut st1 hinv1]
      exact ⟨_, rfl⟩

/-! ## The relations set by the loops that resolve the recorded pairs -/

theorem linkConstrained_constraining (resolve : Int × Int → Option ConstrainingObject)
    (links : ConstraintLinks) (it : (Int × Int) × Nat) (c : Nat) :
    (linkConstrained resolve links it).constraining c =
      if c = it.2 ∧ (resolve it.1).isSome then resolve it.1 else links.constraining c := by
  unfold linkConstrained
  cases h : resolve it.1 with
  | none => simp
  | some p =>
    by_cases hc : c = it.2
    · subst hc
      simp
    · simp [hc, Function.update]

theorem linkConstrained_constrained (resolve : Int × Int → Option ConstrainingObject)
    (links : ConstraintLinks) (it : (Int × Int) × Nat) (p : ConstrainingObject) :
    (linkConstrained resolve links it).constrained p =
      links.constrained p ++ if resolve it.1 = some p then [it.2] else [] := by
  unfold linkConstrained
  cases h : resolve it.1 with
  | none => simp
  | some q =>
    by_cases hq : p = q
    · subst hq
      simp
    · have hq2 : ¬ q = p := fun e => hq e.symm
      simp [Function.update, hq, hq2]

/-- The relations after a loop that resolves recorded pairs, in closed form. -/
theorem foldl_linkConstrained (resolve : Int × Int → Option ConstrainingObject)
    (its : List ((Int × Int) × Nat)) (links : ConstraintLinks)
    (hnd : (its.map Prod.snd).Nodup) :
    (∀ it ∈ its, (its.foldl (linkConstrained resolve) links).constraining it.2 =
      if (resolve it.1).isSome then resolve it.1 else links.constraining it.2) ∧
    (∀ c, c ∉ its.map Prod.snd →
      (its.foldl (linkConstrained resolve) links).constraining c = links.constraining c) ∧
    (∀ p, (its.foldl (linkConstrained resolve) links).constrained p =
      links.constrained p ++
        (its.filter (fun it => decide (resolve it.1 = some p))).map Prod.snd) := by
  induction its generalizing links with
  | nil => simp
  | cons it its ih =>
    rw [List.map_cons, List.nodup_cons] at hnd
    obtain ⟨h1, h2, h3⟩ := ih (linkConstrained resolve links it) hnd.2
    simp only [List.foldl_cons]
    refine ⟨?_, ?_, ?_⟩
    · intro jt hjt
      rcases List.mem_cons.1 hjt with rfl | hjt
      · rw [h2 _ hnd.1, linkConstrained_constraining]
        simp
      · rw [h1 jt hjt, linkConstrained_constraining]
        have hne : jt.2 ≠ it.2 := by
          intro e
          exact hnd.1 (e ▸ List.mem_map_of_mem Prod.snd hjt)
        simp [hne]
    · intro c hc
      rw [List.map_cons, List.mem_cons, not_or] at hc
      rw [h2 c hc.2, linkConstrained_constraining]
      simp [hc.1]
    · intro p
      rw [h3 p, linkConstrained_constrained, List.append_assoc]
      congr 1
      by_cases hp : resolve it.1 = some p
      · simp [hp, List.filter_cons]
      · simp [hp, List.filter_cons]

/-- Starting without relations, a loop that resolves recorded pairs establishes the
constraint bijection and sets the reference of every object to what its pair denotes. -/
theorem foldl_linkConstrained_consistent (resolve : Int × Int → Option ConstrainingObject)
    (its : List ((Int × Int) × Nat)) (links : ConstraintLinks)
    (hnd : (its.map Prod.snd).Nodup) (h0 : ∀ c, links.constraining c = none)
    (h1 : ∀ p, links.constrained p = []) :
    LinksConsistent (its.foldl (linkConstrained resolve) links) ∧
    (∀ it ∈ its, (its.foldl (linkConstrained resolve) links).constraining it.2 =
      resolve it.1) := by
  obtain ⟨ha, hb, hc⟩ := foldl_linkConstrained resolve its links hnd
  have ha2 : ∀ it ∈ its, (its.foldl (linkConstrained resolve) links).constraining it.2 =
      resolve it.1 := by
    intro it hit
    rw [ha it hit, h0]
    cases resolve it.1 <;> simp
  have hsub : ∀ p, ((its.filter (fun it => decide (resolve it.1 = some p))).map
      Prod.snd).Nodup := by
    intro p
    exact List.Nodup.sublist (List.Sublist.map _ (List.filter_sublist _)) hnd
  refine ⟨⟨?_, ?_⟩, ha2⟩
  · intro c p hcp
    rw [hc p, h1 p, List.nil_append]
    by_cases hcm : c ∈ its.map Prod.snd
    · obtain ⟨it, hit, rfl⟩ := List.mem_map.1 hcm
      rw [ha2 it hit] at hcp
      apply List.count_eq_one_of_mem (hsub p)
      exact List.mem_map.2 ⟨it, List.mem_filter.2 ⟨hit, by simpa using hcp⟩, rfl⟩
    · rw [hb c hcm, h0] at hcp
      exact absurd hcp (by simp)
  · intro p c hcp
    rw [hc p, h1 p, List.nil_append] at hcp
    obtain ⟨it, hit, rfl⟩ := List.mem_map.1 hcp
    rw [List.mem_filter] at hit
    rw [ha2 it hit.1]
    simpa using hit.2

/-! ## The constraint relations after get_grid -/

theorem mem_zip_of_getElem? {α β : Type} (l1 : List α) (l2 : List β) (k : Nat) (a : α)
    (b : β) (h1 : l1[k]? = some a) (h2 : l2[k]? = some b) : (a, b) ∈ l1.zip l2 := by
  induction l1 generalizing l2 k with
  | nil => simp at h1
  | cons x l1 ih =>
    cases l2 with
    | nil => simp at h2
    | cons y l2 =>
      cases k with
      | zero =>
        simp only [List.getElem?_cons_zero, Option.some.injEq] at h1 h2
        subst h1 h2
        exact List.mem_cons_self _ _
      | succ k =>
        simp only [List.getElem?_cons_succ] at h1 h2
        exact List.mem_cons_of_mem _ (ih l2 k h1 h2)

/-- A loop that resolves as many pairs as there are constrained objects, starting without
relations: the pairs are applied in order and the constraint bijection holds. -/
theorem pairsApplied_foldl (resolve : Int × Int → Option ConstrainingObject)
    (pairs : List (Int × Int)) (elems : List Nat) (links : ConstraintLinks)
    (hlen : pairs.length = elems.length) (hnd : elems.Nodup)
    (h0 : ∀ c, links.constraining c = none) (h1 : ∀ p, links.constrained p = []) :
    PairsApplied resolve pairs elems ((pairs.zip elems).foldl (linkConstrained resolve) links) ∧
    LinksConsistent ((pairs.zip elems).foldl (linkConstrained resolve) links) := by
  have hsnd : (pairs.zip elems).map Prod.snd = elems :=
    List.map_snd_zip _ _ (le_of_eq hlen.symm)
  obtain ⟨hcons, happ⟩ := foldl_linkConstrained_consistent resolve (pairs.zip elems) links
    (by rw [hsnd]; exact hnd) h0 h1
  refine ⟨⟨hlen, ?_⟩, hcons⟩
  intro k pair c hp hc
  exact happ (pair, c) (mem_zip_of_getElem? pairs elems k pair c hp hc)

theorem objectsOfType_created (l0 nl : List ObjectType) (type : ObjectType)
    (h0 : type ∉ l0) :
    (objectsOfType (l0 ++ nl) type).length = nl.count type ∧
    ∀ c ∈ objectsOfType (l0 ++ nl) type, l0.length ≤ c := by
  refine ⟨?_, ?_⟩
  · rw [length_objectsOfType, List.count_append, List.count_eq_zero_of_not_mem h0,
      Nat.zero_add]
  · intro c hc
    rw [mem_objectsOfType] at hc
    by_contra hlt
    rw [List.getElem?_append_left (by omega)] at hc
    exact h0 (List.getElem?_mem hc)

theorem disjoint_objectsOfType (l : List ObjectType) (t1 t2 : ObjectType) (h : t1 ≠ t2) :
    List.Disjoint (objectsOfType l t1) (objectsOfType l t2) := by
  intro c h1 h2
  rw [mem_objectsOfType] at h1 h2
  rw [h1] at h2
  exact h (Option.some.inj h2)

/-- The relations of the faces after the loop over the triangles and the loop over the
quadrilaterals. -/
theorem pairsApplied_faces (resolve : Int × Int → Option ConstrainingObject)
    (pairsT pairsQ : List (Int × Int)) (elemsT elemsQ : List Nat) (links : ConstraintLinks)
    (hlenT : pairsT.length = elemsT.length) (hlenQ : pairsQ.length = elemsQ.length)
    (hndT : elemsT.Nodup) (hndQ : elemsQ.Nodup) (hdis : List.Disjoint elemsT elemsQ)
    (h0 : ∀ c, links.constraining c = none) (h1 : ∀ p, links.constrained p = []) :
    PairsApplied resolve pairsT elemsT ((pairsQ.zip elemsQ).foldl (linkConstrained resolve)
      ((pairsT.zip elemsT).foldl (linkConstrained resolve) links)) ∧
    PairsApplied resolve pairsQ elemsQ ((pairsQ.zip elemsQ).foldl (linkConstrained resolve)
      ((pairsT.zip elemsT).foldl (linkConstrained resolve) links)) ∧
    LinksConsistent ((pairsQ.zip elemsQ).foldl (linkConstrained resolve)
      ((pairsT.zip elemsT).foldl (linkConstrained resolve) links)) := by
  have hsT : (pairsT.zip elemsT).map Prod.snd = elemsT :=
    List.map_snd_zip _ _ (le_of_eq hlenT.symm)
  have hsQ : (pairsQ.zip elemsQ).map Prod.snd = elemsQ :=
    List.map_snd_zip _ _ (le_of_eq hlenQ.symm)
  rw [← List.foldl_append]
  obtain ⟨hcons, happ⟩ := foldl_linkConstrained_consistent resolve
    (pairsT.zip elemsT ++ pairsQ.zip elemsQ) links
    (by
      rw [List.map_append, hsT, hsQ]
      exact List.Nodup.append hndT hndQ hdis) h0 h1
  refine ⟨⟨hlenT, ?_⟩, ⟨hlenQ, ?_⟩, hcons⟩
  · intro k pair c hp hc
    exact happ (pair, c)
      (List.mem_append_left _ (mem_zip_of_getElem? pairsT elemsT k pair c hp hc))
  · intro k pair c hp hc
    exact happ (pair, c)
      (List.mem_append_right _ (mem_zip_of_getElem? pairsQ elemsQ k pair c hp hc))

/-- The function `get_grid` on a grid without constrained objects and a grid node all of
whose blocks are read: it returns true, every recorded pair is applied to the constrained
object created with it, and the constraint bijection holds. -/
theorem get_grid_links (d : Nat) (hd : 1 ≤ d) (uninitialized : Int)
    (m_entries : List (List XmlNode)) (gridOut : GridData) (index : Nat)
    (nodes : List XmlNode) (hm : m_entries[index]? = some nodes)
    (hall : ∀ node ∈ nodes, blockReadFails node = false)
    (hno : NoConstrainedObjects gridOut) :
    ∃ st, GridReaderUGX.get_grid d uninitialized m_entries gridOut index = some (true, st) ∧
      PairsApplied (constrainingObjectOfPair st) st.constrainingObjsVRT
        (objectsOfType st.grid.vertices ObjectType.HangingVertex) st.grid.vertexLinks ∧
      LinksConsistent st.grid.vertexLinks ∧
      PairsApplied (constrainingObjectOfPair st) st.constrainingObjsEDGE
        (objectsOfType st.grid.edges ObjectType.ConstrainedEdge) st.grid.edgeLinks ∧
      LinksConsistent st.grid.edgeLinks ∧
      PairsApplied (constrainingFaceOfPair st) st.constrainingObjsTRI
        (objectsOfType st.grid.faces ObjectType.ConstrainedTriangle) st.grid.faceLinks ∧
      PairsApplied (constrainingFaceOfPair st) st.constrainingObjsQUAD
        (objectsOfType st.grid.faces ObjectType.ConstrainedQuadrilateral) st.grid.faceLinks ∧
      LinksConsistent st.grid.faceLinks ∧
      (∀ c ∈ objectsOfType st.grid.vertices ObjectType.HangingVertex,
        gridOut.vertices.length ≤ c) ∧
      (∀ c ∈ objectsOfType st.grid.edges ObjectType.ConstrainedEdge,
        gridOut.edges.length ≤ c) ∧
      (∀ c ∈ objectsOfType st.grid.faces ObjectType.ConstrainedTriangle,
        gridOut.faces.length ≤ c) ∧
      (∀ c ∈ objectsOfType st.grid.faces ObjectType.ConstrainedQuadrilateral,
        gridOut.faces.length ≤ c) := by
  obtain ⟨st1, hr1, hinv1⟩ := readNodes_spec d hd uninitialized gridOut nodes
    (ReaderState.start { gridOut with options := 0 }) (ReaderInv_start gridOut 0)
  have hallb : nodes.all (fun node => !blockReadFails node) = true := by
    rw [List.all_eq_true]
    intro node hn
    rw [hall node hn]
    rfl
  rw [hallb] at hr1
  have hres := resolveAll_eq gridOut st1 hinv1
  obtain ⟨⟨nv, hv1, hv2⟩, ⟨ne, he1, he2⟩, ⟨nf, hf1, hf2, hf3⟩, hl1, hl2, hl3⟩ := hinv1
  obtain ⟨n1, n2, n3, n4, c1, c2, c3, d1, d2, d3⟩ := hno
  obtain ⟨hcv, hgv⟩ := objectsOfType_created gridOut.vertices nv ObjectType.HangingVertex n1
  obtain ⟨hce, hge⟩ := objectsOfType_created gridOut.edges ne ObjectType.ConstrainedEdge n2
  obtain ⟨hct, hgt⟩ := objectsOfType_created gridOut.faces nf ObjectType.ConstrainedTriangle
    n3
  obtain ⟨hcq, hgq⟩ := objectsOfType_created gridOut.faces nf
    ObjectType.ConstrainedQuadrilateral n4
  rw [← hv1] at hcv hgv
  rw [← he1] at hce hge
  rw [← hf1] at hct hgt hcq hgq
  obtain ⟨pv, lv⟩ := pairsApplied_foldl (constrainingObjectOfPair st1)
    st1.constrainingObjsVRT (objectsOfType st1.grid.vertices ObjectType.HangingVertex)
    st1.grid.vertexLinks (by rw [hcv, hv2]) (nodup_objectsOfType _ _)
    (by rw [hl1]; exact c1) (by rw [hl1]; exact d1)
  obtain ⟨pe, le⟩ := pairsApplied_foldl (constrainingObjectOfPair st1)
    st1.constrainingObjsEDGE (objectsOfType st1.grid.edges ObjectType.ConstrainedEdge)
    st1.grid.edgeLinks (by rw [hce, he2]) (nodup_objectsOfType _ _)
    (by rw [hl2]; exact c2) (by rw [hl2]; exact d2)
  obtain ⟨pt, pq, lf⟩ := pairsApplied_faces (constrainingFaceOfPair st1)
    st1.constrainingObjsTRI st1.constrainingObjsQUAD
    (objectsOfType st1.grid.faces ObjectType.ConstrainedTriangle)
    (objectsOfType st1.grid.faces ObjectType.ConstrainedQuadrilateral)
    st1.grid.faceLinks (by rw [hct, hf2]) (by rw [hcq, hf3]) (nodup_objectsOfType _ _)
    (nodup_objectsOfType _ _) (disjoint_objectsOfType _ _ _ (by decide))
    (by rw [hl3]; exact c3) (by rw [hl3]; exact d3)
  refine ⟨{ st1 with grid := { st1.grid with
      vertexLinks := (st1.constrainingObjsVRT.zip
        (objectsOfType st1.grid.vertices ObjectType.HangingVertex)).foldl
        (linkConstrained (constrainingObjectOfPair st1)) st1.grid.vertexLinks
      edgeLinks := (st1.constrainingObjsEDGE.zip
        (objectsOfType st1.grid.edges ObjectType.ConstrainedEdge)).foldl
        (linkConstrained (constrainingObjectOfPair st1)) st1.grid.edgeLinks
      faceLinks := (st1.constrainingObjsQUAD.zip
        (objectsOfType st1.grid.faces ObjectType.ConstrainedQuadrilateral)).foldl
        (linkConstrained (constrainingFaceOfPair st1))
        ((st1.constrainingObjsTRI.zip
          (objectsOfType st1.grid.faces ObjectType.ConstrainedTriangle)).foldl
          (linkConstrained (constrainingFaceOfPair st1)) st1.grid.faceLinks)
      options := gridOut.options } },
    ?_, pv, lv, pe, le, pt, pq, lf, hgv, hge, hgt, hgq⟩
  unfold GridReaderUGX.get_grid
  simp only [hm, hr1, hres]

/-! ## Claim C17 -/

theorem noConstrainedObjects_emptyGridData : NoConstrainedObjects emptyGridData := by
  unfold NoConstrainedObjects emptyGridData ConstraintLinks.empty
  simp

theorem constrainingEdge_bad_index (st : ReaderState) (index : Int)
    (h : index < 0 ∨ toInt st.edges.length ≤ index) : constrainingEdge st index = none := by
  unfold constrainingEdge
  rw [if_neg]
  omega

theorem constrainingFace_bad_index (st : ReaderState) (index : Int)
    (h : index < 0 ∨ toInt st.faces.length ≤ index) : constrainingFace st index = none := by
  unfold constrainingFace
  rw [if_neg]
  omega

theorem constrainingEdge_mismatch (st : ReaderState) (index : Int) (e : Nat)
    (he : st.edges[index.toNat]? = some e)
    (ht : st.grid.edges[e]? ≠ some ObjectType.ConstrainingEdge) :
    constrainingEdge st index = none := by
  unfold constrainingEdge
  split_ifs
  · simp only [he, if_neg ht]
  · rfl

theorem constrainingFace_mismatch (st : ReaderState) (index : Int) (f : Nat)
    (hf : st.faces[index.toNat]? = some f)
    (ht1 : st.grid.faces[f]? ≠ some ObjectType.ConstrainingTriangle)
    (ht2 : st.grid.faces[f]? ≠ some ObjectType.ConstrainingQuadrilateral) :
    constrainingFace st index = none := by
  unfold constrainingFace
  split_ifs
  · simp only [hf, ht1, ht2, or_self, if_false]
  · rfl

/-- C17 as the code has it (a dangling or kind-mismatched constraining reference is not an
error). For positions with `d >= 1` coordinates `get_grid` returns for every file, and it
returns false only if the index of the grid is bad or the reader of a block fails. A
recorded pair denotes no constraining object if its index is outside the range of the
edges resp. faces read, if the element with that index is not a `ConstrainingEdge` resp.
`ConstrainingFace`, or if its type code is not allowed for the kind (only 1 and 2 for
vertices and edges, only 2 for faces). For a grid that held no constrained objects and a
grid node all of whose blocks are read, `get_grid` returns true, and every constrained
vertex, edge, triangle and quadrilateral whose pair denotes no constraining object is
left with its reference unset. -/
theorem C17_bad_constraining_reference_is_ignored (d : Nat) (hd : 1 ≤ d)
    (uninitialized : Int) (m_entries : List (List XmlNode)) (gridOut : GridData)
    (index : Nat) :
    (∃ st, GridReaderUGX.get_grid d uninitialized m_entries gridOut index =
      some ((match m_entries[index]? with
        | none => false
        | some nodes => nodes.all (fun node => !blockReadFails node)), st)) ∧
    (∀ nodes, m_entries[index]? = some nodes →
      (∀ node ∈ nodes, blockReadFails node = false) → NoConstrainedObjects gridOut →
      ∃ st, GridReaderUGX.get_grid d uninitialized m_entries gridOut index =
          some (true, st) ∧
        (∀ (k : Nat) (pair : Int × Int) (c : Nat), st.constrainingObjsVRT[k]? = some pair →
          (objectsOfType st.grid.vertices ObjectType.HangingVertex)[k]? = some c →
          constrainingObjectOfPair st pair = none →
          st.grid.vertexLinks.constraining c = none) ∧
        (∀ (k : Nat) (pair : Int × Int) (c : Nat), st.constrainingObjsEDGE[k]? = some pair →
          (objectsOfType st.grid.edges ObjectType.ConstrainedEdge)[k]? = some c →
          constrainingObjectOfPair st pair = none →
          st.grid.edgeLinks.constraining c = none) ∧
        (∀ (k : Nat) (pair : Int × Int) (c : Nat), st.constrainingObjsTRI[k]? = some pair →
          (objectsOfType st.grid.faces ObjectType.ConstrainedTriangle)[k]? = some c →
          constrainingFaceOfPair st pair = none →
          st.grid.faceLinks.constraining c = none) ∧
        (∀ (k : Nat) (pair : Int × Int) (c : Nat), st.constrainingObjsQUAD[k]? = some pair →
          (objectsOfType st.grid.faces ObjectType.ConstrainedQuadrilateral)[k]? = some c →
          constrainingFaceOfPair st pair = none →
          st.grid.faceLinks.constraining c = none)) ∧
    (∀ (st : ReaderState) (pair : Int × Int), pair.1 ≠ 1 → pair.1 ≠ 2 →
      constrainingObjectOfPair st pair = none) ∧
    (∀ (st : ReaderState) (pair : Int × Int), pair.1 ≠ 2 →
      constrainingFaceOfPair st pair = none) ∧
    (∀ (st : ReaderState) (pair : Int × Int), pair.1 = 1 →
      (pair.2 < 0 ∨ toInt st.edges.length ≤ pair.2 ∨
        ∃ e, st.edges[pair.2.toNat]? = some e ∧
          st.grid.edges[e]? ≠ some ObjectType.ConstrainingEdge) →
      constrainingObjectOfPair st pair = none) ∧
    (∀ (st : ReaderState) (pair : Int × Int), pair.1 = 2 →
      (pair.2 < 0 ∨ toInt st.faces.length ≤ pair.2 ∨
        ∃ f, st.faces[pair.2.toNat]? = some f ∧
          st.grid.faces[f]? ≠ some ObjectType.ConstrainingTriangle ∧
          st.grid.faces[f]? ≠ some ObjectType.ConstrainingQuadrilateral) →
      constrainingObjectOfPair st pair = none ∧ constrainingFaceOfPair st pair = none) := by
  refine ⟨get_grid_total d hd uninitialized m_entries gridOut index, ?_, ?_, ?_, ?_, ?_⟩
  · intro nodes hm hall hno
    obtain ⟨st, hst, pv, -, pe, -, pt, pq, -, -⟩ :=
      get_grid_links d hd uninitialized m_entries gridOut index nodes hm hall hno
    refine ⟨st, hst, ?_, ?_, ?_, ?_⟩
    · intro k pair c h1 h2 h3
      rw [pv.2 k pair c h1 h2, h3]
    · intro k pair c h1 h2 h3
      rw [pe.2 k pair c h1 h2, h3]
    · intro k pair c h1 h2 h3
      rw [pt.2 k pair c h1 h2, h3]
    · intro k pair c h1 h2 h3
      rw [pq.2 k pair c h1 h2, h3]
  · intro st pair h1 h2
    unfold constrainingObjectOfPair
    rw [if_neg h1, if_neg h2]
  · intro st pair h2
    unfold constrainingFaceOfPair
    rw [if_neg h2]
  · intro st pair h1 h
    unfold constrainingObjectOfPair
    rw [if_pos h1]
    rcases h with h | h | ⟨e, he, ht⟩
    · exact constrainingEdge_bad_index st _ (Or.inl h)
    · exact constrainingEdge_bad_index st _ (Or.inr h)
    · exact constrainingEdge_mismatch st _ e he ht
  · intro st pair h2 h
    have h1 : ¬ pair.1 = 1 := by omega
    have hf : constrainingFace st pair.2 = none := by
      rcases h with h | h | ⟨f, hf, ht1, ht2⟩
      · exact constrainingFace_bad_index st _ (Or.inl h)
      · exact constrainingFace_bad_index st _ (Or.inr h)
      · exact constrainingFace_mismatch st _ f hf ht1 ht2
    unfold constrainingObjectOfPair constrainingFaceOfPair
    rw [if_neg h1, if_pos h2]
    exact ⟨hf, hf⟩

/-- Witness of the amended C17 on the example file. -/
theorem C17_bad_constraining_reference_is_ignored_witness :
    1 ≤ 2 ∧ exampleFile[0]? = some
      [elementNode "constraining_edges" 1,
        textNode "constrained_vertices" (some 2) exampleConstrainedText] ∧
    NoConstrainedObjects emptyGridData ∧
    ∃ st, GridReaderUGX.get_grid 2 0 exampleFile emptyGridData 0 = some (true, st) ∧
      (∀ (k : Nat) (pair : Int × Int) (c : Nat), st.constrainingObjsVRT[k]? = some pair →
        (objectsOfType st.grid.vertices ObjectType.HangingVertex)[k]? = some c →
        constrainingObjectOfPair st pair = none →
        st.grid.vertexLinks.constraining c = none) ∧
      (∀ (k : Nat) (pair : Int × Int) (c : Nat), st.constrainingObjsEDGE[k]? = some pair →
        (objectsOfType st.grid.edges ObjectType.ConstrainedEdge)[k]? = some c →
        constrainingObjectOfPair st pair = none →
        st.grid.edgeLinks.constraining c = none) ∧
      (∀ (k : Nat) (pair : Int × Int) (c : Nat), st.constrainingObjsTRI[k]? = some pair →
        (objectsOfType st.grid.faces ObjectType.ConstrainedTriangle)[k]? = some c →
        constrainingFaceOfPair st pair = none →
        st.grid.faceLinks.constraining c = none) ∧
      (∀ (k : Nat) (pair : Int × Int) (c : Nat), st.constrainingObjsQUAD[k]? = some pair →
        (objectsOfType st.grid.faces ObjectType.ConstrainedQuadrilateral)[k]? = some c →
        constrainingFaceOfPair st pair = none →
        st.grid.faceLinks.constraining c = none) :=
  ⟨by decide, rfl, noConstrainedObjects_emptyGridData,
    (C17_bad_constraining_reference_is_ignored 2 (by decide) 0 exampleFile emptyGridData
      0).2.1 _ rfl (by decide) noConstrainedObjects_emptyGridData⟩

/-- Counterexample to C17 as stated: the example file holds one constraining edge and two
constrained vertices; the record of the second vertex has the type code 1 and the index 5,
which is outside the range of the one edge read. `get_grid` returns true, and the second
hanging vertex is left without a parent. -/
theorem C17_counterexample :
    ∃ st, GridReaderUGX.get_grid 2 0 exampleFile emptyGridData 0 = some (true, st) ∧
      st.constrainingObjsVRT = [(1, 0), (1, 5)] ∧ st.edges = [0] ∧
      st.grid.edges = [ObjectType.ConstrainingEdge] ∧
      st.grid.vertices = [ObjectType.HangingVertex, ObjectType.HangingVertex] ∧
      st.grid.vertexLinks.constraining 0 = some (ConstrainingObject.edge 0) ∧
      st.grid.vertexLinks.constraining 1 = none ∧
      st.grid.vertexLinks.constrained (ConstrainingObject.edge 0) = [0] :=
  ⟨_, rfl, rfl, rfl, rfl, rfl, rfl, rfl, rfl⟩

/-! ## Claim C18 -/

theorem constrainingEdge_eq_some_iff (st : ReaderState) (index : Int)
    (p : ConstrainingObject) :
    constrainingEdge st index = some p ↔
      ∃ e, p = ConstrainingObject.edge e ∧ 0 ≤ index ∧ index < toInt st.edges.length ∧
        st.edges[index.toNat]? = some e ∧
        st.grid.edges[e]? = some ObjectType.ConstrainingEdge := by
  unfold constrainingEdge
  constructor
  · intro h
    split_ifs at h with h1
    cases he : st.edges[index.toNat]? with
    | none => rw [he] at h; exact absurd h (by simp)
    | some e =>
      rw [he] at h
      simp only at h
      split_ifs at h with h2
      exact ⟨e, (Option.some.inj h).symm, h1.1, h1.2, rfl, h2⟩
  · rintro ⟨e, rfl, h0, hlt, he, ht⟩
    rw [if_pos ⟨h0, hlt⟩, he]
    simp only [ht, if_true]

theorem constrainingFace_eq_some_iff (st : ReaderState) (index : Int)
    (p : ConstrainingObject) :
    constrainingFace st index = some p ↔
      ∃ f, p = ConstrainingObject.face f ∧ 0 ≤ index ∧ index < toInt st.faces.length ∧
        st.faces[index.toNat]? = some f ∧
        (st.grid.faces[f]? = some ObjectType.ConstrainingTriangle ∨
          st.grid.faces[f]? = some ObjectType.ConstrainingQuadrilateral) := by
  unfold constrainingFace
  constructor
  · intro h
    split_ifs at h with h1
    cases he : st.faces[index.toNat]? with
    | none => rw [he] at h; exact absurd h (by simp)
    | some f =>
      rw [he] at h
      simp only at h
      split_ifs at h with h2
      exact ⟨f, (Option.some.inj h).symm, h1.1, h1.2, rfl, h2⟩
  · rintro ⟨f, rfl, h0, hlt, he, ht⟩
    rw [if_pos ⟨h0, hlt⟩, he]
    simp only [ht, if_true]

theorem constrainingObjectOfPair_eq_some_iff (st : ReaderState) (pair : Int × Int)
    (p : ConstrainingObject) :
    constrainingObjectOfPair st pair = some p ↔ PairDenotes st true pair p := by
  unfold constrainingObjectOfPair
  cases p with
  | edge e =>
    simp only [PairDenotes, true_and]
    by_cases h1 : pair.1 = 1
    · rw [if_pos h1, constrainingEdge_eq_some_iff]
      constructor
      · rintro ⟨e1, he, h⟩
        rw [ConstrainingObject.edge.inj he]
        exact ⟨h1, h⟩
      · rintro ⟨-, h⟩
        exact ⟨e, rfl, h⟩
    · rw [if_neg h1]
      constructor
      · intro h
        split_ifs at h with h2
        rw [constrainingFace_eq_some_iff] at h
        obtain ⟨f, hf, -⟩ := h
        exact absurd hf (by simp)
      · rintro ⟨h, -⟩
        exact absurd h h1
  | face f =>
    simp only [PairDenotes]
    by_cases h1 : pair.1 = 1
    · rw [if_pos h1, constrainingEdge_eq_some_iff]
      constructor
      · rintro ⟨e1, he, -⟩
        exact absurd he (by simp)
      · rintro ⟨h, -⟩
        omega
    · rw [if_neg h1]
      by_cases h2 : pair.1 = 2
      · rw [if_pos h2, constrainingFace_eq_some_iff]
        constructor
        · rintro ⟨f1, hf, h⟩
          rw [ConstrainingObject.face.inj hf]
          exact ⟨h2, h⟩
        · rintro ⟨-, h⟩
          exact ⟨f, rfl, h⟩
      · rw [if_neg h2]
        constructor
        · intro h
          exact absurd h (by simp)
        · rintro ⟨h, -⟩
          exact absurd h h2

theorem constrainingFaceOfPair_eq_some_iff (st : ReaderState) (pair : Int × Int)
    (p : ConstrainingObject) :
    constrainingFaceOfPair st pair = some p ↔ PairDenotes st false pair p := by
  unfold constrainingFaceOfPair
  cases p with
  | edge e =>
    simp only [PairDenotes, Bool.false_eq_true, false_and, iff_false]
    intro h
    split_ifs at h with h2
    rw [constrainingFace_eq_some_iff] at h
    obtain ⟨f, hf, -⟩ := h
    exact absurd hf (by simp)
  | face f =>
    simp only [PairDenotes]
    by_cases h2 : pair.1 = 2
    · rw [if_pos h2, constrainingFace_eq_some_iff]
      constructor
      · rintro ⟨f1, hf, h⟩
        rw [ConstrainingObject.face.inj hf]
        exact ⟨h2, h⟩
      · rintro ⟨-, h⟩
        exact ⟨f, rfl, h⟩
    · rw [if_neg h2]
      constructor
      · intro h
        exact absurd h (by simp)
      · rintro ⟨h, -⟩
        exact absurd h h2

theorem pairsLinked_of_applied (st : ReaderState) (allowEdge : Bool)
    (resolve : Int × Int → Option ConstrainingObject)
    (hres : ∀ pair p, resolve pair = some p ↔ PairDenotes st allowEdge pair p)
    (pairs : List (Int × Int)) (elems : List Nat) (links : ConstraintLinks)
    (h : PairsApplied resolve pairs elems links) :
    PairsLinked st allowEdge pairs elems links := by
  refine ⟨h.1, ?_⟩
  intro k pair c h1 h2 p
  rw [h.2 k pair c h1 h2]
  exact hres pair p

/-- The relations after `get_grid`, stated with what the recorded pairs denote. -/
theorem get_grid_pairs_linked (d : Nat) (hd : 1 ≤ d) (uninitialized : Int)
    (m_entries : List (List XmlNode)) (gridOut : GridData) (index : Nat)
    (nodes : List XmlNode) (hm : m_entries[index]? = some nodes)
    (hall : ∀ node ∈ nodes, blockReadFails node = false)
    (hno : NoConstrainedObjects gridOut) :
    ∃ st, GridReaderUGX.get_grid d uninitialized m_entries gridOut index = some (true, st) ∧
      PairsLinked st true st.constrainingObjsVRT
        (objectsOfType st.grid.vertices ObjectType.HangingVertex) st.grid.vertexLinks ∧
      LinksConsistent st.grid.vertexLinks ∧
      PairsLinked st true st.constrainingObjsEDGE
        (objectsOfType st.grid.edges ObjectType.ConstrainedEdge) st.grid.edgeLinks ∧
      LinksConsistent st.grid.edgeLinks ∧
      PairsLinked st false st.constrainingObjsTRI
        (objectsOfType st.grid.faces ObjectType.ConstrainedTriangle) st.grid.faceLinks ∧
      PairsLinked st false st.constrainingObjsQUAD
        (objectsOfType st.grid.faces ObjectType.ConstrainedQuadrilateral) st.grid.faceLinks ∧
      LinksConsistent st.grid.faceLinks ∧
      (∀ c ∈ objectsOfType st.grid.vertices ObjectType.HangingVertex,
        gridOut.vertices.length ≤ c) ∧
      (∀ c ∈ objectsOfType st.grid.edges ObjectType.ConstrainedEdge,
        gridOut.edges.length ≤ c) ∧
      (∀ c ∈ objectsOfType st.grid.faces ObjectType.ConstrainedTriangle,
        gridOut.faces.length ≤ c) ∧
      (∀ c ∈ objectsOfType st.grid.faces ObjectType.ConstrainedQuadrilateral,
        gridOut.faces.length ≤ c) := by
  obtain ⟨st, hst, pv, lv, pe, le, pt, pq, lf, hb⟩ :=
    get_grid_links d hd uninitialized m_entries gridOut index nodes hm hall hno
  exact ⟨st, hst,
    pairsLinked_of_applied st true _ (constrainingObjectOfPair_eq_some_iff st) _ _ _ pv, lv,
    pairsLinked_of_applied st true _ (constrainingObjectOfPair_eq_some_iff st) _ _ _ pe, le,
    pairsLinked_of_applied st false _ (constrainingFaceOfPair_eq_some_iff st) _ _ _ pt,
    pairsLinked_of_applied st false _ (constrainingFaceOfPair_eq_some_iff st) _ _ _ pq, lf,
    hb⟩

/-- C18 (constraint bijection after load). For a grid that held no constrained objects
before and a grid node all of whose blocks are read, `get_grid` returns true and afterwards,
for the vertices, the edges and the faces: every constrained object whose reference was set
to an object `p` stands exactly once in the list of constrained objects of `p`, and every
object in the list of a constraining edge or face `p` has `p` as its parent resp.
constraining object. There are as many recorded pairs as constrained objects of each
class, all of them created by the reader, and the `k`-th pair is applied to the `k`-th
object: the reference of the `k`-th hanging vertex resp. constrained edge is set to `p`
exactly if the `k`-th pair is the type code 1 with the index of a constraining edge `p`
read from the file or the type code 2 with the index of a constraining face `p` read from
the file, and the reference of the `k`-th constrained triangle resp. quadrilateral is set
to `p` exactly if the `k`-th pair is the type code 2 with the index of a constraining
face `p` read from the file. -/
theorem C18_constraint_bijection_after_load (d : Nat) (hd : 1 ≤ d) (uninitialized : Int)
    (m_entries : List (List XmlNode)) (gridOut : GridData) (index : Nat)
    (nodes : List XmlNode) (hm : m_entries[index]? = some nodes)
    (hall : ∀ node ∈ nodes, blockReadFails node = false)
    (hno : NoConstrainedObjects gridOut) :
    ∃ st, GridReaderUGX.get_grid d uninitialized m_entries gridOut index = some (true, st) ∧
      PairsLinked st true st.constrainingObjsVRT
        (objectsOfType st.grid.vertices ObjectType.HangingVertex) st.grid.vertexLinks ∧
      LinksConsistent st.grid.vertexLinks ∧
      PairsLinked st true st.constrainingObjsEDGE
        (objectsOfType st.grid.edges ObjectType.ConstrainedEdge) st.grid.edgeLinks ∧
      LinksConsistent st.grid.edgeLinks ∧
      PairsLinked st false st.constrainingObjsTRI
        (objectsOfType st.grid.faces ObjectType.ConstrainedTriangle) st.grid.faceLinks ∧
      PairsLinked st false st.constrainingObjsQUAD
        (objectsOfType st.grid.faces ObjectType.ConstrainedQuadrilateral) st.grid.faceLinks ∧
      LinksConsistent st.grid.faceLinks ∧
      (∀ c ∈ objectsOfType st.grid.vertices ObjectType.HangingVertex,
        gridOut.vertices.length ≤ c) ∧
      (∀ c ∈ objectsOfType st.grid.edges ObjectType.ConstrainedEdge,
        gridOut.edges.length ≤ c) ∧
      (∀ c ∈ objectsOfType st.grid.faces ObjectType.ConstrainedTriangle,
        gridOut.faces.length ≤ c) ∧
      (∀ c ∈ objectsOfType st.grid.faces ObjectType.ConstrainedQuadrilateral,
        gridOut.faces.length ≤ c) :=
  get_grid_pairs_linked d hd uninitialized m_entries gridOut index nodes hm hall hno

/-- Witness of C18 on the example file with constrained vertices, edges, triangles and
quadrilaterals. -/
theorem C18_constraint_bijection_after_load_witness :
    1 ≤ 2 ∧ exampleConstraintFile[0]? = some
      [elementNode "constraining_edges" 1,
        elementNode "constraining_triangles" 1,
        constrainedNode "constrained_edges" [(1, 0), (2, 0)],
        constrainedNode "constrained_triangles" [(2, 0), (1, 0), (2, 7)],
        constrainedNode "constrained_quadrilaterals" [(2, 0)],
        textNode "constrained_vertices" (some 2) exampleConstrainedText] ∧
    (∀ node ∈ [elementNode "constraining_edges" 1,
        elementNode "constraining_triangles" 1,
        constrainedNode "constrained_edges" [(1, 0), (2, 0)],
        constrainedNode "constrained_triangles" [(2, 0), (1, 0), (2, 7)],
        constrainedNode "constrained_quadrilaterals" [(2, 0)],
        textNode "constrained_vertices" (some 2) exampleConstrainedText],
      blockReadFails node = false) ∧
    NoConstrainedObjects emptyGridData ∧
    ∃ st, GridReaderUGX.get_grid 2 0 exampleConstraintFile emptyGridData 0 =
        some (true, st) ∧
      PairsLinked st true st.constrainingObjsVRT
        (objectsOfType st.grid.vertices ObjectType.HangingVertex) st.grid.vertexLinks ∧
      LinksConsistent st.grid.vertexLinks ∧
      PairsLinked st true st.constrainingObjsEDGE
        (objectsOfType st.grid.edges ObjectType.ConstrainedEdge) st.grid.edgeLinks ∧
      LinksConsistent st.grid.edgeLinks ∧
      PairsLinked st false st.constrainingObjsTRI
        (objectsOfType st.grid.faces ObjectType.ConstrainedTriangle) st.grid.faceLinks ∧
      PairsLinked st false st.constrainingObjsQUAD
        (objectsOfType st.grid.faces ObjectType.ConstrainedQuadrilateral) st.grid.faceLinks ∧
      LinksConsistent st.grid.faceLinks ∧
      (∀ c ∈ objectsOfType st.grid.vertices ObjectType.HangingVertex,
        emptyGridData.vertices.length ≤ c) ∧
      (∀ c ∈ objectsOfType st.grid.edges ObjectType.ConstrainedEdge,
        emptyGridData.edges.length ≤ c) ∧
      (∀ c ∈ objectsOfType st.grid.faces ObjectType.ConstrainedTriangle,
        emptyGridData.faces.length ≤ c) ∧
      (∀ c ∈ objectsOfType st.grid.faces ObjectType.ConstrainedQuadrilateral,
        emptyGridData.faces.length ≤ c) :=
  ⟨by decide, rfl, by decide, noConstrainedObjects_emptyGridData,
    C18_constraint_bijection_after_load 2 (by decide) 0 exampleConstraintFile emptyGridData 0
      _ rfl (by decide) noConstrainedObjects_emptyGridData⟩

/-! ## Claim C28 -/

open StandardDomainDecompositionInfo

theorem procsPerSubdomain_pos_iff (NumProcs numSubdomains : Int) :
    1 ≤ procsPerSubdomain NumProcs numSubdomains ↔
      1 < NumProcs ∧ 0 < numSubdomains ∧ numSubdomains ≤ NumProcs := by
  unfold procsPerSubdomain
  by_cases h : numSubdomains > 0 ∧ NumProcs > 1
  · rw [if_pos h, Int.tdiv_eq_ediv (by omega) (by omega), Int.le_ediv_iff_mul_le h.1]
    constructor
    · intro h1
      exact ⟨h.2, h.1, by omega⟩
    · intro h1
      omega
  · rw [if_neg h]
    constructor
    · intro h1
      omega
    · intro h1
      exact absurd ⟨h1.2.1, h1.1⟩ h

theorem procsPerSubdomain_zero_iff (NumProcs numSubdomains : Int) :
    procsPerSubdomain NumProcs numSubdomains = 0 ↔ 1 < NumProcs ∧ NumProcs < numSubdomains := by
  unfold procsPerSubdomain
  by_cases h : numSubdomains > 0 ∧ NumProcs > 1
  · rw [if_pos h, Int.tdiv_eq_ediv (by omega) (by omega)]
    constructor
    · intro h1
      refine ⟨h.2, ?_⟩
      by_contra hc
      have : 1 ≤ NumProcs / numSubdomains := (Int.le_ediv_iff_mul_le h.1).2 (by omega)
      omega
    · intro h1
      exact Int.ediv_eq_zero_of_lt (by omega) h1.2
  · rw [if_neg h]
    constructor
    · intro h1
      omega
    · intro h1
      exact absurd ⟨by omega, h1.1⟩ h

theorem procsPerSubdomain_neg_iff (NumProcs numSubdomains : Int) (hN : 1 ≤ NumProcs) :
    procsPerSubdomain NumProcs numSubdomains = -1 ↔ NumProcs = 1 ∨ numSubdomains ≤ 0 := by
  unfold procsPerSubdomain
  by_cases h : numSubdomains > 0 ∧ NumProcs > 1
  · rw [if_pos h, Int.tdiv_eq_ediv (by omega) (by omega)]
    have : 0 ≤ NumProcs / numSubdomains := Int.ediv_nonneg (by omega) (by omega)
    constructor
    · intro h1
      omega
    · intro h1
      omega
  · rw [if_neg h]
    constructor
    · intro _
      omega
    · intro _
      rfl

theorem procsPerSubdomain_isCInt (NumProcs numSubdomains : Int) (hN : IsCInt NumProcs) :
    IsCInt (procsPerSubdomain NumProcs numSubdomains) := by
  unfold procsPerSubdomain
  unfold IsCInt at hN ⊢
  by_cases h : numSubdomains > 0 ∧ NumProcs > 1
  · rw [if_pos h, Int.tdiv_eq_ediv (by omega) (by omega)]
    have h0 : 0 ≤ NumProcs / numSubdomains := Int.ediv_nonneg (by omega) (by omega)
    have h1 : NumProcs / numSubdomains ≤ NumProcs := Int.ediv_le_self _ (by omega)
    omega
  · rw [if_neg h]
    omega

/-- With at least one process per subdomain and a process id in `int`,
`map_proc_id_to_subdomain_id` returns the quotient. -/
theorem map_proc_id_of_pos (info : StandardDomainDecompositionInfo)
    (hk : 1 ≤ info.m_num_procs_per_subdomain) (p : Int) (hp : IsCInt p) :
    info.map_proc_id_to_subdomain_id p = some (Int.tdiv p info.m_num_procs_per_subdomain) := by
  unfold map_proc_id_to_subdomain_id
  rw [if_neg (by omega)]
  have : IsCInt (Int.tdiv p info.m_num_procs_per_subdomain) := by
    unfold IsCInt at hp ⊢
    rcases le_or_lt 0 p with h0 | h0
    · rw [Int.tdiv_eq_ediv h0 (by omega)]
      have h1 : 0 ≤ p / info.m_num_procs_per_subdomain := Int.ediv_nonneg h0 (by omega)
      have h2 : p / info.m_num_procs_per_subdomain ≤ p := Int.ediv_le_self _ h0
      omega
    · have hneg : Int.tdiv p info.m_num_procs_per_subdomain =
          -(Int.tdiv (-p) info.m_num_procs_per_subdomain) := by
        rw [Int.neg_tdiv, neg_neg]
      rw [hneg, Int.tdiv_eq_ediv (by omega) (by omega)]
      have h1 : 0 ≤ (-p) / info.m_num_procs_per_subdomain := Int.ediv_nonneg (by omega) (by omega)
      have h2 : (-p) / info.m_num_procs_per_subdomain ≤ -p := Int.ediv_le_self _ (by omega)
      omega
  rw [if_pos this]

/-- With a nonnegative number of processes per subdomain and all ids in `int`,
`get_subdomain_procs` returns the ids `first .. first + k - 1`. -/
theorem get_subdomain_procs_eq (info : StandardDomainDecompositionInfo) (s : Int)
    (hk : 0 ≤ info.m_num_procs_per_subdomain)
    (h1 : IsCInt (s * info.m_num_procs_per_subdomain))
    (h2 : s * info.m_num_procs_per_subdomain + info.m_num_procs_per_subdomain ≤ 2 ^ 31) :
    info.get_subdomain_procs s =
      some ((List.range info.m_num_procs_per_subdomain.toNat).map
        (fun (i : Nat) => s * info.m_num_procs_per_subdomain + (i : Int))) := by
  unfold get_subdomain_procs
  rw [if_neg (by omega), if_pos h1]
  simp only []
  rw [if_pos]
  rw [List.all_eq_true]
  intro p hp
  obtain ⟨i, hi, rfl⟩ := List.mem_map.1 hp
  rw [List.mem_range] at hi
  rw [decide_eq_true_eq]
  unfold IsCInt at h1 ⊢
  omega

theorem get_subdomain_procs_neg (info : StandardDomainDecompositionInfo) (s : Int)
    (hk : info.m_num_procs_per_subdomain < 0) : info.get_subdomain_procs s = none := by
  unfold get_subdomain_procs
  rw [if_pos hk]

theorem map_proc_id_zero (info : StandardDomainDecompositionInfo) (p : Int)
    (hk : info.m_num_procs_per_subdomain = 0) : info.map_proc_id_to_subdomain_id p = none := by
  unfold map_proc_id_to_subdomain_id
  rw [if_pos hk]

/-- C28 as the code has it (processes per subdomain): after the constructor with an argument
or after `set_num_subdomains`, with `pcl::NumProcs() >= 1`, the stored number of processes
per subdomain is at least 1 exactly if `pcl::NumProcs() > 1` and
`0 < numSubdomains <= pcl::NumProcs()`; it is 0 exactly if
`numSubdomains > pcl::NumProcs() > 1` and -1 exactly if `pcl::NumProcs() == 1` or
`numSubdomains <= 0`. When it is at least 1, `map_proc_id_to_subdomain_id` returns the
quotient for every process id and `get_subdomain_procs` returns a vector of that size
whenever the ids fit `int`; when it is 0 `map_proc_id_to_subdomain_id` divides by zero, and
when it is -1 `get_subdomain_procs` resizes to a negative size. -/
theorem C28_procs_per_subdomain_positive_iff (NumProcs numSubdomains : Int)
    (hN : 1 ≤ NumProcs) (info0 info : StandardDomainDecompositionInfo)
    (hinfo : info = ofNumSubdomains NumProcs numSubdomains ∨
      info = set_num_subdomains NumProcs info0 numSubdomains) :
    (1 ≤ info.m_num_procs_per_subdomain ↔
      1 < NumProcs ∧ 0 < numSubdomains ∧ numSubdomains ≤ NumProcs) ∧
    (info.m_num_procs_per_subdomain = 0 ↔ 1 < NumProcs ∧ NumProcs < numSubdomains) ∧
    (info.m_num_procs_per_subdomain = -1 ↔ NumProcs = 1 ∨ numSubdomains ≤ 0) ∧
    (1 ≤ info.m_num_procs_per_subdomain →
      (∀ p, IsCInt p → info.map_proc_id_to_subdomain_id p =
        some (Int.tdiv p info.m_num_procs_per_subdomain)) ∧
      (∀ s, IsCInt (s * info.m_num_procs_per_subdomain) →
        s * info.m_num_procs_per_subdomain + info.m_num_procs_per_subdomain ≤ 2 ^ 31 →
        ∃ procsOut, info.get_subdomain_procs s = some procsOut ∧
          (procsOut.length : Int) = info.m_num_procs_per_subdomain)) ∧
    (info.m_num_procs_per_subdomain = 0 → ∀ p, info.map_proc_id_to_subdomain_id p = none) ∧
    (info.m_num_procs_per_subdomain = -1 → ∀ s, info.get_subdomain_procs s = none) := by
  have hk : info.m_num_procs_per_subdomain = procsPerSubdomain NumProcs numSubdomains := by
    rcases hinfo with h | h <;> rw [h] <;> rfl
  refine ⟨?_, ?_, ?_, ?_, ?_, ?_⟩
  · rw [hk]
    exact procsPerSubdomain_pos_iff NumProcs numSubdomains
  · rw [hk]
    exact procsPerSubdomain_zero_iff NumProcs numSubdomains
  · rw [hk]
    exact procsPerSubdomain_neg_iff NumProcs numSubdomains hN
  · intro h1
    refine ⟨fun p hp => map_proc_id_of_pos info h1 p hp, ?_⟩
    intro s hs1 hs2
    refine ⟨_, get_subdomain_procs_eq info s (by omega) hs1 hs2, ?_⟩
    rw [List.length_map, List.length_range]
    omega
  · intro h0 p
    exact map_proc_id_zero info p h0
  · intro h1 s
    exact get_subdomain_procs_neg info s (by omega)

/-- Witness of the amended C28: four processes and two subdomains give two processes per
subdomain. -/
theorem C28_procs_per_subdomain_positive_iff_witness :
    (1 : Int) ≤ 4 ∧
    (1 ≤ (ofNumSubdomains 4 2).m_num_procs_per_subdomain ↔
      (1 : Int) < 4 ∧ (0 : Int) < 2 ∧ (2 : Int) ≤ 4) ∧
    (ofNumSubdomains 4 2).m_num_procs_per_subdomain = 2 :=
  ⟨by decide,
    (C28_procs_per_subdomain_positive_iff 4 2 (by decide) init (ofNumSubdomains 4 2)
      (Or.inl rfl)).1,
    by decide⟩

/-- Counterexample to C28 as stated: with one process and one subdomain the stored number of
processes per subdomain is -1 and `get_subdomain_procs` resizes to a negative size; with two
processes and three subdomains it is 0 and `map_proc_id_to_subdomain_id` divides by zero. -/
theorem C28_counterexample :
    (ofNumSubdomains 1 1).m_num_procs_per_subdomain = -1 ∧
    (set_num_subdomains 1 init 1).m_num_procs_per_subdomain = -1 ∧
    (ofNumSubdomains 1 1).get_subdomain_procs 0 = none ∧
    (ofNumSubdomains 2 3).m_num_procs_per_subdomain = 0 ∧
    (set_num_subdomains 2 init 3).m_num_procs_per_subdomain = 0 ∧
    (ofNumSubdomains 2 3).map_proc_id_to_subdomain_id 0 = none := by
  decide

/-! ## Claim C25 -/

open StandardDomainDecompositionInfo

theorem tdiv_eq_iff_of_pos (p k s : Int) (hp : 0 ≤ p) (hk : 1 ≤ k) :
    Int.tdiv p k = s ↔ s * k ≤ p ∧ p < s * k + k := by
  rw [Int.tdiv_eq_ediv hp (by omega)]
  have hk0 : 0 < k := by omega
  constructor
  · intro h
    have h1 : s ≤ p / k := by omega
    have h2 : p / k < s + 1 := by omega
    rw [Int.le_ediv_iff_mul_le hk0] at h1
    rw [Int.ediv_lt_iff_lt_mul hk0] at h2
    constructor
    · exact h1
    · linarith
  · rintro ⟨h1, h2⟩
    have h3 : s ≤ p / k := (Int.le_ediv_iff_mul_le hk0).2 h1
    have h4 : p / k < s + 1 := (Int.ediv_lt_iff_lt_mul hk0).2 (by linarith)
    omega

/-- C25 as the code has it (processes of a subdomain and subdomain of a process agree): for
every `StandardDomainDecompositionInfo` whose number `k` of processes per subdomain is at
least 1, every subdomain index `s >= 0` with `s*k + k - 1` in the range of `int` and every
process id `p >= 0`, `get_subdomain_procs(s)` returns a vector that contains `p` if and only
if `map_proc_id_to_subdomain_id(p) == s`; the vector lists the ids `s*k .. s*k + k - 1` in
ascending order. -/
theorem C25_subdomain_procs_agree_with_map (info : StandardDomainDecompositionInfo)
    (hk : 1 ≤ info.m_num_procs_per_subdomain) (s p : Int) (hs : 0 ≤ s) (hp : 0 ≤ p)
    (hpi : IsCInt p)
    (hrange : s * info.m_num_procs_per_subdomain + info.m_num_procs_per_subdomain ≤ 2 ^ 31) :
    ∃ procsOut, info.get_subdomain_procs s = some procsOut ∧
      (p ∈ procsOut ↔ info.map_proc_id_to_subdomain_id p = some s) ∧
      procsOut = (List.range info.m_num_procs_per_subdomain.toNat).map
        (fun (i : Nat) => s * info.m_num_procs_per_subdomain + (i : Int)) ∧
      procsOut.Pairwise (fun a b => a < b) := by
  have hsk : 0 ≤ s * info.m_num_procs_per_subdomain := Int.mul_nonneg hs (by omega)
  have h1 : IsCInt (s * info.m_num_procs_per_subdomain) := by
    unfold IsCInt
    omega
  refine ⟨_, get_subdomain_procs_eq info s (by omega) h1 hrange, ?_, rfl, ?_⟩
  · rw [map_proc_id_of_pos info hk p hpi, Option.some.injEq, tdiv_eq_iff_of_pos p _ s hp hk,
      List.mem_map]
    constructor
    · rintro ⟨i, hi, rfl⟩
      rw [List.mem_range] at hi
      omega
    · rintro ⟨h2, h3⟩
      refine ⟨(p - s * info.m_num_procs_per_subdomain).toNat, ?_, ?_⟩
      · rw [List.mem_range]
        omega
      · omega
  · rw [List.pairwise_map]
    refine List.Pairwise.imp ?_ (List.pairwise_lt_range _)
    intro a b hab
    omega

/-- Witness of the amended C25: two processes per subdomain, subdomain 1, process 3. -/
theorem C25_subdomain_procs_agree_with_map_witness :
    ∃ procsOut, (ofNumSubdomains 4 2).get_subdomain_procs 1 = some procsOut ∧
      (3 ∈ procsOut ↔ (ofNumSubdomains 4 2).map_proc_id_to_subdomain_id 3 = some 1) ∧
      procsOut = (List.range (ofNumSubdomains 4 2).m_num_procs_per_subdomain.toNat).map
        (fun (i : Nat) => 1 * (ofNumSubdomains 4 2).m_num_procs_per_subdomain + (i : Int)) ∧
      procsOut.Pairwise (fun a b => a < b) :=
  C25_subdomain_procs_agree_with_map (ofNumSubdomains 4 2) (by decide) 1 3 (by decide)
    (by decide) (by decide) (by decide)

/-- Counterexample to C25 as stated: the info built by the constructor for one subdomain on
one process maps process 0 to subdomain 0, but `get_subdomain_procs(0)` returns no vector
(the number of processes per subdomain is -1); on two processes with three subdomains
`get_subdomain_procs(0)` returns the empty vector and `map_proc_id_to_subdomain_id(0)`
divides by zero. -/
theorem C25_counterexample :
    (ofNumSubdomains 1 1).map_proc_id_to_subdomain_id 0 = some 0 ∧
    (ofNumSubdomains 1 1).get_subdomain_procs 0 = none ∧
    (ofNumSubdomains 2 3).get_subdomain_procs 0 = some [] ∧
    (ofNumSubdomains 2 3).map_proc_id_to_subdomain_id 0 = none := by
  decide

/-! ## Claim C29 -/

/-- For an arithmetic element type every access of `resize` stays inside the two arrays,
and the size afterwards is `newN`. -/
theorem VariableArray1.resize_arithmetic (a : VariableArray1) (newN : Nat)
    (bCopyValues : Bool) :
    (∀ acc ∈ (VariableArray1.resize ElementType.arithmetic a newN bCopyValues).1,
      acc.InBounds newN a.n) ∧
    (VariableArray1.resize ElementType.arithmetic a newN bCopyValues).2.size = newN := by
  unfold VariableArray1.resize VariableArray1.size
  by_cases h1 : newN = a.n
  · simp [h1]
  · by_cases h2 : newN ≤ 0
    · have : newN = 0 := by omega
      subst this
      simp [h1]
    · simp only [h1, h2, if_false]
      refine ⟨?_, trivial⟩
      intro acc hacc
      rcases List.mem_append.1 hacc with h | h
      · obtain ⟨i, hi, rfl⟩ := List.mem_map.1 h
        exact List.mem_range.1 hi
      · cases bCopyValues with
        | false => simp at h
        | true =>
          simp only [if_true, List.mem_flatMap, List.mem_range] at h
          obtain ⟨i, hi, hacc⟩ := h
          simp only [List.mem_cons, List.mem_singleton, List.not_mem_nil, or_false] at hacc
          rcases hacc with rfl | rfl
          · unfold ArrayAccess.InBounds
            omega
          · unfold ArrayAccess.InBounds
            omega

/-- For an element type that is not arithmetic, a call of `resize` that shrinks the array to
a size `newN > 0` calls `set_zero` on `new_values[i]` for every `i < n`, also for
`newN <= i`. -/
theorem VariableArray1.resize_not_arithmetic_shrink (type : ElementType)
    (ht : type ≠ ElementType.arithmetic) (a : VariableArray1) (newN : Nat)
    (bCopyValues : Bool) (h0 : 0 < newN) (hn : newN < a.n) (i : Nat) (hi : i < a.n) :
    ArrayAccess.new_values i ∈ (VariableArray1.resize type a newN bCopyValues).1 := by
  unfold VariableArray1.resize
  have h1 : newN ≠ a.n := by omega
  have h2 : ¬ newN ≤ 0 := by omega
  simp only [h1, h2, if_false]
  apply List.mem_append_left
  cases type with
  | arithmetic => exact absurd rfl ht
  | pointer => exact List.mem_map.2 ⟨i, List.mem_range.2 hi, rfl⟩
  | other => exact List.mem_map.2 ⟨i, List.mem_range.2 hi, rfl⟩

/-- C29 fails in the code (`VariableArray1::resize` stays inside the new buffer): for an
element type that is not arithmetic, `resize(1, false)` on an array of size 3 allocates
`new_values` with one element and calls `set_zero` on `new_values[0]`, `new_values[1]` and
`new_values[2]`: the loop of lines 127-128 runs to the old size `n`, not to `newN`. The same
holds for pointer types (lines 122-123) and with `bCopyValues = true`; afterwards
`size() == 1`. -/
theorem C29_resize_zeroes_beyond_new_buffer :
    (VariableArray1.resize ElementType.other { n := 3 } 1 false).1 =
      [ArrayAccess.new_values 0, ArrayAccess.new_values 1, ArrayAccess.new_values 2] ∧
    ¬ (∀ acc ∈ (VariableArray1.resize ElementType.other { n := 3 } 1 false).1,
      acc.InBounds 1 3) ∧
    ¬ (∀ acc ∈ (VariableArray1.resize ElementType.pointer { n := 3 } 1 true).1,
      acc.InBounds 1 3) ∧
    (VariableArray1.resize ElementType.other { n := 3 } 1 false).2.size = 1 := by
  decide

/-! ## Swaps between two arrays and the indices of a matrix -/

theorem sizeT_of_lt (x : Nat) (h : x < 2 ^ 64) : sizeT x = x := by
  unfold sizeT
  exact Nat.mod_eq_of_lt h

theorem swapEntries_eq (nv v : List number) (i j : Nat) (hi : i < nv.length)
    (hj : j < v.length) :
    swapEntries (nv, v) (i, j) = some (nv.set i (v[j]), v.set j (nv[i])) := by
  unfold swapEntries
  simp only [List.getElem?_eq_getElem hi, List.getElem?_eq_getElem hj]

/-- A sequence of swaps between two arrays whose index pairs are inside the arrays and
pairwise different on both sides: it returns, the first array keeps its length, holds at
every first index what the second array held at the paired index, and is unchanged at every
other index. -/
theorem foldlM_swapEntries (ps : List (Nat × Nat)) (nv v : List number)
    (h1 : (ps.map Prod.fst).Nodup) (h2 : (ps.map Prod.snd).Nodup)
    (h3 : ∀ p ∈ ps, p.1 < nv.length ∧ p.2 < v.length) :
    ∃ nv1 v1, ps.foldlM swapEntries (nv, v) = some (nv1, v1) ∧
      nv1.length = nv.length ∧
      (∀ p ∈ ps, nv1[p.1]? = v[p.2]?) ∧
      (∀ i, (∀ p ∈ ps, p.1 ≠ i) → nv1[i]? = nv[i]?) := by
  induction ps generalizing nv v with
  | nil =>
    exact ⟨nv, v, rfl, rfl, fun p hp => absurd hp (List.not_mem_nil p), fun i _ => rfl⟩
  | cons p ps ih =>
    obtain ⟨i, j⟩ := p
    have hij := h3 (i, j) (List.mem_cons_self _ _)
    simp only [List.map_cons, List.nodup_cons] at h1 h2
    rw [List.foldlM_cons, swapEntries_eq nv v i j hij.1 hij.2]
    obtain ⟨nv1, v1, hrun, hlen, hp, hother⟩ := ih (nv.set i (v[j])) (v.set j (nv[i]))
      h1.2 h2.2 (by
        intro q hq
        have := h3 q (List.mem_cons_of_mem _ hq)
        simpa using this)
    refine ⟨nv1, v1, hrun, by simpa using hlen, ?_, ?_⟩
    · intro q hq
      rcases List.mem_cons.1 hq with rfl | hq
      · have hni : ∀ q ∈ ps, q.1 ≠ i := by
          intro q hq heq
          exact h1.1 (List.mem_map.2 ⟨q, hq, heq⟩)
        rw [hother i hni]
        simp [hij.1, List.getElem?_eq_getElem hij.2]
      · rw [hp q hq]
        have hne : j ≠ q.2 := by
          intro heq
          exact h2.1 (List.mem_map.2 ⟨q, hq, heq.symm⟩)
        rw [List.getElem?_set_ne hne]
    · intro k hk
      rw [hother k (fun q hq => hk q (List.mem_cons_of_mem _ hq))]
      have hne : i ≠ k := hk (i, j) (List.mem_cons_self _ _)
      rw [List.getElem?_set_ne hne]

/-- The index of an entry inside a matrix whose number of elements fits `size_t`. -/
theorem VariableArray2.index_eq (T_ordering : eMatrixOrdering) (rows cols r c : Nat)
    (hr : r < rows) (hc : c < cols) (h : rows * cols < 2 ^ 64) :
    VariableArray2.index T_ordering rows cols r c =
      (if T_ordering = eMatrixOrdering.RowMajor then c + r * cols else r + c * rows) ∧
    VariableArray2.index T_ordering rows cols r c < rows * cols := by
  have h1 : c + r * cols < rows * cols := by
    calc c + r * cols < cols + r * cols := by omega
      _ = (r + 1) * cols := by ring
      _ ≤ rows * cols := Nat.mul_le_mul_right _ hr
  have h2 : r + c * rows < rows * cols := by
    calc r + c * rows < rows + c * rows := by omega
      _ = (c + 1) * rows := by ring
      _ ≤ cols * rows := Nat.mul_le_mul_right _ hc
      _ = rows * cols := Nat.mul_comm _ _
  unfold VariableArray2.index
  by_cases ho : T_ordering = eMatrixOrdering.RowMajor
  · simp only [ho, if_true]
    rw [sizeT_of_lt (r * cols) (by omega), sizeT_of_lt _ (by omega)]
    exact ⟨rfl, h1⟩
  · simp only [ho, if_false]
    rw [sizeT_of_lt (c * rows) (by omega), sizeT_of_lt _ (by omega)]
    exact ⟨rfl, h2⟩

/-- Different entries of a matrix have different indices. -/
theorem VariableArray2.index_inj (T_ordering : eMatrixOrdering) (rows cols r c r1 c1 : Nat)
    (hr : r < rows) (hc : c < cols) (hr1 : r1 < rows) (hc1 : c1 < cols)
    (h : rows * cols < 2 ^ 64)
    (heq : VariableArray2.index T_ordering rows cols r c =
      VariableArray2.index T_ordering rows cols r1 c1) : r = r1 ∧ c = c1 := by
  rw [(VariableArray2.index_eq T_ordering rows cols r c hr hc h).1,
    (VariableArray2.index_eq T_ordering rows cols r1 c1 hr1 hc1 h).1] at heq
  by_cases ho : T_ordering = eMatrixOrdering.RowMajor
  · simp only [ho, if_true] at heq
    have h1 : (c + r * cols) / cols = r := by
      rw [Nat.add_mul_div_right _ _ (by omega), Nat.div_eq_of_lt hc, Nat.zero_add]
    have h2 : (c1 + r1 * cols) / cols = r1 := by
      rw [Nat.add_mul_div_right _ _ (by omega), Nat.div_eq_of_lt hc1, Nat.zero_add]
    have hrr : r = r1 := by rw [← h1, ← h2, heq]
    subst hrr
    exact ⟨rfl, by omega⟩
  · simp only [ho, if_false] at heq
    have h1 : (r + c * rows) / rows = c := by
      rw [Nat.add_mul_div_right _ _ (by omega), Nat.div_eq_of_lt hr, Nat.zero_add]
    have h2 : (r1 + c1 * rows) / rows = c1 := by
      rw [Nat.add_mul_div_right _ _ (by omega), Nat.div_eq_of_lt hr1, Nat.zero_add]
    have hcc : c = c1 := by rw [← h1, ← h2, heq]
    subst hcc
    exact ⟨by omega, rfl⟩

/-! ## Claim C24 -/

/-- The state in which an iteration of step 1 starts: the iterations before it return, no
layout has an interface map, and the node of the iteration is not claimed. -/
theorem runCalls_step1_prefix (T : InterfaceNodeTypes) (mgr : Option (Node → Bool))
    (sh : SubsetHandler) (kind : Kind) (hsh : sh.WellFormed) (done : List Call) (c : Call)
    (rest : List Call) (hsplit : step1Calls sh kind = done ++ c :: rest) :
    ∃ st, runCalls T mgr (initialState sh) done = some st ∧
      st.layouts.length = sh.num_subsets ∧
      (∀ (j : Nat) (l : DistributionNodeLayout), st.layouts[j]? = some l →
        l.m_vInterfaceMaps = []) ∧
      st.aaFirstLayout c.node = -1 := by
  obtain ⟨st1, hrun1, -⟩ := runCalls_step1 T mgr sh kind hsh
  rw [hsplit, runCalls_append] at hrun1
  cases hd : runCalls T mgr (initialState sh) done with
  | none => simp [hd] at hrun1
  | some st =>
    refine ⟨st, rfl, ?_⟩
    let Inv : List Call → LayoutState → Prop := fun done st =>
      st.layouts.length = sh.num_subsets ∧
      (∀ (j : Nat) (l : DistributionNodeLayout), st.layouts[j]? = some l →
        l.m_vInterfaceMaps = []) ∧
      (∀ x, st.aaFirstLayout x ≠ -1 → ∃ c ∈ done, c.node = x)
    have hinv : Inv done st := by
      refine runCalls_induction T mgr Inv done (initialState sh) st ?_ ?_ hd
      · refine ⟨by simp [initialState], ?_, ?_⟩
        · intro j l h
          have := List.getElem?_mem h
          simp only [initialState, List.mem_replicate] at this
          rw [this.2]
          rfl
        · intro x hx
          exact absurd rfl hx
      · intro done1 d s s2 hdmem hinv hres
        obtain ⟨hlen, hmaps, hcl⟩ := hinv
        obtain ⟨hi, hlen2, -, hfl, -, hclaimed, -⟩ :=
          AddNodeToLayout_effect T _ _ _ mgr s s2 d.node hres
        have hd1 : d ∈ step1Calls sh kind := by
          rw [hsplit]
          exact List.mem_append_left _ hdmem
        have hlevel : d.level = -1 := ((mem_step1Calls sh kind d).1 hd1).2.1
        have hun : s.aaFirstLayout d.node = -1 := by
          by_contra hne
          exact (hclaimed hne).1 hlevel
        refine ⟨by rw [hlen2, hlen], ?_, ?_⟩
        · intro j l hl
          rw [AddNodeToLayout_first T _ _ _ mgr s d.node hi hun, Option.some.injEq] at hres
          subst hres
          simp only [] at hl
          rw [getElem?_modifyLayout] at hl
          by_cases hj : j = d.layoutIndex
          · simp only [hj, if_true] at hl
            cases h0 : s.layouts[d.layoutIndex]? with
            | none => simp [h0] at hl
            | some l0 =>
              simp only [h0, Option.map_some', Option.some.injEq] at hl
              rw [← hl]
              exact hmaps _ l0 h0
          · simp only [hj, if_false] at hl
            exact hmaps _ _ hl
        · intro x hx
          by_cases hxc : x = d.node
          · exact ⟨d, by simp, hxc.symm⟩
          · rw [hfl x] at hx
            simp only [hxc, false_and, if_false] at hx
            obtain ⟨e, he, hex⟩ := hcl x hx
            exact ⟨e, by simp [he], hex⟩
    obtain ⟨hlen, hmaps, hcl⟩ := hinv
    refine ⟨hlen, hmaps, ?_⟩
    by_contra hne
    obtain ⟨d, hd2, hdc⟩ := hcl c.node hne
    have hnodup : ((step1Calls sh kind).map (fun c => c.node)).Nodup := by
      rw [map_node_step1Calls]
      exact hsh kind
    rw [hsplit, List.map_append, List.map_cons] at hnodup
    exact (List.nodup_append.1 hnodup).2.2 (List.mem_map.2 ⟨d, hd2, hdc⟩)
      (List.mem_cons_self _ _)

theorem num_levels_of_maps_nil (l : DistributionNodeLayout) (h : l.m_vInterfaceMaps = []) :
    l.num_levels = 0 := by
  unfold DistributionNodeLayout.num_levels
  rw [h]
  rfl

/-- C24 (pass 1 accesses no interface): for a subset handler in which every element is in
at most one subset, step 1 of `CreateDistributionLayouts` returns; every iteration of
`AddNodesToLayout` in it starts in a state in which the first-owner attachment of its node
is -1, so it takes the first-encounter branch (the node is pushed and the two attachments
are set), the assertion `level != -1` of the other branch is not reached although the
level is -1, no interface is accessed, and no layout has an interface level; after step 1
every layout has `num_levels() == 0`. -/
theorem C24_pass1_accesses_no_interface (T : InterfaceNodeTypes) (sh : SubsetHandler)
    (hsh : sh.WellFormed) :
    ∃ S1, CreateDistributionLayouts_step1 T sh = some S1 ∧
      (∀ kind, runCalls T none (initialState sh) (step1Calls sh kind) = some (S1 kind)) ∧
      (∀ kind done c rest, step1Calls sh kind = done ++ c :: rest →
        ∃ st, runCalls T none (initialState sh) done = some st ∧
          c.level = -1 ∧ st.aaFirstLayout c.node = -1 ∧
          ¬ createsPair st c.level c.interfacesOnLevelOnly none c.node ∧
          AddNodeToLayout T c.layoutIndex c.level c.interfacesOnLevelOnly none st c.node =
            some { layouts := modifyLayout st.layouts c.layoutIndex
                     (fun l => l.push_node c.node)
                   aaFirstLayout := Function.update st.aaFirstLayout c.node
                     (c.layoutIndex : Int)
                   aaFirstProcLocalInd := Function.update st.aaFirstProcLocalInd c.node
                     (toInt (nodeVecOf st.layouts c.layoutIndex).length) } ∧
          ∀ l ∈ st.layouts, l.num_levels = 0) ∧
      (∀ kind, ∀ l ∈ (S1 kind).layouts, l.num_levels = 0) := by
  obtain ⟨S1, hS1, hpost⟩ := CreateDistributionLayouts_step1_returns T sh hsh
  have hruns := (step1_eq_some_iff T sh none (fun _ => initialState sh) S1).1 hS1
  refine ⟨S1, hS1, fun kind => hruns kind, ?_, ?_⟩
  · intro kind done c rest hsplit
    obtain ⟨st, hst, hlen, hmaps, hun⟩ :=
      runCalls_step1_prefix T none sh kind hsh done c rest hsplit
    have hc : c ∈ step1Calls sh kind := by
      rw [hsplit]
      simp
    obtain ⟨hi, hlevel, -, -⟩ := (mem_step1Calls sh kind c).1 hc
    refine ⟨st, hst, hlevel, hun, ?_, ?_, ?_⟩
    · intro hcp
      exact hcp.1 hun
    · exact AddNodeToLayout_first T _ _ _ none st c.node (by rw [hlen]; exact hi) hun
    · intro l hl
      obtain ⟨j, hj⟩ := List.mem_iff_getElem?.1 hl
      exact num_levels_of_maps_nil l (hmaps j l hj)
  · intro kind l hl
    obtain ⟨-, -, hmaps, -, -⟩ := hpost kind
    obtain ⟨j, hj⟩ := List.mem_iff_getElem?.1 hl
    exact num_levels_of_maps_nil l (hmaps j l hj)

/-- Witness of C24 on the example subset handler. -/
theorem C24_pass1_accesses_no_interface_witness :
    exampleSubsetHandler.WellFormed ∧
    ∃ S1, CreateDistributionLayouts_step1 exampleTypes exampleSubsetHandler = some S1 ∧
      (∀ kind, ∀ l ∈ (S1 kind).layouts, l.num_levels = 0) :=
  ⟨exampleSubsetHandler_wellFormed,
    (C24_pass1_accesses_no_interface exampleTypes exampleSubsetHandler
      exampleSubsetHandler_wellFormed).imp (fun _ h => ⟨h.1, h.2.2.2⟩)⟩

/-! ## Elements without a subset in step 2 -/

/-- A node that is not claimed and is not the node of any of the iterations stays
unclaimed. -/
theorem runCalls_unclaimed (T : InterfaceNodeTypes) (mgr : Option (Node → Bool))
    (calls : List Call) (st0 st1 : LayoutState) (x : Node) (h0 : st0.aaFirstLayout x = -1)
    (hx : ∀ d ∈ calls, d.node ≠ x) (hrun : runCalls T mgr st0 calls = some st1) :
    st1.aaFirstLayout x = -1 := by
  refine runCalls_induction T mgr (fun _ st => st.aaFirstLayout x = -1) calls st0 st1 h0 ?_ hrun
  intro done c st st2 hc hinv hres
  obtain ⟨-, -, -, hfl, -⟩ := AddNodeToLayout_effect T _ _ _ mgr st st2 c.node hres
  rw [hfl x]
  have : x ≠ c.node := fun h => hx c hc h.symm
  simp [this, hinv]

/-- A claimed node keeps its first owner. -/
theorem runCalls_claimed (T : InterfaceNodeTypes) (mgr : Option (Node → Bool))
    (calls : List Call) (st0 st1 : LayoutState) (x : Node) (h0 : st0.aaFirstLayout x ≠ -1)
    (hrun : runCalls T mgr st0 calls = some st1) :
    st1.aaFirstLayout x = st0.aaFirstLayout x := by
  refine runCalls_induction T mgr (fun _ st => st.aaFirstLayout x = st0.aaFirstLayout x)
    calls st0 st1 rfl ?_ hrun
  intro done c st st2 _ hinv hres
  obtain ⟨-, -, -, hfl, -⟩ := AddNodeToLayout_effect T _ _ _ mgr st st2 c.node hres
  rw [hfl x]
  by_cases hxc : x = c.node
  · have h1 : st.aaFirstLayout c.node ≠ -1 := by
      rw [← hxc, hinv]
      exact h0
    simp only [h1, and_false, if_false]
    exact hinv
  · simp only [hxc, false_and, if_false]
    exact hinv

/-- The first element of a list that satisfies a predicate. -/
theorem exists_first_of_mem {α : Type} (p : α → Prop) (l : List α) (h : ∃ x ∈ l, p x) :
    ∃ done c rest, l = done ++ c :: rest ∧ p c ∧ ∀ d ∈ done, ¬ p d := by
  induction l with
  | nil =>
    obtain ⟨x, hx, -⟩ := h
    cases hx
  | cons a l ih =>
    by_cases ha : p a
    · exact ⟨[], a, l, rfl, ha, fun d hd => absurd hd (List.not_mem_nil d)⟩
    · obtain ⟨x, hx, hpx⟩ := h
      have hxl : x ∈ l := by
        rcases List.mem_cons.1 hx with rfl | hxl
        · exact absurd hpx ha
        · exact hxl
      obtain ⟨done, c, rest, hl, hc, hdone⟩ := ih ⟨x, hxl, hpx⟩
      refine ⟨a :: done, c, rest, by rw [hl]; rfl, hc, ?_⟩
      intro d hd
      rcases List.mem_cons.1 hd with rfl | hd
      · exact ha
      · exact hdone d hd

/-- The iterations of step 2 are ordered by the index of the layout. -/
theorem step2Calls_pairwise (mg : MultiGrid) (sh : SubsetHandler) (g : Bool)
    (selection : Nat → MGSelector) (kind : Kind) :
    (step2Calls mg sh g selection kind).Pairwise
      (fun a b => a.layoutIndex ≤ b.layoutIndex) := by
  have hidx : ∀ i, ∀ c ∈ ((List.range (deselectSubset (selection i) sh i).num_levels).flatMap
      fun level => ((deselectSubset (selection i) sh i).elems kind level).map fun n =>
        (⟨i, (level : Int), interfacesOnLevelOnly mg g, n⟩ : Call)), c.layoutIndex = i := by
    intro i c hc
    simp only [List.mem_flatMap, List.mem_map] at hc
    obtain ⟨level, -, n, -, rfl⟩ := hc
    rfl
  unfold step2Calls
  rw [List.pairwise_flatMap]
  constructor
  · intro i _
    rw [List.pairwise_iff_forall_sublist]
    intro a b hab
    have ha := hidx i a (hab.subset (List.mem_cons_self _ _))
    have hb := hidx i b (hab.subset (List.mem_cons_of_mem _ (List.mem_singleton_self _)))
    omega
  · refine List.Pairwise.imp ?_ (List.pairwise_lt_range _)
    intro i j hij a ha b hb
    rw [hidx i a ha, hidx j b hb]
    omega

/-- Every node that step 2 appends to a layout other than its owner has its pair of
entries on the level of the call, unless it is an element of a genuine interface or the
level restriction excludes the level. -/
theorem runCalls_step2_pairs (T : InterfaceNodeTypes) (mgr : Option (Node → Bool))
    (mg : MultiGrid) (sh : SubsetHandler) (g : Bool)
    (selection : Nat → MGSelector) (kind : Kind) (st1 st2 : LayoutState)
    (hb : BaseInv sh.num_subsets st1) (hp : PairInv T st1)
    (hrun : runCalls T mgr st1 (step2Calls mg sh g selection kind) = some st2) :
    ∀ c ∈ step2Calls mg sh g selection kind, st2.aaFirstLayout c.node ≠ -1 ∧
      ∀ m : Nat, st2.aaFirstLayout c.node = (m : Int) → m ≠ c.layoutIndex →
        is_interface_element mgr c.node = false →
        (c.interfacesOnLevelOnly = -1 ∨ c.interfacesOnLevelOnly = c.level) →
        SharedPair T st2.layouts c.layoutIndex m c.level.toNat c.node := by
  have := runCalls_induction T mgr
    (fun done st => BaseInv sh.num_subsets st ∧ PairInv T st ∧
      ∀ c ∈ done, st.aaFirstLayout c.node ≠ -1 ∧
        ∀ m : Nat, st.aaFirstLayout c.node = (m : Int) → m ≠ c.layoutIndex →
          is_interface_element mgr c.node = false →
          (c.interfacesOnLevelOnly = -1 ∨ c.interfacesOnLevelOnly = c.level) →
          SharedPair T st.layouts c.layoutIndex m c.level.toNat c.node)
    (step2Calls mg sh g selection kind) st1 st2 ⟨hb, hp, fun c hc => by cases hc⟩ ?_ hrun
  · exact this.2.2
  intro done c st st3 hc hinv hres
  obtain ⟨hb1, hp1, hdone⟩ := hinv
  obtain ⟨hi, hlen, hnv, hfl, hli, hclaimed, hint⟩ :=
    AddNodeToLayout_effect T _ _ _ mgr st st3 c.node hres
  have hkeep : ∀ x, st.aaFirstLayout x ≠ -1 → st3.aaFirstLayout x = st.aaFirstLayout x := by
    intro x hx
    rw [hfl x]
    by_cases hxn : x = c.node
    · subst hxn
      simp [hx]
    · simp [hxn]
  have hmono : ∀ j m lv x, SharedPair T st.layouts j m lv x →
      SharedPair T st3.layouts j m lv x :=
    fun j m lv x h => SharedPair_mono T st.layouts st3.layouts
      (fun j => ⟨_, hnv j⟩) (fun P Q L => ⟨_, by rw [hint P Q L, List.append_assoc]⟩) j m lv x h
  refine ⟨BaseInv_step T _ _ _ _ mgr st st3 c.node hb1 hres,
    PairInv_step T _ _ _ _ mgr st st3 c.node hb1 hp1 hres, ?_⟩
  intro d hd
  rcases List.mem_append.1 hd with hd | hd
  · obtain ⟨hne, hpair⟩ := hdone d hd
    refine ⟨by rw [hkeep d.node hne]; exact hne, ?_⟩
    intro m hm hmd hie hlev
    rw [hkeep d.node hne] at hm
    exact hmono _ _ _ _ (hpair m hm hmd hie hlev)
  · rw [List.mem_singleton.1 hd]
    by_cases hun : st.aaFirstLayout c.node = -1
    · have hnew : st3.aaFirstLayout c.node = (c.layoutIndex : Int) := by
        rw [hfl c.node]
        simp [hun]
      refine ⟨by rw [hnew]; omega, ?_⟩
      intro m hm hmc
      rw [hnew] at hm
      exact absurd (by exact_mod_cast hm.symm) hmc
    · refine ⟨by rw [hkeep c.node hun]; exact hun, ?_⟩
      intro m hm hmc hie hlev
      rw [hkeep c.node hun] at hm
      obtain ⟨m1, k, hm1, hm1n, hk, hloc⟩ := hb1.2 c.node hun
      have hmm : m1 = m := by
        rw [hm] at hm1
        exact_mod_cast hm1.symm
      subst hmm
      have hcp : createsPair st c.level c.interfacesOnLevelOnly mgr c.node :=
        ⟨hun, hie, hlev⟩
      have hlenEq := (hp1 c.layoutIndex m1 (Ne.symm hmc) c.level.toNat).length_eq
      have hcm : ¬ (c.layoutIndex = m1) := fun h => hmc h.symm
      have hI1 : interfaceOf st3.layouts c.layoutIndex (m1 : Int) c.level.toNat =
          interfaceOf st.layouts c.layoutIndex (m1 : Int) c.level.toNat ++
            [slaveEntry T st c.layoutIndex] := by
        rw [hint]
        simp [hcp, hm, hcm]
      have hI2 : interfaceOf st3.layouts m1 (c.layoutIndex : Int) c.level.toNat =
          interfaceOf st.layouts m1 (c.layoutIndex : Int) c.level.toNat ++
            [masterEntry T st c.node] := by
        rw [hint]
        simp [hcp, hm, hmc]
      refine ⟨(interfaceOf st.layouts c.layoutIndex (m1 : Int) c.level.toNat).length,
        slaveEntry T st c.layoutIndex, masterEntry T st c.node,
        (nodeVecOf st.layouts c.layoutIndex).length, k, ?_, ?_,
        slaveEntry_type T st _, masterEntry_type T st _, slaveEntry_localID T st _,
        by rw [masterEntry_localID, hloc], ?_, ?_⟩
      · rw [hI1]
        simp
      · rw [hI2, hlenEq]
        simp
      · rw [hnv]
        simp
      · rw [hnv]
        exact getElem?_append_some _ _ _ _ hk

/-! ## Claim C27 -/

/-- C27 as the code has it (owner of an element that has no subset): let `e` be in no
subset and let `i` be the smallest index of a layout whose selection of pass 2 contains `e`.
Then `CreateDistributionLayouts` returns and the first owner of `e` is `i`: the first
iteration of pass 2 for `e` is one for layout `i`, it finds `e` unclaimed, appends it to
`layouts[i]` and changes no interface. Every other layout `j` that selects `e` on a level
has `j > i` and, if `e` is no element of a genuine interface of `pDistGridMgr` and the level
restriction admits the level, holds on that level an `INT_SLAVE` entry for `e` in
`interface(i, level)`, matched at the same position by an `INT_MASTER` entry for `e` in
`layouts[i].interface(j, level)`. -/
theorem C27_owner_of_element_without_subset (T : InterfaceNodeTypes) (hT : T.WellFormed)
    (mg : MultiGrid) (sh : SubsetHandler) (hsh : sh.WellFormed) (distributeGenealogy : Bool)
    (selection : Nat → MGSelector) (pDistGridMgr : Option (Kind → Node → Bool))
    (kind : Kind) (e : Node) (i li : Nat)
    (hno : ∀ j, j < sh.num_subsets → e ∉ sh.elems kind j)
    (hi : i < sh.num_subsets) (hli : li < (selection i).num_levels)
    (hsel : e ∈ (selection i).elems kind li)
    (hmin : ∀ j l, j < i → l < (selection j).num_levels → e ∉ (selection j).elems kind l) :
    ∃ R st1 st2,
      CreateDistributionLayouts T mg sh distributeGenealogy selection pDistGridMgr = some R ∧
      runCalls T (pDistGridMgr.map (fun m => m kind)) (initialState sh) (step1Calls sh kind) =
        some st1 ∧
      runCalls T (pDistGridMgr.map (fun m => m kind)) st1
        (step2Calls mg sh distributeGenealogy selection kind) = some st2 ∧
      st2.layouts = R kind ∧
      st2.aaFirstLayout e = (i : Int) ∧
      (∃ done c rest st st3,
        step2Calls mg sh distributeGenealogy selection kind = done ++ c :: rest ∧
        c.node = e ∧ c.layoutIndex = i ∧ (∀ d ∈ done, d.node ≠ e) ∧
        runCalls T (pDistGridMgr.map (fun m => m kind)) st1 done = some st ∧
        st.aaFirstLayout e = -1 ∧
        AddNodeToLayout T c.layoutIndex c.level c.interfacesOnLevelOnly
          (pDistGridMgr.map (fun m => m kind)) st c.node = some st3 ∧
        nodeVecOf st3.layouts i = nodeVecOf st.layouts i ++ [e] ∧
        ∀ P Q L, interfaceOf st3.layouts P Q L = interfaceOf st.layouts P Q L) ∧
      (∀ j level : Nat, j < sh.num_subsets → level < (selection j).num_levels →
        e ∈ (selection j).elems kind level → j ≠ i →
        i < j ∧
        (is_interface_element (pDistGridMgr.map (fun m => m kind)) e = false →
          (interfacesOnLevelOnly mg distributeGenealogy = -1 ∨
            interfacesOnLevelOnly mg distributeGenealogy = (level : Int)) →
          ∃ (idx : Nat) (a b : DistributionInterfaceEntry) (kj ki : Nat),
            (interfaceOf (R kind) j (i : Int) level)[idx]? = some a ∧
            (interfaceOf (R kind) i (j : Int) level)[idx]? = some b ∧
            a.type = T.INT_SLAVE ∧ b.type = T.INT_MASTER ∧
            a.localID = bitfield 28 (toInt kj) ∧ b.localID = bitfield 28 (toInt ki) ∧
            (nodeVecOf (R kind) j)[kj]? = some e ∧ (nodeVecOf (R kind) i)[ki]? = some e)) := by
  obtain ⟨R, hR, hk⟩ :=
    CreateDistributionLayouts_returns T mg sh distributeGenealogy selection pDistGridMgr hsh
  obtain ⟨st1, st2, hr1, hp1, hr2, hl⟩ := hk kind
  -- the iteration of layout `i` for `e`
  have hci : (⟨i, (li : Int), interfacesOnLevelOnly mg distributeGenealogy, e⟩ : Call) ∈
      step2Calls mg sh distributeGenealogy selection kind :=
    (mem_step2Calls mg sh distributeGenealogy selection kind _).2
      ⟨hi, rfl, li, rfl, hli, hsel, hno i hi⟩
  obtain ⟨done, c, rest, hsplit, hce, hdone⟩ :=
    exists_first_of_mem (fun d : Call => d.node = e)
      (step2Calls mg sh distributeGenealogy selection kind) ⟨_, hci, rfl⟩
  have hcmem : c ∈ step2Calls mg sh distributeGenealogy selection kind := by
    rw [hsplit]
    simp
  -- no layout before `i` has an iteration for `e`
  have hge : ∀ d ∈ step2Calls mg sh distributeGenealogy selection kind, d.node = e →
      i ≤ d.layoutIndex := by
    intro d hd hde
    obtain ⟨-, -, level, -, hlev, hdsel, -⟩ :=
      (mem_step2Calls mg sh distributeGenealogy selection kind d).1 hd
    by_contra hlt
    rw [hde] at hdsel
    exact hmin d.layoutIndex level (by omega) hlev hdsel
  have hcidx : c.layoutIndex = i := by
    have h1 := hge c hcmem hce
    have hpw := step2Calls_pairwise mg sh distributeGenealogy selection kind
    rw [hsplit, List.pairwise_append] at hpw
    have hpc := List.pairwise_cons.1 hpw.2.1
    have hci2 := hci
    rw [hsplit] at hci2
    rcases List.mem_append.1 hci2 with h | h
    · exact absurd rfl (hdone _ h)
    · rcases List.mem_cons.1 h with h | h
      · rw [← h]
      · have := hpc.1 _ h
        simp only [] at this
        omega
  -- the state in which this iteration starts
  rw [hsplit, runCalls_append] at hr2
  cases hd : runCalls T (pDistGridMgr.map (fun m => m kind)) st1 done with
  | none => simp [hd] at hr2
  | some st =>
    simp only [hd, Option.some_bind] at hr2
    rw [runCalls_cons] at hr2
    cases hc3 : AddNodeToLayout T c.layoutIndex c.level c.interfacesOnLevelOnly
        (pDistGridMgr.map (fun m => m kind)) st c.node with
    | none => simp [hc3] at hr2
    | some st3 =>
      simp only [hc3, Option.some_bind] at hr2
      have hun1 : st1.aaFirstLayout e = -1 := by
        by_contra hne
        obtain ⟨j, hj, hej⟩ := hp1.2.2.2.2 e hne
        exact hno j hj hej
      have hun : st.aaFirstLayout e = -1 :=
        runCalls_unclaimed T _ done st1 st e hun1 hdone hd
      obtain ⟨-, -, hnv, hfl, -, -, hint⟩ := AddNodeToLayout_effect T _ _ _ _ st st3 c.node hc3
      have hown3 : st3.aaFirstLayout e = (i : Int) := by
        rw [hfl e, hce]
        simp [hun, hcidx]
      have hown : st2.aaFirstLayout e = (i : Int) := by
        rw [runCalls_claimed T _ rest st3 st2 e (by rw [hown3]; omega) hr2, hown3]
      have hrun2 : runCalls T (pDistGridMgr.map (fun m => m kind)) st1
          (step2Calls mg sh distributeGenealogy selection kind) = some st2 := by
        rw [hsplit, runCalls_append, hd, Option.some_bind, runCalls_cons, hc3, Option.some_bind]
        exact hr2
      refine ⟨R, st1, st2, hR, hr1, hrun2, hl, hown, ?_, ?_⟩
      · refine ⟨done, c, rest, st, st3, hsplit, hce, hcidx, hdone, hd, hun, hc3, ?_, ?_⟩
        · rw [hnv i, hcidx, hce]
          simp
        · intro P Q L
          rw [hint P Q L]
          have hncp : ¬ createsPair st c.level c.interfacesOnLevelOnly
              (pDistGridMgr.map (fun m => m kind)) c.node := by
            intro h
            apply h.1
            rw [hce]
            exact hun
          simp [hncp]
      · intro j level hj hlevel hjsel hji
        have hcj : (⟨j, (level : Int), interfacesOnLevelOnly mg distributeGenealogy, e⟩ : Call) ∈
            step2Calls mg sh distributeGenealogy selection kind :=
          (mem_step2Calls mg sh distributeGenealogy selection kind _).2
            ⟨hj, rfl, level, rfl, hlevel, hjsel, hno j hj⟩
        have hij : i < j := by
          have := hge _ hcj rfl
          simp only [] at this
          omega
        refine ⟨hij, ?_⟩
        intro hie hlev
        have hshared := runCalls_step2_pairs T _ mg sh distributeGenealogy selection kind
          st1 st2 hp1.1 (PairInv_of_maps_nil T st1 hp1.2.2.1) hrun2 _ hcj
        obtain ⟨idx, a, b, kj, km, h1, h2, h3, h4, h5, h6, h7, h8⟩ :=
          hshared.2 i hown (Ne.symm hji) hie hlev
        obtain ⟨⟨hm1, hm2⟩, ⟨hs1, hs2⟩, -⟩ := hT
        simp only [Int.toNat_ofNat] at h1 h2
        rw [hl] at h1 h2 h7 h8
        rw [bitfield_type T.INT_SLAVE hs1 hs2] at h3
        rw [bitfield_type T.INT_MASTER hm1 hm2] at h4
        exact ⟨idx, a, b, kj, km, h1, h2, h3, h4, h5, h6, h7, h8⟩

/-- Witness of the amended C27: vertex 13 of the example is in no subset and is selected for
both layouts; its owner is layout 0. -/
theorem C27_owner_of_element_without_subset_witness :
    exampleTypes.WellFormed ∧ exampleSubsetHandler.WellFormed ∧
    (∀ j, j < exampleSubsetHandler.num_subsets →
      13 ∉ exampleSubsetHandler.elems Kind.VertexBase j) ∧
    0 < exampleSubsetHandler.num_subsets ∧ 0 < (exampleSelection 0).num_levels ∧
    13 ∈ (exampleSelection 0).elems Kind.VertexBase 0 ∧
    ∃ R st1 st2,
      CreateDistributionLayouts exampleTypes exampleMultiGrid exampleSubsetHandler false
        exampleSelection none = some R ∧
      runCalls exampleTypes ((none : Option (Kind → Node → Bool)).map
        (fun m => m Kind.VertexBase)) (initialState exampleSubsetHandler)
        (step1Calls exampleSubsetHandler Kind.VertexBase) = some st1 ∧
      runCalls exampleTypes ((none : Option (Kind → Node → Bool)).map
        (fun m => m Kind.VertexBase)) st1
        (step2Calls exampleMultiGrid exampleSubsetHandler false exampleSelection
          Kind.VertexBase) = some st2 ∧
      st2.layouts = R Kind.VertexBase ∧
      st2.aaFirstLayout 13 = ((0 : Nat) : Int) := by
  have h1 : ∀ j, j < exampleSubsetHandler.num_subsets →
      13 ∉ exampleSubsetHandler.elems Kind.VertexBase j := by decide
  have h2 : 13 ∈ (exampleSelection 0).elems Kind.VertexBase 0 := by decide
  obtain ⟨R, st1, st2, hR, hr1, hr2, hl, hown, -⟩ :=
    C27_owner_of_element_without_subset exampleTypes exampleTypes_wellFormed exampleMultiGrid
      exampleSubsetHandler exampleSubsetHandler_wellFormed false exampleSelection none
      Kind.VertexBase 13 0 0 h1 (by decide) (by decide) h2
      (fun j l hj => absurd hj (Nat.not_lt_zero j))
  exact ⟨exampleTypes_wellFormed, exampleSubsetHandler_wellFormed, h1, by decide, by decide,
    h2, R, st1, st2, hR, hr1, hr2, hl, hown⟩

/-- Counterexample to C27 as stated: vertex 13 of the example is in no subset and is
selected on level 0 for layout 0 and for layout 1; there is no level restriction
(`distributeGenealogy = false`), and the grid manager reports vertex 13 as an element of a
genuine interface. Layout 0 is the owner, layout 1 holds vertex 13 at local index 3, but
its interface towards layout 0 on level 0 holds entries for the local indices 0, 1 and 2
only, and the interface of layout 0 towards layout 1 holds no master entry for local index
3: layout 1 receives no `INT_SLAVE` entry for vertex 13. -/
theorem C27_counterexample :
    (CreateDistributionLayouts exampleTypes exampleMultiGrid exampleSubsetHandler false
      exampleSelection (some (fun _ n => decide (n = 13)))).map
      (fun R => (nodeVecOf (R Kind.VertexBase) 0, nodeVecOf (R Kind.VertexBase) 1,
        interfaceOf (R Kind.VertexBase) 1 0 0, interfaceOf (R Kind.VertexBase) 0 1 0)) =
    some ([10, 11, 12, 13, 14], [12, 10, 11, 13, 14],
      [{ localID := 0, type := 1 }, { localID := 1, type := 2 }, { localID := 2, type := 2 }],
      [{ localID := 2, type := 2 }, { localID := 0, type := 1 }, { localID := 1, type := 1 }]) := by
  decide

/-! ## The recursion of add_data_to_eval_data -/

open DataEvaluator

theorem add_data_zero (nd : UserData → List UserData) (v : EvalVectors) :
    add_data_to_eval_data nd 0 v = none := rfl

/-- The body of `add_data_to_eval_data` for a vector `vTryingToAdd` with last element `x`. -/
theorem add_data_succ (nd : UserData → List UserData) (fuel : Nat)
    (ev stk : List UserData) (x : UserData) :
    add_data_to_eval_data nd (fuel + 1) (ev, stk ++ [x]) =
      if x ∈ ev then some (Except.ok (ev, stk))
      else if x ∈ stk then some (Except.error circleDependency)
      else
        afterCall (addNeededData (add_data_to_eval_data nd fuel) (nd x) (ev, stk ++ [x]))
          (fun vectors =>
            some (Except.ok (vectors.1 ++ [x],
              if vectors.2.isEmpty then vectors.2 else vectors.2.dropLast))) := by
  rw [add_data_to_eval_data]
  simp only [List.getLast?_concat, List.dropLast_concat]

theorem add_data_succ_nil (nd : UserData → List UserData) (fuel : Nat)
    (ev : List UserData) :
    add_data_to_eval_data nd (fuel + 1) (ev, []) = some (Except.ok (ev, [])) := by
  rw [add_data_to_eval_data]
  rfl

theorem afterCall_eq_ok (r : EvalResult) (f : EvalVectors → EvalResult) (v : EvalVectors)
    (h : afterCall r f = some (Except.ok v)) :
    ∃ v1, r = some (Except.ok v1) ∧ f v1 = some (Except.ok v) := by
  unfold afterCall at h
  match r, h with
  | none, h => exact absurd h (by simp)
  | some (Except.error e), h => exact absurd h (by simp)
  | some (Except.ok v1), h => exact ⟨v1, rfl, h⟩

theorem afterCall_eq_error (r : EvalResult) (f : EvalVectors → EvalResult) (e : UGError)
    (h : afterCall r f = some (Except.error e)) :
    r = some (Except.error e) ∨ ∃ v1, r = some (Except.ok v1) ∧ f v1 = some (Except.error e) := by
  unfold afterCall at h
  match r, h with
  | none, h => exact absurd h (by simp)
  | some (Except.error e1), h =>
    simp only [Option.some.injEq, Except.error.injEq] at h
    exact Or.inl (by rw [h])
  | some (Except.ok v1), h => exact Or.inr ⟨v1, rfl, h⟩

theorem afterCall_ok (v1 : EvalVectors) (f : EvalVectors → EvalResult) :
    afterCall (some (Except.ok v1)) f = f v1 := rfl

theorem afterCall_error (e : UGError) (f : EvalVectors → EvalResult) :
    afterCall (some (Except.error e)) f = some (Except.error e) := rfl

theorem addNeededData_nil (call : EvalVectors → EvalResult) (v : EvalVectors) :
    addNeededData call [] v = some (Except.ok v) := rfl

theorem addNeededData_cons (call : EvalVectors → EvalResult) (n : UserData)
    (ns : List UserData) (v : EvalVectors) :
    addNeededData call (n :: ns) v =
      afterCall (call (v.1, v.2 ++ [n])) (addNeededData call ns) := rfl

/-- Induction along the loop over the needed data: a property of the items handled so far
and the vectors, kept by every call that returns, holds when the loop returns. -/
theorem addNeededData_induction (call : EvalVectors → EvalResult)
    (Inv : List UserData → EvalVectors → Prop) (ns : List UserData) (v0 v1 : EvalVectors)
    (h0 : Inv [] v0)
    (hstep : ∀ done n v v2, n ∈ ns → Inv done v →
      call (v.1, v.2 ++ [n]) = some (Except.ok v2) → Inv (done ++ [n]) v2)
    (hrun : addNeededData call ns v0 = some (Except.ok v1)) : Inv ns v1 := by
  suffices H : ∀ (rest done : List UserData) (v : EvalVectors), (∀ n ∈ rest, n ∈ ns) →
      Inv done v → addNeededData call rest v = some (Except.ok v1) → Inv (done ++ rest) v1 by
    simpa using H ns [] v0 (fun _ h => h) h0 hrun
  intro rest
  induction rest with
  | nil =>
    intro done v _ hinv hr
    rw [addNeededData_nil, Option.some.injEq, Except.ok.injEq] at hr
    subst hr
    simpa using hinv
  | cons n ns1 ih =>
    intro done v hmem hinv hr
    rw [addNeededData_cons] at hr
    obtain ⟨v2, hc, hrest⟩ := afterCall_eq_ok _ _ _ hr
    have := ih (done ++ [n]) v2 (fun k hk => hmem k (List.mem_cons_of_mem _ hk))
      (hstep done n v v2 (hmem n (List.mem_cons_self _ _)) hinv hc) hrest
    simpa using this

/-- A loop that ends with an exception: one of the calls raised it, after the calls before
it had returned. -/
theorem addNeededData_error (call : EvalVectors → EvalResult) (ns : List UserData)
    (v0 : EvalVectors) (e : UGError)
    (hrun : addNeededData call ns v0 = some (Except.error e)) :
    ∃ done n rest v, ns = done ++ n :: rest ∧
      addNeededData call done v0 = some (Except.ok v) ∧
      call (v.1, v.2 ++ [n]) = some (Except.error e) := by
  induction ns generalizing v0 with
  | nil =>
    rw [addNeededData_nil] at hrun
    simp at hrun
  | cons n ns ih =>
    rw [addNeededData_cons] at hrun
    rcases afterCall_eq_error _ _ _ hrun with h | ⟨v2, hc, hrest⟩
    · exact ⟨[], n, ns, v0, rfl, rfl, h⟩
    · obtain ⟨done, k, rest, v, hsplit, hd, hk⟩ := ih v2 hrest
      refine ⟨n :: done, k, rest, v, by rw [hsplit]; rfl, ?_, hk⟩
      rw [addNeededData_cons, hc, afterCall_ok]
      exact hd

/-- The loop returns or raises an exception if every call does. -/
theorem addNeededData_isSome (call : EvalVectors → EvalResult) (Inv : EvalVectors → Prop)
    (ns : List UserData) (v0 : EvalVectors) (h0 : Inv v0)
    (hstep : ∀ n v v2, n ∈ ns → Inv v →
      call (v.1, v.2 ++ [n]) = some (Except.ok v2) → Inv v2)
    (hsome : ∀ n v, n ∈ ns → Inv v → ∃ r, call (v.1, v.2 ++ [n]) = some r) :
    ∃ r, addNeededData call ns v0 = some r := by
  induction ns generalizing v0 with
  | nil => exact ⟨_, rfl⟩
  | cons n ns ih =>
    rw [addNeededData_cons]
    obtain ⟨r, hr⟩ := hsome n v0 (List.mem_cons_self _ _) h0
    rw [hr]
    match r, hr with
    | Except.error e, _ => exact ⟨_, rfl⟩
    | Except.ok v2, hr =>
      rw [afterCall_ok]
      exact ih v2 (hstep n v0 v2 (List.mem_cons_self _ _) h0 hr)
        (fun k v v3 hk => hstep k v v3 (List.mem_cons_of_mem _ hk))
        (fun k v hk => hsome k v (List.mem_cons_of_mem _ hk))

/-- A call that returns has popped the last element of `vTryingToAdd` and left the rest of
the vector as it was. -/
theorem add_data_stack (nd : UserData → List UserData) (fuel : Nat) :
    ∀ (ev stk : List UserData) (x : UserData) (v : EvalVectors),
      add_data_to_eval_data nd fuel (ev, stk ++ [x]) = some (Except.ok v) → v.2 = stk := by
  induction fuel with
  | zero =>
    intro ev stk x v h
    rw [add_data_zero] at h
    exact Option.noConfusion h
  | succ fuel ih =>
    intro ev stk x v h
    rw [add_data_succ] at h
    by_cases h1 : x ∈ ev
    · rw [if_pos h1, Option.some.injEq, Except.ok.injEq] at h
      rw [← h]
    · rw [if_neg h1] at h
      by_cases h2 : x ∈ stk
      · rw [if_pos h2] at h
        simp at h
      · rw [if_neg h2] at h
        obtain ⟨v1, hloop, hfin⟩ := afterCall_eq_ok _ _ _ h
        have hstack : v1.2 = stk ++ [x] :=
          addNeededData_induction (add_data_to_eval_data nd fuel)
            (fun _ v => v.2 = stk ++ [x]) (nd x) (ev, stk ++ [x]) v1 rfl
            (by
              intro done n v v2 _ hv hc
              have := ih v.1 v.2 n v2 hc
              rw [this, hv]) hloop
        rw [Option.some.injEq, Except.ok.injEq] at hfin
        rw [← hfin, hstack]
        simp

/-! ## Scheduled vectors of user data -/

open DataEvaluator

theorem Scheduled_nil (nd : UserData → List UserData) : Scheduled nd [] :=
  ⟨List.nodup_nil, fun a ha => absurd ha (List.not_mem_nil a)⟩

/-- An item all of whose needed items are scheduled can be appended. -/
theorem Scheduled_append (nd : UserData → List UserData) (ev : List UserData) (x : UserData)
    (hev : Scheduled nd ev) (hx : x ∉ ev) (hneeds : ∀ b ∈ nd x, b ∈ ev) :
    Scheduled nd (ev ++ [x]) := by
  refine ⟨?_, ?_⟩
  · rw [List.nodup_append]
    refine ⟨hev.1, List.nodup_singleton x, ?_⟩
    intro a ha hax
    rw [List.mem_singleton] at hax
    exact hx (hax ▸ ha)
  · intro a ha b hb
    rcases List.mem_append.1 ha with ha | ha
    · obtain ⟨hbe, hlt⟩ := hev.2 a ha b hb
      refine ⟨List.mem_append_left _ hbe, ?_⟩
      rw [List.indexOf_append_of_mem hbe, List.indexOf_append_of_mem ha]
      exact hlt
    · rw [List.mem_singleton] at ha
      subst ha
      have hbe := hneeds b hb
      refine ⟨List.mem_append_left _ hbe, ?_⟩
      rw [List.indexOf_append_of_mem hbe, List.indexOf_append_of_not_mem hx,
        List.indexOf_cons_self]
      have := List.indexOf_lt_length.2 hbe
      omega

/-- A scheduled vector holds everything its items transitively need, at smaller
positions. -/
theorem Scheduled_transGen (nd : UserData → List UserData) (ev : List UserData)
    (hev : Scheduled nd ev) (a b : UserData) (ha : a ∈ ev)
    (hab : Relation.TransGen (Needs nd) a b) :
    b ∈ ev ∧ ev.indexOf b < ev.indexOf a := by
  induction hab with
  | single h => exact hev.2 a ha _ h
  | tail _ h ih =>
    obtain ⟨h1, h2⟩ := hev.2 _ ih.1 _ h
    exact ⟨h1, lt_trans h2 ih.2⟩

theorem Scheduled_reflTransGen (nd : UserData → List UserData) (ev : List UserData)
    (hev : Scheduled nd ev) (a b : UserData) (ha : a ∈ ev)
    (hab : Relation.ReflTransGen (Needs nd) a b) : b ∈ ev := by
  rcases Relation.reflTransGen_iff_eq_or_transGen.1 hab with h | h
  · rw [h]
    exact ha
  · exact (Scheduled_transGen nd ev hev a b ha h).1

/-- A call on a scheduled vector that returns has appended to it, keeps it scheduled, has
scheduled the last element of `vTryingToAdd`, and has appended only items that this element
transitively needs and that are not on the rest of `vTryingToAdd`. -/
theorem add_data_scheduled (nd : UserData → List UserData) (fuel : Nat) :
    ∀ (ev stk : List UserData) (x : UserData) (v : EvalVectors), Scheduled nd ev →
      add_data_to_eval_data nd fuel (ev, stk ++ [x]) = some (Except.ok v) →
      ∃ new, v.1 = ev ++ new ∧ Scheduled nd v.1 ∧ x ∈ v.1 ∧
        ∀ a ∈ new, a ∉ stk ∧ Relation.ReflTransGen (Needs nd) x a := by
  induction fuel with
  | zero =>
    intro ev stk x v _ h
    rw [add_data_zero] at h
    exact Option.noConfusion h
  | succ fuel ih =>
    intro ev stk x v hev h
    rw [add_data_succ] at h
    by_cases h1 : x ∈ ev
    · rw [if_pos h1, Option.some.injEq, Except.ok.injEq] at h
      rw [← h]
      exact ⟨[], by simp, hev, h1, fun a ha => absurd ha (List.not_mem_nil a)⟩
    · rw [if_neg h1] at h
      by_cases h2 : x ∈ stk
      · rw [if_pos h2] at h
        simp at h
      · rw [if_neg h2] at h
        obtain ⟨v1, hloop, hfin⟩ := afterCall_eq_ok _ _ _ h
        have hinv := addNeededData_induction (add_data_to_eval_data nd fuel)
          (fun done w => w.2 = stk ++ [x] ∧ ∃ new, w.1 = ev ++ new ∧ Scheduled nd w.1 ∧
            (∀ n ∈ done, n ∈ w.1) ∧
            ∀ a ∈ new, a ∉ stk ++ [x] ∧ ∃ n ∈ nd x, Relation.ReflTransGen (Needs nd) n a)
          (nd x) (ev, stk ++ [x]) v1
          ⟨rfl, [], by simp, hev, fun n hn => absurd hn (List.not_mem_nil n),
            fun a ha => absurd ha (List.not_mem_nil a)⟩
          (by
            rintro done n w w2 hn ⟨hw2, new, hw1, hsch, hdone, hnew⟩ hc
            have hst := add_data_stack nd fuel w.1 w.2 n w2 hc
            rw [hw2] at hc
            obtain ⟨new2, hw21, hsch2, hn2, hnew2⟩ := ih w.1 (stk ++ [x]) n w2 hsch hc
            refine ⟨by rw [hst, hw2], new ++ new2, by rw [hw21, hw1, List.append_assoc],
              hsch2, ?_, ?_⟩
            · intro k hk
              rcases List.mem_append.1 hk with hk | hk
              · rw [hw21]
                exact List.mem_append_left _ (hdone k hk)
              · rw [List.mem_singleton] at hk
                rw [hk]
                exact hn2
            · intro a ha
              rcases List.mem_append.1 ha with ha | ha
              · exact hnew a ha
              · exact ⟨(hnew2 a ha).1, n, hn, (hnew2 a ha).2⟩) hloop
        obtain ⟨hstack, new, hv1, hsch, hdone, hnew⟩ := hinv
        rw [Option.some.injEq, Except.ok.injEq] at hfin
        have hx1 : x ∉ v1.1 := by
          rw [hv1, List.mem_append]
          rintro (hx | hx)
          · exact h1 hx
          · exact (hnew x hx).1 (by simp)
        rw [← hfin]
        refine ⟨new ++ [x], by simp [hv1], Scheduled_append nd v1.1 x hsch hx1 hdone,
          by simp, ?_⟩
        intro a ha
        rcases List.mem_append.1 ha with ha | ha
        · obtain ⟨hns, n, hn, hna⟩ := hnew a ha
          refine ⟨fun hc => hns (List.mem_append_left _ hc), ?_⟩
          exact Relation.ReflTransGen.head hn hna
        · rw [List.mem_singleton] at ha
          rw [ha]
          exact ⟨h2, Relation.ReflTransGen.refl⟩

/-- A call that raises an exception raises the exception of the circle dependency, and a
cycle of the dependency relation is reachable from the last element of `vTryingToAdd`,
provided that every other element of `vTryingToAdd` transitively needs the last one. -/
theorem add_data_error (nd : UserData → List UserData) (fuel : Nat) :
    ∀ (ev stk : List UserData) (x : UserData) (e : UGError),
      (∀ s ∈ stk, Relation.TransGen (Needs nd) s x) →
      add_data_to_eval_data nd fuel (ev, stk ++ [x]) = some (Except.error e) →
      e = circleDependency ∧
      ∃ c, Relation.ReflTransGen (Needs nd) x c ∧ Relation.TransGen (Needs nd) c c := by
  induction fuel with
  | zero =>
    intro ev stk x e _ h
    rw [add_data_zero] at h
    exact Option.noConfusion h
  | succ fuel ih =>
    intro ev stk x e hstk h
    rw [add_data_succ] at h
    by_cases h1 : x ∈ ev
    · rw [if_pos h1] at h
      simp at h
    · rw [if_neg h1] at h
      by_cases h2 : x ∈ stk
      · rw [if_pos h2, Option.some.injEq, Except.error.injEq] at h
        exact ⟨h.symm, x, Relation.ReflTransGen.refl, hstk x h2⟩
      · rw [if_neg h2] at h
        rcases afterCall_eq_error _ _ _ h with hloop | ⟨v1, -, hfin⟩
        · obtain ⟨done, n, rest, w, hsplit, hd, hn⟩ := addNeededData_error _ _ _ _ hloop
          have hw : w.2 = stk ++ [x] :=
            addNeededData_induction (add_data_to_eval_data nd fuel)
              (fun _ v => v.2 = stk ++ [x]) done (ev, stk ++ [x]) w rfl
              (by
                intro done1 k v v2 _ hv hc
                have := add_data_stack nd fuel v.1 v.2 k v2 hc
                rw [this, hv]) hd
          rw [hw] at hn
          have hnx : n ∈ nd x := by
            rw [hsplit]
            simp
          obtain ⟨he, c, hc1, hc2⟩ := ih w.1 (stk ++ [x]) n e (by
            intro s hs
            rcases List.mem_append.1 hs with hs | hs
            · exact Relation.TransGen.tail (hstk s hs) hnx
            · rw [List.mem_singleton] at hs
              rw [hs]
              exact Relation.TransGen.single hnx) hn
          exact ⟨he, c, Relation.ReflTransGen.head hnx hc1, hc2⟩
        · simp at hfin

/-- On a finite set of items that is closed under the dependency relation the recursion is
not deeper than the number of items: a call with more fuel than that returns or raises an
exception. -/
theorem add_data_returns (nd : UserData → List UserData) (U : List UserData)
    (hU : ∀ a ∈ U, ∀ b ∈ nd a, b ∈ U) (fuel : Nat) :
    ∀ (ev stk : List UserData) (x : UserData), stk.Nodup → (∀ s ∈ stk, s ∈ U) → x ∈ U →
      U.length < stk.length + fuel →
      ∃ r, add_data_to_eval_data nd fuel (ev, stk ++ [x]) = some r := by
  induction fuel with
  | zero =>
    intro ev stk x hnd hsub _ hlen
    have := (List.subperm_of_subset hnd hsub).length_le
    omega
  | succ fuel ih =>
    intro ev stk x hnd hsub hx hlen
    rw [add_data_succ]
    by_cases h1 : x ∈ ev
    · rw [if_pos h1]
      exact ⟨_, rfl⟩
    · rw [if_neg h1]
      by_cases h2 : x ∈ stk
      · rw [if_pos h2]
        exact ⟨_, rfl⟩
      · rw [if_neg h2]
        have hnd2 : (stk ++ [x]).Nodup := by
          rw [List.nodup_append]
          refine ⟨hnd, List.nodup_singleton x, ?_⟩
          intro a ha hax
          rw [List.mem_singleton] at hax
          exact h2 (hax ▸ ha)
        have hsub2 : ∀ s ∈ stk ++ [x], s ∈ U := by
          intro s hs
          rcases List.mem_append.1 hs with hs | hs
          · exact hsub s hs
          · rw [List.mem_singleton] at hs
            rw [hs]
            exact hx
        obtain ⟨r, hr⟩ := addNeededData_isSome (add_data_to_eval_data nd fuel)
          (fun v => v.2 = stk ++ [x]) (nd x) (ev, stk ++ [x]) rfl
          (by
            intro n v v2 _ hv hc
            have := add_data_stack nd fuel v.1 v.2 n v2 hc
            rw [this, hv])
          (by
            intro n v hn hv
            rw [hv]
            exact ih v.1 (stk ++ [x]) n hnd2 hsub2 (hU x hx n hn) (by
              rw [List.length_append, List.length_singleton]
              omega))
        rw [hr]
        match r with
        | Except.error e => exact ⟨_, rfl⟩
        | Except.ok v1 => exact ⟨_, rfl⟩

/-! ## Claim C26 -/

open DataEvaluator

theorem exampleNeeds_closed : ∀ a ∈ [0, 1, 2, 3], ∀ b ∈ exampleNeeds a, b ∈ [0, 1, 2, 3] := by
  decide

/-- Every call that the loop of `extract_imports_and_userdata` makes passes a scheduled
vector `vEvalData` and a vector `vTryingToAdd` that holds the pushed item only. -/
theorem scheduleImports_calls (needed_data : UserData → List UserData) (fuel : Nat)
    (imports : List UserData) :
    ∀ (vectors : EvalVectors), Scheduled needed_data vectors.1 → vectors.2 = [] →
      ∀ (done : List UserData) (data : UserData) (rest : List UserData) (v : EvalVectors),
        imports = done ++ data :: rest →
        scheduleImports needed_data fuel done vectors = some (Except.ok v) →
        Scheduled needed_data v.1 ∧ v.2 = [] := by
  intro vectors hs hq done
  induction done generalizing vectors imports with
  | nil =>
    intro data rest v _ hrun
    rw [scheduleImports, Option.some.injEq, Except.ok.injEq] at hrun
    rw [← hrun]
    exact ⟨hs, hq⟩
  | cons x xs ih =>
    intro data rest v hsplit hrun
    rw [scheduleImports] at hrun
    cases hc : add_data_to_eval_data needed_data fuel (vectors.1, vectors.2 ++ [x]) with
    | none => simp [hc] at hrun
    | some r =>
      cases r with
      | error e => simp [hc] at hrun
      | ok v1 =>
        simp only [hc] at hrun
        by_cases he : v1.2.isEmpty = true
        · rw [if_pos he] at hrun
          obtain ⟨new, -, hs1, -, -⟩ :=
            add_data_scheduled needed_data fuel vectors.1 vectors.2 x v1 hs hc
          exact ih (xs ++ data :: rest) v1 hs1 (List.isEmpty_iff.1 he) data rest v rfl hrun
        · rw [if_neg he] at hrun
          simp at hrun

theorem cyclicNeeds_closed : ∀ a ∈ [0, 1, 2], ∀ b ∈ cyclicNeeds a, b ∈ [0, 1, 2] := by
  decide

/-- C26 (user data is scheduled in dependency order): let the items
reachable from `d` lie in a finite set `U` closed under the dependency relation, and let
`vEvalData` be a vector as this function builds it from the empty vector (no item twice,
every item after all items it needs, which are all in it), as it is at every call that
`extract_imports_and_userdata` makes. Then the call with
`vTryingToAdd = [d]`, with a recursion depth above the size of `U`, ends as follows. If no
dependency cycle is reachable from `d`, it returns with `vTryingToAdd` empty and with
`vEvalData` extended by new entries behind the old ones, such that `vEvalData` is again
such a vector (each item once, every item after all items it needs), contains `d` and every
item `d` transitively needs, and the new entries are items that `d` transitively needs or
`d` itself. If a dependency cycle is reachable from `d`, it raises the circle-dependency
error. -/
theorem C26_user_data_scheduled_in_dependency_order (needed_data : UserData → List UserData)
    (U : List UserData) (hU : ∀ a ∈ U, ∀ b ∈ needed_data a, b ∈ U) (d : UserData)
    (hd : d ∈ U) (vEvalData : List UserData) (hev : Scheduled needed_data vEvalData)
    (fuel : Nat) (hfuel : U.length < fuel) :
    ((¬ ∃ c, Relation.ReflTransGen (Needs needed_data) d c ∧
        Relation.TransGen (Needs needed_data) c c) →
      ∃ new, add_data_to_eval_data needed_data fuel (vEvalData, [d]) =
          some (Except.ok (vEvalData ++ new, [])) ∧
        Scheduled needed_data (vEvalData ++ new) ∧
        d ∈ vEvalData ++ new ∧
        (∀ a, Relation.ReflTransGen (Needs needed_data) d a → a ∈ vEvalData ++ new) ∧
        (∀ a ∈ new, Relation.ReflTransGen (Needs needed_data) d a)) ∧
    ((∃ c, Relation.ReflTransGen (Needs needed_data) d c ∧
        Relation.TransGen (Needs needed_data) c c) →
      add_data_to_eval_data needed_data fuel (vEvalData, [d]) =
        some (Except.error circleDependency)) := by
  obtain ⟨r, hr⟩ := add_data_returns needed_data U hU fuel vEvalData [] d List.nodup_nil
    (fun s hs => absurd hs (List.not_mem_nil s)) hd (by simpa using hfuel)
  rw [List.nil_append] at hr
  have hok : ∀ v, r = Except.ok v →
      ∃ new, v = (vEvalData ++ new, []) ∧ Scheduled needed_data (vEvalData ++ new) ∧
        d ∈ vEvalData ++ new ∧
        (∀ a, Relation.ReflTransGen (Needs needed_data) d a → a ∈ vEvalData ++ new) ∧
        (∀ a ∈ new, Relation.ReflTransGen (Needs needed_data) d a) := by
    intro v hv
    rw [hv] at hr
    have hst := add_data_stack needed_data fuel vEvalData [] d v hr
    obtain ⟨new, hv1, hsch, hdv, hnew⟩ :=
      add_data_scheduled needed_data fuel vEvalData [] d v hev hr
    rw [hv1] at hsch hdv
    refine ⟨new, Prod.ext hv1 hst, hsch, hdv, ?_, fun a ha => (hnew a ha).2⟩
    intro a ha
    exact Scheduled_reflTransGen needed_data _ hsch d a hdv ha
  have herr : ∀ e, r = Except.error e → e = circleDependency ∧
      ∃ c, Relation.ReflTransGen (Needs needed_data) d c ∧
        Relation.TransGen (Needs needed_data) c c := by
    intro e he
    rw [he] at hr
    exact add_data_error needed_data fuel vEvalData [] d e
      (fun s hs => absurd hs (List.not_mem_nil s)) hr
  constructor
  · intro hno
    match r, hok, herr with
    | Except.ok v, hok, _ =>
      obtain ⟨new, hv, h1, h2, h3, h4⟩ := hok v rfl
      exact ⟨new, by rw [hr, hv], h1, h2, h3, h4⟩
    | Except.error e, _, herr => exact absurd (herr e rfl).2 hno
  · rintro ⟨c, hdc, hcc⟩
    match r, hok, herr with
    | Except.ok v, hok, _ =>
      obtain ⟨new, -, hsch, -, hreach, -⟩ := hok v rfl
      have := (Scheduled_transGen needed_data _ hsch c c (hreach c hdc) hcc).2
      exact absurd this (lt_irrefl _)
    | Except.error e, _, herr =>
      rw [hr, (herr e rfl).1]

/-- Witness of C26: item 3 of the example on the empty vector is scheduled after the items
0, 1 and 2; in the cyclic example the call for item 2 raises the error. -/
theorem C26_user_data_scheduled_in_dependency_order_witness :
    (∀ a ∈ [0, 1, 2, 3], ∀ b ∈ exampleNeeds a, b ∈ [0, 1, 2, 3]) ∧
    3 ∈ [0, 1, 2, 3] ∧ Scheduled exampleNeeds [] ∧ [0, 1, 2, 3].length < 5 ∧
    add_data_to_eval_data exampleNeeds 5 ([], [3]) = some (Except.ok ([0, 1, 2, 3], [])) ∧
    ((¬ ∃ c, Relation.ReflTransGen (Needs exampleNeeds) 3 c ∧
        Relation.TransGen (Needs exampleNeeds) c c) →
      ∃ new, add_data_to_eval_data exampleNeeds 5 ([], [3]) =
          some (Except.ok ([] ++ new, [])) ∧
        Scheduled exampleNeeds ([] ++ new) ∧
        3 ∈ [] ++ new ∧
        (∀ a, Relation.ReflTransGen (Needs exampleNeeds) 3 a → a ∈ [] ++ new) ∧
        (∀ a ∈ new, Relation.ReflTransGen (Needs exampleNeeds) 3 a)) ∧
    (∀ a ∈ [0, 1, 2], ∀ b ∈ cyclicNeeds a, b ∈ [0, 1, 2]) ∧
    add_data_to_eval_data cyclicNeeds 4 ([], [2]) = some (Except.error circleDependency) ∧
    ((∃ c, Relation.ReflTransGen (Needs cyclicNeeds) 2 c ∧
        Relation.TransGen (Needs cyclicNeeds) c c) →
      add_data_to_eval_data cyclicNeeds 4 ([], [2]) =
        some (Except.error circleDependency)) :=
  ⟨exampleNeeds_closed, by decide, Scheduled_nil exampleNeeds, by decide, rfl,
    (C26_user_data_scheduled_in_dependency_order exampleNeeds [0, 1, 2, 3]
      exampleNeeds_closed 3 (by decide) [] (Scheduled_nil exampleNeeds) 5 (by decide)).1,
    cyclicNeeds_closed, rfl,
    (C26_user_data_scheduled_in_dependency_order cyclicNeeds [0, 1, 2]
      cyclicNeeds_closed 2 (by decide) [] (Scheduled_nil cyclicNeeds) 4 (by decide)).2⟩

/-! ## The loop over the neighbours of a marked edge -/

open RefinementMark

theorem IRefiner.get_mark_mark (refiner : IRefiner) (e x : EdgeBase) :
    (refiner.mark e).get_mark x = if x = e then RM_REGULAR else refiner.get_mark x := by
  unfold IRefiner.get_mark IRefiner.mark
  simp only [List.reverse_append, List.reverse_cons, List.reverse_nil, List.nil_append,
    List.singleton_append, List.find?_cons]
  by_cases h : x = e
  · simp [h]
  · have : ¬ e = x := fun hc => h hc.symm
    simp [h, this]

theorem IRefiner.get_markFace_mark (refiner : IRefiner) (e : EdgeBase) (f : Face) :
    (refiner.mark e).get_markFace f = refiner.get_markFace f := rfl

theorem closureNeighbour_push (st : ClosureState) (n : Face) (h1 : st.is_marked n = false)
    (h2 : st.refiner.get_markFace n = RM_ANISOTROPIC) :
    closureNeighbour st n =
      { st with is_marked := Function.update st.is_marked n true
                queFaces := st.queFaces ++ [n] } := by
  unfold closureNeighbour
  rw [if_pos ⟨h1, h2⟩]

theorem closureNeighbour_skip (st : ClosureState) (n : Face)
    (h : ¬ (st.is_marked n = false ∧ st.refiner.get_markFace n = RM_ANISOTROPIC)) :
    closureNeighbour st n = st := by
  unfold closureNeighbour
  rw [if_neg h]

/-- The loop over the faces stored by `CollectFaces`: the refiner is unchanged, the queue
grows by pairwise different faces that were not marked and carry `RM_ANISOTROPIC`, just
these get marked, and afterwards every visited face is marked or does not carry
`RM_ANISOTROPIC`. -/
theorem foldl_closureNeighbour (nbrs : List Face) :
    ∀ st : ClosureState,
      (nbrs.foldl closureNeighbour st).refiner = st.refiner ∧
      (nbrs.foldl closureNeighbour st).processed = st.processed ∧
      ∃ added, (nbrs.foldl closureNeighbour st).queFaces = st.queFaces ++ added ∧
        added.Nodup ∧
        (∀ g ∈ added, g ∈ nbrs ∧ st.is_marked g = false ∧
          st.refiner.get_markFace g = RM_ANISOTROPIC) ∧
        (∀ g, (nbrs.foldl closureNeighbour st).is_marked g =
          (st.is_marked g || decide (g ∈ added))) ∧
        (∀ g ∈ nbrs, (nbrs.foldl closureNeighbour st).is_marked g = true ∨
          st.refiner.get_markFace g ≠ RM_ANISOTROPIC) := by
  induction nbrs with
  | nil =>
    intro st
    exact ⟨rfl, rfl, [], by simp, List.nodup_nil, fun g hg => absurd hg (List.not_mem_nil g),
      fun g => by simp, fun g hg => absurd hg (List.not_mem_nil g)⟩
  | cons n ns ih =>
    intro st
    rw [List.foldl_cons]
    by_cases h : st.is_marked n = false ∧ st.refiner.get_markFace n = RM_ANISOTROPIC
    · rw [closureNeighbour_push st n h.1 h.2]
      obtain ⟨hr, hp, added, hq, hnd, hadd, hm, hall⟩ := ih
        { st with is_marked := Function.update st.is_marked n true
                  queFaces := st.queFaces ++ [n] }
      simp only [] at hr hp hq hadd hm hall
      have hn : n ∉ added := by
        intro hc
        have := (hadd n hc).2.1
        simp at this
      refine ⟨hr, hp, n :: added, by rw [hq]; simp, List.nodup_cons.2 ⟨hn, hnd⟩, ?_, ?_, ?_⟩
      · intro g hg
        rcases List.mem_cons.1 hg with rfl | hg
        · exact ⟨List.mem_cons_self _ _, h.1, h.2⟩
        · obtain ⟨h1, h2, h3⟩ := hadd g hg
          have hgn : g ≠ n := fun hc => hn (hc ▸ hg)
          rw [Function.update_noteq hgn] at h2
          exact ⟨List.mem_cons_of_mem _ h1, h2, h3⟩
      · intro g
        rw [hm g]
        by_cases hgn : g = n
        · subst hgn
          simp
        · rw [Function.update_noteq hgn]
          simp [hgn]
      · intro g hg
        rcases List.mem_cons.1 hg with rfl | hg
        · left
          rw [hm g]
          simp
        · exact hall g hg
    · rw [closureNeighbour_skip st n h]
      obtain ⟨hr, hp, added, hq, hnd, hadd, hm, hall⟩ := ih st
      refine ⟨hr, hp, added, hq, hnd, ?_, hm, ?_⟩
      · intro g hg
        obtain ⟨h1, h2, h3⟩ := hadd g hg
        exact ⟨List.mem_cons_of_mem _ h1, h2, h3⟩
      · intro g hg
        rcases List.mem_cons.1 hg with rfl | hg
        · by_cases hma : st.is_marked g = true
          · left
            rw [hm g, hma]
            rfl
          · right
            intro hc
            exact h ⟨by simpa using hma, hc⟩
        · exact hall g hg

/-! ## The function resize of VariableArray2 -/


namespace VariableArray2

/-- The two nested loops of lines 380-386 as one sequence of swaps. -/
theorem resize_loops_eq (g : Nat → Nat → Nat × Nat) (m n : Nat)
    (arrays : List number × List number) :
    (List.range m).foldlM
      (fun arrays r => (List.range n).foldlM (fun arrays c => swapEntries arrays (g r c)) arrays)
      arrays =
    ((List.product (List.range m) (List.range n)).map (fun rc => g rc.1 rc.2)).foldlM
      swapEntries arrays := by
  rw [foldlM_map_list]
  unfold List.product
  rw [foldlM_flatMap]
  simp only [foldlM_map_list]

theorem entry_isSome (T_ordering : eMatrixOrdering) (a : VariableArray2) (ha : a.WellFormed)
    (r c : Nat) (hr : r < a.rows) (hc : c < a.cols) :
    ∃ x, a.entry T_ordering r c = some x := by
  unfold entry
  rw [if_pos ⟨hr, hc⟩]
  have := (index_eq T_ordering a.rows a.cols r c hr hc ha.2.1).2
  rw [← ha.1] at this
  exact ⟨_, List.getElem?_eq_getElem this⟩

/-- The function `resize` with `bCopyValues = true` on a changed shape. -/
theorem resize_copy (T_ordering : eMatrixOrdering) (a : VariableArray2) (ha : a.WellFormed)
    (newRows newCols : Nat) (hN : newRows * newCols < 2 ^ 64)
    (hshape : ¬ (newRows = a.rows ∧ newCols = a.cols)) (alloc : Nat → Bool)
    (halloc : (newRows = 0 ∧ newCols = 0) ∨ alloc (newRows * newCols) = true) :
    ∃ b, a.resize alloc T_ordering newRows newCols true = ResizeOutcome.returned b ∧
      b.rows = newRows ∧
      b.cols = newCols ∧ b.values.length = newRows * newCols ∧
      ∀ r c, r < newRows → c < newCols →
        b.entry T_ordering r c =
          if r < a.rows ∧ c < a.cols then a.entry T_ordering r c else some 0 := by
  unfold resize
  rw [if_neg hshape]
  by_cases h0 : newRows = 0 ∧ newCols = 0
  · rw [if_pos h0]
    refine ⟨_, rfl, h0.1.symm, h0.2.symm, by simp [h0.1], ?_⟩
    intro r c hr
    omega
  · rw [if_neg h0, sizeT_of_lt _ hN, if_neg (by rw [halloc.resolve_left h0]; simp)]
    simp only [if_true]
    rw [resize_loops_eq (fun r c => (index T_ordering newRows newCols r c,
        index T_ordering a.rows a.cols r c))]
    have hmem : ∀ p ∈ (List.product (List.range (min a.rows newRows))
        (List.range (min a.cols newCols))).map
          (fun rc => (index T_ordering newRows newCols rc.1 rc.2,
            index T_ordering a.rows a.cols rc.1 rc.2)),
        ∃ r c, r < a.rows ∧ r < newRows ∧ c < a.cols ∧ c < newCols ∧
          p = (index T_ordering newRows newCols r c, index T_ordering a.rows a.cols r c) := by
      intro p hp
      obtain ⟨rc, hrc, rfl⟩ := List.mem_map.1 hp
      obtain ⟨r, c⟩ := rc
      rw [List.pair_mem_product, List.mem_range, List.mem_range] at hrc
      exact ⟨r, c, by omega, by omega, by omega, by omega, rfl⟩
    have hnd : (List.product (List.range (min a.rows newRows))
        (List.range (min a.cols newCols))).Nodup :=
      List.Nodup.product (List.nodup_range _) (List.nodup_range _)
    obtain ⟨nv1, v1, hrun, hlen, hp, hother⟩ := foldlM_swapEntries
      ((List.product (List.range (min a.rows newRows))
        (List.range (min a.cols newCols))).map
          (fun rc => (index T_ordering newRows newCols rc.1 rc.2,
            index T_ordering a.rows a.cols rc.1 rc.2)))
      (List.replicate (newRows * newCols) 0) a.values
      (by
        rw [List.map_map]
        refine List.Nodup.map_on ?_ hnd
        rintro ⟨r, c⟩ hrc ⟨r1, c1⟩ hrc1 heq
        rw [List.pair_mem_product, List.mem_range, List.mem_range] at hrc hrc1
        simp only [Function.comp_apply] at heq
        obtain ⟨h1, h2⟩ := index_inj T_ordering newRows newCols r c r1 c1 (by omega) (by omega)
          (by omega) (by omega) hN heq
        rw [h1, h2])
      (by
        rw [List.map_map]
        refine List.Nodup.map_on ?_ hnd
        rintro ⟨r, c⟩ hrc ⟨r1, c1⟩ hrc1 heq
        rw [List.pair_mem_product, List.mem_range, List.mem_range] at hrc hrc1
        simp only [Function.comp_apply] at heq
        obtain ⟨h1, h2⟩ := index_inj T_ordering a.rows a.cols r c r1 c1 (by omega) (by omega)
          (by omega) (by omega) ha.2.1 heq
        rw [h1, h2])
      (by
        intro p hp
        obtain ⟨r, c, h1, h2, h3, h4, rfl⟩ := hmem p hp
        rw [List.length_replicate, ha.1]
        exact ⟨(index_eq T_ordering newRows newCols r c h2 h4 hN).2,
          (index_eq T_ordering a.rows a.cols r c h1 h3 ha.2.1).2⟩)
    rw [List.length_replicate] at hlen
    rw [hrun]
    refine ⟨_, rfl, rfl, rfl, hlen, ?_⟩
    intro r c hr hc
    have hidx := (index_eq T_ordering newRows newCols r c hr hc hN).2
    by_cases hin : r < a.rows ∧ c < a.cols
    · rw [if_pos hin]
      unfold entry
      simp only [hr, hc, hin, and_self, if_true]
      exact hp (index T_ordering newRows newCols r c, index T_ordering a.rows a.cols r c)
        (List.mem_map.2 ⟨(r, c), by
          rw [List.pair_mem_product, List.mem_range, List.mem_range]
          omega, rfl⟩)
    · rw [if_neg hin]
      unfold entry
      simp only [hr, hc, and_self, if_true]
      rw [hother _ (by
        intro p hp heq
        obtain ⟨r1, c1, h1, h2, h3, h4, rfl⟩ := hmem p hp
        simp only [] at heq
        obtain ⟨e1, e2⟩ := index_inj T_ordering newRows newCols r1 c1 r c h2 h4 hr hc hN heq
        subst e1 e2
        exact hin ⟨h1, h3⟩)]
      rw [List.getElem?_eq_getElem (by rw [List.length_replicate]; exact hidx)]
      simp

/-- The function `resize` with `bCopyValues = false` on a changed shape. -/
theorem resize_no_copy (T_ordering : eMatrixOrdering) (a : VariableArray2)
    (newRows newCols : Nat) (hN : newRows * newCols < 2 ^ 64)
    (hshape : ¬ (newRows = a.rows ∧ newCols = a.cols)) (alloc : Nat → Bool)
    (halloc : (newRows = 0 ∧ newCols = 0) ∨ alloc (newRows * newCols) = true) :
    ∃ b, a.resize alloc T_ordering newRows newCols false = ResizeOutcome.returned b ∧
      b.rows = newRows ∧
      b.cols = newCols ∧ b.values.length = newRows * newCols ∧
      ∀ r c, r < newRows → c < newCols → b.entry T_ordering r c = some 0 := by
  unfold resize
  rw [if_neg hshape]
  by_cases h0 : newRows = 0 ∧ newCols = 0
  · rw [if_pos h0]
    refine ⟨_, rfl, h0.1.symm, h0.2.symm, by simp [h0.1], ?_⟩
    intro r c hr
    omega
  · rw [if_neg h0, sizeT_of_lt _ hN, if_neg (by rw [halloc.resolve_left h0]; simp)]
    simp only [Bool.false_eq_true, if_false]
    refine ⟨_, rfl, rfl, rfl, List.length_replicate _ _, ?_⟩
    intro r c hr hc
    have hidx := (index_eq T_ordering newRows newCols r c hr hc hN).2
    unfold entry
    simp only [hr, hc, and_self, if_true]
    rw [List.getElem?_eq_getElem (by rw [List.length_replicate]; exact hidx)]
    simp

/-- If the allocation fails, `resize` on a changed shape that is not empty throws. -/
theorem resize_throws (alloc : Nat → Bool) (T_ordering : eMatrixOrdering) (a : VariableArray2)
    (newRows newCols : Nat) (bCopyValues : Bool)
    (hshape : ¬ (newRows = a.rows ∧ newCols = a.cols))
    (h0 : ¬ (newRows = 0 ∧ newCols = 0))
    (halloc : alloc (sizeT (newRows * newCols)) = false) :
    a.resize alloc T_ordering newRows newCols bCopyValues = ResizeOutcome.threw := by
  unfold resize
  rw [if_neg hshape, if_neg h0, if_pos halloc]

theorem resize_same (alloc : Nat → Bool) (T_ordering : eMatrixOrdering) (a : VariableArray2)
    (bCopyValues : Bool) :
    a.resize alloc T_ordering a.rows a.cols bCopyValues = ResizeOutcome.returned a := by
  unfold resize
  rw [if_pos ⟨rfl, rfl⟩]

end VariableArray2

/-! ## Claim C30 -/

theorem example23_wellFormed : VariableArray2.example23.WellFormed := by
  unfold VariableArray2.WellFormed VariableArray2.example23
  refine ⟨rfl, ?_, ?_, ?_⟩ <;> norm_num

/-- C30 as the code has it (`VariableArray2::resize` keeps the overlapping block): for an
arithmetic element type, both orderings, every array of `rows*cols` elements and every new
shape whose number of elements `newRows*newCols` fits `size_t`. If the shape is unchanged,
if the new shape is empty, or if the allocation `new T[newRows*newCols]` succeeds:
`resize(newRows, newCols, true)` returns with `num_rows() == newRows` and
`num_cols() == newCols`, the entry `(r, c)` equals the old entry `(r, c)` for `r < rows` and
`c < cols`, and every other entry is 0; `resize(newRows, newCols, false)` changes nothing if
the shape is unchanged, and otherwise yields the new shape with all entries 0. If the shape
changes, the new shape is not empty and the allocation fails, `resize` throws with either
value of `bCopyValues`. -/
theorem C30_resize_keeps_overlapping_block (alloc : Nat → Bool)
    (T_ordering : eMatrixOrdering) (a : VariableArray2) (ha : a.WellFormed)
    (newRows newCols : Nat) (hrows : newRows < 2 ^ 64) (hcols : newCols < 2 ^ 64)
    (hN : newRows * newCols < 2 ^ 64) :
    ((newRows = a.rows ∧ newCols = a.cols) ∨ (newRows = 0 ∧ newCols = 0) ∨
        alloc (newRows * newCols) = true →
      (∃ b, a.resize alloc T_ordering newRows newCols true = VariableArray2.ResizeOutcome.returned b ∧
        b.num_rows = newRows ∧ b.num_cols = newCols ∧ b.WellFormed ∧
        ∀ r c, r < newRows → c < newCols →
          (r < a.rows ∧ c < a.cols →
            ∃ x, a.entry T_ordering r c = some x ∧ b.entry T_ordering r c = some x) ∧
          (¬ (r < a.rows ∧ c < a.cols) → b.entry T_ordering r c = some 0)) ∧
      (∃ b, a.resize alloc T_ordering newRows newCols false = VariableArray2.ResizeOutcome.returned b ∧
        b.num_rows = newRows ∧ b.num_cols = newCols ∧ b.WellFormed ∧
        ((newRows = a.rows ∧ newCols = a.cols) → b = a) ∧
        (¬ (newRows = a.rows ∧ newCols = a.cols) →
          ∀ r c, r < newRows → c < newCols → b.entry T_ordering r c = some 0))) ∧
    (¬ (newRows = a.rows ∧ newCols = a.cols) → ¬ (newRows = 0 ∧ newCols = 0) →
      alloc (newRows * newCols) = false →
      ∀ bCopyValues, a.resize alloc T_ordering newRows newCols bCopyValues =
        VariableArray2.ResizeOutcome.threw) := by
  constructor
  · intro hcase
    by_cases hshape : newRows = a.rows ∧ newCols = a.cols
    · obtain ⟨h1, h2⟩ := hshape
      subst h1 h2
      refine ⟨⟨a, VariableArray2.resize_same alloc T_ordering a true, rfl, rfl, ha, ?_⟩,
        ⟨a, VariableArray2.resize_same alloc T_ordering a false, rfl, rfl, ha, fun _ => rfl,
          fun h => absurd ⟨rfl, rfl⟩ h⟩⟩
      intro r c hr hc
      refine ⟨fun _ => ?_, fun h => absurd ⟨hr, hc⟩ h⟩
      obtain ⟨x, hx⟩ := VariableArray2.entry_isSome T_ordering a ha r c hr hc
      exact ⟨x, hx, hx⟩
    · have halloc := hcase.resolve_left hshape
      obtain ⟨b, hb, hbr, hbc, hbl, hbe⟩ :=
        VariableArray2.resize_copy T_ordering a ha newRows newCols hN hshape alloc halloc
      obtain ⟨b2, hb2, hb2r, hb2c, hb2l, hb2e⟩ :=
        VariableArray2.resize_no_copy T_ordering a newRows newCols hN hshape alloc halloc
      refine ⟨⟨b, hb, hbr, hbc, ?_, ?_⟩, ⟨b2, hb2, hb2r, hb2c, ?_, fun h => absurd h hshape,
        fun _ => hb2e⟩⟩
      · unfold VariableArray2.WellFormed
        rw [hbr, hbc]
        exact ⟨hbl, hN, hrows, hcols⟩
      · intro r c hr hc
        have := hbe r c hr hc
        constructor
        · intro hin
          rw [if_pos hin] at this
          obtain ⟨x, hx⟩ := VariableArray2.entry_isSome T_ordering a ha r c hin.1 hin.2
          exact ⟨x, hx, by rw [this, hx]⟩
        · intro hin
          rw [if_neg hin] at this
          exact this
      · unfold VariableArray2.WellFormed
        rw [hb2r, hb2c]
        exact ⟨hb2l, hN, hrows, hcols⟩
  · intro hshape h0 halloc bCopyValues
    exact VariableArray2.resize_throws alloc T_ordering a newRows newCols bCopyValues hshape h0
      (by rw [sizeT_of_lt _ hN]; exact halloc)

/-- Witness of the amended C30: the array with two rows and three columns resized to three
rows and two columns, stored by rows, with an allocation that succeeds for up to 1000
elements. -/
theorem C30_resize_keeps_overlapping_block_witness :
    VariableArray2.example23.WellFormed ∧ 3 * 2 < 2 ^ 64 ∧
    (∃ b, VariableArray2.example23.resize (fun count => decide (count ≤ 1000))
        eMatrixOrdering.RowMajor 3 2 true = VariableArray2.ResizeOutcome.returned b ∧
      b.num_rows = 3 ∧ b.num_cols = 2 ∧ b.WellFormed ∧
      ∀ r c, r < 3 → c < 2 →
        (r < VariableArray2.example23.rows ∧ c < VariableArray2.example23.cols →
          ∃ x, VariableArray2.example23.entry eMatrixOrdering.RowMajor r c = some x ∧
            b.entry eMatrixOrdering.RowMajor r c = some x) ∧
        (¬ (r < VariableArray2.example23.rows ∧ c < VariableArray2.example23.cols) →
          b.entry eMatrixOrdering.RowMajor r c = some 0)) :=
  ⟨example23_wellFormed, by norm_num,
    ((C30_resize_keeps_overlapping_block (fun count => decide (count ≤ 1000))
      eMatrixOrdering.RowMajor VariableArray2.example23
      example23_wellFormed 3 2 (by norm_num) (by norm_num) (by norm_num)).1
        (Or.inr (Or.inr (by decide)))).1⟩

/-- Counterexample to C30 as stated, with an allocation that succeeds for fewer than 2^60
elements: on the empty array `resize(2^32, 2^32, true)` evaluates `new T[2^32 * 2^32]`,
which in `size_t` is `new T[0]` and succeeds, copies nothing and sets `rows = cols = 2^32`:
afterwards the entry `(0, 0)` is not 0 but lies outside the array. The same holds in
column-major ordering and with `bCopyValues = false`. -/
theorem C30_counterexample :
    VariableArray2.WellFormed { values := [], rows := 0, cols := 0 } ∧
    VariableArray2.resize (fun count => decide (count < 2 ^ 60)) eMatrixOrdering.RowMajor
      { values := [], rows := 0, cols := 0 } (2 ^ 32) (2 ^ 32) true =
      VariableArray2.ResizeOutcome.returned { values := [], rows := 2 ^ 32, cols := 2 ^ 32 } ∧
    VariableArray2.entry eMatrixOrdering.RowMajor
      { values := [], rows := 2 ^ 32, cols := 2 ^ 32 } 0 0 = none ∧
    VariableArray2.resize (fun count => decide (count < 2 ^ 60)) eMatrixOrdering.ColMajor
      { values := [], rows := 0, cols := 0 } (2 ^ 32) (2 ^ 32) false =
      VariableArray2.ResizeOutcome.returned { values := [], rows := 2 ^ 32, cols := 2 ^ 32 } ∧
    VariableArray2.entry eMatrixOrdering.ColMajor
      { values := [], rows := 2 ^ 32, cols := 2 ^ 32 } 0 0 = none := by
  have hs : sizeT 18446744073709551616 = 0 := by
    unfold sizeT
    norm_num
  refine ⟨⟨rfl, by norm_num, by norm_num, by norm_num⟩, ?_, ?_, ?_, ?_⟩
  · unfold VariableArray2.resize
    simp [hs]
  · unfold VariableArray2.entry
    simp
  · unfold VariableArray2.resize
    simp [hs]
  · unfold VariableArray2.entry
    simp

/-! ## The loop over the edges of a face in the closure loop -/


theorem closureEdge_marked (associatedFaces : EdgeBase → List Face) (st : ClosureState)
    (e : EdgeBase) (h : st.refiner.get_mark e ≠ RM_NONE) :
    closureEdge associatedFaces st e = st := by
  unfold closureEdge
  rw [if_neg h]

theorem closureEdge_unmarked (associatedFaces : EdgeBase → List Face) (st : ClosureState)
    (e : EdgeBase) (h : st.refiner.get_mark e = RM_NONE) :
    closureEdge associatedFaces st e =
      (associatedFaces e).foldl closureNeighbour { st with refiner := st.refiner.mark e } := by
  unfold closureEdge
  rw [if_pos h]

theorem get_markFace_eq_of_faceMarks (r1 r2 : IRefiner) (h : r1.faceMarks = r2.faceMarks)
    (g : Face) : r1.get_markFace g = r2.get_markFace g := by
  unfold IRefiner.get_markFace
  rw [h]

/-- The loop of lines 513-537 over the edges of a face: the edges `new` that had no mark get
one, afterwards every edge of the face has a mark, the marks of the faces stay as they are,
the queue grows by pairwise different faces `added` that were not marked, carry
`RM_ANISOTROPIC` and lie at an edge of `new`, just these get marked, and afterwards every
face at an edge of `new` is marked or does not carry `RM_ANISOTROPIC`. -/
theorem foldl_closureEdge (associatedFaces : EdgeBase → List Face) (es : List EdgeBase) :
    ∀ st : ClosureState,
      (es.foldl (closureEdge associatedFaces) st).processed = st.processed ∧
      (es.foldl (closureEdge associatedFaces) st).refiner.faceMarks = st.refiner.faceMarks ∧
      ∃ (new : List EdgeBase) (added : List Face),
        (∀ e ∈ new, e ∈ es ∧ st.refiner.get_mark e = RM_NONE) ∧
        (∀ x, (es.foldl (closureEdge associatedFaces) st).refiner.get_mark x =
          if x ∈ new then RM_REGULAR else st.refiner.get_mark x) ∧
        (∀ e ∈ es, (es.foldl (closureEdge associatedFaces) st).refiner.get_mark e ≠ RM_NONE) ∧
        (es.foldl (closureEdge associatedFaces) st).queFaces = st.queFaces ++ added ∧
        added.Nodup ∧
        (∀ g ∈ added, st.is_marked g = false ∧ st.refiner.get_markFace g = RM_ANISOTROPIC ∧
          ∃ e ∈ new, g ∈ associatedFaces e) ∧
        (∀ g, (es.foldl (closureEdge associatedFaces) st).is_marked g =
          (st.is_marked g || decide (g ∈ added))) ∧
        (∀ e ∈ new, ∀ g ∈ associatedFaces e,
          (es.foldl (closureEdge associatedFaces) st).is_marked g = true ∨
            st.refiner.get_markFace g ≠ RM_ANISOTROPIC) := by
  induction es with
  | nil =>
    intro st
    refine ⟨rfl, rfl, [], [], ?_, ?_, ?_, ?_, List.nodup_nil, ?_, ?_, ?_⟩
    · intro e he
      exact absurd he (List.not_mem_nil e)
    · intro x
      simp
    · intro e he
      exact absurd he (List.not_mem_nil e)
    · simp
    · intro g hg
      exact absurd hg (List.not_mem_nil g)
    · intro g
      simp
    · intro e he
      exact absurd he (List.not_mem_nil e)
  | cons e es ih =>
    intro st
    rw [List.foldl_cons]
    by_cases hm : st.refiner.get_mark e = RM_NONE
    · rw [closureEdge_unmarked associatedFaces st e hm]
      obtain ⟨hr1, hp1, added1, hq1, hnd1, hadd1, hmk1, hall1⟩ :=
        foldl_closureNeighbour (associatedFaces e) { st with refiner := st.refiner.mark e }
      simp only [] at hr1 hp1 hq1 hadd1 hmk1 hall1
      obtain ⟨hp2, hf2, new2, added2, hnew2, hget2, hall2, hq2, hnd2, hadd2, hmk2, hnb2⟩ :=
        ih ((associatedFaces e).foldl closureNeighbour
          { st with refiner := st.refiner.mark e })
      rw [hr1] at hf2 hnew2 hget2 hadd2 hnb2
      refine ⟨by rw [hp2, hp1], by rw [hf2]; rfl, e :: new2, added1 ++ added2,
        ?_, ?_, ?_, ?_, ?_, ?_, ?_, ?_⟩
      · intro x hx
        rcases List.mem_cons.1 hx with rfl | hx
        · exact ⟨List.mem_cons_self _ _, hm⟩
        · obtain ⟨h1, h2⟩ := hnew2 x hx
          rw [IRefiner.get_mark_mark] at h2
          by_cases hxe : x = e
          · rw [if_pos hxe] at h2
            exact absurd h2 (by decide)
          · rw [if_neg hxe] at h2
            exact ⟨List.mem_cons_of_mem _ h1, h2⟩
      · intro x
        rw [hget2 x, IRefiner.get_mark_mark]
        by_cases hx2 : x ∈ new2
        · simp [hx2]
        · by_cases hxe : x = e
          · simp [hxe]
          · simp [hx2, hxe]
      · intro x hx
        rcases List.mem_cons.1 hx with rfl | hx
        · rw [hget2 x, IRefiner.get_mark_mark]
          by_cases hx2 : x ∈ new2
          · rw [if_pos hx2]
            decide
          · rw [if_neg hx2, if_pos rfl]
            decide
        · exact hall2 x hx
      · rw [hq2, hq1, List.append_assoc]
      · refine List.nodup_append.2 ⟨hnd1, hnd2, ?_⟩
        intro g hg1 hg2
        have := (hadd2 g hg2).1
        rw [hmk1 g] at this
        simp [hg1] at this
      · intro g hg
        rcases List.mem_append.1 hg with hg | hg
        · obtain ⟨-, h2, h3⟩ := hadd1 g hg
          exact ⟨h2, h3, e, List.mem_cons_self _ _, (hadd1 g hg).1⟩
        · obtain ⟨h1, h2, e2, he2, hg2⟩ := hadd2 g hg
          rw [hmk1 g] at h1
          simp only [Bool.or_eq_false_iff] at h1
          exact ⟨h1.1, h2, e2, List.mem_cons_of_mem _ he2, hg2⟩
      · intro g
        rw [hmk2 g, hmk1 g]
        simp only [List.mem_append, Bool.decide_or, Bool.or_assoc]
      · intro x hx g hg
        rcases List.mem_cons.1 hx with rfl | hx
        · rcases hall1 g hg with h | h
          · left
            rw [hmk2 g, h]
            rfl
          · right
            exact h
        · exact hnb2 x hx g hg
    · rw [closureEdge_marked associatedFaces st e hm]
      obtain ⟨hp2, hf2, new2, added2, hnew2, hget2, hall2, hq2, hnd2, hadd2, hmk2, hnb2⟩ :=
        ih st
      refine ⟨hp2, hf2, new2, added2, ?_, hget2, ?_, hq2, hnd2, hadd2, hmk2, hnb2⟩
      · intro x hx
        exact ⟨List.mem_cons_of_mem _ (hnew2 x hx).1, (hnew2 x hx).2⟩
      · intro x hx
        rcases List.mem_cons.1 hx with rfl | hx
        · rw [hget2 x]
          by_cases hx2 : x ∈ new2
          · rw [if_pos hx2]
            decide
          · rw [if_neg hx2]
            exact hm
        · exact hall2 x hx

/-- The flags after the loop of lines 493-508. -/
theorem foldl_edgeSelection (round : ℚ → Number) (grid : Grid) (refiner : IRefiner)
    (minLen sizeRatio : Number) (es : List EdgeBase) :
    ∀ flags : Bool × Bool,
      es.foldl (edgeSelection round grid refiner minLen sizeRatio) flags =
        (flags.1 || es.any (isLongEdge round grid refiner minLen sizeRatio),
          flags.2 || es.any (isShortEdge round grid refiner minLen sizeRatio)) := by
  induction es with
  | nil =>
    intro flags
    simp
  | cons e es ih =>
    intro flags
    rw [List.foldl_cons, ih]
    unfold edgeSelection isLongEdge isShortEdge
    by_cases hm : refiner.get_mark e = RM_NONE
    · simp [hm]
    · by_cases hpos : Number.lt (Number.finite 0) (grid.EdgeLength e) = true
      · by_cases hle : Number.le (Number.div round minLen (grid.EdgeLength e)) sizeRatio = true
        · simp [hm, hpos, hle]
        · simp [hm, hpos, hle]
      · simp [hm, hpos]

end ug
